import Mathlib

/-!
ePass2003 secure messaging (card-epass2003.c)

A shallow embedding of the secure-messaging codec of the ePass2003 card driver
(`src/libopensc/card-epass2003.c`) together with theorems about it.

Conventions of the embedding

* A byte is a natural number; every store through an `unsigned char` lvalue
  reduces modulo 256 (`u8`).
* A C array or pointed-to buffer is a `List Nat` whose length is the extent of
  the object.  Reads and writes are bounds checked: an access outside the
  object is undefined behaviour in C and is the result `Exec.fault
  Fault.outOfBounds` here.
* The file-scope variables `g_sm`, `g_smtype`, `g_sk_enc`, `g_sk_mac` and
  `g_icv_mac` are the fields of `Session`, passed and returned explicitly.
* The OpenSSL primitives are not part of the file; they are the fields of
  `Crypto`, uninterpreted functions from key, IV and input to output.
-/

namespace Epass2003

/-! ## Execution results and memory -/

/-- Ways in which a run of the embedded code can fail to produce a value. -/
inductive Fault where
  | outOfBounds
  | fuel
  deriving DecidableEq, Repr

/-- Result of running embedded code: a value, or a fault. -/
inductive Exec (α : Type) where
  | ok : α → Exec α
  | fault : Fault → Exec α
  deriving DecidableEq, Repr

/-- Sequencing of embedded statements; the first fault aborts the run. -/
def Exec.bind {α β : Type} (x : Exec α) (f : α → Exec β) : Exec β :=
  match x with
  | .ok a => f a
  | .fault e => .fault e

instance : Monad Exec where
  pure := Exec.ok
  bind := Exec.bind

/-- Conversion to `unsigned char`. -/
def u8 (x : Nat) : Nat := x % 256

/-- Largest value of `size_t` plus one (LP64). -/
def SIZE_MOD : Nat := 2 ^ 64

/-- A zero-initialised array `unsigned char a[n] = { 0 }`. -/
def zeros (n : Nat) : List Nat := List.replicate n 0

/-- The bytes `dst` holds after `src` has been stored at offset `off`. -/
def splice (dst : List Nat) (off : Nat) (src : List Nat) : List Nat :=
  dst.take off ++ src ++ dst.drop (off + src.length)

/-- `memcpy(dst + off, src, |src|)`: faults when the destination is too short. -/
def blit (dst : List Nat) (off : Nat) (src : List Nat) : Exec (List Nat) :=
  if off + src.length ≤ dst.length then .ok (splice dst off src) else .fault .outOfBounds

/-- `buf[i] = (unsigned char) v`. -/
def poke (buf : List Nat) (i : Nat) (v : Nat) : Exec (List Nat) :=
  blit buf i [u8 v]

/-- `buf[i]` as an rvalue. -/
def peek (buf : List Nat) (i : Nat) : Exec Nat :=
  match buf[i]? with
  | some b => .ok b
  | none => .fault .outOfBounds

/-- The `n` bytes `src[off .. off + n)`, as read by `memcpy` or a cipher. -/
def peekN (src : List Nat) (off n : Nat) : Exec (List Nat) :=
  if off + n ≤ src.length then .ok ((src.drop off).take n) else .fault .outOfBounds

/-- `memset(buf + off, (unsigned char) v, n)`. -/
def memset (buf : List Nat) (off : Nat) (v : Nat) (n : Nat) : Exec (List Nat) :=
  blit buf off (List.replicate n (u8 v))

/-! ## Constants -/

def KEY_TYPE_AES : Nat := 0x01
def KEY_TYPE_DES : Nat := 0x02
def SM_PLAIN : Nat := 0x00
def SM_SCP01 : Nat := 0x01

/-- Modelled from the spec: `SC_APDU_CASE_4_SHORT` is declared in a header that
is not part of the source file; the spec calls it case-4-short. -/
def SC_APDU_CASE_4_SHORT : Nat := 0x04

/-- Modelled from the spec: `SC_APDU_CASE_4_EXT` is declared in a header that
is not part of the source file; the spec calls it case-4-extended. -/
def SC_APDU_CASE_4_EXT : Nat := 0x14

/-- Modelled from the spec: `SC_SUCCESS`, the ok result, declared in a header
that is not part of the source file. -/
def SC_SUCCESS : Int := 0

/-- Modelled from the spec: `SC_ERROR_CARD_CMD_FAILED` (CardCmdFailed), declared
in a header that is not part of the source file. -/
def SC_ERROR_CARD_CMD_FAILED : Int := -1200

/-- Modelled from the spec: `SC_ERROR_INCORRECT_PARAMETERS`, declared in a
header that is not part of the source file. -/
def SC_ERROR_INCORRECT_PARAMETERS : Int := -1205

/-! ## Data model -/

/-- The file-scope session variables of the driver. -/
structure Session where
  g_sm : Nat
  g_smtype : Nat
  g_sk_enc : List Nat
  g_sk_mac : List Nat
  g_icv_mac : List Nat
  deriving DecidableEq, Repr

/-- The fields of `struct sc_apdu` the driver touches.  `data` and `resp` are
the buffers the pointers of the same name refer to. -/
structure sc_apdu where
  cse : Nat
  cla : Nat
  ins : Nat
  p1 : Nat
  p2 : Nat
  lc : Nat
  le : Nat
  data : List Nat
  datalen : Nat
  resp : List Nat
  resplen : Nat
  control : Nat
  flags : Nat
  sw1 : Nat
  sw2 : Nat
  deriving DecidableEq, Repr

/-- The OpenSSL ciphers the driver calls, as functions `key iv input ↦ output`.
Padding is disabled in every call, so on block-aligned input the output has the
length of the input (`Crypto.LengthPreserving`). -/
structure Crypto where
  aes_128_cbc_enc : List Nat → List Nat → List Nat → List Nat
  aes_128_cbc_dec : List Nat → List Nat → List Nat → List Nat
  des_ede3_cbc_enc : List Nat → List Nat → List Nat → List Nat
  des_ede3_cbc_dec : List Nat → List Nat → List Nat → List Nat
  des_cbc_enc : List Nat → List Nat → List Nat → List Nat
  des_cbc_dec : List Nat → List Nat → List Nat → List Nat

/-! ## Cipher wrappers (lines 154-233) -/

/-- `aes128_encrypt_cbc(key, keysize, iv, input, length, output)`; the result is
the byte string OpenSSL stores at `output`.  In each wrapper the cipher gets
the key bytes and the IV bytes it uses (16 for AES, 8 for DES and 3DES, 24 key
bytes for 3DES).  `openssl_enc` and `openssl_dec` first copy `EVP_MAX_IV_LENGTH`
bytes from `iv` to a local array; this copy, which for the 8-byte `iv` arrays
reads behind the array, and the return values of OpenSSL are not modelled. -/
def aes128_encrypt_cbc (c : Crypto) (key iv input : List Nat) : List Nat :=
  c.aes_128_cbc_enc (key.take 16) (iv.take 16) input

/-- `aes128_decrypt_cbc(key, keysize, iv, input, length, output)`. -/
def aes128_decrypt_cbc (c : Crypto) (key iv input : List Nat) : List Nat :=
  c.aes_128_cbc_dec (key.take 16) (iv.take 16) input

/-- The 24-byte key `bKey` that the 3DES wrappers build from `key`. -/
def des3_bKey (key : List Nat) (keysize : Nat) : List Nat :=
  if keysize = 16 then key.take 16 ++ key.take 8 else key.take 24

/-- `des3_encrypt_cbc(key, keysize, iv, input, length, output)`. -/
def des3_encrypt_cbc (c : Crypto) (key : List Nat) (keysize : Nat) (iv input : List Nat) :
    List Nat :=
  c.des_ede3_cbc_enc (des3_bKey key keysize) (iv.take 8) input

/-- `des3_decrypt_cbc(key, keysize, iv, input, length, output)`. -/
def des3_decrypt_cbc (c : Crypto) (key : List Nat) (keysize : Nat) (iv input : List Nat) :
    List Nat :=
  c.des_ede3_cbc_dec (des3_bKey key keysize) (iv.take 8) input

/-- `des_encrypt_cbc(key, keysize, iv, input, length, output)`. -/
def des_encrypt_cbc (c : Crypto) (key iv input : List Nat) : List Nat :=
  c.des_cbc_enc (key.take 8) (iv.take 8) input

/-- `des_decrypt_cbc(key, keysize, iv, input, length, output)`. -/
def des_decrypt_cbc (c : Crypto) (key iv input : List Nat) : List Nat :=
  c.des_cbc_dec (key.take 8) (iv.take 8) input

/-! ## The MAC counter (lines 539-551) -/

/-- The loop `for (; i >= 0; i--)` of `construct_mac_tlv`.  The index is a
`size_t`, so the test `i >= 0` always holds and `i--` at `0` gives
`SIZE_MAX`; the next iteration then reads `g_icv_mac[SIZE_MAX]`. -/
def increase_icv_loop : Nat → Nat → List Nat → Exec (List Nat)
  | 0, _, _ => .fault .fuel
  | fuel + 1, i, icv =>
    match icv[i]? with
    | none => .fault .outOfBounds
    | some b =>
      if b = 0xff then
        increase_icv_loop fuel ((i + (SIZE_MOD - 1)) % SIZE_MOD) (icv.set i 0)
      else
        .ok (icv.set i (u8 (b + 1)))

/-- The block `increase icv` of `construct_mac_tlv`: `i` starts at 15 (AES) or
7 (3DES).  Seventeen iterations always suffice for a 16-byte array: either a
byte below `0xff` is found or index `SIZE_MAX` is read. -/
def increase_icv (key_type : Nat) (g_icv_mac : List Nat) : Exec (List Nat) :=
  increase_icv_loop 17 (if KEY_TYPE_AES = key_type then 15 else 7) g_icv_mac

/-- Value of a byte string read as a big-endian number. -/
def beVal (l : List Nat) : Nat := l.foldl (fun acc b => acc * 256 + b) 0

/-- Number of counted bytes of the ICV: 16 for AES, 8 for 3DES. -/
def icvWidth (key_type : Nat) : Nat := if KEY_TYPE_AES = key_type then 16 else 8

/-! ## Building the secure-messaging APDU (lines 430-739) -/

/-- `construct_data_tlv(apdu, apdu_buf, data_tlv, &data_tlv_len, key_type)`:
`Data(TLV) = 0x87 | L | 0x01 + Cipher`.  Returns the two buffers and
`*data_tlv_len`.  `pad` is the local `unsigned char pad[4096]`. -/
def construct_data_tlv (c : Crypto) (s : Session) (apdu : sc_apdu)
    (apdu_buf data_tlv : List Nat) (key_type : Nat) : Exec (List Nat × List Nat × Nat) := do
  let block_size := if KEY_TYPE_AES = key_type then 16 else 8
  let pad := zeros 4096
  let iv := zeros 16
  -- padding
  let apdu_buf ← poke apdu_buf block_size 0x87
  let src ← peekN apdu.data 0 apdu.lc
  let pad ← blit pad 0 src
  let pad ← poke pad apdu.lc 0x80
  let pad_len :=
    if (apdu.lc + 1) % block_size ≠ 0 then ((apdu.lc + 1) / block_size + 1) * block_size
    else apdu.lc + 1
  -- encode Lc'
  let (apdu_buf, tlv_more) ← (if pad_len > 0x7E then do
      let b ← poke apdu_buf (block_size + 1) 0x82
      let b ← poke b (block_size + 2) ((pad_len + 1) / 0x100)
      let b ← poke b (block_size + 3) ((pad_len + 1) % 0x100)
      let b ← poke b (block_size + 4) 0x01
      pure (b, 5)
    else do
      let b ← poke apdu_buf (block_size + 1) (u8 pad_len + 1)
      let b ← poke b (block_size + 2) 0x01
      pure (b, 3) : Exec (List Nat × Nat))
  let head ← peekN apdu_buf block_size tlv_more
  let data_tlv ← blit data_tlv 0 head
  -- encrypt Data
  let input ← peekN pad 0 pad_len
  let cipher :=
    if KEY_TYPE_AES = key_type then aes128_encrypt_cbc c s.g_sk_enc iv input
    else des3_encrypt_cbc c s.g_sk_enc 16 iv input
  let apdu_buf ← blit apdu_buf (block_size + tlv_more) cipher
  let copy ← peekN apdu_buf (block_size + tlv_more) pad_len
  let data_tlv ← blit data_tlv tlv_more copy
  pure (apdu_buf, data_tlv, tlv_more + pad_len)

/-- `construct_le_tlv(apdu, apdu_buf, data_tlv_len, le_tlv, &le_tlv_len, key_type)`:
`Le(TLV) = 0x97 | L | Le`.  Returns the two buffers and `*le_tlv_len`. -/
def construct_le_tlv (apdu : sc_apdu) (apdu_buf : List Nat) (data_tlv_len : Nat)
    (le_tlv : List Nat) (key_type : Nat) : Exec (List Nat × List Nat × Nat) := do
  let block_size := if KEY_TYPE_AES = key_type then 16 else 8
  let apdu_buf ← poke apdu_buf (block_size + data_tlv_len) 0x97
  if apdu.le > 0x7F then do
    let apdu_buf ← poke apdu_buf (block_size + data_tlv_len + 1) 2
    let apdu_buf ← poke apdu_buf (block_size + data_tlv_len + 2) (apdu.le / 0x100)
    let apdu_buf ← poke apdu_buf (block_size + data_tlv_len + 3) (apdu.le % 0x100)
    let t ← peekN apdu_buf (block_size + data_tlv_len) 4
    let le_tlv ← blit le_tlv 0 t
    pure (apdu_buf, le_tlv, 4)
  else do
    let apdu_buf ← poke apdu_buf (block_size + data_tlv_len + 1) 1
    let apdu_buf ← poke apdu_buf (block_size + data_tlv_len + 2) apdu.le
    let t ← peekN apdu_buf (block_size + data_tlv_len) 3
    let le_tlv ← blit le_tlv 0 t
    pure (apdu_buf, le_tlv, 3)

/-- What `construct_mac_tlv` leaves behind: the buffers, `*mac_tlv_len` and the
new `g_icv_mac`; `mac_in` and `mac_iv` record the input bytes
`apdu_buf[0 .. mac_len)` and the array `icv` handed to the first cipher call. -/
structure MacOut where
  apdu_buf : List Nat
  mac_tlv : List Nat
  mac_tlv_len : Nat
  g_icv_mac : List Nat
  mac_in : List Nat
  mac_iv : List Nat
  deriving DecidableEq, Repr

/-- The block `calculate MAC` of `construct_mac_tlv` (lines 553-569): the eight
bytes stored at `mac_tlv + 2`, given the array `icv` and the cipher input.
`mac` is the local `unsigned char mac[4096]`. -/
def calculate_mac (c : Crypto) (g_sk_mac icv input : List Nat) (mac_len key_type : Nat) :
    Exec (List Nat) := do
  let mac := zeros 4096
  if KEY_TYPE_AES = key_type then do
    let mac ← blit mac 0 (aes128_encrypt_cbc c g_sk_mac icv input)
    peekN mac (mac_len - 16) 8
  else do
    let iv := zeros 8
    let tmp := zeros 8
    let mac ← blit mac 0 (des_encrypt_cbc c g_sk_mac icv input)
    let last ← peekN mac (mac_len - 8) 8
    let tmp ← blit tmp 0 (des_decrypt_cbc c (g_sk_mac.drop 8) iv last)
    let iv := zeros 8
    let t ← peekN tmp 0 8
    pure (des_encrypt_cbc c g_sk_mac iv t)

/-- `construct_mac_tlv(apdu_buf, data_tlv_len, le_tlv_len, mac_tlv, &mac_tlv_len,
key_type)`: `MAC(TLV) = 0x8e | 0x08 | MAC`. -/
def construct_mac_tlv (c : Crypto) (s : Session) (apdu_buf : List Nat)
    (data_tlv_len le_tlv_len : Nat) (mac_tlv : List Nat) (key_type : Nat) : Exec MacOut := do
  let block_size := if KEY_TYPE_AES = key_type then 16 else 8
  let (apdu_buf, mac_len) ← (if data_tlv_len = 0 ∧ le_tlv_len = 0 then
      pure (apdu_buf, block_size)
    else do
      -- padding
      let b ← poke apdu_buf (block_size + data_tlv_len + le_tlv_len) 0x80
      let mac_len :=
        if (data_tlv_len + le_tlv_len + 1) % block_size ≠ 0 then
          ((data_tlv_len + le_tlv_len + 1) / block_size + 1) * block_size + block_size
        else data_tlv_len + le_tlv_len + 1 + block_size
      let b ← memset b (block_size + data_tlv_len + le_tlv_len + 1) 0
        (mac_len - (data_tlv_len + le_tlv_len + 1))
      pure (b, mac_len) : Exec (List Nat × Nat))
  -- increase icv
  let g_icv_mac ← increase_icv key_type s.g_icv_mac
  -- calculate MAC
  let icv := zeros 16
  let t ← peekN g_icv_mac 0 16
  let icv ← blit icv 0 t
  let input ← peekN apdu_buf 0 mac_len
  let m ← calculate_mac c s.g_sk_mac icv input mac_len key_type
  let mac_tlv ← blit mac_tlv 2 m
  pure { apdu_buf := apdu_buf, mac_tlv := mac_tlv, mac_tlv_len := 2 + 8,
         g_icv_mac := g_icv_mac, mac_in := input, mac_iv := icv }

/-- What `encode_apdu` leaves behind: its return value, the SM APDU, the work
buffer, `*apdu_buf_len` (`none` when the uninitialised local `tmp_le` was added
to it), the session, and the locals `dataTLV`, `le_tlv`, `mac_tlv` with their
lengths at the end of the function, followed by the record of the MAC call. -/
structure EncodeOut where
  ret : Int
  sm : sc_apdu
  apdu_buf : List Nat
  apdu_buf_len : Option Nat
  session : Session
  dataTLV : List Nat
  data_tlv_len : Nat
  le_tlv : List Nat
  le_tlv_len : Nat
  mac_tlv : List Nat
  mac_tlv_len : Nat
  mac_in : List Nat
  mac_iv : List Nat
  deriving DecidableEq, Repr

/-- The first statements of `encode_apdu` (lines 624-633): the four header
bytes, the padding byte `0x80` and `memset(&apdu_buf[5], 0x00, block_size - 5)`. -/
def encode_header (block_size : Nat) (plain : sc_apdu) (apdu_buf : List Nat) :
    Exec (List Nat) := do
  let apdu_buf ← poke apdu_buf 0 plain.cla
  let apdu_buf ← poke apdu_buf 1 plain.ins
  let apdu_buf ← poke apdu_buf 2 plain.p1
  let apdu_buf ← poke apdu_buf 3 plain.p2
  -- padding
  let apdu_buf ← poke apdu_buf 4 0x80
  memset apdu_buf 5 0x00 (block_size - 5)

/-- The last statements of `encode_apdu` (lines 654-686), after the three TLVs
have been built: `Lc'`, the case, the SM data and `*apdu_buf_len`.  Returns the
SM APDU, the work buffer and `*apdu_buf_len` (`none` when the uninitialised
local `tmp_le` was added to it). -/
def encode_finish (plain sm : sc_apdu) (apdu_buf : List Nat) (apdu_buf_len : Nat)
    (dataTLV : List Nat) (data_tlv_len : Nat) (le_tlv : List Nat) (le_tlv_len : Nat)
    (mac_tlv : List Nat) (mac_tlv_len : Nat) : Exec (sc_apdu × List Nat × Option Nat) := do
  let apdu_buf ← memset apdu_buf 4 0 (apdu_buf_len - 4)
  let lc := data_tlv_len + le_tlv_len + mac_tlv_len
  let sm := { sm with lc := lc, datalen := lc }
  let (sm, apdu_buf, tmp_lc) ← (if sm.lc > 0xFF then do
      let b ← poke apdu_buf 4 (sm.lc / 0x10000)
      let b ← poke b 5 ((sm.lc / 0x100) % 0x100)
      let b ← poke b 6 (sm.lc % 0x100)
      pure ({ sm with cse := SC_APDU_CASE_4_EXT }, b, 3)
    else do
      let b ← poke apdu_buf 4 sm.lc
      pure (sm, b, 1) : Exec (sc_apdu × List Nat × Nat))
  let t ← peekN dataTLV 0 data_tlv_len
  let apdu_buf ← blit apdu_buf (4 + tmp_lc) t
  let t ← peekN le_tlv 0 le_tlv_len
  let apdu_buf ← blit apdu_buf (4 + tmp_lc + data_tlv_len) t
  let t ← peekN mac_tlv 0 mac_tlv_len
  let apdu_buf ← blit apdu_buf (4 + tmp_lc + data_tlv_len + le_tlv_len) t
  let t ← peekN apdu_buf (4 + tmp_lc) sm.datalen
  let data ← blit sm.data 0 t
  let sm := { sm with data := data }
  let (sm, apdu_buf, tmp_le) ← (if 4 = le_tlv_len then do
      let b ← poke apdu_buf (4 + tmp_lc + sm.lc) (plain.le / 0x100)
      let b ← poke b (4 + tmp_lc + sm.lc + 1) (plain.le % 0x100)
      pure ({ sm with cse := SC_APDU_CASE_4_EXT }, b, some 2)
    else if 3 = le_tlv_len then do
      let b ← poke apdu_buf (4 + tmp_lc + sm.lc) plain.le
      pure (sm, b, some 1)
    else pure (sm, apdu_buf, none) : Exec (sc_apdu × List Nat × Option Nat))
  pure (sm, apdu_buf, tmp_le.map
    (fun e => 0 + (4 + tmp_lc + data_tlv_len + le_tlv_len + mac_tlv_len + e)))

/-- The body of `encode_apdu` after the local `block_size` has been chosen.
`dataTLV`, `le_tlv` and `mac_tlv` are the local arrays of 4096, 256 and 256
bytes. -/
def encode_apdu_with (block_size : Nat) (c : Crypto) (s : Session) (plain sm : sc_apdu)
    (apdu_buf : List Nat) (apdu_buf_len : Nat) : Exec EncodeOut := do
  let dataTLV := zeros 4096
  let le_tlv := zeros 256
  let mac_tlv := zeros 256
  let mac_tlv ← poke mac_tlv 0 0x8E
  let mac_tlv ← poke mac_tlv 1 8
  let sm := { sm with cse := SC_APDU_CASE_4_SHORT }
  let apdu_buf ← encode_header block_size plain apdu_buf
  -- Data -> Data'
  let (apdu_buf, dataTLV, data_tlv_len) ← (if plain.lc ≠ 0 then
      construct_data_tlv c s plain apdu_buf dataTLV s.g_smtype
    else pure (apdu_buf, dataTLV, 0) : Exec (List Nat × List Nat × Nat))
  let (apdu_buf, le_tlv, le_tlv_len) ← (if plain.le ≠ 0 ∨ (plain.le = 0 ∧ plain.resplen ≠ 0) then
      construct_le_tlv plain apdu_buf data_tlv_len le_tlv s.g_smtype
    else pure (apdu_buf, le_tlv, 0) : Exec (List Nat × List Nat × Nat))
  let m ← construct_mac_tlv c s apdu_buf data_tlv_len le_tlv_len mac_tlv s.g_smtype
  let (sm, apdu_buf, len) ← encode_finish plain sm m.apdu_buf apdu_buf_len dataTLV data_tlv_len
    le_tlv le_tlv_len m.mac_tlv m.mac_tlv_len
  pure { ret := 0, sm := sm, apdu_buf := apdu_buf, apdu_buf_len := len,
         session := { s with g_icv_mac := m.g_icv_mac },
         dataTLV := dataTLV, data_tlv_len := data_tlv_len,
         le_tlv := le_tlv, le_tlv_len := le_tlv_len,
         mac_tlv := m.mac_tlv, mac_tlv_len := m.mac_tlv_len,
         mac_in := m.mac_in, mac_iv := m.mac_iv }

/-- `encode_apdu(plain, sm, apdu_buf, &apdu_buf_len)`.  The local `block_size` is
`KEY_TYPE_DES == g_smtype ? 16 : 8`, as written in the source. -/
def encode_apdu (c : Crypto) (s : Session) (plain sm : sc_apdu)
    (apdu_buf : List Nat) (apdu_buf_len : Nat) : Exec EncodeOut :=
  encode_apdu_with (if KEY_TYPE_DES = s.g_smtype then 16 else 8) c s plain sm apdu_buf apdu_buf_len

/-- What `epass2003_sm_wrap_apdu` leaves behind: its return value, the two
APDUs, the session, and the record of `encode_apdu` when it was called. -/
structure WrapOut where
  ret : Int
  plain : sc_apdu
  sm : sc_apdu
  session : Session
  enc : Option EncodeOut
  deriving DecidableEq, Repr

/-- `epass2003_sm_wrap_apdu(card, plain, sm)`.  `buf` is the local
`unsigned char buf[4096] = { 0 }`. -/
def epass2003_sm_wrap_apdu (c : Crypto) (s : Session) (plain sm : sc_apdu) : Exec WrapOut := do
  let buf := zeros 4096
  let buf_len := 4096
  let plain := if s.g_sm ≠ 0 then { plain with cla := u8 (plain.cla ||| 0x0C) } else plain
  let sm := { sm with cse := plain.cse, cla := plain.cla, ins := plain.ins, p1 := plain.p1,
                      p2 := plain.p2, lc := plain.lc, le := plain.le,
                      control := plain.control, flags := plain.flags }
  if sm.cla &&& 0x0C = 0x00 ∨ sm.cla &&& 0x0C = 0x04 then
    pure { ret := SC_SUCCESS, plain := plain,
           sm := { sm with datalen := plain.datalen, data := plain.data,
                           resplen := plain.resplen, resp := plain.resp },
           session := s, enc := none }
  else if sm.cla &&& 0x0C = 0x0C then do
    let buf ← memset buf 0 0 4096
    let e ← encode_apdu c s plain sm buf buf_len
    if e.ret ≠ 0 then
      pure { ret := SC_ERROR_CARD_CMD_FAILED, plain := plain, sm := e.sm,
             session := e.session, enc := some e }
    else
      pure { ret := SC_SUCCESS, plain := plain, sm := e.sm, session := e.session, enc := some e }
  else
    pure { ret := SC_ERROR_INCORRECT_PARAMETERS, plain := plain, sm := sm, session := s,
           enc := none }

/-! ## Decoding the response (lines 741-809) -/

/-- The loop `while (0x80 != plaintext[in_len-2] && (in_len-2 > 0)) in_len--`
of `decrypt_response`; `in_len` is a `size_t`. -/
def unpad_loop : Nat → List Nat → Nat → Exec Nat
  | 0, _, _ => .fault .fuel
  | fuel + 1, plaintext, in_len =>
    match peek plaintext ((in_len + (SIZE_MOD - 2)) % SIZE_MOD) with
    | .fault e => .fault e
    | .ok b =>
      if 0x80 ≠ b ∧ (in_len + (SIZE_MOD - 2)) % SIZE_MOD > 0 then
        unpad_loop fuel plaintext ((in_len + (SIZE_MOD - 1)) % SIZE_MOD)
      else .ok in_len

/-- The block `parse cipher length` of `decrypt_response` (lines 765-785): the
declared length `in_len` and the offset `i` of the cipher, or `none` when no
form matches.  The operands of `&&` are read left to right, the second one only
when the first holds. -/
def parse_cipher_length (inp : List Nat) : Exec (Option (Nat × Nat)) := do
  let in2 ← peek inp 2
  let first ← (if 0x01 = in2 then do
      let in1 ← peek inp 1
      pure (decide (0x82 ≠ in1))
    else pure false : Exec Bool)
  if first then do
    let in1 ← peek inp 1
    pure (some (in1, 3))
  else do
    let in3 ← peek inp 3
    let second ← (if 0x01 = in3 then do
        let in1 ← peek inp 1
        pure (decide (0x81 = in1))
      else pure false : Exec Bool)
    if second then do
      let in2 ← peek inp 2
      pure (some (in2, 4))
    else do
      let in4 ← peek inp 4
      let third ← (if 0x01 = in4 then do
          let in1 ← peek inp 1
          pure (decide (0x82 = in1))
        else pure false : Exec Bool)
      if third then do
        let in2 ← peek inp 2
        let in3 ← peek inp 3
        pure (some (in2 * 0x100 + in3, 5))
      else pure none

/-- The blocks `decrypt` and `unpadding` of `decrypt_response` (lines 787-808),
for the parsed `in_len` and `i`.  `plaintext` is the local
`unsigned char plaintext[4096]`, which bounds the indices the loop can read, so
4097 iterations always suffice. -/
def decrypt_unpad (c : Crypto) (s : Session) (inp out : List Nat) (out_len in_len i : Nat) :
    Exec (Int × List Nat × Nat) := do
  let iv := zeros 16
  let plaintext := zeros 4096
  -- decrypt
  let cipher ← peekN inp i ((in_len + (SIZE_MOD - 1)) % SIZE_MOD)
  let plaintext ← blit plaintext 0
    (if KEY_TYPE_AES = s.g_smtype then aes128_decrypt_cbc c s.g_sk_enc iv cipher
     else des3_decrypt_cbc c s.g_sk_enc 16 iv cipher)
  -- unpadding
  let in_len ← unpad_loop 4097 plaintext in_len
  if 2 = in_len then
    pure (-1, out, out_len)
  else do
    let t ← peekN plaintext 0 ((in_len + (SIZE_MOD - 2)) % SIZE_MOD)
    let out ← blit out 0 t
    pure (0, out, (in_len + (SIZE_MOD - 2)) % SIZE_MOD)

/-- `decrypt_response(in, out, &out_len)`: returns the return value, the
buffer `out` and `*out_len`. -/
def decrypt_response (c : Crypto) (s : Session) (inp out : List Nat) (out_len : Nat) :
    Exec (Int × List Nat × Nat) := do
  let in0 ← peek inp 0
  if in0 = 0x99 then
    -- no cipher
    pure (0, out, out_len)
  else do
    let parsed ← parse_cipher_length inp
    match parsed with
    | none => pure (-1, out, out_len)
    | some (in_len, i) => decrypt_unpad c s inp out out_len in_len i

/-! ## A concrete cipher suite for evaluating the code -/

/-- A stand-in cipher suite: every encryption reverses its input and every
decryption reverses it back.  It is used only to run the embedded code on
concrete inputs. -/
def mirrorCrypto : Crypto where
  aes_128_cbc_enc := fun _ _ x => x.reverse
  aes_128_cbc_dec := fun _ _ x => x.reverse
  des_ede3_cbc_enc := fun _ _ x => x.reverse
  des_ede3_cbc_dec := fun _ _ x => x.reverse
  des_cbc_enc := fun _ _ x => x.reverse
  des_cbc_dec := fun _ _ x => x.reverse

/-! ## Closed forms used in the statements and proofs -/

/-- The cipher block size `block_size` chosen by `construct_data_tlv`,
`construct_le_tlv` and `construct_mac_tlv`. -/
def blockSize (key_type : Nat) : Nat := if KEY_TYPE_AES = key_type then 16 else 8

/-- The smallest multiple of `bs` that is strictly greater than `lc`. -/
def padLen (bs lc : Nat) : Nat := (lc / bs + 1) * bs

/-- The first `lc` bytes of `data` followed by `0x80` and zeros up to `padLen bs lc` bytes. -/
def padded (bs lc : Nat) (data : List Nat) : List Nat :=
  data.take lc ++ 0x80 :: zeros (padLen bs lc - lc - 1)

/-- The length field that `construct_data_tlv` stores for a cipher of `pad_len` bytes. -/
def lenField (pad_len : Nat) : List Nat :=
  if pad_len > 0x7E then [0x82, u8 ((pad_len + 1) / 0x100), u8 ((pad_len + 1) % 0x100)]
  else [u8 (u8 pad_len + 1)]

/-- The cipher call of `construct_data_tlv` on a given input. -/
def encData (c : Crypto) (s : Session) (key_type : Nat) (input : List Nat) : List Nat :=
  if KEY_TYPE_AES = key_type then aes128_encrypt_cbc c s.g_sk_enc (zeros 16) input
  else des3_encrypt_cbc c s.g_sk_enc 16 (zeros 16) input

/-- The bytes of the data TLV: tag, length field, padding indicator, cipher. -/
def dataTlvBytes (c : Crypto) (s : Session) (apdu : sc_apdu) (key_type : Nat) : List Nat :=
  0x87 :: (lenField (padLen (blockSize key_type) apdu.lc) ++
    0x01 :: encData c s key_type (padded (blockSize key_type) apdu.lc apdu.data))

/-- The bytes of the Le TLV. -/
def leTlvBytes (le : Nat) : List Nat :=
  if le > 0x7F then [0x97, 2, u8 (le / 0x100), u8 (le % 0x100)] else [0x97, 1, u8 le]

/-- The value `mac_len` computed by `construct_mac_tlv`. -/
def macLen (bs d l : Nat) : Nat :=
  if d = 0 ∧ l = 0 then bs else padLen bs (d + l) + bs

/-- The work buffer as `construct_mac_tlv` leaves it. -/
def macPadded (buf : List Nat) (bs d l : Nat) : List Nat :=
  if d = 0 ∧ l = 0 then buf
  else splice buf (bs + d + l) (0x80 :: zeros (macLen bs d l - (d + l + 1)))

/-- The ciphers keep the length of block-aligned input (padding is disabled). -/
structure Crypto.LengthPreserving (c : Crypto) : Prop where
  aes_enc : ∀ k iv x, 16 ∣ x.length → (c.aes_128_cbc_enc k iv x).length = x.length
  aes_dec : ∀ k iv x, 16 ∣ x.length → (c.aes_128_cbc_dec k iv x).length = x.length
  des3_enc : ∀ k iv x, 8 ∣ x.length → (c.des_ede3_cbc_enc k iv x).length = x.length
  des3_dec : ∀ k iv x, 8 ∣ x.length → (c.des_ede3_cbc_dec k iv x).length = x.length
  des_enc : ∀ k iv x, 8 ∣ x.length → (c.des_cbc_enc k iv x).length = x.length
  des_dec : ∀ k iv x, 8 ∣ x.length → (c.des_cbc_dec k iv x).length = x.length

/-- CBC decryption undoes CBC encryption under the same key with a zero IV, on
block-aligned input. -/
structure Crypto.CbcInverse (c : Crypto) : Prop where
  aes : ∀ k x, 16 ∣ x.length →
    c.aes_128_cbc_dec k (zeros 16) (c.aes_128_cbc_enc k (zeros 16) x) = x
  des3 : ∀ k x, 8 ∣ x.length →
    c.des_ede3_cbc_dec k (zeros 8) (c.des_ede3_cbc_enc k (zeros 8) x) = x

/-- The eight MAC bytes in closed form: the first half of the last AES block, or
the retail MAC built from single DES. -/
def macBytes (c : Crypto) (g_sk_mac icv input : List Nat) (key_type : Nat) : List Nat :=
  if KEY_TYPE_AES = key_type then
    ((c.aes_128_cbc_enc (g_sk_mac.take 16) (icv.take 16) input).drop (input.length - 16)).take 8
  else
    c.des_cbc_enc (g_sk_mac.take 8) (zeros 8)
      (c.des_cbc_dec ((g_sk_mac.drop 8).take 8) (zeros 8)
        ((c.des_cbc_enc (g_sk_mac.take 8) (icv.take 8) input).drop (input.length - 8)))

/-- The header bytes `encode_apdu` stores at the start of the work buffer,
padded to `bs` bytes. -/
def headerBlock (plain : sc_apdu) (bs : Nat) : List Nat :=
  [u8 plain.cla, u8 plain.ins, u8 plain.p1, u8 plain.p2, 0x80] ++ zeros (bs - 5)

/-- The bytes of `Lc'` that `encode_apdu` stores at offset 4. -/
def lcBytes (lc : Nat) : List Nat :=
  if lc > 0xFF then [u8 (lc / 0x10000), u8 ((lc / 0x100) % 0x100), u8 (lc % 0x100)]
  else [u8 lc]

/-- The value of the local `tmp_le` of `encode_apdu`, when it is set. -/
def tmpLe (le_tlv_len : Nat) : Option Nat :=
  if 4 = le_tlv_len then some 2 else if 3 = le_tlv_len then some 1 else none

/-- The SM APDU that `encode_apdu` produces from the three TLVs. -/
def smOut (sm : sc_apdu) (dataTLV : List Nat) (d : Nat) (le_tlv : List Nat) (l : Nat)
    (mac_tlv : List Nat) (n : Nat) : sc_apdu :=
  { sm with
    cse := if d + l + n > 0xFF ∨ 4 = l then SC_APDU_CASE_4_EXT else sm.cse,
    lc := d + l + n, datalen := d + l + n,
    data := splice sm.data 0 (dataTLV.take d ++ le_tlv.take l ++ mac_tlv.take n) }

/-- The work buffer as `encode_apdu` leaves it. -/
def finishBuf (plain : sc_apdu) (buf : List Nat) (n : Nat) (dataTLV : List Nat) (d : Nat)
    (le_tlv : List Nat) (l : Nat) (mac_tlv : List Nat) (k : Nat) : List Nat :=
  let b3 := splice (splice (splice buf 4 (List.replicate (n - 4) (u8 0))) 4 (lcBytes (d + l + k)))
    (4 + (lcBytes (d + l + k)).length) (dataTLV.take d ++ le_tlv.take l ++ mac_tlv.take k)
  if 4 = l then
    splice b3 (4 + (lcBytes (d + l + k)).length + (d + l + k))
      [u8 (plain.le / 0x100), u8 (plain.le % 0x100)]
  else if 3 = l then splice b3 (4 + (lcBytes (d + l + k)).length + (d + l + k)) [u8 plain.le]
  else b3

/-- The data TLV of an SM APDU: empty when the plain APDU has no data. -/
def encD (c : Crypto) (s : Session) (plain : sc_apdu) : List Nat :=
  if plain.lc ≠ 0 then dataTlvBytes c s plain s.g_smtype else []

/-- The Le TLV of an SM APDU: empty when neither `le` nor `resplen` is set. -/
def encL (plain : sc_apdu) : List Nat :=
  if plain.le ≠ 0 ∨ (plain.le = 0 ∧ plain.resplen ≠ 0) then leTlvBytes plain.le else []

/-- The work buffer when `construct_mac_tlv` is called from `encode_apdu` on a
zeroed 4096-byte buffer. -/
def encBuf (bs0 : Nat) (c : Crypto) (s : Session) (plain : sc_apdu) : List Nat :=
  splice (splice (splice (zeros 4096) 0 (headerBlock plain bs0)) (blockSize s.g_smtype)
    (encD c s plain)) (blockSize s.g_smtype + (encD c s plain).length) (encL plain)

/-- The array `mac_tlv` of `encode_apdu` before the MAC is stored in it. -/
def macTlvInit : List Nat := splice (splice (zeros 256) 0 [u8 0x8E]) 1 [u8 8]

/-- The record `encode_apdu` returns, given the new counter and the MAC bytes. -/
def encodeResult (bs0 : Nat) (c : Crypto) (s : Session) (plain sm : sc_apdu)
    (icv mac8 : List Nat) : EncodeOut :=
  let bs := blockSize s.g_smtype
  let D := encD c s plain
  let L := encL plain
  let dT := splice (zeros 4096) 0 D
  let lT := splice (zeros 256) 0 L
  let mT := splice macTlvInit 2 mac8
  let buf := macPadded (encBuf bs0 c s plain) bs D.length L.length
  { ret := 0,
    sm := smOut { sm with cse := SC_APDU_CASE_4_SHORT } dT D.length lT L.length mT (2 + 8),
    apdu_buf := finishBuf plain buf 4096 dT D.length lT L.length mT (2 + 8),
    apdu_buf_len := (tmpLe L.length).map (fun e =>
      0 + (4 + (lcBytes (D.length + L.length + (2 + 8))).length + D.length + L.length +
        (2 + 8) + e)),
    session := { s with g_icv_mac := icv },
    dataTLV := dT, data_tlv_len := D.length, le_tlv := lT, le_tlv_len := L.length,
    mac_tlv := mT, mac_tlv_len := 2 + 8,
    mac_in := buf.take (macLen bs D.length L.length), mac_iv := icv.take 16 }

/-- The conditions under which `encode_apdu` returns on a zeroed 4096-byte work
buffer, in terms of the new counter `icv` and the MAC bytes `mac8`. -/
def EncodeCond (bs0 : Nat) (c : Crypto) (s : Session) (plain sm : sc_apdu)
    (icv mac8 : List Nat) : Prop :=
  let bs := blockSize s.g_smtype
  let d := (encD c s plain).length
  let l := (encL plain).length
  (plain.lc ≠ 0 → plain.lc ≤ plain.data.length ∧ plain.lc ≤ 4095) ∧
  bs + d + l ≤ 4096 ∧
  (¬ (d = 0 ∧ l = 0) → bs + macLen bs d l ≤ 4096) ∧
  increase_icv s.g_smtype s.g_icv_mac = Exec.ok icv ∧ 16 ≤ icv.length ∧
  calculate_mac c s.g_sk_mac (icv.take 16)
    ((macPadded (encBuf bs0 c s plain) bs d l).take (macLen bs d l)) (macLen bs d l)
    s.g_smtype = Exec.ok mac8 ∧
  mac8.length ≤ 254 ∧
  4 + (lcBytes (d + l + (2 + 8))).length + (d + l + (2 + 8)) ≤ 4096 ∧
  (4 = l → 4 + (lcBytes (d + l + (2 + 8))).length + (d + l + (2 + 8)) + 2 ≤ 4096) ∧
  (3 = l → 4 + (lcBytes (d + l + (2 + 8))).length + (d + l + (2 + 8)) + 1 ≤ 4096) ∧
  d + l + (2 + 8) ≤ sm.data.length

/-- The plain APDU after `plain->cla |= 0x0C`. -/
def wrapPlain (plain : sc_apdu) : sc_apdu := { plain with cla := u8 (plain.cla ||| 0x0C) }

/-- The SM APDU after the header fields of `plain` have been copied into it. -/
def wrapSm (plain sm : sc_apdu) : sc_apdu :=
  { sm with cse := plain.cse, cla := plain.cla, ins := plain.ins, p1 := plain.p1,
            p2 := plain.p2, lc := plain.lc, le := plain.le,
            control := plain.control, flags := plain.flags }

/-- The local `block_size` of `encode_apdu`. -/
def encodeBs (s : Session) : Nat := if KEY_TYPE_DES = s.g_smtype then 16 else 8

/-- The MAC input: header block, data TLV, Le TLV, then `0x80` and zeros up to
the next multiple of the block size; the header block alone when there is no TLV. -/
def macInput (c : Crypto) (s : Session) (plain : sc_apdu) : List Nat :=
  let bs := blockSize s.g_smtype
  let D := encD c s plain
  let L := encL plain
  if D.length = 0 ∧ L.length = 0 then headerBlock plain bs
  else headerBlock plain bs ++ D ++ L ++
    0x80 :: zeros (padLen bs (D.length + L.length) - (D.length + L.length) - 1)

/-! ## Sequences of wraps, and sample inputs -/

/-- The value a run returned, if it returned. -/
def Exec.toOption {α : Type} : Exec α → Option α
  | .ok a => some a
  | .fault _ => none

/-- The array `icv` that a call of `epass2003_sm_wrap_apdu` handed to the MAC
cipher; empty when the call computed no MAC. -/
def WrapOut.mac_iv (w : WrapOut) : List Nat :=
  match w.enc with
  | some e => e.mac_iv
  | none => []

/-- Calls `epass2003_sm_wrap_apdu` on each pair `(plain, sm)` in turn, every call
starting from the session the previous call left.  Returns the last session and,
for every call, the array `icv` that was handed to the MAC cipher. -/
def wrap_seq (c : Crypto) : Session → List (sc_apdu × sc_apdu) → Exec (Session × List (List Nat))
  | s, [] => .ok (s, [])
  | s, (plain, sm) :: rest =>
    match epass2003_sm_wrap_apdu c s plain sm with
    | .fault f => .fault f
    | .ok w =>
      match wrap_seq c w.session rest with
      | .fault f => .fault f
      | .ok (s', ivs) => .ok (s', w.mac_iv :: ivs)

/-- Inputs on which a wrap in SM mode stays inside all of its buffers: the
command data is present and at most 4000 bytes, the buffer behind `sm->data` has
room for the three TLVs, and `g_icv_mac` is a 16-byte array whose counted bytes
are not all `0xff`. -/
def Wrappable (s : Session) (plain sm : sc_apdu) : Prop :=
  plain.lc ≤ plain.data.length ∧ plain.lc ≤ 4000 ∧ plain.lc + 40 ≤ sm.data.length ∧
  s.g_icv_mac.length = 16 ∧ (∀ x ∈ s.g_icv_mac, x < 256) ∧
  beVal (s.g_icv_mac.take (icvWidth s.g_smtype)) + 1 < 256 ^ icvWidth s.g_smtype

/-- A session in SM mode with AES keys and the counter `00 .. 00 01`. -/
def sessionAes : Session :=
  { g_sm := SM_SCP01, g_smtype := KEY_TYPE_AES,
    g_sk_enc := [1, 2, 3, 4, 5, 6, 7, 8, 9, 10, 11, 12, 13, 14, 15, 16],
    g_sk_mac := [16, 15, 14, 13, 12, 11, 10, 9, 8, 7, 6, 5, 4, 3, 2, 1],
    g_icv_mac := zeros 15 ++ [1] }

/-- The same session with 3DES keys. -/
def sessionDes : Session := { sessionAes with g_smtype := KEY_TYPE_DES }

/-- A session in AES mode whose counter has reached `ff .. ff`. -/
def sessionFull : Session := { sessionAes with g_icv_mac := List.replicate 16 0xff }

/-- A session in 3DES mode as `verify_init_key` leaves it when the eight bytes of
the MAC it saves are all `ff`: `g_icv_mac` is `ff` eight times, then eight zeros. -/
def sessionDesFull : Session :=
  { sessionDes with g_icv_mac := List.replicate 8 0xff ++ List.replicate 8 0x00 }

/-- The command `00 A4 00 00 02 3F 00` (SELECT MF) with a response buffer of 256 bytes. -/
def selectMF : sc_apdu :=
  { cse := SC_APDU_CASE_4_SHORT, cla := 0x00, ins := 0xA4, p1 := 0, p2 := 0, lc := 2, le := 0,
    data := [0x3F, 0x00], datalen := 2, resp := zeros 256, resplen := 256,
    control := 0, flags := 0, sw1 := 0, sw2 := 0 }

/-- A command without data that asks for 65536 response bytes. -/
def readMax : sc_apdu :=
  { selectMF with cse := SC_APDU_CASE_4_EXT, ins := 0xB0, lc := 0, data := [], datalen := 0,
                  le := 65536, resp := [], resplen := 0 }

/-- A command with neither data nor expected response. -/
def bareCmd : sc_apdu :=
  { selectMF with ins := 0x44, lc := 0, data := [], datalen := 0, le := 0, resp := [],
                  resplen := 0 }

/-- An SM APDU with a data buffer of 64 bytes, before it is filled in. -/
def smBlank : sc_apdu :=
  { cse := 0, cla := 0, ins := 0, p1 := 0, p2 := 0, lc := 0, le := 0,
    data := zeros 64, datalen := 0, resp := zeros 256, resplen := 256,
    control := 0, flags := 0, sw1 := 0, sw2 := 0 }

/-- The bytes of `"HELLO"`. -/
def hello : List Nat := [72, 69, 76, 76, 79]

/-- A command carrying `"HELLO"`. -/
def helloCmd : sc_apdu := { selectMF with ins := 0xD6, lc := 5, data := hello, datalen := 5 }

/-! ## The library behind the driver -/

/-- Modelled from the spec: what the transport and the card answer to one APDU
(`sc_transmit_apdu` is not part of the source file).  The transport is "assumed
to deliver CLA/INS/P1/P2/Lc/data/Le to the card and return response bytes +
SW1/SW2"; `r` is its return value, negative for a transport failure. -/
structure Reply where
  r : Int
  data : List Nat
  sw1 : Nat
  sw2 : Nat
  deriving DecidableEq, Repr

/-- The parts of libopensc that the driver calls and that are not part of the
source file, as parameters: the status check `sc_check_sw`, the card behind the
transport (its reply to an APDU, given the APDUs it received before), the SM
APDU object, with its buffers, that the library hands to `sm_wrap_apdu`, the
constant `SC_MAX_APDU_BUFFER_SIZE`, and the values of the flag words
`SC_ALGORITHM_ONBOARD_KEY_GEN | SC_ALGORITHM_RSA_RAW | SC_ALGORITHM_RSA_HASH_NONE`
and `SC_CARD_CAP_RNG | SC_CARD_CAP_APDU_EXT`. -/
structure Host where
  sc_check_sw : Nat → Nat → Int
  card : List sc_apdu → sc_apdu → Reply
  sm_apdu : sc_apdu
  SC_MAX_APDU_BUFFER_SIZE : Nat
  rsa_flags : Nat
  caps : Nat

/-- Modelled from the spec: the macro `SC_TEST_RET(ctx, level, r, text)` of
libopensc leaves the function with `r` when `r` is an error, that is negative
("errors are surfaced"); this is its test. -/
def SC_TEST_RET (r : Int) : Bool := decide (r < 0)

/-! ## The file-identifier hook (lines 952-998) -/

/-- Modelled from the spec: `FID_STEP` "is used but not defined in-file; its
value (0x20)". -/
def FID_STEP : Nat := 0x20

/-- The fields of `struct sc_path` the driver touches; `value` is the array
`u8 value[SC_MAX_PATH_SIZE]`. -/
structure sc_path where
  value : List Nat
  len : Nat
  type : Nat
  deriving DecidableEq, Repr

/-- `epass2003_hook_path(path, inc)`: returns the return value and the path.
`path->len` is a `size_t`; `fid_l` is a `u8`, so the product is cut to eight
bits when it is stored. -/
def epass2003_hook_path (path : sc_path) (inc : Int) : Exec (Int × sc_path) := do
  let fid_h ← peek path.value ((path.len + (SIZE_MOD - 2)) % SIZE_MOD)
  let fid_l ← peek path.value ((path.len + (SIZE_MOD - 1)) % SIZE_MOD)
  if fid_h = 0x29 ∨ fid_h = 0x30 ∨ fid_h = 0x31 ∨ fid_h = 0x32 ∨ fid_h = 0x33 ∨ fid_h = 0x34 then do
    let fid_l := if inc ≠ 0 then u8 (fid_l * FID_STEP) else u8 (fid_l / FID_STEP)
    let value ← poke path.value ((path.len + (SIZE_MOD - 1)) % SIZE_MOD) fid_l
    pure (1, { path with value := value })
  else
    pure (0, path)

/-! ## Unwrapping a response (lines 811-839) -/

/-- What `epass2003_sm_unwrap_apdu` leaves behind: its return value, the plain
APDU and the session. -/
structure UnwrapOut where
  ret : Int
  plain : sc_apdu
  session : Session
  deriving DecidableEq, Repr

/-- `epass2003_sm_unwrap_apdu(card, sm, plain)`. -/
def epass2003_sm_unwrap_apdu (h : Host) (c : Crypto) (s : Session) (sm plain : sc_apdu) :
    Exec UnwrapOut := do
  let len := 0
  let r := h.sc_check_sw sm.sw1 sm.sw2
  if r = SC_SUCCESS then
    if s.g_sm ≠ 0 then do
      let (d, out, len) ← decrypt_response c s sm.resp plain.resp len
      if 0 ≠ d then
        pure { ret := SC_ERROR_CARD_CMD_FAILED, plain := { plain with resp := out },
               session := s }
      else
        pure { ret := SC_SUCCESS,
               plain := { plain with resp := out, resplen := len, sw1 := sm.sw1, sw2 := sm.sw2 },
               session := s }
    else do
      let t ← peekN sm.resp 0 sm.resplen
      let resp ← blit plain.resp 0 t
      pure { ret := SC_SUCCESS,
             plain := { plain with resp := resp, resplen := sm.resplen, sw1 := sm.sw1,
                                   sw2 := sm.sw2 },
             session := s }
  else
    pure { ret := SC_SUCCESS, plain := { plain with sw1 := sm.sw1, sw2 := sm.sw2 },
           session := s }

/-! ## The transport -/

/-- Modelled from the spec: `SC_APDU_CASE_2_SHORT`, declared in a header that is
not part of the source file. -/
def SC_APDU_CASE_2_SHORT : Nat := 0x02

/-- Modelled from the spec: `SC_APDU_CASE_3_SHORT`, declared in a header that is
not part of the source file. -/
def SC_APDU_CASE_3_SHORT : Nat := 0x03

/-- An RSA algorithm entry of the card, as `_sc_card_add_rsa_alg` receives it:
key length, flags, exponent. -/
structure RsaAlg where
  bits : Nat
  flags : Nat
  exponent : Nat
  deriving DecidableEq, Repr

/-- The state the driver works on: the file-scope session variables, the fields
of `struct sc_card` it sets, and two logs kept for the statements: the APDUs
handed to `sc_transmit_apdu` and the APDUs delivered to the card, oldest first. -/
structure Driver where
  session : Session
  name : String
  cla : Nat
  use_sm : Nat
  caps : Nat
  algorithms : List RsaAlg
  issued : List sc_apdu
  sent : List sc_apdu
  deriving DecidableEq, Repr

/-- Modelled from the spec: `sc_format_apdu(card, apdu, cse, ins, p1, p2)` of
libopensc, which is not part of the source file, clears the APDU and fills in
the case, the class byte of the card, INS, P1 and P2 ("the `CLA INS P1 P2 [Lc
Data] [Le]` command"). -/
def sc_format_apdu (d : Driver) (cse ins p1 p2 : Nat) : sc_apdu :=
  { cse := cse, cla := d.cla, ins := ins, p1 := p1, p2 := p2, lc := 0, le := 0,
    data := [], datalen := 0, resp := [], resplen := 0, control := 0, flags := 0,
    sw1 := 0, sw2 := 0 }

/-- Modelled from the spec: `sc_transmit_apdu(card, apdu)` of libopensc, which is
not part of the source file.  "Data flow for a typical command: caller → Driver
façade → SMCodec.wrap → transport → card → SMCodec.unwrap → caller": the APDU
goes through `epass2003_sm_wrap_apdu`, the resulting APDU is delivered to the
card, at most `resplen` response bytes and SW1, SW2 are stored in it, and it
comes back through `epass2003_sm_unwrap_apdu`.  Returns the return value, the
driver state and the caller's APDU. -/
def sc_transmit_apdu (h : Host) (c : Crypto) (d : Driver) (apdu : sc_apdu) :
    Exec (Int × Driver × sc_apdu) := do
  let d := { d with issued := d.issued ++ [apdu] }
  let w ← epass2003_sm_wrap_apdu c d.session apdu h.sm_apdu
  let d := { d with session := w.session }
  if w.ret ≠ SC_SUCCESS then
    pure (w.ret, d, w.plain)
  else
    let rep := h.card d.sent w.sm
    let d := { d with sent := d.sent ++ [w.sm] }
    if rep.r < 0 then
      pure (rep.r, d, w.plain)
    else do
      let resp ← blit w.sm.resp 0 (rep.data.take w.sm.resplen)
      let sm := { w.sm with resp := resp, resplen := (rep.data.take w.sm.resplen).length,
                            sw1 := rep.sw1, sw2 := rep.sw2 }
      let u ← epass2003_sm_unwrap_apdu h c d.session sm w.plain
      pure (u.ret, { d with session := u.session }, u.plain)

/-- `epass2003_transmit_apdu(card, apdu)` (lines 841-849): both exits return `r`. -/
def epass2003_transmit_apdu (h : Host) (c : Crypto) (d : Driver) (apdu : sc_apdu) :
    Exec (Int × Driver × sc_apdu) := do
  let (r, d, apdu) ← sc_transmit_apdu h c d apdu
  if SC_TEST_RET r then pure (r, d, apdu) else pure (r, d, apdu)

/-! ## The handshake (lines 71-85, 154-189, 269-428) -/

/-- The OpenSSL ECB ciphers the driver calls, as functions `key input ↦ output`. -/
structure Ecb where
  aes_128_ecb_enc : List Nat → List Nat → List Nat
  des_ede3_ecb_enc : List Nat → List Nat → List Nat

/-- `aes128_encrypt_ecb(key, keysize, input, length, output)`. -/
def aes128_encrypt_ecb (e : Ecb) (key input : List Nat) : List Nat :=
  e.aes_128_ecb_enc (key.take 16) input

/-- `des3_encrypt_ecb(key, keysize, input, length, output)`. -/
def des3_encrypt_ecb (e : Ecb) (key : List Nat) (keysize : Nat) (input : List Nat) : List Nat :=
  e.des_ede3_ecb_enc (des3_bKey key keysize) input

/-- The array `g_init_key_enc`. -/
def g_init_key_enc : List Nat :=
  [0x01, 0x02, 0x03, 0x04, 0x05, 0x06, 0x07, 0x08, 0x09, 0x0A, 0x0B, 0x0C, 0x0D, 0x0E, 0x0F, 0x10]

/-- The array `g_init_key_mac`. -/
def g_init_key_mac : List Nat :=
  [0x01, 0x02, 0x03, 0x04, 0x05, 0x06, 0x07, 0x08, 0x09, 0x0A, 0x0B, 0x0C, 0x0D, 0x0E, 0x0F, 0x10]

/-- The array `g_random`, the host random. -/
def g_random : List Nat := [0xBF, 0xC3, 0x29, 0x11, 0xC7, 0x18, 0xC3, 0x40]

/-- `gen_init_key(card, key_enc, key_mac, result, key_type)`: returns the return
value, the driver state and the buffer `result`.  `data` and `cryptogram` are
local arrays of 256 bytes. -/
def gen_init_key (h : Host) (c : Crypto) (e : Ecb) (d : Driver)
    (key_enc key_mac result : List Nat) (key_type : Nat) : Exec (Int × Driver × List Nat) := do
  let data := zeros 256
  let cryptogram := zeros 256
  let iv := zeros 16
  let apdu := sc_format_apdu d SC_APDU_CASE_4_SHORT 0x50 0x00 0x00
  let apdu := { apdu with cla := 0x80, lc := 8, datalen := 8, data := g_random,
                          le := 28, resplen := 28, resp := result }
  let tmp_sm := d.session.g_sm
  let d := { d with session := { d.session with g_sm := SM_PLAIN } }
  let (r, d, apdu) ← epass2003_transmit_apdu h c d apdu
  let d := { d with session := { d.session with g_sm := tmp_sm } }
  let result := apdu.resp
  if SC_TEST_RET r then pure (r, d, result) else
  let r := h.sc_check_sw apdu.sw1 apdu.sw2
  if SC_TEST_RET r then pure (r, d, result) else do
  -- Step 1 - Generate Derivation data
  let t ← peekN result 16 4
  let data ← blit data 0 t
  let t ← peekN g_random 0 4
  let data ← blit data 4 t
  let t ← peekN result 12 4
  let data ← blit data 8 t
  let t ← peekN g_random 4 4
  let data ← blit data 12 t
  -- Step 2,3 - Create S-ENC/S-MAC Session Key
  let input ← peekN data 0 16
  let g_sk_enc ← blit d.session.g_sk_enc 0
    (if KEY_TYPE_AES = key_type then aes128_encrypt_ecb e key_enc input
     else des3_encrypt_ecb e key_enc 16 input)
  let g_sk_mac ← blit d.session.g_sk_mac 0
    (if KEY_TYPE_AES = key_type then aes128_encrypt_ecb e key_mac input
     else des3_encrypt_ecb e key_mac 16 input)
  let d := { d with session := { d.session with g_sk_enc := g_sk_enc, g_sk_mac := g_sk_mac } }
  let t ← peekN g_random 0 8
  let data ← blit data 0 t
  let t ← peekN result 12 8
  let data ← blit data 8 t
  let data ← poke data 16 0x80
  let blocksize := if key_type = KEY_TYPE_AES then 16 else 8
  let data ← memset data 17 0x00 (blocksize - 1)
  -- calculate host cryptogram
  let input ← peekN data 0 (16 + blocksize)
  let cryptogram ← blit cryptogram 0
    (if KEY_TYPE_AES = key_type then aes128_encrypt_cbc c d.session.g_sk_enc iv input
     else des3_encrypt_cbc c d.session.g_sk_enc 16 iv input)
  -- verify card cryptogram
  let a ← peekN cryptogram 16 8
  let b ← peekN result 20 8
  if a ≠ b then pure (SC_ERROR_CARD_CMD_FAILED, d, result)
  else pure (SC_SUCCESS, d, result)

/-- `verify_init_key(card, ran_key, key_type)`: returns the return value and the
driver state.  `data`, `cryptogram` and `mac` are local arrays of 256 bytes. -/
def verify_init_key (h : Host) (c : Crypto) (d : Driver) (ran_key : List Nat)
    (key_type : Nat) : Exec (Int × Driver) := do
  let blocksize := if key_type = KEY_TYPE_AES then 16 else 8
  let data := zeros 256
  let cryptogram := zeros 256
  let iv := zeros 16
  let mac := zeros 256
  let t ← peekN ran_key 0 8
  let data ← blit data 0 t
  let t ← peekN g_random 0 8
  let data ← blit data 8 t
  let data ← poke data 16 0x80
  let data ← memset data 17 0x00 (blocksize - 1)
  let iv ← memset iv 0 0 16
  -- calculate host cryptogram
  let input ← peekN data 0 (16 + blocksize)
  let cryptogram ← blit cryptogram 0
    (if KEY_TYPE_AES = key_type then aes128_encrypt_cbc c d.session.g_sk_enc iv input
     else des3_encrypt_cbc c d.session.g_sk_enc 16 iv input)
  let data ← memset data 0 0 256
  let data ← blit data 0 [0x84, 0x82, 0x03, 0x00, 0x10]
  let t ← peekN cryptogram 16 8
  let data ← blit data 5 t
  let data ← blit data 13 [0x80, 0x00, 0x00]
  -- calculate mac icv
  let iv ← memset iv 0 0x00 16
  let input ← peekN data 0 16
  let (mac, i) ← (if KEY_TYPE_AES = key_type then do
      let m ← blit mac 0 (aes128_encrypt_cbc c d.session.g_sk_mac iv input)
      pure (m, 0)
    else do
      let m ← blit mac 0 (des3_encrypt_cbc c d.session.g_sk_mac 16 iv input)
      pure (m, 8) : Exec (List Nat × Nat))
  -- save mac icv
  let g_icv_mac ← memset d.session.g_icv_mac 0 0x00 16
  let t ← peekN mac i 8
  let g_icv_mac ← blit g_icv_mac 0 t
  let d := { d with session := { d.session with g_icv_mac := g_icv_mac } }
  -- verify host cryptogram
  let t ← peekN cryptogram 16 8
  let data ← blit data 0 t
  let t ← peekN mac i 8
  let data ← blit data 8 t
  let apdu := sc_format_apdu d SC_APDU_CASE_3_SHORT 0x82 0x03 0x00
  let apdu := { apdu with cla := 0x84, lc := 16, datalen := 16, data := data }
  let tmp_sm := d.session.g_sm
  let d := { d with session := { d.session with g_sm := SM_PLAIN } }
  let (r, d, apdu) ← epass2003_transmit_apdu h c d apdu
  let d := { d with session := { d.session with g_sm := tmp_sm } }
  if SC_TEST_RET r then pure (r, d) else
  let r := h.sc_check_sw apdu.sw1 apdu.sw2
  if SC_TEST_RET r then pure (r, d) else
  pure (r, d)

/-- `mutural_auth(card, key_enc, key_mac)`.  `result` and `ran_key` are local
arrays of 256 and 8 bytes. -/
def mutural_auth (h : Host) (c : Crypto) (e : Ecb) (d : Driver) (key_enc key_mac : List Nat) :
    Exec (Int × Driver) := do
  let result := zeros 256
  let ran_key := zeros 8
  let (r, d, result) ← gen_init_key h c e d key_enc key_mac result d.session.g_smtype
  if SC_TEST_RET r then pure (r, d) else do
  let t ← peekN result 12 8
  let ran_key ← blit ran_key 0 t
  let (r, d) ← verify_init_key h c d ran_key d.session.g_smtype
  if SC_TEST_RET r then pure (r, d) else
  pure (r, d)

/-- `epass2003_refresh(card)`. -/
def epass2003_refresh (h : Host) (c : Crypto) (e : Ecb) (d : Driver) : Exec (Int × Driver) := do
  let r : Int := 0
  if d.session.g_sm ≠ 0 then do
    let (r, d) ← mutural_auth h c e d g_init_key_enc g_init_key_mac
    if SC_TEST_RET r then pure (r, d) else
    pure (r, d)
  else
    pure (r, d)

/-! ## Opening the card (lines 851-882, 896-950) -/

/-- `get_data(card, type, data, datalen)`: returns the return value, the driver
state and the buffer `data`. -/
def get_data (h : Host) (c : Crypto) (d : Driver) (type : Nat) (data : List Nat)
    (datalen : Nat) : Exec (Int × Driver × List Nat) := do
  let resp := zeros h.SC_MAX_APDU_BUFFER_SIZE
  let resplen := h.SC_MAX_APDU_BUFFER_SIZE
  let apdu := sc_format_apdu d SC_APDU_CASE_2_SHORT 0xca 0x01 type
  let apdu := { apdu with resp := resp, le := 0, resplen := resplen }
  let (r, d, apdu) ← (if 0x86 = type then do
      -- No SM temporarily
      let tmp_sm := d.session.g_sm
      let d := { d with session := { d.session with g_sm := SM_PLAIN } }
      let (r, d, apdu) ← sc_transmit_apdu h c d apdu
      let d := { d with session := { d.session with g_sm := tmp_sm } }
      pure (r, d, apdu)
    else sc_transmit_apdu h c d apdu : Exec (Int × Driver × sc_apdu))
  if SC_TEST_RET r then pure (r, d, data) else
  let r := h.sc_check_sw apdu.sw1 apdu.sw2
  if SC_TEST_RET r then pure (r, d, data) else do
  let t ← peekN apdu.resp 0 datalen
  let data ← blit data 0 t
  pure (r, d, data)

/-- `epass2003_init(card)`.  The return value of `epass2003_refresh` is not
looked at. -/
def epass2003_init (h : Host) (c : Crypto) (e : Ecb) (d : Driver) : Exec (Int × Driver) := do
  let data := zeros h.SC_MAX_APDU_BUFFER_SIZE
  let datalen := h.SC_MAX_APDU_BUFFER_SIZE
  let d := { d with name := "epass2003", cla := 0x00, use_sm := 1 }
  let d := { d with session := { d.session with g_sm := SM_SCP01 } }
  -- decide FIPS/Non-FIPS mode
  let (r, d, data) ← get_data h c d 0x86 data datalen
  if SC_SUCCESS ≠ r then pure (SC_ERROR_CARD_CMD_FAILED, d) else do
  let b ← peek data 2
  let d := { d with session :=
    { d.session with g_smtype := if 0x01 = b then KEY_TYPE_AES else KEY_TYPE_DES } }
  -- mutural anthentication
  let (_, d) ← epass2003_refresh h c e d
  let flags := h.rsa_flags
  let d := { d with algorithms := d.algorithms ++
    [RsaAlg.mk 512 flags 0x10001, RsaAlg.mk 768 flags 0x10001, RsaAlg.mk 1024 flags 0x10001,
     RsaAlg.mk 2048 flags 0x10001] }
  let d := { d with caps := h.caps }
  pure (SC_SUCCESS, d)

/-! ## Sample hosts and inputs for the handshake and the response path -/

/-- A stand-in for the ECB ciphers: every encryption reverses its input. -/
def mirrorEcb : Ecb where
  aes_128_ecb_enc := fun _ x => x.reverse
  des_ede3_ecb_enc := fun _ x => x.reverse

/-- A status check that accepts `90 00` and rejects every other status word. -/
def checkSw9000 (sw1 sw2 : Nat) : Int :=
  if sw1 = 0x90 ∧ sw2 = 0x00 then SC_SUCCESS else SC_ERROR_CARD_CMD_FAILED

/-- The card random `11 22 33 44 55 66 77 88` of scenario S1. -/
def cardRandom : List Nat := [0x11, 0x22, 0x33, 0x44, 0x55, 0x66, 0x77, 0x88]

/-- A card that answers GET DATA with the given mode byte at offset 2,
INITIALIZE UPDATE with twelve zeros, the card random and the given cryptogram,
and everything with the given status word for INITIALIZE UPDATE and `90 00`
otherwise. -/
def scriptedCard (mode : Nat) (cryptogram : List Nat) (sw1 sw2 : Nat) (_ : List sc_apdu)
    (apdu : sc_apdu) : Reply :=
  if apdu.ins = 0xca then { r := 0, data := [0x00, 0x00, mode, 0x00], sw1 := 0x90, sw2 := 0x00 }
  else if apdu.ins = 0x50 then
    { r := 0, data := zeros 12 ++ cardRandom ++ cryptogram, sw1 := sw1, sw2 := sw2 }
  else { r := 0, data := [], sw1 := 0x90, sw2 := 0x00 }

/-- A host around `scriptedCard`. -/
def scriptedHost (mode : Nat) (cryptogram : List Nat) (sw1 sw2 : Nat) : Host :=
  { sc_check_sw := checkSw9000, card := scriptedCard mode cryptogram sw1 sw2,
    sm_apdu := smBlank, SC_MAX_APDU_BUFFER_SIZE := 261, rsa_flags := 0, caps := 0 }

/-- The driver state before `epass2003_init`: all file-scope variables are zero. -/
def driver0 : Driver :=
  { session := { g_sm := 0, g_smtype := 0, g_sk_enc := zeros 16, g_sk_mac := zeros 16,
                 g_icv_mac := zeros 16 },
    name := "", cla := 0, use_sm := 0, caps := 0, algorithms := [], issued := [], sent := [] }

/-- The path `3F 00 50 00 29 03` of scenario S6. -/
def pathS6 : sc_path := { value := [0x3F, 0x00, 0x50, 0x00, 0x29, 0x03] ++ zeros 10, len := 6, type := 2 }

/-- A path whose last file identifier is `29 08`. -/
def pathLow8 : sc_path := { value := [0x3F, 0x00, 0x29, 0x08] ++ zeros 12, len := 4, type := 2 }

/-- A host whose card completes the AES handshake of scenario S1 under the
stand-in ciphers. -/
def sampleHost : Host :=
  scriptedHost 0x01 [0x88, 0x77, 0x66, 0x55, 0x44, 0x33, 0x22, 0x11] 0x90 0x00

/-- An SM response with status `6A 82` whose body is `99 02 6A 82 8E 08 <mac8>`. -/
def smNotFound : sc_apdu :=
  { smBlank with
    resp := [0x99, 0x02, 0x6A, 0x82, 0x8E, 0x08, 1, 2, 3, 4, 5, 6, 7, 8] ++ zeros 242,
    resplen := 14, sw1 := 0x6A, sw2 := 0x82 }

/-- An SM response with status `90 00` whose body is `99 02 90 00 8E 08 <mac8>`. -/
def smNoData : sc_apdu :=
  { smBlank with
    resp := [0x99, 0x02, 0x90, 0x00, 0x8E, 0x08, 1, 2, 3, 4, 5, 6, 7, 8] ++ zeros 242,
    resplen := 14, sw1 := 0x90, sw2 := 0x00 }

/-- A plaintext body in which the byte `42` follows the `80`: `41 80 42 00 .. 00`. -/
def looseBody : List Nat := [0x41, 0x80, 0x42] ++ zeros 13

/-- An SM response with status `90 00` whose body is `87 11 01 <cipher16> 99 02 90
00 8E 08 <mac8>`, the cipher being that of `looseBody` under the stand-in cipher. -/
def smLoosePad : sc_apdu :=
  { smBlank with
    resp := [0x87, 0x11, 0x01] ++ looseBody.reverse ++
      [0x99, 0x02, 0x90, 0x00, 0x8E, 0x08, 1, 2, 3, 4, 5, 6, 7, 8] ++ zeros 223,
    resplen := 33, sw1 := 0x90, sw2 := 0x00 }

/-- The driver state with the sample AES session, as `epass2003_refresh` finds it
when the card has announced AES. -/
def driverAes : Driver := { driver0 with session := sessionAes }

/-- A host whose card rejects INITIALIZE UPDATE with the status `69 85`. -/
def rejectingHost : Host :=
  scriptedHost 0x01 [0x88, 0x77, 0x66, 0x55, 0x44, 0x33, 0x22, 0x11] 0x69 0x85

/-- A host whose card answers INITIALIZE UPDATE with the status `90 00` and a
card cryptogram of eight zeros, which no handshake with the stand-in ciphers
computes. -/
def wrongCryptogramHost : Host := scriptedHost 0x01 (zeros 8) 0x90 0x00

/-! ## Closed forms for the handshake -/

/-- The SM APDU that `epass2003_sm_wrap_apdu` fills in when it passes a plain APDU
through (the cases `0x00` and `0x04` of its `switch`). -/
def passThrough (plain sm : sc_apdu) : sc_apdu :=
  { sm with cse := plain.cse, cla := plain.cla, ins := plain.ins, p1 := plain.p1,
            p2 := plain.p2, lc := plain.lc, le := plain.le, control := plain.control,
            flags := plain.flags, datalen := plain.datalen, data := plain.data,
            resplen := plain.resplen, resp := plain.resp }

/-- The driver state after `apdu` has gone to the card unchanged. -/
def logged (h : Host) (d : Driver) (apdu : sc_apdu) : Driver :=
  { d with issued := d.issued ++ [apdu], sent := d.sent ++ [passThrough apdu h.sm_apdu] }

/-- The APDU after the transport has stored a reply in it. -/
def answered (apdu : sc_apdu) (rep : Reply) : sc_apdu :=
  { apdu with resp := splice apdu.resp 0 (rep.data.take apdu.resplen),
              resplen := (rep.data.take apdu.resplen).length, sw1 := rep.sw1, sw2 := rep.sw2 }

/-- The INITIALIZE UPDATE command that `gen_init_key` builds. -/
def initUpdateApdu (result : List Nat) : sc_apdu :=
  { cse := SC_APDU_CASE_4_SHORT, cla := 0x80, ins := 0x50, p1 := 0x00, p2 := 0x00, lc := 8,
    le := 28, data := g_random, datalen := 8, resp := result, resplen := 28, control := 0,
    flags := 0, sw1 := 0, sw2 := 0 }

/-- The EXTERNAL AUTHENTICATE command that `verify_init_key` builds around its
array `data`. -/
def extAuthApdu (data : List Nat) : sc_apdu :=
  { cse := SC_APDU_CASE_3_SHORT, cla := 0x84, ins := 0x82, p1 := 0x03, p2 := 0x00, lc := 16,
    le := 0, data := data, datalen := 16, resp := [], resplen := 0, control := 0, flags := 0,
    sw1 := 0, sw2 := 0 }

/-- The value `blocksize` of `gen_init_key` and `verify_init_key`. -/
def blockLen (key_type : Nat) : Nat := if key_type = KEY_TYPE_AES then 16 else 8

/-- The derivation data that `gen_init_key` builds from the response `R`. -/
def derivationData (R : List Nat) : List Nat :=
  (R.drop 16).take 4 ++ g_random.take 4 ++ (R.drop 12).take 4 ++ (g_random.drop 4).take 4

/-- The ECB call that makes a session key. -/
def ecbKey (e : Ecb) (key input : List Nat) (key_type : Nat) : List Nat :=
  if KEY_TYPE_AES = key_type then aes128_encrypt_ecb e key input
  else des3_encrypt_ecb e key 16 input

/-- The CBC call of the handshake, with a zero IV. -/
def cbcEnc (c : Crypto) (key input : List Nat) (key_type : Nat) : List Nat :=
  if KEY_TYPE_AES = key_type then aes128_encrypt_cbc c key (zeros 16) input
  else des3_encrypt_cbc c key 16 (zeros 16) input

/-- The input of a cryptogram: two 8-byte values, `0x80` and zeros. -/
def cryptInput (x y : List Nat) (key_type : Nat) : List Nat :=
  x ++ y ++ 0x80 :: zeros (blockLen key_type - 1)

/-- The bytes 16..24 of the cipher of a cryptogram input. -/
def cryptogram8 (c : Crypto) (key x y : List Nat) (key_type : Nat) : List Nat :=
  ((cbcEnc c key (cryptInput x y key_type) key_type).drop 16).take 8

/-- The 16 bytes over which `verify_init_key` computes the ICV seed. -/
def authBlock (crypt8 : List Nat) : List Nat :=
  [0x84, 0x82, 0x03, 0x00, 0x10] ++ crypt8 ++ [0x80, 0x00, 0x00]

/-- The ICV seed: bytes `i .. i + 8` of the cipher of `authBlock`, with `i = 0`
for AES and `i = 8` for 3DES. -/
def icvSeed (c : Crypto) (key crypt8 : List Nat) (key_type : Nat) : List Nat :=
  ((cbcEnc c key (authBlock crypt8) key_type).drop (if KEY_TYPE_AES = key_type then 0 else 8)).take 8

/-- The ECB ciphers keep the length of block-aligned input. -/
structure Ecb.LengthPreserving (e : Ecb) : Prop where
  aes : ∀ k x, 16 ∣ x.length → (e.aes_128_ecb_enc k x).length = x.length
  des3 : ∀ k x, 8 ∣ x.length → (e.des_ede3_ecb_enc k x).length = x.length

/-! ## Constants and library calls of the file and key operations -/

/-- Modelled from the spec: `SC_ERROR_INVALID_ARGUMENTS` (InvalidArgument),
declared in a header that is not part of the source file. -/
def SC_ERROR_INVALID_ARGUMENTS : Int := -1300

/-- Modelled from the spec: `SC_ERROR_NOT_SUPPORTED` (NotSupported), declared in
a header that is not part of the source file. -/
def SC_ERROR_NOT_SUPPORTED : Int := -1408

/-- Modelled from the spec: `SC_ERROR_OUT_OF_MEMORY` (OutOfMemory), declared in
a header that is not part of the source file. -/
def SC_ERROR_OUT_OF_MEMORY : Int := -1404

/-- Modelled from the spec: `SC_ERROR_OBJECT_NOT_FOUND` (ObjectNotFound),
declared in a header that is not part of the source file. -/
def SC_ERROR_OBJECT_NOT_FOUND : Int := -1407

/-- Modelled from the spec: `SC_ERROR_BUFFER_TOO_SMALL` (BufferTooSmall),
declared in a header that is not part of the source file. -/
def SC_ERROR_BUFFER_TOO_SMALL : Int := -1303

/-- Modelled from the spec: `SC_ERROR_UNKNOWN_DATA_RECEIVED`, declared in a
header that is not part of the source file. -/
def SC_ERROR_UNKNOWN_DATA_RECEIVED : Int := -1213

/-- Modelled from the spec: `SC_MAX_PATH_SIZE`, declared in a header that is not
part of the source file; it is the extent of `sc_path.value`, which
`epass2003_select_path` receives as `const u8 pathbuf[16]`. -/
def SC_MAX_PATH_SIZE : Nat := 16

/-- The fields of `struct sc_file` the driver touches.  `name` is the array
`u8 name[16]`; `sec_attr` and `prop_attr` are the buffers behind the pointers
of the same name; `acl` lists the operations for which the file holds an ACL
entry, each with the `method` of its entry. -/
structure sc_file where
  path : sc_path
  name : List Nat
  namelen : Nat
  type : Nat
  ef_structure : Nat
  status : Nat
  size : Nat
  id : Nat
  sec_attr : List Nat
  sec_attr_len : Nat
  prop_attr : List Nat
  prop_attr_len : Nat
  acl : List (Nat × Nat)
  magic : Nat
  deriving DecidableEq, Repr

/-- The fields of `card->cache` the driver touches. -/
structure Cache where
  valid : Nat
  current_path : sc_path
  deriving DecidableEq, Repr

/-- The constants of the libopensc headers that the file and key operations
use, and the library calls whose code is not part of the source file, as
parameters: the return value of `sc_lock(card)`, the return value and the driver
state after `sc_select_file(card, path, NULL)`, and the return value, driver
state and file after `iso_ops->select_file(card, in_path, file_out)`. -/
structure Lib where
  SC_PATH_TYPE_FILE_ID : Nat
  SC_PATH_TYPE_DF_NAME : Nat
  SC_PATH_TYPE_PATH : Nat
  SC_FILE_TYPE_DF : Nat
  SC_FILE_TYPE_WORKING_EF : Nat
  SC_FILE_TYPE_INTERNAL_EF : Nat
  SC_FILE_TYPE_BSO : Nat
  SC_FILE_EF_UNKNOWN : Nat
  SC_FILE_EF_TRANSPARENT : Nat
  SC_FILE_EF_LINEAR_FIXED : Nat
  SC_FILE_EF_LINEAR_VARIABLE : Nat
  SC_CARDCTL_OBERTHUR_KEY_RSA_CRT : Nat
  SC_CARDCTL_OBERTHUR_KEY_RSA_PUBLIC : Nat
  SC_FILE_STATUS_CREATION : Nat
  SC_FILE_STATUS_ACTIVATED : Nat
  SC_FILE_STATUS_INVALIDATED : Nat
  SC_FILE_MAGIC : Nat
  SC_AC_OP_LIST_FILES : Nat
  SC_AC_OP_CREATE : Nat
  SC_AC_OP_DELETE : Nat
  SC_AC_OP_READ : Nat
  SC_AC_OP_UPDATE : Nat
  SC_AC_OP_WRITE : Nat
  SC_AC_OP_CRYPTO : Nat
  SC_AC_NONE : Nat
  SC_AC_NEVER : Nat
  EPASS2003_AC_MAC_NOLESS : Nat
  EPASS2003_AC_EVERYONE : Nat
  EPASS2003_AC_USER : Nat
  EPASS2003_AC_SO : Nat
  EPASS2003_AC_NOONE : Nat
  ENTERSAFE_USER_PIN_ID : Nat
  ENTERSAFE_SO_PIN_ID : Nat
  SC_SEC_OPERATION_DECIPHER : Nat
  SC_SEC_OPERATION_SIGN : Nat
  SC_APDU_CASE_1 : Nat
  sc_lock : Int
  sc_select_file : Driver → sc_path → Int × Driver
  iso_select_file : Driver → sc_path → Bool → Int × Driver × Option sc_file

/-! ## PIN material (lines 91-94, 233-265, 1860-1875) -/

/-- The digest `EVP_sha1` of OpenSSL, which is not part of the source file, as a
function from the input to the digest. -/
structure Digest where
  sha1 : List Nat → List Nat

/-- The macro `REVERSE_ORDER4(x)`; `unsigned long` has 64 bits (LP64). -/
def REVERSE_ORDER4 (x : Nat) : Nat :=
  (((x % SIZE_MOD &&& 0xFF000000) >>> 24) |||
   ((x % SIZE_MOD &&& 0x00FF0000) >>> 8) |||
   ((x % SIZE_MOD &&& 0x0000FF00) <<< 8) |||
   ((x % SIZE_MOD &&& 0x000000FF) <<< 24)) % SIZE_MOD

/-- The first `n` bytes of the object representation of the unsigned integer
`x` on a little-endian host: what `memcpy(dst, &x, n)` copies. -/
def le_bytes (x n : Nat) : List Nat := (List.range n).map (fun i => (x >>> (8 * i)) % 256)

/-- `sha1_digest(input, length, output)` (lines 233-265): the digest is stored
at `output`; the return value is not looked at by the caller. -/
def sha1_digest (g : Digest) (input : List Nat) (length : Nat) (output : List Nat) :
    Exec (List Nat) := do
  let t ← peekN input 0 length
  blit output 0 (g.sha1 t)

/-- `hash_data(data, datalen, hash)`: returns the return value and the buffer
behind `hash`; a null pointer is `none`.  `data_hash` is the local
`unsigned char data_hash[24] = { 0 }` and `len` a `size_t`. -/
def hash_data (g : Digest) (data : Option (List Nat)) (datalen : Nat)
    (hash : Option (List Nat)) : Exec (Int × Option (List Nat)) :=
  let data_hash := zeros 24
  match data, hash with
  | some data, some hash => do
    let data_hash ← sha1_digest g data datalen data_hash
    let len := REVERSE_ORDER4 datalen
    let data_hash ← blit data_hash 20 (le_bytes len 4)
    let t ← peekN data_hash 0 24
    let hash ← blit hash 0 t
    pure (SC_SUCCESS, some hash)
  | _, _ => pure (SC_ERROR_INVALID_ARGUMENTS, hash)

/-- The digest length of SHA-1. -/
structure Digest.Sha1Length (g : Digest) : Prop where
  len : ∀ x, (g.sha1 x).length = 20

/-! ## Installing a secret key (lines 1877-1905) -/

/-- `epass2003_delete_file(card, path)`: returns the return value, the driver
state and the object behind the caller's pointer `path`, which the function
writes through the cast `(struct sc_path *)path`. -/
def epass2003_delete_file (k : Lib) (h : Host) (c : Crypto) (d : Driver) (path : sc_path) :
    Exec (Int × Driver × sc_path) := do
  let sbuf := zeros 2
  let (r, d) := k.sc_select_file d path
  let (_, path) ← epass2003_hook_path path 1
  if r = SC_SUCCESS then do
    let b ← peek path.value ((path.len + (SIZE_MOD - 2)) % SIZE_MOD)
    let sbuf ← poke sbuf 0 b
    let b ← peek path.value ((path.len + (SIZE_MOD - 1)) % SIZE_MOD)
    let sbuf ← poke sbuf 1 b
    let apdu := sc_format_apdu d SC_APDU_CASE_3_SHORT 0xE4 0x00 0x00
    let apdu := { apdu with lc := 2, datalen := 2, data := sbuf }
    let (r, d, apdu) ← sc_transmit_apdu h c d apdu
    if SC_TEST_RET r then pure (r, d, path) else
    pure (h.sc_check_sw apdu.sw1 apdu.sw2, d, path)
  else
    pure (SC_ERROR_INVALID_ARGUMENTS, d, path)

/-! ## BER-TLV helpers of libopensc -/

/-- The length field at offset `p` of `buf`: the length and the number of bytes
of the field, for the short form and the long forms `81 L` and `82 Lhi Llo`. -/
def asn1_read_length (buf : List Nat) (p : Nat) : Option (Nat × Nat) :=
  match buf[p]? with
  | none => none
  | some l0 =>
    if l0 < 0x80 then some (l0, 1)
    else if l0 = 0x81 then
      match buf[p + 1]? with
      | some l1 => some (l1, 2)
      | none => none
    else if l0 = 0x82 then
      match buf[p + 1]?, buf[p + 2]? with
      | some l1, some l2 => some (l1 * 0x100 + l2, 3)
      | _, _ => none
    else none

/-- The search loop of `sc_asn1_find_tag`: `p` is the offset of the next TLV and
`left` the number of bytes not yet looked at.  Returns the offset and the
length of the value of the first TLV with the tag looked for. -/
def asn1_find_loop : Nat → List Nat → Nat → Nat → Nat → Option (Nat × Nat)
  | 0, _, _, _, _ => none
  | fuel + 1, buf, p, left, tag =>
    if left < 2 then none
    else
      match buf[p]? with
      | none => none
      | some t =>
        if t = 0x00 ∨ t = 0xFF ∨ t &&& 0x1F = 0x1F then none
        else
          match asn1_read_length buf (p + 1) with
          | none => none
          | some (taglen, n) =>
            if left < 1 + n then none
            else if t = tag then
              if taglen > left - (1 + n) then none else some (p + 1 + n, taglen)
            else if left - (1 + n) < taglen then none
            else asn1_find_loop fuel buf (p + 1 + n + taglen) (left - (1 + n) - taglen) tag

/-- Modelled from the spec: `sc_asn1_find_tag(ctx, buf, buflen, tag, &taglen)` of
libopensc, which is not part of the source file.  The FCI is a sequence of
"BER-TLV" objects; the call returns the value of the first object with the
given tag among the first `buflen` bytes, `taglen` being the length of the list
returned, or `none` for the null pointer.  Tags of one byte and lengths of up
to three bytes are read; a tag byte `00` or `FF` ends the search. -/
def sc_asn1_find_tag (buf : List Nat) (buflen : Nat) (tag : Nat) : Option (List Nat) :=
  match asn1_find_loop buflen buf 0 buflen tag with
  | none => none
  | some (off, taglen) => some ((buf.drop off).take taglen)

/-- Modelled from the spec: `sc_asn1_put_tag(tag, data, datalen, out, outlen,
ptr)` of libopensc, which is not part of the source file.  It stores the
"BER-TLV" object `tag, datalen, data` at `out` and advances `*ptr` behind it;
with less than `2 + datalen` bytes of room, or `datalen > 127`, it returns an
error and leaves `*ptr` alone.  Here `out` is the whole buffer and `p` the
offset of the pointer `out`; returns the return value, the buffer and `*ptr`. -/
def sc_asn1_put_tag (tag : Nat) (data : List Nat) (datalen : Nat) (out : List Nat) (p : Nat)
    (outlen : Nat) : Exec (Int × List Nat × Nat) := do
  if outlen < 2 then pure (SC_ERROR_INVALID_ARGUMENTS, out, p)
  else if datalen > 127 then pure (SC_ERROR_INVALID_ARGUMENTS, out, p)
  else do
    let out ← poke out p (tag &&& 0xFF)
    let out ← poke out (p + 1) datalen
    if outlen - 2 < datalen then pure (SC_ERROR_INVALID_ARGUMENTS, out, p)
    else do
      let t ← peekN data 0 datalen
      let out ← blit out (p + 2) t
      pure (SC_SUCCESS, out, p + 2 + datalen)

/-- Modelled from the spec: `sc_file_get_acl_entry(file, operation)` of
libopensc, which is not part of the source file: the `method` of the ACL entry
of the file for the operation, or `none` for the null pointer when the file has
no entry for it ("ObjectNotFound — ACL lookup for an unused operation slot"). -/
def sc_file_get_acl_entry (file : sc_file) (operation : Nat) : Option Nat :=
  (file.acl.find? (fun e => e.1 = operation)).map (fun e => e.2)

/-- Modelled from the spec: `sc_file_set_prop_attr(file, prop_attr, len)` of
libopensc, which is not part of the source file, stores a copy of the bytes in
the file. -/
def sc_file_set_prop_attr (file : sc_file) (prop_attr : List Nat) : sc_file :=
  { file with prop_attr := prop_attr, prop_attr_len := prop_attr.length }

/-- Modelled from the spec: `sc_file_set_sec_attr(file, sec_attr, len)` of
libopensc, which is not part of the source file, stores a copy of the bytes in
the file. -/
def sc_file_set_sec_attr (file : sc_file) (sec_attr : List Nat) : sc_file :=
  { file with sec_attr := sec_attr, sec_attr_len := sec_attr.length }

/-- Modelled from the spec: `sc_file_new()` of libopensc, which is not part of
the source file, returns a cleared file object with its magic number set. -/
def sc_file_new (k : Lib) : sc_file :=
  { path := { value := zeros SC_MAX_PATH_SIZE, len := 0, type := 0 }, name := zeros 16,
    namelen := 0, type := 0, ef_structure := 0, status := 0, size := 0, id := 0,
    sec_attr := [], sec_attr_len := 0, prop_attr := [], prop_attr_len := 0, acl := [],
    magic := k.SC_FILE_MAGIC }

/-! ## The FCI (lines 1412-1734) -/

/-- `acl_to_ac_byte(card, e)`; `e` is the `method` of the entry, `none` for the
null pointer. -/
def acl_to_ac_byte (k : Lib) (e : Option Nat) : Int :=
  match e with
  | none => SC_ERROR_OBJECT_NOT_FOUND
  | some method =>
    if method = k.SC_AC_NONE then
      ((k.EPASS2003_AC_MAC_NOLESS ||| k.EPASS2003_AC_EVERYONE : Nat) : Int)
    else if method = k.SC_AC_NEVER then
      ((k.EPASS2003_AC_MAC_NOLESS ||| k.EPASS2003_AC_NOONE : Nat) : Int)
    else ((k.EPASS2003_AC_MAC_NOLESS ||| k.EPASS2003_AC_USER : Nat) : Int)

/-- The file-type part of `epass2003_process_fci` (lines 1464-1517): what the
first byte of the descriptor does to the file. -/
def process_descriptor (k : Lib) (file : sc_file) (byte : Nat) : sc_file :=
  if byte = 0x38 then { file with type := k.SC_FILE_TYPE_DF }
  else if 0x01 ≤ byte ∧ byte ≤ 0x07 then
    let file := { file with type := k.SC_FILE_TYPE_WORKING_EF }
    if byte = 0x01 then { file with ef_structure := k.SC_FILE_EF_TRANSPARENT }
    else if byte = 0x02 then { file with ef_structure := k.SC_FILE_EF_LINEAR_FIXED }
    else if byte = 0x03 then file
    else if byte = 0x04 then { file with ef_structure := k.SC_FILE_EF_LINEAR_FIXED }
    else file
  else if 0x10 = byte then { file with type := k.SC_FILE_TYPE_BSO }
  else if 0x11 ≤ byte then { file with type := k.SC_FILE_TYPE_INTERNAL_EF }
  else { file with type := k.SC_FILE_TYPE_INTERNAL_EF }

/-- `epass2003_process_fci(card, file, buf, buflen)`: returns the return value
and the file.  The reads `tag[0]`, `tag[1]` happen under the tests on `taglen`
written in the source. -/
def epass2003_process_fci (k : Lib) (file : sc_file) (buf : List Nat) (buflen : Nat) :
    Exec (Int × sc_file) := do
  let file :=
    match sc_asn1_find_tag buf buflen 0x83 with
    | some [t0, t1] => { file with id := (t0 <<< 8) ||| t1 }
    | _ => file
  let tag := sc_asn1_find_tag buf buflen 0x80
  let file :=
    match tag with
    | some [t0] => { file with size := t0 }
    | some [t0, t1] => { file with size := (t0 <<< 8) + t1 }
    | _ => file
  let file :=
    match tag with
    | none =>
      match sc_asn1_find_tag buf buflen 0x81 with
      | some (t0 :: t1 :: _) => { file with size := (t0 <<< 8) + t1 }
      | _ => file
    | some _ => file
  let file :=
    match sc_asn1_find_tag buf buflen 0x82 with
    | some (byte :: _) => process_descriptor k file byte
    | _ => file
  let file ←
    (match sc_asn1_find_tag buf buflen 0x84 with
    | some tag =>
      if 0 < tag.length ∧ tag.length ≤ 16 then do
        let name ← blit file.name 0 tag
        let file := { file with name := name, namelen := tag.length }
        pure (if file.type = 0 then { file with type := k.SC_FILE_TYPE_DF } else file)
      else pure file
    | none => pure file : Exec sc_file)
  let file :=
    match sc_asn1_find_tag buf buflen 0x85 with
    | some (t :: ts) => sc_file_set_prop_attr file (t :: ts)
    | _ => { file with prop_attr_len := 0 }
  let file :=
    match sc_asn1_find_tag buf buflen 0xA5 with
    | some (t :: ts) => sc_file_set_prop_attr file (t :: ts)
    | _ => file
  let file :=
    match sc_asn1_find_tag buf buflen 0x86 with
    | some (t :: ts) => sc_file_set_sec_attr file (t :: ts)
    | _ => file
  let file :=
    match sc_asn1_find_tag buf buflen 0x8A with
    | some [t0] =>
      if t0 = 0x01 then { file with status := k.SC_FILE_STATUS_CREATION }
      else if t0 = 0x07 ∨ t0 = 0x05 then { file with status := k.SC_FILE_STATUS_ACTIVATED }
      else if t0 = 0x06 ∨ t0 = 0x04 then { file with status := k.SC_FILE_STATUS_INVALIDATED }
      else file
    | _ => file
  let file := { file with magic := k.SC_FILE_MAGIC }
  pure (0, file)

/-- The loop over `ops` of `epass2003_construct_fci` (lines 1709-1719), from
index `ii` on; `ops` holds the entries not yet looked at.  Returns the value of
`rv` that ends the function early, or 0, and `buf`. -/
def construct_acl_loop (k : Lib) (file : sc_file) : List Nat → Nat → List Nat →
    Exec (Int × List Nat)
  | [], _, buf => pure (0, buf)
  | op :: ops, ii, buf => do
    let buf ← poke buf ii 0xFF
    if op = 0xFF then construct_acl_loop k file ops (ii + 1) buf
    else
      let entry := sc_file_get_acl_entry file op
      let rv := acl_to_ac_byte k entry
      if SC_TEST_RET rv then pure (rv, buf)
      else do
        let buf ← poke buf ii rv.toNat
        construct_acl_loop k file ops (ii + 1) buf

/-- The array `ops` of `epass2003_construct_fci` after lines 1666-1708, or
`none` where the function returns `SC_ERROR_NOT_SUPPORTED`.  Each entry is an
`unsigned char`. -/
def construct_ops (k : Lib) (file : sc_file) : Option (List Nat) :=
  let ops := [0xFF, 0xFF, 0xFF, 0xFF, 0xFF, 0xFF, 0xFF, 0xFF]
  if file.type = k.SC_FILE_TYPE_DF then
    some (((ops.set 0 (u8 k.SC_AC_OP_LIST_FILES)).set 1 (u8 k.SC_AC_OP_CREATE)).set 3
      (u8 k.SC_AC_OP_DELETE))
  else if file.type = k.SC_FILE_TYPE_WORKING_EF then
    if file.ef_structure = k.SC_FILE_EF_TRANSPARENT then
      some (((ops.set 0 (u8 k.SC_AC_OP_READ)).set 1 (u8 k.SC_AC_OP_UPDATE)).set 3
        (u8 k.SC_AC_OP_DELETE))
    else if file.ef_structure = k.SC_FILE_EF_LINEAR_FIXED ∨
        file.ef_structure = k.SC_FILE_EF_LINEAR_VARIABLE then
      some ((((ops.set 0 (u8 k.SC_AC_OP_READ)).set 1 (u8 k.SC_AC_OP_UPDATE)).set 2
        (u8 k.SC_AC_OP_WRITE)).set 3 (u8 k.SC_AC_OP_DELETE))
    else none
  else if file.type = k.SC_FILE_TYPE_BSO then
    some ((ops.set 0 (u8 k.SC_AC_OP_UPDATE)).set 3 (u8 k.SC_AC_OP_DELETE))
  else if file.type = k.SC_FILE_TYPE_INTERNAL_EF then
    if file.ef_structure = k.SC_CARDCTL_OBERTHUR_KEY_RSA_CRT then
      some (((ops.set 1 (u8 k.SC_AC_OP_UPDATE)).set 2 (u8 k.SC_AC_OP_CRYPTO)).set 3
        (u8 k.SC_AC_OP_DELETE))
    else if file.ef_structure = k.SC_CARDCTL_OBERTHUR_KEY_RSA_PUBLIC then
      some ((((ops.set 0 (u8 k.SC_AC_OP_READ)).set 1 (u8 k.SC_AC_OP_UPDATE)).set 2
        (u8 k.SC_AC_OP_CRYPTO)).set 3 (u8 k.SC_AC_OP_DELETE))
    else some ops
  else none

/-- `epass2003_construct_fci(card, file, out, outlen)`: returns the return
value, the buffer `out` and `*outlen`.  `p` is the offset of the pointer `p`
from `out`, `buf` the local `u8 buf[64]`, whose bytes are written before they
are read, and `*outlen - (p - out)` is computed in `size_t`.  The return values
of `sc_asn1_put_tag` are not looked at. -/
def epass2003_construct_fci (k : Lib) (file : sc_file) (out : List Nat) (outlen : Nat) :
    Exec (Int × List Nat × Nat) := do
  let buf := zeros 64
  let room := fun (p : Nat) => (outlen + (SIZE_MOD - p)) % SIZE_MOD
  if outlen < 2 then pure (SC_ERROR_BUFFER_TOO_SMALL, out, outlen) else do
  let out ← poke out 0 0x62
  let p := 2
  let (buf, out, p) ← (if file.type = k.SC_FILE_TYPE_WORKING_EF ∧
      file.ef_structure = k.SC_FILE_EF_TRANSPARENT then do
      let buf ← poke buf 0 ((file.size >>> 8) &&& 0xFF)
      let buf ← poke buf 1 (file.size &&& 0xFF)
      let (_, out, p) ← sc_asn1_put_tag 0x80 buf 2 out p (room p)
      pure (buf, out, p)
    else pure (buf, out, p) : Exec (List Nat × List Nat × Nat))
  let (ret, buf, out, p) ← (if file.type = k.SC_FILE_TYPE_DF then do
      let buf ← poke buf 0 0x38
      let buf ← poke buf 1 0x00
      let (_, out, p) ← sc_asn1_put_tag 0x82 buf 2 out p (room p)
      pure (0, buf, out, p)
    else if file.type = k.SC_FILE_TYPE_WORKING_EF then do
      let buf ← poke buf 0 (file.ef_structure &&& 7)
      if file.ef_structure = k.SC_FILE_EF_TRANSPARENT then do
        let buf ← poke buf 1 0x00
        let (_, out, p) ← sc_asn1_put_tag 0x82 buf 2 out p (room p)
        pure (0, buf, out, p)
      else if file.ef_structure = k.SC_FILE_EF_LINEAR_FIXED ∨
          file.ef_structure = k.SC_FILE_EF_LINEAR_VARIABLE then do
        let buf ← poke buf 1 0x00
        let buf ← poke buf 2 0x00
        -- record length
        let buf ← poke buf 3 0x40
        -- record count
        let buf ← poke buf 4 0x00
        let (_, out, p) ← sc_asn1_put_tag 0x82 buf 5 out p (room p)
        pure (0, buf, out, p)
      else pure (SC_ERROR_NOT_SUPPORTED, buf, out, p)
    else if file.type = k.SC_FILE_TYPE_INTERNAL_EF then do
      if file.ef_structure = k.SC_CARDCTL_OBERTHUR_KEY_RSA_CRT then do
        let buf ← poke buf 0 0x11
        let buf ← poke buf 1 0x00
        let (_, out, p) ← sc_asn1_put_tag 0x82 buf 2 out p (room p)
        pure (0, buf, out, p)
      else if file.ef_structure = k.SC_CARDCTL_OBERTHUR_KEY_RSA_PUBLIC then do
        let buf ← poke buf 0 0x12
        let buf ← poke buf 1 0x00
        let (_, out, p) ← sc_asn1_put_tag 0x82 buf 2 out p (room p)
        pure (0, buf, out, p)
      else pure (SC_ERROR_NOT_SUPPORTED, buf, out, p)
    else if file.type = k.SC_FILE_TYPE_BSO then do
      let buf ← poke buf 0 0x10
      let buf ← poke buf 1 0x00
      let (_, out, p) ← sc_asn1_put_tag 0x82 buf 2 out p (room p)
      pure (0, buf, out, p)
    else pure (0, buf, out, p) : Exec (Int × List Nat × List Nat × Nat))
  if ret ≠ 0 then pure (ret, out, outlen) else do
  let buf ← poke buf 0 ((file.id >>> 8) &&& 0xFF)
  let buf ← poke buf 1 (file.id &&& 0xFF)
  let (_, out, p) ← sc_asn1_put_tag 0x83 buf 2 out p (room p)
  if file.type = k.SC_FILE_TYPE_DF ∧ ¬ (file.namelen ≠ 0) then
    pure (SC_ERROR_INVALID_ARGUMENTS, out, outlen)
  else do
  let (out, p) ← (if file.type = k.SC_FILE_TYPE_DF then do
      let (_, out, p) ← sc_asn1_put_tag 0x84 file.name file.namelen out p (room p)
      pure (out, p)
    else pure (out, p) : Exec (List Nat × Nat))
  let (buf, out, p) ← (if file.type = k.SC_FILE_TYPE_DF then do
      -- 127 files at most
      let (_, out, p) ← sc_asn1_put_tag 0x85 [0x00, 0x7f, 0x00] 2 out p (room p)
      pure (buf, out, p)
    else if file.type = k.SC_FILE_TYPE_BSO then do
      let buf ← poke buf 0 (file.size &&& 0xff)
      let (_, out, p) ← sc_asn1_put_tag 0x85 buf 1 out p (room p)
      pure (buf, out, p)
    else if file.type = k.SC_FILE_TYPE_INTERNAL_EF then do
      if file.ef_structure = k.SC_CARDCTL_OBERTHUR_KEY_RSA_CRT ∨
          file.ef_structure = k.SC_CARDCTL_OBERTHUR_KEY_RSA_PUBLIC then do
        let buf ← poke buf 0 ((file.size >>> 8) &&& 0xFF)
        let buf ← poke buf 1 (file.size &&& 0xFF)
        let (_, out, p) ← sc_asn1_put_tag 0x85 buf 2 out p (room p)
        pure (buf, out, p)
      else pure (buf, out, p)
    else pure (buf, out, p) : Exec (List Nat × List Nat × Nat))
  let (ret, out, p) ← (if file.sec_attr_len ≠ 0 then do
      let t ← peekN file.sec_attr 0 file.sec_attr_len
      let buf ← blit buf 0 t
      let (_, out, p) ← sc_asn1_put_tag 0x86 buf file.sec_attr_len out p (room p)
      pure (0, out, p)
    else
      match construct_ops k file with
      | none => pure (SC_ERROR_NOT_SUPPORTED, out, p)
      | some ops => do
        let (rv, buf) ← construct_acl_loop k file ops 0 buf
        if SC_TEST_RET rv then pure (rv, out, p)
        else do
          let (_, out, p) ← sc_asn1_put_tag 0x86 buf 8 out p (room p)
          pure (0, out, p) : Exec (Int × List Nat × Nat))
  if ret ≠ 0 then pure (ret, out, outlen) else do
  let (out, p) ← (if file.ef_structure = k.SC_CARDCTL_OBERTHUR_KEY_RSA_PUBLIC then do
      let (_, out, p) ← sc_asn1_put_tag 0x87 [0x00, 0x66, 0x00] 2 out p (room p)
      pure (out, p)
    else pure (out, p) : Exec (List Nat × Nat))
  let out ← poke out 1 ((p + (SIZE_MOD - 2)) % SIZE_MOD)
  pure (0, out, p)

/-! ## Selecting files (lines 983-1304) -/

/-- `epass2003_hook_file(file, inc)`; `fidl` and `fidh` are `int`. -/
def epass2003_hook_file (file : sc_file) (inc : Int) : Exec sc_file := do
  let fidl := file.id &&& 0xff
  let fidh := file.id &&& 0xff00
  let (r, path) ← epass2003_hook_path file.path inc
  let file := { file with path := path }
  if r ≠ 0 then
    if inc ≠ 0 then pure { file with id := fidh + fidl * FID_STEP }
    else pure { file with id := fidh + fidl / FID_STEP }
  else pure file

/-- The synthetic FCI of `epass2003_select_fid_` (line 1043), with the
terminating byte of the string literal. -/
def fake_fci : List Nat :=
  [0x6f, 0x16, 0x82, 0x02, 0x11, 0x00, 0x83, 0x02, 0x29, 0x00, 0x85, 0x02, 0x08, 0x00, 0x86,
   0x08, 0xff, 0x90, 0x90, 0x90, 0xff, 0xff, 0xff, 0xff, 0x00]

/-- The statements of `epass2003_select_fid_` behind the exchange (lines
1052-1085), for the APDU as the exchange left it.  `file_out` tells whether the
pointer `file_out` is not null; the file returned is `*file_out`. -/
def select_fid_finish (k : Lib) (h : Host) (d : Driver) (in_path : sc_path) (apdu : sc_apdu)
    (file_out : Bool) : Exec (Int × Driver × sc_path × Option sc_file) := do
  if ¬ file_out then
    if apdu.sw1 = 0x61 then pure (0, d, in_path, none)
    else pure (h.sc_check_sw apdu.sw1 apdu.sw2, d, in_path, none)
  else
  let r := h.sc_check_sw apdu.sw1 apdu.sw2
  if r ≠ 0 then pure (r, d, in_path, none) else
  if apdu.resplen < 2 then pure (SC_ERROR_UNKNOWN_DATA_RECEIVED, d, in_path, none) else do
  let resp0 ← peek apdu.resp 0
  if resp0 = 0x6F then do
    let file := sc_file_new k
    let file := { file with path := in_path }
    let resp1 ← peek apdu.resp 1
    let file ← (if resp1 + 2 ≤ apdu.resplen then do
        let (_, file) ← epass2003_process_fci k file (apdu.resp.drop 2) resp1
        pure file
      else pure file : Exec sc_file)
    let file ← epass2003_hook_file file 0
    pure (0, d, in_path, some file)
  else pure (SC_ERROR_UNKNOWN_DATA_RECEIVED, d, in_path, none)

/-- `epass2003_select_fid_(card, in_path, file_out)`: returns the return value,
the driver state, the path behind `in_path`, which the function hooks in place,
and `*file_out`.  `buf` and `pathbuf` are the local arrays. -/
def epass2003_select_fid_ (k : Lib) (h : Host) (c : Crypto) (d : Driver) (in_path : sc_path)
    (file_out : Bool) : Exec (Int × Driver × sc_path × Option sc_file) := do
  let buf := zeros h.SC_MAX_APDU_BUFFER_SIZE
  let pathbuf := zeros SC_MAX_PATH_SIZE
  let (_, in_path) ← epass2003_hook_path in_path 1
  let t ← peekN in_path.value 0 in_path.len
  let path ← blit pathbuf 0 t
  let pathlen := in_path.len
  let apdu := sc_format_apdu d SC_APDU_CASE_4_SHORT 0xA4 0x00 0x00
  if in_path.type = k.SC_PATH_TYPE_FILE_ID then
    let apdu := { apdu with p1 := 0 }
    if pathlen ≠ 2 then pure (SC_ERROR_INVALID_ARGUMENTS, d, in_path, none) else do
    -- first record, return FCI
    let apdu := { apdu with p2 := 0, lc := pathlen, data := path, datalen := pathlen }
    let apdu :=
      if file_out then
        { apdu with resp := buf, resplen := h.SC_MAX_APDU_BUFFER_SIZE, le := 0 }
      else
        { apdu with cse := if apdu.lc = 0 then k.SC_APDU_CASE_1 else SC_APDU_CASE_3_SHORT }
    let path0 ← peek path 0
    if path0 = 0x29 then do
      -- Not allowed to select prvate key file, so fake fci.
      let apdu := { apdu with resplen := 0x18 }
      let t ← peekN fake_fci 0 apdu.resplen
      let resp ← blit apdu.resp 0 t
      let path1 ← peek path 1
      let resp ← poke resp 9 path1
      let apdu := { apdu with resp := resp, sw1 := 0x90, sw2 := 0x00 }
      select_fid_finish k h d in_path apdu file_out
    else do
      let (r, d, apdu) ← sc_transmit_apdu h c d apdu
      if SC_TEST_RET r then pure (r, d, in_path, none)
      else select_fid_finish k h d in_path apdu file_out
  else pure (SC_ERROR_INVALID_ARGUMENTS, d, in_path, none)

/-- `epass2003_select_fid(card, id_hi, id_lo, file_out)`: returns the return
value, the driver state, the cache and `*file_out`.  `path` is the local
`sc_path_t path`; a read through the null pointer `file` is a fault. -/
def epass2003_select_fid (k : Lib) (h : Host) (c : Crypto) (d : Driver) (cache : Cache)
    (id_hi id_lo : Nat) (file_out : Bool) : Exec (Int × Driver × Cache × Option sc_file) := do
  let value := zeros SC_MAX_PATH_SIZE
  let value ← poke value 0 id_hi
  let value ← poke value 1 id_lo
  let path : sc_path := { value := value, len := 2, type := k.SC_PATH_TYPE_FILE_ID }
  let (r, d, _, file) ← epass2003_select_fid_ k h c d path true
  if SC_TEST_RET r then pure (r, d, cache, none) else
  match file with
  | none => Exec.fault Fault.outOfBounds
  | some file => do
    -- update cache
    let cache ← (if file.type = k.SC_FILE_TYPE_DF then do
        let cp := { cache.current_path with type := k.SC_PATH_TYPE_PATH }
        let v ← poke cp.value 0 0x3f
        let v ← poke v 1 0x00
        if id_hi = 0x3f ∧ id_lo = 0x00 then
          pure { cache with current_path := { cp with value := v, len := 2 } }
        else do
          let v ← poke v 2 id_hi
          let v ← poke v 3 id_lo
          pure { cache with current_path := { cp with value := v, len := 4 } }
      else pure cache : Exec Cache)
    pure (SC_SUCCESS, d, cache, if file_out then some file else none)

/-- `epass2003_select_aid(card, in_path, file_out)`. -/
def epass2003_select_aid (k : Lib) (d : Driver) (cache : Cache) (in_path : sc_path)
    (file_out : Bool) : Exec (Int × Driver × Cache × Option sc_file) := do
  let r : Int := 0
  let hit ← (if cache.valid ≠ 0 ∧ cache.current_path.type = k.SC_PATH_TYPE_DF_NAME ∧
      cache.current_path.len = in_path.len then do
      let a ← peekN cache.current_path.value 0 in_path.len
      let b ← peekN in_path.value 0 in_path.len
      pure (decide (a = b))
    else pure false : Exec Bool)
  let (ret, r, d, cache, file) ← (if hit then
      pure (false, r, d, cache, if file_out then some (sc_file_new k) else none)
    else
      let (r, d, file) := k.iso_select_file d in_path file_out
      if SC_TEST_RET r then pure (true, r, d, cache, file)
      else do
        -- update cache
        let t ← peekN in_path.value 0 in_path.len
        let v ← blit cache.current_path.value 0 t
        pure (false, r, d,
          { cache with current_path :=
              { value := v, len := in_path.len, type := k.SC_PATH_TYPE_DF_NAME } }, file)
      : Exec (Bool × Int × Driver × Cache × Option sc_file))
  if ret then pure (r, d, cache, none) else
  if file_out then
    match file with
    | none => Exec.fault Fault.outOfBounds
    | some file => do
      -- AID
      let t ← peekN in_path.value 0 in_path.len
      let name ← blit file.name 0 t
      let file := { file with type := k.SC_FILE_TYPE_DF,
                              ef_structure := k.SC_FILE_EF_UNKNOWN,
                              path := { file.path with len := 0 }, size := 0, name := name,
                              namelen := in_path.len, id := 0x0000 }
      pure (r, d, cache, some file)
  else pure (r, d, cache, none)

/-- The loop of line 1207 of `epass2003_select_path`, from index `i` on. -/
def select_match_loop : Nat → Cache → List Nat → Nat → Int → Exec Int
  | 0, _, _, _, _ => Exec.fault Fault.fuel
  | fuel + 1, cache, path, i, bMatch =>
    if i < cache.current_path.len then do
      let a ← peek cache.current_path.value i
      let b ← peek path i
      let hit ← (if a = b then do
          let a1 ← peek cache.current_path.value (i + 1)
          let b1 ← peek path (i + 1)
          pure (decide (a1 = b1))
        else pure false : Exec Bool)
      select_match_loop fuel cache path (i + 2) (if hit then bMatch + 2 else bMatch)
    else pure bMatch

/-- The loop of line 1263 of `epass2003_select_path`, from index `i` on: the
return value that ends the function early, or 0, with the driver state and the
cache. -/
def select_walk_loop (k : Lib) (h : Host) (c : Crypto) (path : List Nat) (pathlen : Nat) :
    Nat → Driver → Cache → Nat → Exec (Int × Driver × Cache)
  | 0, _, _, _ => Exec.fault Fault.fuel
  | fuel + 1, d, cache, i =>
    if i < (pathlen + (SIZE_MOD - 2)) % SIZE_MOD then do
      let hi ← peek path i
      let lo ← peek path (i + 1)
      let (r, d, cache, _) ← epass2003_select_fid k h c d cache hi lo false
      if SC_TEST_RET r then pure (r, d, cache)
      else select_walk_loop k h c path pathlen fuel d cache (i + 2)
    else pure (0, d, cache)

/-- The dispatch of `epass2003_select_file(card, in_path, file_out)` on the type
of the path, given the function to call for `SC_PATH_TYPE_PATH`. -/
def select_file_with (k : Lib) (h : Host) (c : Crypto)
    (select_path : Driver → Cache → List Nat → Nat → Bool →
      Exec (Int × Driver × Cache × Option sc_file))
    (d : Driver) (cache : Cache) (in_path : sc_path) (file_out : Bool) :
    Exec (Int × Driver × Cache × Option sc_file) := do
  if in_path.type = k.SC_PATH_TYPE_FILE_ID then
    if in_path.len ≠ 2 then pure (SC_ERROR_INVALID_ARGUMENTS, d, cache, none)
    else do
      let hi ← peek in_path.value 0
      let lo ← peek in_path.value 1
      epass2003_select_fid k h c d cache hi lo file_out
  else if in_path.type = k.SC_PATH_TYPE_DF_NAME then
    epass2003_select_aid k d cache in_path file_out
  else if in_path.type = k.SC_PATH_TYPE_PATH then
    select_path d cache in_path.value in_path.len file_out
  else pure (SC_ERROR_INVALID_ARGUMENTS, d, cache, none)

/-- `epass2003_select_path(card, pathbuf, len, file_out)`, with a bound on the
depth of the calls through `epass2003_select_file`: returns the return value,
the driver state, the cache and `*file_out`.  `n_pathbuf` is the local array,
`pathlen` a `size_t` and `bMatch` an `int`. -/
def epass2003_select_path (k : Lib) (h : Host) (c : Crypto) :
    Nat → Driver → Cache → List Nat → Nat → Bool →
      Exec (Int × Driver × Cache × Option sc_file)
  | 0, _, _, _, _, _ => Exec.fault Fault.fuel
  | fuel + 1, d, cache, pathbuf, len, file_out => do
    let n_pathbuf := zeros SC_MAX_PATH_SIZE
    let path := pathbuf
    let pathlen := len
    let bMatch : Int := -1
    if pathlen % 2 ≠ 0 ∨ pathlen > 6 ∨ pathlen ≤ 0 then
      pure (SC_ERROR_INVALID_ARGUMENTS, d, cache, none)
    else do
    -- if pathlen == 6 then the first FID must be MF (== 3F00)
    let p0 ← peek path 0
    let p1 ← peek path 1
    if pathlen = 6 ∧ (p0 ≠ 0x3f ∨ p1 ≠ 0x00) then
      pure (SC_ERROR_INVALID_ARGUMENTS, d, cache, none)
    else do
    -- unify path (the first FID should be MF)
    let (path, pathlen) ← (if p0 ≠ 0x3f ∨ p1 ≠ 0x00 then do
        let n ← poke n_pathbuf 0 0x3f
        let n ← poke n 1 0x00
        let t ← peekN pathbuf 0 pathlen
        let n ← blit n 2 t
        pure (n, pathlen + 2)
      else pure (path, pathlen) : Exec (List Nat × Nat))
    -- check current working directory
    let bMatch ← (if cache.valid ≠ 0 ∧ cache.current_path.type = k.SC_PATH_TYPE_PATH ∧
        cache.current_path.len ≥ 2 ∧ cache.current_path.len ≤ pathlen then
        select_match_loop (cache.current_path.len + 1) cache path 0 0
      else pure bMatch : Exec Int)
    if cache.valid ≠ 0 ∧ bMatch > 2 then
      if (pathlen + (SIZE_MOD - bMatch.toNat)) % SIZE_MOD = 2 then do
        -- we are in the rigth directory
        let hi ← peek path bMatch.toNat
        let lo ← peek path (bMatch.toNat + 1)
        epass2003_select_fid k h c d cache hi lo file_out
      else if (pathlen + (SIZE_MOD - bMatch.toNat)) % SIZE_MOD > 2 then do
        -- two more steps to go; first step: change directory
        let hi ← peek path bMatch.toNat
        let lo ← peek path (bMatch.toNat + 1)
        let (r, d, cache, _) ← epass2003_select_fid k h c d cache hi lo false
        if SC_TEST_RET r then pure (r, d, cache, none) else do
        let new_len := (pathlen + (SIZE_MOD - bMatch.toNat) + (SIZE_MOD - 2)) % SIZE_MOD
        let t ← peekN path (bMatch.toNat + 2) new_len
        let v ← blit (zeros SC_MAX_PATH_SIZE) 0 t
        let new_path : sc_path := { value := v, len := new_len, type := k.SC_PATH_TYPE_PATH }
        -- final step: select file
        select_file_with k h c (epass2003_select_path k h c fuel) d cache new_path file_out
      else do
        -- done: we are already in the requested directory
        if file_out then do
          let file := sc_file_new k
          let a ← peek path ((pathlen + (SIZE_MOD - 2)) % SIZE_MOD)
          let b ← peek path ((pathlen + (SIZE_MOD - 1)) % SIZE_MOD)
          let file := { file with id := (a <<< 8) + b, path := cache.current_path,
                                  type := k.SC_FILE_TYPE_DF,
                                  ef_structure := k.SC_FILE_EF_UNKNOWN, size := 0,
                                  namelen := 0, magic := k.SC_FILE_MAGIC }
          pure (SC_SUCCESS, d, cache, some file)
        else pure (SC_SUCCESS, d, cache, none)
    else do
      -- no usable cache
      let (r, d, cache) ← select_walk_loop k h c path pathlen (pathlen + 1) d cache 0
      if SC_TEST_RET r then pure (r, d, cache, none) else do
      let hi ← peek path ((pathlen + (SIZE_MOD - 2)) % SIZE_MOD)
      let lo ← peek path ((pathlen + (SIZE_MOD - 1)) % SIZE_MOD)
      epass2003_select_fid k h c d cache hi lo file_out

/-- `epass2003_select_file(card, in_path, file_out)`, with the same bound. -/
def epass2003_select_file (k : Lib) (h : Host) (c : Crypto) (fuel : Nat) (d : Driver)
    (cache : Cache) (in_path : sc_path) (file_out : Bool) :
    Exec (Int × Driver × Cache × Option sc_file) :=
  select_file_with k h c (epass2003_select_path k h c fuel) d cache in_path file_out

/-! ## Closed forms and sample inputs for the file and key operations -/

/-- The APDU that `epass2003_delete_file` hands to the transport for the two
bytes at the end of the hooked path. -/
def deleteApdu (d : Driver) (hi lo : Nat) : sc_apdu :=
  { sc_format_apdu d SC_APDU_CASE_3_SHORT 0xE4 0x00 0x00 with
    lc := 2, datalen := 2, data := [u8 hi, u8 lo] }

/-- A stand-in for SHA-1: the input cut or zero-padded to 20 bytes. -/
def sampleDigest : Digest := { sha1 := fun x => (x ++ zeros 20).take 20 }

/-- Sample values for the constants of the headers, and library calls that
succeed without doing anything (`iso_ops->select_file` is not supported). -/
def sampleLib : Lib :=
  { SC_PATH_TYPE_FILE_ID := 0, SC_PATH_TYPE_DF_NAME := 1, SC_PATH_TYPE_PATH := 2,
    SC_FILE_TYPE_DF := 0x04, SC_FILE_TYPE_WORKING_EF := 0x01, SC_FILE_TYPE_INTERNAL_EF := 0x03,
    SC_FILE_TYPE_BSO := 0x10,
    SC_FILE_EF_UNKNOWN := 0x00, SC_FILE_EF_TRANSPARENT := 0x01, SC_FILE_EF_LINEAR_FIXED := 0x02,
    SC_FILE_EF_LINEAR_VARIABLE := 0x04,
    SC_CARDCTL_OBERTHUR_KEY_RSA_CRT := 0xA3, SC_CARDCTL_OBERTHUR_KEY_RSA_PUBLIC := 0xA1,
    SC_FILE_STATUS_CREATION := 0x02, SC_FILE_STATUS_ACTIVATED := 0x00,
    SC_FILE_STATUS_INVALIDATED := 0x01, SC_FILE_MAGIC := 0x14426950,
    SC_AC_OP_LIST_FILES := 6, SC_AC_OP_CREATE := 3, SC_AC_OP_DELETE := 2, SC_AC_OP_READ := 22,
    SC_AC_OP_UPDATE := 23, SC_AC_OP_WRITE := 24, SC_AC_OP_CRYPTO := 7,
    SC_AC_NONE := 0, SC_AC_NEVER := 0xFFFFFFFF,
    EPASS2003_AC_MAC_NOLESS := 0x80, EPASS2003_AC_EVERYONE := 0x00, EPASS2003_AC_USER := 0x06,
    EPASS2003_AC_SO := 0x08, EPASS2003_AC_NOONE := 0x0F,
    ENTERSAFE_USER_PIN_ID := 0x01, ENTERSAFE_SO_PIN_ID := 0x02,
    SC_SEC_OPERATION_DECIPHER := 1, SC_SEC_OPERATION_SIGN := 2, SC_APDU_CASE_1 := 0x01,
    sc_lock := 0,
    sc_select_file := fun d _ => (0, d),
    iso_select_file := fun d _ _ => (SC_ERROR_NOT_SUPPORTED, d, none) }

/-- The path `3F 00 29 03` of a private key file. -/
def pathKey3 : sc_path := { value := [0x3F, 0x00, 0x29, 0x03] ++ zeros 12, len := 4, type := 2 }

/-- A linear-variable working EF `20 01` whose four operations are free. -/
def fileLinearVar : sc_file :=
  { sc_file_new sampleLib with
    type := 0x01, ef_structure := 0x04, id := 0x2001, size := 0x40,
    acl := [(22, 0), (23, 0), (24, 0), (2, 0)] }

/-- A transparent working EF `20 02` of 0x0123 bytes whose three operations are
free. -/
def fileTransparent : sc_file :=
  { sc_file_new sampleLib with
    type := 0x01, ef_structure := 0x01, id := 0x2002, size := 0x0123,
    acl := [(22, 0), (23, 0), (2, 0)] }

/-- A DF `50 00` with a name of four bytes, as `sc_file_new` and the
assignments of type, id and name leave it: no ACL entry, no security
attributes. -/
def fileBareDF : sc_file :=
  { sc_file_new sampleLib with
    type := 0x04, id := 0x5000,
    name := [0x65, 0x50, 0x32, 0x4B] ++ zeros 12, namelen := 4 }

/-- The FCI bytes that `epass2003_construct_fci` stores in a cleared buffer of
64 bytes for the file, behind the two bytes of the header, and the file that
`epass2003_process_fci` makes of them, starting from a new file object. -/
def fciRoundTrip (k : Lib) (file : sc_file) : Option (Int × Int × sc_file) :=
  match epass2003_construct_fci k file (zeros 64) 64 with
  | Exec.ok (r, out, outlen) =>
    match epass2003_process_fci k (sc_file_new k) (out.drop 2) (outlen - 2) with
    | Exec.ok (r2, f) => some (r, r2, f)
    | Exec.fault _ => none
  | Exec.fault _ => none

/-! ## The blocks of `epass2003_construct_fci` and the objects they store -/

/-- Lines 1575-1581 of `epass2003_construct_fci`: the file size of a
transparent working EF.  `buf` is the local array, `out` the output buffer and
`p` the offset of the pointer `p`. -/
def fci_put_size (k : Lib) (file : sc_file) (outlen : Nat) (buf out : List Nat) (p : Nat) :
    Exec (List Nat × List Nat × Nat) :=
  if file.type = k.SC_FILE_TYPE_WORKING_EF ∧
      file.ef_structure = k.SC_FILE_EF_TRANSPARENT then do
    let buf ← poke buf 0 ((file.size >>> 8) &&& 0xFF)
    let buf ← poke buf 1 (file.size &&& 0xFF)
    let (_, out, p) ← sc_asn1_put_tag 0x80 buf 2 out p ((outlen + (SIZE_MOD - p)) % SIZE_MOD)
    pure (buf, out, p)
  else pure (buf, out, p)

/-- Lines 1582-1625 of `epass2003_construct_fci`: the descriptor; the first
component is the return value that ends the function, or 0. -/
def fci_put_descriptor (k : Lib) (file : sc_file) (outlen : Nat) (buf out : List Nat) (p : Nat) :
    Exec (Int × List Nat × List Nat × Nat) :=
  if file.type = k.SC_FILE_TYPE_DF then do
    let buf ← poke buf 0 0x38
    let buf ← poke buf 1 0x00
    let (_, out, p) ← sc_asn1_put_tag 0x82 buf 2 out p ((outlen + (SIZE_MOD - p)) % SIZE_MOD)
    pure (0, buf, out, p)
  else if file.type = k.SC_FILE_TYPE_WORKING_EF then do
    let buf ← poke buf 0 (file.ef_structure &&& 7)
    if file.ef_structure = k.SC_FILE_EF_TRANSPARENT then do
      let buf ← poke buf 1 0x00
      let (_, out, p) ← sc_asn1_put_tag 0x82 buf 2 out p ((outlen + (SIZE_MOD - p)) % SIZE_MOD)
      pure (0, buf, out, p)
    else if file.ef_structure = k.SC_FILE_EF_LINEAR_FIXED ∨
        file.ef_structure = k.SC_FILE_EF_LINEAR_VARIABLE then do
      let buf ← poke buf 1 0x00
      let buf ← poke buf 2 0x00
      -- record length
      let buf ← poke buf 3 0x40
      -- record count
      let buf ← poke buf 4 0x00
      let (_, out, p) ← sc_asn1_put_tag 0x82 buf 5 out p ((outlen + (SIZE_MOD - p)) % SIZE_MOD)
      pure (0, buf, out, p)
    else pure (SC_ERROR_NOT_SUPPORTED, buf, out, p)
  else if file.type = k.SC_FILE_TYPE_INTERNAL_EF then do
    if file.ef_structure = k.SC_CARDCTL_OBERTHUR_KEY_RSA_CRT then do
      let buf ← poke buf 0 0x11
      let buf ← poke buf 1 0x00
      let (_, out, p) ← sc_asn1_put_tag 0x82 buf 2 out p ((outlen + (SIZE_MOD - p)) % SIZE_MOD)
      pure (0, buf, out, p)
    else if file.ef_structure = k.SC_CARDCTL_OBERTHUR_KEY_RSA_PUBLIC then do
      let buf ← poke buf 0 0x12
      let buf ← poke buf 1 0x00
      let (_, out, p) ← sc_asn1_put_tag 0x82 buf 2 out p ((outlen + (SIZE_MOD - p)) % SIZE_MOD)
      pure (0, buf, out, p)
    else pure (SC_ERROR_NOT_SUPPORTED, buf, out, p)
  else if file.type = k.SC_FILE_TYPE_BSO then do
    let buf ← poke buf 0 0x10
    let buf ← poke buf 1 0x00
    let (_, out, p) ← sc_asn1_put_tag 0x82 buf 2 out p ((outlen + (SIZE_MOD - p)) % SIZE_MOD)
    pure (0, buf, out, p)
  else pure (0, buf, out, p)

/-- Line 1632 of `epass2003_construct_fci`: the name of a DF, when it has one. -/
def fci_put_name (k : Lib) (file : sc_file) (outlen : Nat) (out : List Nat) (p : Nat) :
    Exec (List Nat × Nat) :=
  if file.type = k.SC_FILE_TYPE_DF then do
    let (_, out, p) ← sc_asn1_put_tag 0x84 file.name file.namelen out p
      ((outlen + (SIZE_MOD - p)) % SIZE_MOD)
    pure (out, p)
  else pure (out, p)

/-- Lines 1638-1655 of `epass2003_construct_fci`: the proprietary attributes. -/
def fci_put_prop (k : Lib) (file : sc_file) (outlen : Nat) (buf out : List Nat) (p : Nat) :
    Exec (List Nat × List Nat × Nat) :=
  if file.type = k.SC_FILE_TYPE_DF then do
    -- 127 files at most
    let (_, out, p) ← sc_asn1_put_tag 0x85 [0x00, 0x7f, 0x00] 2 out p
      ((outlen + (SIZE_MOD - p)) % SIZE_MOD)
    pure (buf, out, p)
  else if file.type = k.SC_FILE_TYPE_BSO then do
    let buf ← poke buf 0 (file.size &&& 0xff)
    let (_, out, p) ← sc_asn1_put_tag 0x85 buf 1 out p ((outlen + (SIZE_MOD - p)) % SIZE_MOD)
    pure (buf, out, p)
  else if file.type = k.SC_FILE_TYPE_INTERNAL_EF then do
    if file.ef_structure = k.SC_CARDCTL_OBERTHUR_KEY_RSA_CRT ∨
        file.ef_structure = k.SC_CARDCTL_OBERTHUR_KEY_RSA_PUBLIC then do
      let buf ← poke buf 0 ((file.size >>> 8) &&& 0xFF)
      let buf ← poke buf 1 (file.size &&& 0xFF)
      let (_, out, p) ← sc_asn1_put_tag 0x85 buf 2 out p ((outlen + (SIZE_MOD - p)) % SIZE_MOD)
      pure (buf, out, p)
    else pure (buf, out, p)
  else pure (buf, out, p)

/-- Lines 1656-1724 of `epass2003_construct_fci`: the security attributes, or
the access bytes made of the ACL; the first component is the return value that
ends the function, or 0. -/
def fci_put_sec (k : Lib) (file : sc_file) (outlen : Nat) (buf out : List Nat) (p : Nat) :
    Exec (Int × List Nat × Nat) :=
  if file.sec_attr_len ≠ 0 then do
    let t ← peekN file.sec_attr 0 file.sec_attr_len
    let buf ← blit buf 0 t
    let (_, out, p) ← sc_asn1_put_tag 0x86 buf file.sec_attr_len out p
      ((outlen + (SIZE_MOD - p)) % SIZE_MOD)
    pure (0, out, p)
  else
    match construct_ops k file with
    | none => pure (SC_ERROR_NOT_SUPPORTED, out, p)
    | some ops => do
      let (rv, buf) ← construct_acl_loop k file ops 0 buf
      if SC_TEST_RET rv then pure (rv, out, p)
      else do
        let (_, out, p) ← sc_asn1_put_tag 0x86 buf 8 out p ((outlen + (SIZE_MOD - p)) % SIZE_MOD)
        pure (0, out, p)

/-- Lines 1726-1729 of `epass2003_construct_fci`: the object `87 02 00 66`. -/
def fci_put_public (k : Lib) (file : sc_file) (outlen : Nat) (out : List Nat) (p : Nat) :
    Exec (List Nat × Nat) :=
  if file.ef_structure = k.SC_CARDCTL_OBERTHUR_KEY_RSA_PUBLIC then do
    let (_, out, p) ← sc_asn1_put_tag 0x87 [0x00, 0x66, 0x00] 2 out p
      ((outlen + (SIZE_MOD - p)) % SIZE_MOD)
    pure (out, p)
  else pure (out, p)

/-- The function `epass2003_construct_fci` as the sequence of its blocks. -/
def construct_fci_blocks (k : Lib) (file : sc_file) (out : List Nat) (outlen : Nat) :
    Exec (Int × List Nat × Nat) := do
  if outlen < 2 then pure (SC_ERROR_BUFFER_TOO_SMALL, out, outlen) else do
  let out ← poke out 0 0x62
  let (buf, out, p) ← fci_put_size k file outlen (zeros 64) out 2
  let (ret, buf, out, p) ← fci_put_descriptor k file outlen buf out p
  if ret ≠ 0 then pure (ret, out, outlen) else do
  let buf ← poke buf 0 ((file.id >>> 8) &&& 0xFF)
  let buf ← poke buf 1 (file.id &&& 0xFF)
  let (_, out, p) ← sc_asn1_put_tag 0x83 buf 2 out p ((outlen + (SIZE_MOD - p)) % SIZE_MOD)
  if file.type = k.SC_FILE_TYPE_DF ∧ ¬ (file.namelen ≠ 0) then
    pure (SC_ERROR_INVALID_ARGUMENTS, out, outlen)
  else do
  let (out, p) ← fci_put_name k file outlen out p
  let (buf, out, p) ← fci_put_prop k file outlen buf out p
  let (ret, out, p) ← fci_put_sec k file outlen buf out p
  if ret ≠ 0 then pure (ret, out, outlen) else do
  let (out, p) ← fci_put_public k file outlen out p
  let out ← poke out 1 ((p + (SIZE_MOD - 2)) % SIZE_MOD)
  pure (0, out, p)

/-- The bytes of a sequence of objects `tag, length, value` with one-byte tags
and lengths. -/
def tlvBytes : List (Nat × List Nat) → List Nat
  | [] => []
  | tv :: l => tv.1 :: tv.2.length :: (tv.2 ++ tlvBytes l)

/-- The output buffer of `epass2003_construct_fci` after the objects `L` have
been stored behind the two bytes of the header; `b1` is the second byte. -/
def fciOut (b1 : Nat) (out : List Nat) (L : List (Nat × List Nat)) : List Nat :=
  (0x62 :: b1 :: tlvBytes L) ++ out.drop (2 + (tlvBytes L).length)

/-- The offset of the pointer `p` of `epass2003_construct_fci` behind the
objects `L`. -/
def fciPos (L : List (Nat × List Nat)) : Nat := 2 + (tlvBytes L).length

/-- The object stored by `fci_put_size`. -/
def fciSizeObj (k : Lib) (file : sc_file) : List (Nat × List Nat) :=
  if file.type = k.SC_FILE_TYPE_WORKING_EF ∧ file.ef_structure = k.SC_FILE_EF_TRANSPARENT then
    [(0x80, [u8 ((file.size >>> 8) &&& 0xFF), u8 (file.size &&& 0xFF)])]
  else []

/-- The object stored by `fci_put_descriptor` where it does not end the
function. -/
def fciDescriptorObj (k : Lib) (file : sc_file) : List (Nat × List Nat) :=
  if file.type = k.SC_FILE_TYPE_DF then [(0x82, [0x38, 0x00])]
  else if file.type = k.SC_FILE_TYPE_WORKING_EF then
    if file.ef_structure = k.SC_FILE_EF_TRANSPARENT then
      [(0x82, [u8 (file.ef_structure &&& 7), 0x00])]
    else [(0x82, [u8 (file.ef_structure &&& 7), 0x00, 0x00, 0x40, 0x00])]
  else if file.type = k.SC_FILE_TYPE_INTERNAL_EF then
    if file.ef_structure = k.SC_CARDCTL_OBERTHUR_KEY_RSA_CRT then [(0x82, [0x11, 0x00])]
    else [(0x82, [0x12, 0x00])]
  else if file.type = k.SC_FILE_TYPE_BSO then [(0x82, [0x10, 0x00])]
  else []

/-- The object with the file identifier. -/
def fciIdObj (file : sc_file) : List (Nat × List Nat) :=
  [(0x83, [u8 ((file.id >>> 8) &&& 0xFF), u8 (file.id &&& 0xFF)])]

/-- The object stored by `fci_put_name`. -/
def fciNameObj (k : Lib) (file : sc_file) : List (Nat × List Nat) :=
  if file.type = k.SC_FILE_TYPE_DF then [(0x84, file.name.take file.namelen)] else []

/-- The object stored by `fci_put_prop`. -/
def fciPropObj (k : Lib) (file : sc_file) : List (Nat × List Nat) :=
  if file.type = k.SC_FILE_TYPE_DF then [(0x85, [0x00, 0x7f])]
  else if file.type = k.SC_FILE_TYPE_BSO then [(0x85, [u8 (file.size &&& 0xff)])]
  else if file.type = k.SC_FILE_TYPE_INTERNAL_EF then
    if file.ef_structure = k.SC_CARDCTL_OBERTHUR_KEY_RSA_CRT ∨
        file.ef_structure = k.SC_CARDCTL_OBERTHUR_KEY_RSA_PUBLIC then
      [(0x85, [u8 ((file.size >>> 8) &&& 0xFF), u8 (file.size &&& 0xFF)])]
    else []
  else []

/-- The byte that `construct_acl_loop` stores for the entry `op` of `ops` when
the file has an ACL entry for it. -/
def acByte (k : Lib) (file : sc_file) (op : Nat) : Nat :=
  if op = 0xFF then 0xFF else u8 (acl_to_ac_byte k (sc_file_get_acl_entry file op)).toNat

/-- The eight access bytes made of the ACL. -/
def fciAcBytes (k : Lib) (file : sc_file) : List Nat :=
  match construct_ops k file with
  | some ops => ops.map (acByte k file)
  | none => []

/-- The object stored by `fci_put_sec` where it does not end the function. -/
def fciSecObj (k : Lib) (file : sc_file) : List (Nat × List Nat) :=
  if file.sec_attr_len ≠ 0 then [(0x86, file.sec_attr.take file.sec_attr_len)]
  else [(0x86, fciAcBytes k file)]

/-- The object stored by `fci_put_public`. -/
def fciPublicObj (k : Lib) (file : sc_file) : List (Nat × List Nat) :=
  if file.ef_structure = k.SC_CARDCTL_OBERTHUR_KEY_RSA_PUBLIC then [(0x87, [0x00, 0x66])] else []

/-- The objects of the FCI that `epass2003_construct_fci` builds for a file, in
the order in which it stores them. -/
def fciObjects (k : Lib) (file : sc_file) : List (Nat × List Nat) :=
  fciSizeObj k file ++ fciDescriptorObj k file ++ fciIdObj file ++ fciNameObj k file ++
    fciPropObj k file ++ fciSecObj k file ++ fciPublicObj k file

/-- What the theorems about the FCI use of the header constants, which are not
part of the source file: the four file types differ, and the three structures
of a working EF have a bit among their low three bits.  (The headers of
libopensc define the types as 4, 1, 3, 0x10 and the structures as 1, 2, 4.) -/
structure Lib.FileKinds (k : Lib) : Prop where
  df_ef : k.SC_FILE_TYPE_DF ≠ k.SC_FILE_TYPE_WORKING_EF
  df_int : k.SC_FILE_TYPE_DF ≠ k.SC_FILE_TYPE_INTERNAL_EF
  df_bso : k.SC_FILE_TYPE_DF ≠ k.SC_FILE_TYPE_BSO
  ef_int : k.SC_FILE_TYPE_WORKING_EF ≠ k.SC_FILE_TYPE_INTERNAL_EF
  ef_bso : k.SC_FILE_TYPE_WORKING_EF ≠ k.SC_FILE_TYPE_BSO
  int_bso : k.SC_FILE_TYPE_INTERNAL_EF ≠ k.SC_FILE_TYPE_BSO
  transparent : 1 ≤ k.SC_FILE_EF_TRANSPARENT &&& 7
  linear_fixed : 1 ≤ k.SC_FILE_EF_LINEAR_FIXED &&& 7
  linear_variable : 1 ≤ k.SC_FILE_EF_LINEAR_VARIABLE &&& 7

/-- The kinds of file that `epass2003_construct_fci` supports: a DF with a name
of 1 to 16 bytes, a transparent, linear-fixed or linear-variable working EF, a
BSO, an RSA-CRT or RSA-public internal EF. -/
def SupportedKind (k : Lib) (file : sc_file) : Prop :=
  (file.type = k.SC_FILE_TYPE_DF ∧ 1 ≤ file.namelen ∧ file.namelen ≤ 16 ∧
    file.namelen ≤ file.name.length) ∨
  (file.type = k.SC_FILE_TYPE_WORKING_EF ∧
    (file.ef_structure = k.SC_FILE_EF_TRANSPARENT ∨
     file.ef_structure = k.SC_FILE_EF_LINEAR_FIXED ∨
     file.ef_structure = k.SC_FILE_EF_LINEAR_VARIABLE)) ∨
  file.type = k.SC_FILE_TYPE_BSO ∨
  (file.type = k.SC_FILE_TYPE_INTERNAL_EF ∧
    (file.ef_structure = k.SC_CARDCTL_OBERTHUR_KEY_RSA_CRT ∨
     file.ef_structure = k.SC_CARDCTL_OBERTHUR_KEY_RSA_PUBLIC))

instance (k : Lib) (file : sc_file) : Decidable (SupportedKind k file) := by
  unfold SupportedKind
  infer_instance

/-- The file has an ACL entry for every operation that
`epass2003_construct_fci` looks up for its kind. -/
def aclComplete (k : Lib) (file : sc_file) : Bool :=
  match construct_ops k file with
  | some ops => ops.all (fun op => decide (op = 0xFF) || (sc_file_get_acl_entry file op).isSome)
  | none => true

/-- The security attributes of the file fit the local array `buf[64]` of
`epass2003_construct_fci`, or there are none and the ACL is complete. -/
def SecurityGiven (k : Lib) (file : sc_file) : Prop :=
  (file.sec_attr_len ≠ 0 ∧ file.sec_attr_len ≤ 64 ∧ file.sec_attr_len ≤ file.sec_attr.length) ∨
  (file.sec_attr_len = 0 ∧ aclComplete k file = true)

instance (k : Lib) (file : sc_file) : Decidable (SecurityGiven k file) := by
  unfold SecurityGiven
  infer_instance

/-! ## The blocks of `epass2003_process_fci` -/

/-- Lines 1439-1444 of `epass2003_process_fci`: the file identifier. -/
def fci_read_id (file : sc_file) (buf : List Nat) (buflen : Nat) : sc_file :=
  match sc_asn1_find_tag buf buflen 0x83 with
  | some [t0, t1] => { file with id := (t0 <<< 8) ||| t1 }
  | _ => file

/-- Lines 1445-1460 of `epass2003_process_fci`: the size. -/
def fci_read_size (file : sc_file) (buf : List Nat) (buflen : Nat) : sc_file :=
  let tag := sc_asn1_find_tag buf buflen 0x80
  let file :=
    match tag with
    | some [t0] => { file with size := t0 }
    | some [t0, t1] => { file with size := (t0 <<< 8) + t1 }
    | _ => file
  match tag with
  | none =>
    match sc_asn1_find_tag buf buflen 0x81 with
    | some (t0 :: t1 :: _) => { file with size := (t0 <<< 8) + t1 }
    | _ => file
  | some _ => file

/-- Lines 1461-1519 of `epass2003_process_fci`: the descriptor. -/
def fci_read_type (k : Lib) (file : sc_file) (buf : List Nat) (buflen : Nat) : sc_file :=
  match sc_asn1_find_tag buf buflen 0x82 with
  | some (byte :: _) => process_descriptor k file byte
  | _ => file

/-- Lines 1520-1531 of `epass2003_process_fci`: the name. -/
def fci_read_name (k : Lib) (file : sc_file) (buf : List Nat) (buflen : Nat) : Exec sc_file :=
  match sc_asn1_find_tag buf buflen 0x84 with
  | some tag =>
    if 0 < tag.length ∧ tag.length ≤ 16 then do
      let name ← blit file.name 0 tag
      let file := { file with name := name, namelen := tag.length }
      pure (if file.type = 0 then { file with type := k.SC_FILE_TYPE_DF } else file)
    else pure file
  | none => pure file

/-- Lines 1532-1558 of `epass2003_process_fci`: the proprietary and the
security attributes, the status and the magic number. -/
def fci_read_attrs (k : Lib) (file : sc_file) (buf : List Nat) (buflen : Nat) : sc_file :=
  let file :=
    match sc_asn1_find_tag buf buflen 0x85 with
    | some (t :: ts) => sc_file_set_prop_attr file (t :: ts)
    | _ => { file with prop_attr_len := 0 }
  let file :=
    match sc_asn1_find_tag buf buflen 0xA5 with
    | some (t :: ts) => sc_file_set_prop_attr file (t :: ts)
    | _ => file
  let file :=
    match sc_asn1_find_tag buf buflen 0x86 with
    | some (t :: ts) => sc_file_set_sec_attr file (t :: ts)
    | _ => file
  let file :=
    match sc_asn1_find_tag buf buflen 0x8A with
    | some [t0] =>
      if t0 = 0x01 then { file with status := k.SC_FILE_STATUS_CREATION }
      else if t0 = 0x07 ∨ t0 = 0x05 then { file with status := k.SC_FILE_STATUS_ACTIVATED }
      else if t0 = 0x06 ∨ t0 = 0x04 then { file with status := k.SC_FILE_STATUS_INVALIDATED }
      else file
    | _ => file
  { file with magic := k.SC_FILE_MAGIC }

/-- The function `epass2003_process_fci` as the sequence of its blocks. -/
def process_fci_blocks (k : Lib) (file : sc_file) (buf : List Nat) (buflen : Nat) :
    Exec (Int × sc_file) := do
  let file := fci_read_id file buf buflen
  let file := fci_read_size file buf buflen
  let file := fci_read_type k file buf buflen
  let file ← fci_read_name k file buf buflen
  let file := fci_read_attrs k file buf buflen
  pure (0, file)

/-- The transparent file `fileTransparent` with security attributes of 65
bytes. -/
def fileLongSec : sc_file := { fileTransparent with sec_attr := zeros 65, sec_attr_len := 65 }

/-! ## Selecting by path: the walk and its closed form -/

/-- The statements of `epass2003_select_path` that run when the cache is not
usable (lines 1263-1269): one `epass2003_select_fid` per pair of the path
before the last, and the last one with `file_out`. -/
def select_path_walk (k : Lib) (h : Host) (c : Crypto) (d : Driver) (cache : Cache)
    (path : List Nat) (pathlen : Nat) (file_out : Bool) :
    Exec (Int × Driver × Cache × Option sc_file) := do
  let (r, d, cache) ← select_walk_loop k h c path pathlen (pathlen + 1) d cache 0
  if SC_TEST_RET r then pure (r, d, cache, none) else do
  let hi ← peek path ((pathlen + (SIZE_MOD - 2)) % SIZE_MOD)
  let lo ← peek path ((pathlen + (SIZE_MOD - 1)) % SIZE_MOD)
  epass2003_select_fid k h c d cache hi lo file_out

/-- The pairs of bytes of a path. -/
def fidPairs : List Nat → List (Nat × Nat)
  | a :: b :: t => (a, b) :: fidPairs t
  | _ => []

/-- The MF-rooted path of the first `len` bytes of `pathbuf`: `3F 00` is put in
front when the path does not start with it. -/
def mfRooted (pathbuf : List Nat) (len : Nat) : List Nat :=
  if pathbuf.take 2 = [0x3F, 0x00] then pathbuf.take len else [0x3F, 0x00] ++ pathbuf.take len

/-- One `epass2003_select_fid` per pair, in order: every call but the last is
made without `file_out` and a negative return value ends the walk; the last
call is made with `file_out`. -/
def selectSteps (k : Lib) (h : Host) (c : Crypto) :
    List (Nat × Nat) → Driver → Cache → Bool → Exec (Int × Driver × Cache × Option sc_file)
  | [], d, cache, _ => pure (SC_SUCCESS, d, cache, none)
  | [p], d, cache, file_out => epass2003_select_fid k h c d cache p.1 p.2 file_out
  | p :: q :: rest, d, cache, file_out => do
    let (r, d, cache, _) ← epass2003_select_fid k h c d cache p.1 p.2 false
    if SC_TEST_RET r then pure (r, d, cache, none)
    else selectSteps k h c (q :: rest) d cache file_out

/-- A card that answers every SELECT with the FCI `6F 08 82 02 38 00 83 02 3F 00`
of a DF and the status `90 00`. -/
def dfCard (_ : List sc_apdu) (_ : sc_apdu) : Reply :=
  { r := 0, data := [0x6F, 0x08, 0x82, 0x02, 0x38, 0x00, 0x83, 0x02, 0x3F, 0x00],
    sw1 := 0x90, sw2 := 0x00 }

/-- A host around `dfCard`. -/
def dfHost : Host :=
  { sc_check_sw := checkSw9000, card := dfCard, sm_apdu := smBlank,
    SC_MAX_APDU_BUFFER_SIZE := 261, rsa_flags := 0, caps := 0 }

/-- The relative path `50 00 30 03`. -/
def pathRelative : List Nat := [0x50, 0x00, 0x30, 0x03] ++ zeros 12

/-! ## The expected response length (lines 574-599) -/

/-- `calc_le(le)`, with the comparisons in the order and the direction of the
source; every variable is a `size_t`. -/
def calc_le (le : Nat) : Nat :=
  let sw_len := 4
  let mac_len := 10
  let mod := 16
  -- padding first
  let resp_len := (1 + (((le + (mod - 1)) % SIZE_MOD / mod) * mod) % SIZE_MOD) % SIZE_MOD
  let resp_len :=
    if 0x7f < resp_len then (resp_len + 0) % SIZE_MOD
    else if 0x7f ≤ resp_len ∧ resp_len < 0xff then (resp_len + 1) % SIZE_MOD
    else if 0xff ≤ resp_len then (resp_len + 2) % SIZE_MOD
    else resp_len
  -- +T+L
  let resp_len := (resp_len + 2) % SIZE_MOD
  (resp_len + sw_len + mac_len) % SIZE_MOD

/-! ## The block size of `encode_apdu`, chosen the other way round -/

/-- The function `encode_apdu` with the local `block_size` chosen as the rest of
the driver chooses its block size, `KEY_TYPE_AES == g_smtype ? 16 : 8`, instead
of `KEY_TYPE_DES == g_smtype ? 16 : 8`; it is compared with `encode_apdu`. -/
def encode_apdu_aes16 (c : Crypto) (s : Session) (plain sm : sc_apdu)
    (apdu_buf : List Nat) (apdu_buf_len : Nat) : Exec EncodeOut :=
  encode_apdu_with (if KEY_TYPE_AES = s.g_smtype then 16 else 8) c s plain sm apdu_buf apdu_buf_len

/-- The body of `epass2003_sm_wrap_apdu` for a given `encode_apdu`. -/
def sm_wrap_apdu_with
    (encode : Crypto → Session → sc_apdu → sc_apdu → List Nat → Nat → Exec EncodeOut)
    (c : Crypto) (s : Session) (plain sm : sc_apdu) : Exec WrapOut := do
  let buf := zeros 4096
  let buf_len := 4096
  let plain := if s.g_sm ≠ 0 then { plain with cla := u8 (plain.cla ||| 0x0C) } else plain
  let sm := { sm with cse := plain.cse, cla := plain.cla, ins := plain.ins, p1 := plain.p1,
                      p2 := plain.p2, lc := plain.lc, le := plain.le,
                      control := plain.control, flags := plain.flags }
  if sm.cla &&& 0x0C = 0x00 ∨ sm.cla &&& 0x0C = 0x04 then
    pure { ret := SC_SUCCESS, plain := plain,
           sm := { sm with datalen := plain.datalen, data := plain.data,
                           resplen := plain.resplen, resp := plain.resp },
           session := s, enc := none }
  else if sm.cla &&& 0x0C = 0x0C then do
    let buf ← memset buf 0 0 4096
    let e ← encode c s plain sm buf buf_len
    if e.ret ≠ 0 then
      pure { ret := SC_ERROR_CARD_CMD_FAILED, plain := plain, sm := e.sm,
             session := e.session, enc := some e }
    else
      pure { ret := SC_SUCCESS, plain := plain, sm := e.sm, session := e.session, enc := some e }
  else
    pure { ret := SC_ERROR_INCORRECT_PARAMETERS, plain := plain, sm := sm, session := s,
           enc := none }

/-! ## Sample responses with short bodies -/

/-- An SM response with status `90 00` whose body is `87 01 01 99 02 90 00 8E 08
<mac8>`: a `0x87` TLV with declared length 1, that is with no cipher bytes. -/
def smLenOne : sc_apdu :=
  { smBlank with
    resp := [0x87, 0x01, 0x01, 0x99, 0x02, 0x90, 0x00, 0x8E, 0x08, 1, 2, 3, 4, 5, 6, 7, 8] ++
      zeros 239,
    resplen := 17, sw1 := 0x90, sw2 := 0x00 }

/-- An SM response with status `90 00` whose body is `87 00 01 99 02 90 00 8E 08
<mac8>`: a `0x87` TLV with declared length 0. -/
def smLenZero : sc_apdu :=
  { smBlank with
    resp := [0x87, 0x00, 0x01, 0x99, 0x02, 0x90, 0x00, 0x8E, 0x08, 1, 2, 3, 4, 5, 6, 7, 8] ++
      zeros 239,
    resplen := 17, sw1 := 0x90, sw2 := 0x00 }

/-- A plaintext body that is padding only: `80 00 .. 00`. -/
def paddingBody : List Nat := [0x80] ++ zeros 15

/-- An SM response with status `90 00` whose body is `87 11 01 <cipher16> 99 02 90
00 8E 08 <mac8>`, the cipher being that of `paddingBody` under the stand-in
cipher. -/
def smOnlyPad : sc_apdu :=
  { smBlank with
    resp := [0x87, 0x11, 0x01] ++ paddingBody.reverse ++
      [0x99, 0x02, 0x90, 0x00, 0x8E, 0x08, 1, 2, 3, 4, 5, 6, 7, 8] ++ zeros 223,
    resplen := 33, sw1 := 0x90, sw2 := 0x00 }

/-! ## Sample file objects -/

/-- A file object for the key file `29 03`, its path being its identifier. -/
def fileKey3 : sc_file :=
  { sc_file_new sampleLib with
    id := 0x2903
    path := { value := [0x29, 0x03] ++ zeros 14, len := 2, type := 0 } }

/-- A file object for a file `29 08`, its path being its identifier. -/
def fileKey8 : sc_file :=
  { sc_file_new sampleLib with
    id := 0x2908
    path := { value := [0x29, 0x08] ++ zeros 14, len := 2, type := 0 } }

/-! ## The synthetic FCI of a key file -/

/-- The objects of the synthetic FCI of `epass2003_select_fid_` (line 1043)
when the low byte `b` of the file identifier has been stored in it. -/
def fakeFciObjects (b : Nat) : List (Nat × List Nat) :=
  [(0x82, [0x11, 0x00]), (0x83, [0x29, b]), (0x85, [0x08, 0x00]),
   (0x86, [0xff, 0x90, 0x90, 0x90, 0xff, 0xff, 0xff, 0xff])]

/-- The synthetic FCI
`6f 16 82 02 11 00 83 02 29 b 85 02 08 00 86 08 ff 90 90 90 ff ff ff ff`. -/
def fakeFci (b : Nat) : List Nat := 0x6f :: 0x16 :: tlvBytes (fakeFciObjects b)

/-- The APDU of `epass2003_select_fid_` for the file identifier `29 b`, as it
stands when the synthetic FCI and the status `90 00` have been stored in it. -/
def fakeSelectApdu (h : Host) (d : Driver) (b : Nat) : sc_apdu :=
  { cse := SC_APDU_CASE_4_SHORT, cla := d.cla, ins := 0xA4, p1 := 0, p2 := 0, lc := 2, le := 0,
    data := [0x29, b] ++ zeros 14, datalen := 2,
    resp := fakeFci b ++ zeros (h.SC_MAX_APDU_BUFFER_SIZE - 0x18), resplen := 0x18,
    control := 0, flags := 0, sw1 := 0x90, sw2 := 0x00 }

/-- The file object that the synthetic FCI leads to when the file identifier
comes out as `29 q`, for a path whose bytes behind the identifier are `rest`. -/
def fakeKeyFile (k : Lib) (q : Nat) (rest : List Nat) : sc_file :=
  { sc_file_new k with
    path := { value := 0x29 :: q :: rest, len := 2, type := k.SC_PATH_TYPE_FILE_ID }
    id := 0x2900 + q
    type := k.SC_FILE_TYPE_INTERNAL_EF
    prop_attr := [0x08, 0x00]
    prop_attr_len := 2
    sec_attr := [0xff, 0x90, 0x90, 0x90, 0xff, 0xff, 0xff, 0xff]
    sec_attr_len := 8 }

/-- The file object that `epass2003_process_fci` makes of the synthetic FCI with
the low byte `b`, before it is unhooked. -/
def fakeFciFile (k : Lib) (b : Nat) (rest : List Nat) : sc_file :=
  { sc_file_new k with
    path := { value := 0x29 :: b :: rest, len := 2, type := k.SC_PATH_TYPE_FILE_ID }
    id := (0x29 <<< 8) ||| b
    type := k.SC_FILE_TYPE_INTERNAL_EF
    prop_attr := [0x08, 0x00]
    prop_attr_len := 2
    sec_attr := [0xff, 0x90, 0x90, 0x90, 0xff, 0xff, 0xff, 0xff]
    sec_attr_len := 8 }

/-! ## Selecting by path with the cache of the current directory -/

/-- The statements of `epass2003_select_path` from the check of the current
working directory on (lines 1200-1269), for the unified path `path` of length
`pathlen`; `select_path` is the function that the call of
`epass2003_select_file` of line 1233 reaches for a path. -/
def select_path_cached (k : Lib) (h : Host) (c : Crypto)
    (select_path : Driver → Cache → List Nat → Nat → Bool →
      Exec (Int × Driver × Cache × Option sc_file))
    (d : Driver) (cache : Cache) (path : List Nat) (pathlen : Nat) (file_out : Bool) :
    Exec (Int × Driver × Cache × Option sc_file) := do
  let bMatch : Int := -1
  -- check current working directory
  let bMatch ← (if cache.valid ≠ 0 ∧ cache.current_path.type = k.SC_PATH_TYPE_PATH ∧
      cache.current_path.len ≥ 2 ∧ cache.current_path.len ≤ pathlen then
      select_match_loop (cache.current_path.len + 1) cache path 0 0
    else pure bMatch : Exec Int)
  if cache.valid ≠ 0 ∧ bMatch > 2 then
    if (pathlen + (SIZE_MOD - bMatch.toNat)) % SIZE_MOD = 2 then do
      -- we are in the rigth directory
      let hi ← peek path bMatch.toNat
      let lo ← peek path (bMatch.toNat + 1)
      epass2003_select_fid k h c d cache hi lo file_out
    else if (pathlen + (SIZE_MOD - bMatch.toNat)) % SIZE_MOD > 2 then do
      -- two more steps to go; first step: change directory
      let hi ← peek path bMatch.toNat
      let lo ← peek path (bMatch.toNat + 1)
      let (r, d, cache, _) ← epass2003_select_fid k h c d cache hi lo false
      if SC_TEST_RET r then pure (r, d, cache, none) else do
      let new_len := (pathlen + (SIZE_MOD - bMatch.toNat) + (SIZE_MOD - 2)) % SIZE_MOD
      let t ← peekN path (bMatch.toNat + 2) new_len
      let v ← blit (zeros SC_MAX_PATH_SIZE) 0 t
      let new_path : sc_path := { value := v, len := new_len, type := k.SC_PATH_TYPE_PATH }
      -- final step: select file
      select_file_with k h c select_path d cache new_path file_out
    else do
      -- done: we are already in the requested directory
      if file_out then do
        let file := sc_file_new k
        let a ← peek path ((pathlen + (SIZE_MOD - 2)) % SIZE_MOD)
        let b ← peek path ((pathlen + (SIZE_MOD - 1)) % SIZE_MOD)
        let file := { file with id := (a <<< 8) + b, path := cache.current_path,
                                type := k.SC_FILE_TYPE_DF,
                                ef_structure := k.SC_FILE_EF_UNKNOWN, size := 0,
                                namelen := 0, magic := k.SC_FILE_MAGIC }
        pure (SC_SUCCESS, d, cache, some file)
      else pure (SC_SUCCESS, d, cache, none)
  else do
    -- no usable cache
    let (r, d, cache) ← select_walk_loop k h c path pathlen (pathlen + 1) d cache 0
    if SC_TEST_RET r then pure (r, d, cache, none) else do
    let hi ← peek path ((pathlen + (SIZE_MOD - 2)) % SIZE_MOD)
    let lo ← peek path ((pathlen + (SIZE_MOD - 1)) % SIZE_MOD)
    epass2003_select_fid k h c d cache hi lo file_out

/-- The file object that `epass2003_select_path` hands back when the cached
directory is the one asked for (lines 1243-1254); `a`, `b` are the last two
bytes of the path. -/
def cacheHitFile (k : Lib) (cache : Cache) (a b : Nat) : sc_file :=
  { sc_file_new k with
    id := (a <<< 8) + b
    path := cache.current_path
    type := k.SC_FILE_TYPE_DF
    ef_structure := k.SC_FILE_EF_UNKNOWN
    size := 0
    namelen := 0
    magic := k.SC_FILE_MAGIC }

/-- What `epass2003_select_path` does below a cached directory `3F 00 hi lo`
that starts the unified path `P`: nothing when `P` ends there, and otherwise one
`epass2003_select_fid` per remaining pair. -/
def belowCached (k : Lib) (h : Host) (c : Crypto) (d : Driver) (cache : Cache) (P : List Nat)
    (file_out : Bool) : Exec (Int × Driver × Cache × Option sc_file) :=
  match P.drop 2 with
  | [a, b] =>
    pure (SC_SUCCESS, d, cache, if file_out then some (cacheHitFile k cache a b) else none)
  | _ => selectSteps k h c (fidPairs (P.drop 4)) d cache file_out

/-- A cache that holds the directory `3F 00 50 00`. -/
def cacheDF5000 : Cache :=
  { valid := 1,
    current_path := { value := [0x3F, 0x00, 0x50, 0x00] ++ zeros 12, len := 4, type := 2 } }

/-- A cache that holds a path of three file identifiers, `3F 00 50 00 60 00`. -/
def cacheDeep : Cache :=
  { valid := 1,
    current_path := { value := [0x3F, 0x00, 0x50, 0x00, 0x60, 0x00] ++ zeros 10, len := 6,
                      type := 2 } }

/-- The path `3F 00 50 01 60 00`. -/
def pathSibling : List Nat := [0x3F, 0x00, 0x50, 0x01, 0x60, 0x00] ++ zeros 10

/-! ## PIN commands (lines 62-63, 2082-2205) -/

/-- The macro `HASH_LEN`. -/
def HASH_LEN : Nat := 24

/-- The macro `MAX_PIN_COUNTER`. -/
def MAX_PIN_COUNTER : Nat := 0x03

/-- The parts of libopensc that the PIN commands use and that are not part of
the source file, as parameters: the values of the constants `SC_PIN_CMD_*` and
`SC_PIN_ENCODING_ASCII`, and `sc_get_challenge(card, rnd, len)`, a function from
the driver state and the length asked for to the return value, the driver state
behind the exchange and the bytes stored at `rnd`. -/
structure PinLib where
  SC_PIN_CMD_VERIFY : Nat
  SC_PIN_CMD_CHANGE : Nat
  SC_PIN_CMD_UNBLOCK : Nat
  SC_PIN_CMD_GET_INFO : Nat
  SC_PIN_CMD_NEED_PADDING : Nat
  SC_PIN_ENCODING_ASCII : Nat
  sc_get_challenge : Driver → Nat → Int × Driver × List Nat

/-- The fields of `struct sc_pin_cmd_pin` the driver touches; `data` is `none`
for the null pointer. -/
structure sc_pin_cmd_pin where
  data : Option (List Nat)
  len : Nat
  encoding : Nat
  min_length : Nat
  max_length : Nat
  pad_length : Nat
  offset : Nat
  pad_char : Nat
  max_tries : Nat
  tries_left : Nat
  deriving DecidableEq, Repr

/-- The fields of `struct sc_pin_cmd_data` the driver touches. -/
structure sc_pin_cmd_data where
  cmd : Nat
  flags : Nat
  pin_reference : Nat
  pin1 : sc_pin_cmd_pin
  pin2 : sc_pin_cmd_pin
  deriving DecidableEq, Repr

/-- `internal_sanitize_pin_info(pin, num)`. -/
def internal_sanitize_pin_info (q : PinLib) (pin : sc_pin_cmd_pin) (num : Nat) :
    sc_pin_cmd_pin :=
  { pin with encoding := q.SC_PIN_ENCODING_ASCII, min_length := 4, max_length := 16,
             pad_length := 16, offset := 5 + num * 16, pad_char := 0x00 }

/-- `get_external_key_retries(card, kid, retries)`: returns the return value,
the driver state and `*retries` (`none` for a null pointer).  The parameter
`kid` is an `unsigned char`; `random` and `resp` are the local arrays. -/
def get_external_key_retries (q : PinLib) (h : Host) (c : Crypto) (d : Driver) (kid : Nat)
    (retries : Option Nat) : Exec (Int × Driver × Option Nat) := do
  let kid := u8 kid
  let random := zeros 16
  let resp := zeros h.SC_MAX_APDU_BUFFER_SIZE
  let resplen := h.SC_MAX_APDU_BUFFER_SIZE
  let (r, d, rnd) := q.sc_get_challenge d 8
  let _ ← blit random 0 (rnd.take 8)
  if SC_TEST_RET r then pure (r, d, retries) else do
  let apdu := sc_format_apdu d SC_APDU_CASE_2_SHORT 0x82 0x01 (0x80 ||| kid)
  let apdu := { apdu with resp := resp, resplen := resplen }
  let (r, d, apdu) ← sc_transmit_apdu h c d apdu
  if SC_TEST_RET r then pure (r, d, retries) else
  if retries.isSome ∧ (0x63 = apdu.sw1 &&& 0xff ∧ 0xC0 = apdu.sw2 &&& 0xf0) then
    pure (SC_SUCCESS, d, some (u8 (apdu.sw2 &&& 0x0f)))
  else
    if SC_TEST_RET r then pure (r, d, retries) else
    pure (r, d, retries)

/-- `external_key_auth(card, kid, data, datalen)`.  The parameter `kid` is an
`unsigned char`; `random`, `tmp_data`, `hash` and `iv` are the local arrays. -/
def external_key_auth (q : PinLib) (g : Digest) (h : Host) (c : Crypto) (d : Driver)
    (kid : Nat) (data : Option (List Nat)) (datalen : Nat) : Exec (Int × Driver) := do
  let kid := u8 kid
  let random := zeros 16
  let tmp_data := zeros 16
  let hash := zeros HASH_LEN
  let iv := zeros 16
  let (r, d, rnd) := q.sc_get_challenge d 8
  let random ← blit random 0 (rnd.take 8)
  if SC_TEST_RET r then pure (r, d) else do
  let (r, hash) ← hash_data g data datalen (some hash)
  if SC_TEST_RET r then pure (r, d) else
  match hash with
  | none => Exec.fault Fault.outOfBounds
  | some hash => do
    let input ← peekN random 0 8
    let tmp_data ← blit tmp_data 0 (des3_encrypt_cbc c hash HASH_LEN iv input)
    let apdu := sc_format_apdu d SC_APDU_CASE_3_SHORT 0x82 0x01 (0x80 ||| kid)
    let apdu := { apdu with lc := 8, datalen := 8, data := tmp_data }
    let (r, d, apdu) ← sc_transmit_apdu h c d apdu
    if SC_TEST_RET r then pure (r, d) else
    let r := h.sc_check_sw apdu.sw1 apdu.sw2
    if SC_TEST_RET r then pure (r, d) else
    pure (r, d)

/-- `update_secret_key(card, ktype, kid, data, datalen)`.  The parameters `ktype`
and `kid` are `unsigned char`; `hash` and `tmp_data` are the local arrays. -/
def update_secret_key (g : Digest) (h : Host) (c : Crypto) (d : Driver) (ktype kid : Nat)
    (data : Option (List Nat)) (datalen : Nat) : Exec (Int × Driver) := do
  let ktype := u8 ktype
  let kid := u8 kid
  let hash := zeros HASH_LEN
  let tmp_data := zeros 256
  let (r, hash) ← hash_data g data datalen (some hash)
  if SC_TEST_RET r then pure (r, d) else
  match hash with
  | none => Exec.fault Fault.outOfBounds
  | some hash => do
    let tmp_data ← poke tmp_data 0 ((MAX_PIN_COUNTER <<< 4) ||| MAX_PIN_COUNTER)
    let t ← peekN hash 0 HASH_LEN
    let tmp_data ← blit tmp_data 1 t
    let apdu := sc_format_apdu d SC_APDU_CASE_3_SHORT 0xe5 ktype kid
    let apdu := { apdu with cla := 0x80, lc := 1 + HASH_LEN, datalen := 1 + HASH_LEN,
                            data := tmp_data }
    let (r, d, apdu) ← sc_transmit_apdu h c d apdu
    if SC_TEST_RET r then pure (r, d) else
    let r := h.sc_check_sw apdu.sw1 apdu.sw2
    if SC_TEST_RET r then pure (r, d) else
    pure (r, d)

/-- `epass2003_pin_cmd(card, data, tries_left)`: returns the return value, the
driver state and the object behind `data`; `*tries_left` is not written.  The
local `kid` is an `u8`. -/
def epass2003_pin_cmd (q : PinLib) (g : Digest) (h : Host) (c : Crypto) (d : Driver)
    (data : sc_pin_cmd_data) : Exec (Int × Driver × sc_pin_cmd_data) := do
  let data := { data with pin1 := internal_sanitize_pin_info q data.pin1 0 }
  let data := { data with pin2 := internal_sanitize_pin_info q data.pin2 1 }
  let data := { data with flags := data.flags ||| q.SC_PIN_CMD_NEED_PADDING }
  let kid := u8 data.pin_reference
  -- get pin retries
  if data.cmd = q.SC_PIN_CMD_GET_INFO then do
    let retries := 0
    let (r, d, retries) ← get_external_key_retries q h c d (0x80 ||| kid) (some retries)
    if r = SC_SUCCESS then
      pure (r, d, { data with pin1 := { data.pin1 with max_tries := MAX_PIN_COUNTER,
                                                       tries_left := retries.getD 0 } })
    else pure (r, d, data)
  else do
  -- verify
  let (r, d) ← (if data.cmd = q.SC_PIN_CMD_UNBLOCK then
      external_key_auth q g h c d (kid + 1) data.pin1.data data.pin1.len
    else external_key_auth q g h c d kid data.pin1.data data.pin1.len : Exec (Int × Driver))
  if SC_TEST_RET r then pure (r, d, data) else
  if data.cmd = q.SC_PIN_CMD_CHANGE ∨ data.cmd = q.SC_PIN_CMD_UNBLOCK then do
    -- change
    let (r, d) ← update_secret_key g h c d 0x04 kid data.pin2.data data.pin2.len
    if SC_TEST_RET r then pure (r, d, data) else
    pure (r, d, data)
  else pure (r, d, data)

/-! ## The PIN commands in closed form, and samples -/

/-- The command of `get_external_key_retries` for the key `kid` (an `unsigned
char`). -/
def retriesApdu (h : Host) (d : Driver) (kid : Nat) : sc_apdu :=
  { cse := SC_APDU_CASE_2_SHORT, cla := d.cla, ins := 0x82, p1 := 0x01, p2 := 0x80 ||| kid,
    lc := 0, le := 0, data := [], datalen := 0, resp := zeros h.SC_MAX_APDU_BUFFER_SIZE,
    resplen := h.SC_MAX_APDU_BUFFER_SIZE, control := 0, flags := 0, sw1 := 0, sw2 := 0 }

/-- A card that answers every command with the status `sw1 sw2` and no data. -/
def statusCard (sw1 sw2 : Nat) (_ : List sc_apdu) (_ : sc_apdu) : Reply :=
  { r := 0, data := [], sw1 := sw1, sw2 := sw2 }

/-- A host around `statusCard`. -/
def statusHost (sw1 sw2 : Nat) : Host :=
  { sc_check_sw := checkSw9000, card := statusCard sw1 sw2, sm_apdu := smBlank,
    SC_MAX_APDU_BUFFER_SIZE := 261, rsa_flags := 0, caps := 0 }

/-- Values for the constants of the PIN commands, with a challenge function that
hands out the card random of scenario S1 and leaves the driver state alone. -/
def samplePinLib : PinLib :=
  { SC_PIN_CMD_VERIFY := 0, SC_PIN_CMD_CHANGE := 1, SC_PIN_CMD_UNBLOCK := 2,
    SC_PIN_CMD_GET_INFO := 3, SC_PIN_CMD_NEED_PADDING := 2, SC_PIN_ENCODING_ASCII := 0,
    sc_get_challenge := fun d n => (0, d, cardRandom.take n) }

/-- A PIN object holding `data`. -/
def pinOf (data : List Nat) : sc_pin_cmd_pin :=
  { data := some data, len := data.length, encoding := 0, min_length := 0, max_length := 0,
    pad_length := 0, offset := 0, pad_char := 0, max_tries := 0, tries_left := 0 }

/-- A request with the command `cmd` for the key 1, the PIN `1234` and the new
PIN `5678`. -/
def pinRequest (cmd : Nat) : sc_pin_cmd_data :=
  { cmd := cmd, flags := 0, pin_reference := 1, pin1 := pinOf [0x31, 0x32, 0x33, 0x34],
    pin2 := pinOf [0x35, 0x36, 0x37, 0x38] }

theorem Exec.pure_def {α : Type} (a : α) : (pure a : Exec α) = Exec.ok a := rfl

@[simp] theorem Exec.ok_bind {α β : Type} (a : α) (f : α → Exec β) :
    (Exec.ok a >>= f) = f a := rfl

@[simp] theorem Exec.fault_bind {α β : Type} (e : Fault) (f : α → Exec β) :
    (Exec.fault e >>= f) = Exec.fault e := rfl

theorem Exec.bind_eq_ok {α β : Type} (x : Exec α) (f : α → Exec β) (r : β) :
    (x >>= f) = Exec.ok r ↔ ∃ a, x = Exec.ok a ∧ f a = Exec.ok r := by
  cases x with
  | ok a => simp
  | fault e => simp

@[simp] theorem zeros_length (n : Nat) : (zeros n).length = n := by simp [zeros]

theorem zeros_append (a b : Nat) : zeros a ++ zeros b = zeros (a + b) := by
  simp [zeros]

theorem zeros_drop (a n : Nat) : (zeros n).drop a = zeros (n - a) := by
  simp [zeros]

theorem zeros_take (a n : Nat) (h : a ≤ n) : (zeros n).take a = zeros a := by
  simp [zeros, List.take_replicate, Nat.min_eq_left h]

/-- Every buffer with room for `n` bytes at offset `o` splits there. -/
theorem exists_split3 (b : List Nat) (o n : Nat) (h : o + n ≤ b.length) :
    ∃ p m z, b = p ++ m ++ z ∧ p.length = o ∧ m.length = n := by
  refine ⟨b.take o, (b.drop o).take n, b.drop (o + n), ?_, ?_, ?_⟩
  · rw [List.append_assoc, ← List.drop_drop, List.take_append_drop, List.take_append_drop]
  · simp; omega
  · simp; omega

theorem splice_mid (p m z x : List Nat) (h : m.length = x.length) :
    splice (p ++ m ++ z) p.length x = p ++ x ++ z := by
  simp [splice, List.take_append_eq_append_take, List.drop_append_eq_append_drop, ← h]

theorem splice_length (dst : List Nat) (off : Nat) (src : List Nat)
    (h : off + src.length ≤ dst.length) : (splice dst off src).length = dst.length := by
  simp [splice]; omega

theorem blit_ok (dst : List Nat) (off : Nat) (src : List Nat)
    (h : off + src.length ≤ dst.length) : blit dst off src = Exec.ok (splice dst off src) := by
  simp [blit, h]

theorem blit_eq_ok (dst : List Nat) (off : Nat) (src r : List Nat) :
    blit dst off src = Exec.ok r ↔ off + src.length ≤ dst.length ∧ r = splice dst off src := by
  unfold blit
  split <;> simp_all [eq_comm]

theorem peekN_ok (src : List Nat) (off n : Nat) (h : off + n ≤ src.length) :
    peekN src off n = Exec.ok ((src.drop off).take n) := by
  simp [peekN, h]

theorem peekN_eq_ok (src : List Nat) (off n : Nat) (r : List Nat) :
    peekN src off n = Exec.ok r ↔ off + n ≤ src.length ∧ r = (src.drop off).take n := by
  unfold peekN
  split <;> simp_all [eq_comm]

theorem peek_eq_ok (buf : List Nat) (i b : Nat) :
    peek buf i = Exec.ok b ↔ buf[i]? = some b := by
  unfold peek
  cases h : buf[i]? <;> simp

/-- Every buffer with at least `n` bytes splits after them. -/
theorem exists_split2 (b : List Nat) (n : Nat) (h : n ≤ b.length) :
    ∃ m z, b = m ++ z ∧ m.length = n :=
  ⟨b.take n, b.drop n, (List.take_append_drop n b).symm, by simp [h]⟩

/-- Two stores at adjacent offsets are one store of the concatenation. -/
theorem splice_splice (b : List Nat) (o : Nat) (x y : List Nat)
    (h : o + x.length + y.length ≤ b.length) :
    splice (splice b o x) (o + x.length) y = splice b o (x ++ y) := by
  obtain ⟨p, m, z, rfl, rfl, hm⟩ := exists_split3 b o x.length (by omega)
  obtain ⟨m2, z2, rfl, hm2⟩ := exists_split2 z y.length (by simp at h; omega)
  have e1 := splice_mid p m (m2 ++ z2) x hm
  have e2 := splice_mid (p ++ x) m2 z2 y hm2
  have e3 := splice_mid p (m ++ m2) z2 (x ++ y) (by simp [hm, hm2])
  simp only [List.append_assoc, List.length_append] at e1 e2 e3 ⊢
  rw [e1, e2, e3]

/-- Reading back inside a region that has just been stored. -/
theorem slice_splice (b : List Nat) (o : Nat) (x : List Nat) (k n : Nat)
    (ho : o + x.length ≤ b.length) (h : k + n ≤ x.length) :
    ((splice b o x).drop (o + k)).take n = (x.drop k).take n := by
  obtain ⟨p, m, z, rfl, rfl, hm⟩ := exists_split3 b o x.length ho
  rw [splice_mid p m z x hm]
  obtain ⟨x1, x2, x3, rfl, h1, h2⟩ := exists_split3 x k n h
  subst h1 h2
  simp [List.drop_append_eq_append_drop, List.take_append_eq_append_take]

/-- A store right behind a known prefix of a buffer. -/
theorem splice_at_end (p z x : List Nat) :
    splice (p ++ z) p.length x = p ++ x ++ z.drop x.length := by
  simp [splice]

theorem take_splice (b : List Nat) (o : Nat) (x : List Nat) (ho : o + x.length ≤ b.length) :
    (splice b o x).take (o + x.length) = b.take o ++ x := by
  obtain ⟨p, m, z, rfl, rfl, hm⟩ := exists_split3 b o x.length ho
  rw [splice_mid p m z x hm]
  simp [List.take_append_eq_append_take]

theorem drop_splice (b : List Nat) (o : Nat) (x : List Nat) (ho : o + x.length ≤ b.length) :
    (splice b o x).drop (o + x.length) = b.drop (o + x.length) := by
  obtain ⟨p, m, z, rfl, rfl, hm⟩ := exists_split3 b o x.length ho
  rw [splice_mid p m z x hm]
  simp [List.drop_append_eq_append_drop, ← hm]
/-! ## The MAC counter -/

theorem beVal_append_singleton (l : List Nat) (b : Nat) :
    beVal (l ++ [b]) = beVal l * 256 + b := by
  simp [beVal, List.foldl_append]

theorem size_dec (i : Nat) (h0 : 0 < i) (h : i < SIZE_MOD) :
    (i + (SIZE_MOD - 1)) % SIZE_MOD = i - 1 := by
  unfold SIZE_MOD at *
  omega

/-- The counter loop started at the last byte of `p ++ [b]` adds one to the
big-endian number held there, provided that number is not the largest one;
the bytes `z` behind it are left alone. -/
theorem increase_icv_loop_split : ∀ (n : Nat) (p : List Nat) (b : Nat) (z : List Nat)
    (fuel : Nat), p.length = n → n < fuel → n < SIZE_MOD → (∀ x ∈ p, x < 256) → b < 256 →
    beVal (p ++ [b]) + 1 < 256 ^ (n + 1) →
    ∃ r, r.length = n + 1 ∧ increase_icv_loop fuel n (p ++ b :: z) = Exec.ok (r ++ z) ∧
      beVal r = beVal (p ++ [b]) + 1 ∧ ∀ x ∈ r, x < 256 := by
  intro n
  induction n with
  | zero =>
    intro p b z fuel hp hfuel _ _ hb hv
    obtain ⟨f, rfl⟩ : ∃ f, fuel = f + 1 := ⟨fuel - 1, by omega⟩
    have hp0 : p = [] := List.length_eq_zero.mp hp
    subst hp0
    simp [beVal] at hv
    have hne : b ≠ 255 := by omega
    refine ⟨[b + 1], rfl, ?_, ?_, ?_⟩
    · have hu : u8 (b + 1) = b + 1 := by unfold u8; omega
      simp [increase_icv_loop, hne, hu]
    · simp [beVal]
    · intro x hx
      simp at hx
      omega
  | succ n ih =>
    intro p b z fuel hp hfuel hsz hpb hb hv
    obtain ⟨f, rfl⟩ : ∃ f, fuel = f + 1 := ⟨fuel - 1, by omega⟩
    have hget : (p ++ b :: z)[n + 1]? = some b := by
      rw [← hp, List.getElem?_append_right (Nat.le_refl _)]; simp
    have hpow : (256 : Nat) ^ (n + 1 + 1) = 256 ^ (n + 1) * 256 := by ring
    rw [beVal_append_singleton, hpow] at hv
    by_cases hff : b = 255
    · -- the byte wraps to 0 and the carry goes to the byte before it
      rcases List.eq_nil_or_concat p with h0 | ⟨q, a, hqa⟩
      · subst h0; simp at hp
      rw [List.concat_eq_append] at hqa
      subst hqa
      subst hff
      have hq : q.length = n := by simpa using hp
      have hset : (q ++ [a] ++ 255 :: z).set (n + 1) 0 = q ++ a :: (0 :: z) := by
        rw [← hp]; simp
      have ha : a < 256 := hpb a (by simp)
      have hqb : ∀ x ∈ q, x < 256 := fun x hx => hpb x (by simp [hx])
      have hv1 : beVal (q ++ [a]) + 1 < 256 ^ (n + 1) := by
        omega
      obtain ⟨r, hrl, hr, hrv, hrb⟩ := ih q a (0 :: z) f hq (by omega) (by omega) hqb ha hv1
      refine ⟨r ++ [0], by simp [hrl], ?_, ?_, ?_⟩
      · simp only [increase_icv_loop, hget, if_true]
        rw [size_dec (n + 1) (by omega) hsz, hset]
        simpa using hr
      · rw [beVal_append_singleton, beVal_append_singleton (q ++ [a]) 255, hrv]
        omega
      · intro x hx
        rcases List.mem_append.mp hx with h | h
        · exact hrb x h
        · simp at h; omega
    · have hu : u8 (b + 1) = b + 1 := by unfold u8; omega
      have hset : (p ++ b :: z).set (n + 1) (b + 1) = p ++ (b + 1) :: z := by
        rw [← hp]; simp
      refine ⟨p ++ [b + 1], by simp [hp], ?_, ?_, ?_⟩
      · simp [increase_icv_loop, hget, hff, hu, hset]
      · rw [beVal_append_singleton, beVal_append_singleton]
        omega
      · intro x hx
        rcases List.mem_append.mp hx with h | h
        · exact hpb x h
        · simp at h; omega

/-- Width of the counter in either mode. -/
theorem icvWidth_cases (key_type : Nat) :
    (key_type = KEY_TYPE_AES ∧ icvWidth key_type = 16) ∨
    (key_type ≠ KEY_TYPE_AES ∧ icvWidth key_type = 8) := by
  unfold icvWidth
  by_cases h : KEY_TYPE_AES = key_type
  · left; simp [h]
  · right; exact ⟨fun e => h e.symm, by simp [h]⟩

/-- The increment of `construct_mac_tlv` on a counter that is not at its
largest value: the counted bytes hold the old number plus one, the other bytes
are unchanged. -/
theorem increase_icv_spec (key_type : Nat) (icv : List Nat) (hlen : icv.length = 16)
    (hb : ∀ x ∈ icv, x < 256)
    (hv : beVal (icv.take (icvWidth key_type)) + 1 < 256 ^ icvWidth key_type) :
    ∃ r, increase_icv key_type icv = Exec.ok r ∧ r.length = 16 ∧
      beVal (r.take (icvWidth key_type)) = beVal (icv.take (icvWidth key_type)) + 1 ∧
      r.drop (icvWidth key_type) = icv.drop (icvWidth key_type) ∧ ∀ x ∈ r, x < 256 := by
  have hw : ∃ n, icvWidth key_type = n + 1 ∧ n < 16 ∧
      (if KEY_TYPE_AES = key_type then 15 else 7) = n := by
    unfold icvWidth
    by_cases h : KEY_TYPE_AES = key_type
    · exact ⟨15, by simp [h]⟩
    · exact ⟨7, by simp [h]⟩
  obtain ⟨n, hw, hn, hi⟩ := hw
  rw [hw] at hv ⊢
  obtain ⟨p, m, z, rfl, hp, hm⟩ := exists_split3 icv n 1 (by omega)
  obtain ⟨b, rfl⟩ : ∃ b, m = [b] := List.length_eq_one.mp hm
  have htake : (p ++ [b] ++ z).take (n + 1) = p ++ [b] := by
    rw [List.take_append_eq_append_take]; simp [hp]
  have hdrop : (p ++ [b] ++ z).drop (n + 1) = z := by
    rw [List.drop_append_eq_append_drop]; simp [hp]
  rw [htake] at hv
  obtain ⟨r, hrl, hr, hrv, hrb⟩ := increase_icv_loop_split n p b z 17 hp (by omega)
    (by unfold SIZE_MOD; omega) (fun x hx => hb x (by simp [hx])) (hb b (by simp)) hv
  refine ⟨r ++ z, ?_, ?_, ?_, ?_, ?_⟩
  · unfold increase_icv
    rw [hi]
    simpa using hr
  · simp at hlen ⊢; omega
  · rw [htake, List.take_append_eq_append_take]
    have : List.take (n + 1) r = r := List.take_of_length_le (by omega)
    simp [hrl, hrv, this]
  · rw [hdrop, List.drop_append_eq_append_drop]; simp [hrl]
  · intro x hx
    rcases List.mem_append.mp hx with h | h
    · exact hrb x h
    · exact hb x (by simp [h])
/-! ## Fusing consecutive buffer operations -/

theorem blit_fault (dst : List Nat) (off : Nat) (src : List Nat)
    (h : ¬ off + src.length ≤ dst.length) : blit dst off src = Exec.fault Fault.outOfBounds := by
  simp [blit, h]

/-- Two stores at adjacent offsets behave as one store, faults included. -/
theorem blit_blit {β : Type} (b : List Nat) (o k : Nat) (x y : List Nat)
    (g : List Nat → Exec β) (hk : k = o + x.length) :
    (blit b o x >>= fun b1 => blit b1 k y >>= g) = (blit b o (x ++ y) >>= g) := by
  subst hk
  by_cases h1 : o + x.length ≤ b.length
  · rw [blit_ok b o x h1, Exec.ok_bind]
    by_cases h2 : o + x.length + y.length ≤ b.length
    · rw [blit_ok _ _ _ (by rw [splice_length b o x h1]; exact h2),
        blit_ok b o (x ++ y) (by simp; omega), splice_splice b o x y h2]
    · rw [blit_fault _ _ _ (by rw [splice_length b o x h1]; exact h2),
        blit_fault b o (x ++ y) (by simp; omega)]
  · rw [blit_fault b o x h1, blit_fault b o (x ++ y) (by simp; omega)]
    rfl

/-- A read inside the region just stored returns the stored bytes. -/
theorem blit_peekN {β : Type} (b : List Nat) (o o1 n : Nat) (x : List Nat)
    (g : List Nat → List Nat → Exec β) (ho : o ≤ o1) (hn : o1 - o + n ≤ x.length) :
    (blit b o x >>= fun b1 => peekN b1 o1 n >>= g b1) =
    (blit b o x >>= fun b1 => g b1 ((x.drop (o1 - o)).take n)) := by
  by_cases h1 : o + x.length ≤ b.length
  · rw [blit_ok b o x h1, Exec.ok_bind, Exec.ok_bind,
      peekN_ok _ _ _ (by rw [splice_length b o x h1]; omega), Exec.ok_bind]
    have : o1 = o + (o1 - o) := by omega
    rw [this, slice_splice b o x (o1 - o) n h1 hn]
    congr 3
    omega
  · rw [blit_fault b o x h1]
    rfl

theorem u8_small (x : Nat) (h : x < 256) : u8 x = x := by unfold u8; omega

/-- `construct_le_tlv` stores the Le TLV in the work buffer behind the data TLV
and copies it to `le_tlv`. -/
theorem construct_le_tlv_eq (apdu : sc_apdu) (buf : List Nat) (d : Nat) (le_tlv : List Nat)
    (kt : Nat) :
    construct_le_tlv apdu buf d le_tlv kt =
      (blit buf ((if KEY_TYPE_AES = kt then 16 else 8) + d)
          (if apdu.le > 0x7F then [0x97, 2, u8 (apdu.le / 0x100), u8 (apdu.le % 0x100)]
           else [0x97, 1, u8 apdu.le]) >>= fun ab =>
        blit le_tlv 0
          (if apdu.le > 0x7F then [0x97, 2, u8 (apdu.le / 0x100), u8 (apdu.le % 0x100)]
           else [0x97, 1, u8 apdu.le]) >>= fun lt =>
        Exec.ok (ab, lt, if apdu.le > 0x7F then 4 else 3)) := by
  unfold construct_le_tlv poke
  by_cases hle : apdu.le > 0x7F
  · simp only [hle, if_true]
    rw [blit_blit _ _ _ _ _ _ (by simp), blit_blit _ _ _ _ _ _ (by simp),
      blit_blit _ _ _ _ _ _ (by simp)]
    rw [blit_peekN _ _ _ _ _ _ (Nat.le_refl _) (by simp)]
    simp [u8, Exec.pure_def]
  · simp only [hle, if_false]
    rw [blit_blit _ _ _ _ _ _ (by simp), blit_blit _ _ _ _ _ _ (by simp)]
    rw [blit_peekN _ _ _ _ _ _ (Nat.le_refl _) (by simp)]
    simp [u8, Exec.pure_def]
theorem length_splice (d : List Nat) (o : Nat) (x : List Nat) :
    (splice d o x).length = min o d.length + x.length + (d.length - (o + x.length)) := by
  simp [splice]; omega

theorem Exec.bind_assoc {α β γ : Type} (x : Exec α) (f : α → Exec β) (g : β → Exec γ) :
    (x >>= f >>= g) = (x >>= fun a => f a >>= g) := by
  cases x <;> rfl

theorem Exec.pure_bind {α β : Type} (a : α) (f : α → Exec β) : (pure a >>= f) = f a := rfl

theorem blit_bind_eq_ok {β : Type} (d : List Nat) (o : Nat) (x : List Nat)
    (f : List Nat → Exec β) (r : β) :
    (blit d o x >>= f) = Exec.ok r ↔ o + x.length ≤ d.length ∧ f (splice d o x) = Exec.ok r := by
  by_cases h : o + x.length ≤ d.length
  · rw [blit_ok d o x h]; simp [h]
  · rw [blit_fault d o x h]; simp [h]

theorem peekN_bind_eq_ok {β : Type} (d : List Nat) (o n : Nat)
    (f : List Nat → Exec β) (r : β) :
    (peekN d o n >>= f) = Exec.ok r ↔ o + n ≤ d.length ∧ f ((d.drop o).take n) = Exec.ok r := by
  by_cases h : o + n ≤ d.length
  · rw [peekN_ok d o n h]; simp [h]
  · simp [peekN, h]

theorem blockSize_cases (kt : Nat) : blockSize kt = 16 ∨ blockSize kt = 8 := by
  unfold blockSize; split <;> simp

theorem pad_len_eq (bs lc : Nat) (hbs : bs = 16 ∨ bs = 8) :
    (if (lc + 1) % bs ≠ 0 then ((lc + 1) / bs + 1) * bs else lc + 1) = padLen bs lc := by
  unfold padLen
  rcases hbs with h | h <;> subst h <;> split <;> omega

theorem padLen_gt (bs lc : Nat) (hbs : bs = 16 ∨ bs = 8) : lc < padLen bs lc := by
  unfold padLen
  rcases hbs with h | h <;> subst h <;> omega

theorem padLen_le (bs lc : Nat) (hbs : bs = 16 ∨ bs = 8) : padLen bs lc ≤ lc + bs := by
  unfold padLen
  rcases hbs with h | h <;> subst h <;> omega

theorem padLen_dvd (bs lc : Nat) : bs ∣ padLen bs lc := by
  unfold padLen; exact Dvd.intro_left _ rfl

theorem padLen_le_4096 (bs lc : Nat) (hbs : bs = 16 ∨ bs = 8) (h : lc ≤ 4095) :
    padLen bs lc ≤ 4096 := by
  unfold padLen
  rcases hbs with h | h <;> subst h <;> omega

/-- Contents of the local `pad` of `construct_data_tlv` when it is read. -/
theorem pad_contents (data : List Nat) (lc n : Nat) (h1 : lc ≤ data.length) (h2 : lc < n)
    (h3 : n ≤ 4096) :
    ((splice (splice (zeros 4096) 0 ((data.drop 0).take lc)) lc [u8 128]).drop 0).take n =
      data.take lc ++ 0x80 :: zeros (n - lc - 1) := by
  have hl : (data.take lc).length = lc := by simp [h1]
  have e1 : splice (zeros 4096) 0 (data.take lc) = data.take lc ++ zeros (4096 - lc) := by
    have := splice_at_end [] (zeros 4096) (data.take lc)
    simpa [hl, zeros_drop] using this
  have e2 : splice (data.take lc ++ zeros (4096 - lc)) lc [u8 128] =
      data.take lc ++ [128] ++ zeros (4096 - lc - 1) := by
    have := splice_at_end (data.take lc) (zeros (4096 - lc)) [u8 128]
    rw [hl] at this
    rw [this, zeros_drop]
    simp [u8]
  rw [List.drop_zero, List.drop_zero, e1, e2, List.append_assoc,
    List.take_append_eq_append_take, List.take_of_length_le (by rw [hl]; omega), hl]
  have e3 : n - lc = (n - lc - 1) + 1 := by omega
  rw [e3, List.singleton_append, List.take_succ_cons, zeros_take _ _ (by omega)]
  simp
theorem splice_splice_at (b : List Nat) (o k : Nat) (x y : List Nat) (hk : k = o + x.length)
    (h : o + x.length + y.length ≤ b.length) :
    splice (splice b o x) k y = splice b o (x ++ y) := by
  subst hk; exact splice_splice b o x y h

theorem poke_ok (buf : List Nat) (i v : Nat) (h : i + 1 ≤ buf.length) :
    poke buf i v = Exec.ok (splice buf i [u8 v]) := by
  unfold poke; exact blit_ok buf i [u8 v] (by simpa using h)

theorem lenField_length (n : Nat) : (lenField n).length = if n > 0x7E then 3 else 1 := by
  unfold lenField; split <;> simp

theorem lenField_length_le (n : Nat) : (lenField n).length ≤ 3 := by
  rw [lenField_length]; split <;> omega

theorem padded_length (bs lc : Nat) (data : List Nat) (hbs : bs = 16 ∨ bs = 8)
    (h : lc ≤ data.length) : (padded bs lc data).length = padLen bs lc := by
  unfold padded
  have := padLen_gt bs lc hbs
  simp [h]; omega

theorem encData_length (c : Crypto) (hc : c.LengthPreserving) (s : Session) (apdu : sc_apdu)
    (kt : Nat) (h : apdu.lc ≤ apdu.data.length) :
    (encData c s kt (padded (blockSize kt) apdu.lc apdu.data)).length =
      padLen (blockSize kt) apdu.lc := by
  have hl := padded_length (blockSize kt) apdu.lc apdu.data (blockSize_cases kt) h
  have hd := padLen_dvd (blockSize kt) apdu.lc
  unfold encData aes128_encrypt_cbc des3_encrypt_cbc
  by_cases hk : KEY_TYPE_AES = kt
  · have hb : blockSize kt = 16 := by unfold blockSize; rw [if_pos hk]
    rw [if_pos hk, hc.aes_enc _ _ _ (by rw [hl, ← hb]; exact hd), hl]
  · have hb : blockSize kt = 8 := by unfold blockSize; rw [if_neg hk]
    rw [if_neg hk, hc.des3_enc _ _ _ (by rw [hl, ← hb]; exact hd), hl]

theorem dataTlvBytes_length (c : Crypto) (s : Session) (apdu : sc_apdu) (kt : Nat)
    (hcl : (encData c s kt (padded (blockSize kt) apdu.lc apdu.data)).length =
      padLen (blockSize kt) apdu.lc) :
    (dataTlvBytes c s apdu kt).length =
      2 + (lenField (padLen (blockSize kt) apdu.lc)).length + padLen (blockSize kt) apdu.lc := by
  unfold dataTlvBytes
  simp only [List.length_cons, List.length_append, hcl]
  omega

/-- The block `encode Lc'` of `construct_data_tlv`. -/
theorem encode_lc_block (ab : List Nat) (bs pad_len : Nat)
    (h : bs + 2 + (lenField pad_len).length ≤ ab.length) :
    (if pad_len > 0x7E then do
      let b ← poke ab (bs + 1) 0x82
      let b ← poke b (bs + 2) ((pad_len + 1) / 0x100)
      let b ← poke b (bs + 3) ((pad_len + 1) % 0x100)
      let b ← poke b (bs + 4) 0x01
      pure (b, 5)
    else do
      let b ← poke ab (bs + 1) (u8 pad_len + 1)
      let b ← poke b (bs + 2) 0x01
      pure (b, 3) : Exec (List Nat × Nat)) =
    Exec.ok (splice ab (bs + 1) (lenField pad_len ++ [1]), 2 + (lenField pad_len).length) := by
  rw [lenField_length] at h ⊢
  unfold poke lenField
  by_cases hlong : pad_len > 0x7E
  · simp only [hlong, if_true] at h ⊢
    rw [blit_blit _ _ _ _ _ _ (by simp), blit_blit _ _ _ _ _ _ (by simp),
      blit_blit _ _ _ _ _ _ (by simp), blit_ok _ _ _ (by simp; omega)]
    simp [Exec.pure_def, u8]
  · simp only [hlong, if_false] at h ⊢
    rw [blit_blit _ _ _ _ _ _ (by simp), blit_ok _ _ _ (by simp; omega)]
    simp [Exec.pure_def, u8]

/-- With room in every buffer, `construct_data_tlv` stores the data TLV in the
work buffer behind the header block and in `data_tlv`. -/
theorem construct_data_tlv_ok (c : Crypto) (s : Session) (apdu : sc_apdu) (buf dt : List Nat)
    (kt : Nat)
    (hcl : (encData c s kt (padded (blockSize kt) apdu.lc apdu.data)).length =
      padLen (blockSize kt) apdu.lc)
    (h1 : apdu.lc ≤ apdu.data.length) (h2 : apdu.lc ≤ 4095)
    (h3 : blockSize kt + (dataTlvBytes c s apdu kt).length ≤ buf.length)
    (h4 : (dataTlvBytes c s apdu kt).length ≤ dt.length) :
    construct_data_tlv c s apdu buf dt kt =
      Exec.ok (splice buf (blockSize kt) (dataTlvBytes c s apdu kt),
        splice dt 0 (dataTlvBytes c s apdu kt), (dataTlvBytes c s apdu kt).length) := by
  have hlen := dataTlvBytes_length c s apdu kt hcl
  rw [hlen] at h3 h4 ⊢
  unfold construct_data_tlv dataTlvBytes
  simp only []
  have hbs := blockSize_cases kt
  rw [pad_len_eq _ _ (by unfold blockSize at hbs; exact hbs)]
  generalize hc : encData c s kt (padded (blockSize kt) apdu.lc apdu.data) = cipher at hcl ⊢
  unfold encData padded at hc
  have hbs2 : (if KEY_TYPE_AES = kt then 16 else 8) = blockSize kt := rfl
  simp only [hbs2] at hc ⊢
  generalize blockSize kt = bs at *
  generalize hpl : padLen bs apdu.lc = pad_len at *
  have hgt : apdu.lc < pad_len := by rw [← hpl]; exact padLen_gt _ _ hbs
  have hle : pad_len ≤ 4096 := by rw [← hpl]; exact padLen_le_4096 _ _ hbs h2
  have hinput := pad_contents apdu.data apdu.lc pad_len h1 hgt hle
  have hL := lenField_length_le pad_len
  generalize hLF : lenField pad_len = L at *
  rw [poke_ok buf _ _ (by omega), Exec.ok_bind, peekN_ok _ _ _ (by simpa using h1),
    Exec.ok_bind, blit_ok (zeros 4096) _ _ (by simp; omega), Exec.ok_bind,
    poke_ok _ _ _ (by simp [length_splice]; omega), Exec.ok_bind]
  rw [← hLF, encode_lc_block _ _ _ (by simp [length_splice, hLF]; omega), Exec.ok_bind, hLF]
  simp only []
  rw [splice_splice_at _ _ _ _ _ (by simp) (by simp; omega)]
  obtain ⟨hdr, hhdr⟩ : ∃ hdr, hdr = [u8 135] ++ (L ++ [1]) := ⟨_, rfl⟩
  have hhl : hdr.length = 2 + L.length := by rw [hhdr]; simp; omega
  rw [← hhdr]
  rw [peekN_ok _ _ _ (by rw [length_splice]; omega), Exec.ok_bind]
  have e1 : ((splice buf bs hdr).drop bs).take (2 + L.length) = hdr := by
    have := slice_splice buf bs hdr 0 (2 + L.length) (by omega) (by omega)
    rw [Nat.add_zero, List.drop_zero] at this
    rw [this, List.take_of_length_le (by omega)]
  rw [e1, blit_ok dt _ _ (by omega), Exec.ok_bind,
    peekN_ok _ _ _ (by simp [length_splice]; omega), Exec.ok_bind, hinput, hc,
    blit_ok _ _ _ (by rw [length_splice]; omega), Exec.ok_bind,
    splice_splice_at _ _ _ _ _ (by omega) (by omega),
    peekN_ok _ _ _ (by rw [length_splice, List.length_append]; omega), Exec.ok_bind]
  have e2 : ((splice buf bs (hdr ++ cipher)).drop (bs + (2 + L.length))).take pad_len = cipher := by
    have := slice_splice buf bs (hdr ++ cipher) (2 + L.length) pad_len
      (by rw [List.length_append]; omega) (by rw [List.length_append]; omega)
    rw [this, ← hhl, List.drop_left, List.take_of_length_le (by omega)]
  rw [e2, blit_ok _ _ _ (by rw [length_splice]; omega), Exec.ok_bind,
    splice_splice_at _ _ _ _ _ (by omega) (by omega)]
  simp [Exec.pure_def, u8, hhdr]
/-- When `construct_data_tlv` returns, every buffer had room for what was stored. -/
theorem construct_data_tlv_bounds (c : Crypto) (s : Session) (apdu : sc_apdu)
    (buf dt : List Nat) (kt : Nat) (r : List Nat × List Nat × Nat)
    (hcl : (encData c s kt (padded (blockSize kt) apdu.lc apdu.data)).length =
      padLen (blockSize kt) apdu.lc)
    (h : construct_data_tlv c s apdu buf dt kt = Exec.ok r) :
    apdu.lc ≤ apdu.data.length ∧ apdu.lc ≤ 4095 ∧
      blockSize kt + (dataTlvBytes c s apdu kt).length ≤ buf.length ∧
      (dataTlvBytes c s apdu kt).length ≤ dt.length := by
  rw [dataTlvBytes_length c s apdu kt hcl]
  unfold construct_data_tlv at h
  simp only [] at h
  have hbs := blockSize_cases kt
  rw [pad_len_eq _ _ (by unfold blockSize at hbs; exact hbs)] at h
  generalize hc : encData c s kt (padded (blockSize kt) apdu.lc apdu.data) = cipher at hcl
  unfold encData padded at hc
  have hbs2 : (if KEY_TYPE_AES = kt then 16 else 8) = blockSize kt := rfl
  simp only [hbs2] at hc h
  generalize blockSize kt = bs at *
  generalize hpl : padLen bs apdu.lc = pad_len at *
  have hgt : apdu.lc < pad_len := by rw [← hpl]; exact padLen_gt _ _ hbs
  have hL := lenField_length pad_len
  unfold poke at h
  rw [blit_bind_eq_ok] at h; obtain ⟨b1, h⟩ := h
  rw [peekN_bind_eq_ok] at h; obtain ⟨b2, h⟩ := h
  rw [blit_bind_eq_ok] at h; obtain ⟨b3, h⟩ := h
  rw [blit_bind_eq_ok] at h; obtain ⟨b4, h⟩ := h
  have h1 : apdu.lc ≤ apdu.data.length := by omega
  have h2 : apdu.lc ≤ 4095 := by
    simp [length_splice, h1] at b4; omega
  have hle : pad_len ≤ 4096 := by rw [← hpl]; exact padLen_le_4096 _ _ hbs h2
  have hinput := pad_contents apdu.data apdu.lc pad_len h1 hgt hle
  refine ⟨h1, h2, ?_⟩
  by_cases hlong : pad_len > 0x7E
  · simp only [hlong, if_true, Exec.bind_assoc, Exec.pure_bind] at h hL
    rw [blit_blit _ _ _ _ _ _ (by simp), blit_blit _ _ _ _ _ _ (by simp),
      blit_blit _ _ _ _ _ _ (by simp)] at h
    rw [blit_bind_eq_ok] at h; obtain ⟨b5, h⟩ := h
    rw [peekN_bind_eq_ok] at h; obtain ⟨b6, h⟩ := h
    rw [blit_bind_eq_ok] at h; obtain ⟨b7, h⟩ := h
    rw [peekN_bind_eq_ok] at h; obtain ⟨b8, h⟩ := h
    rw [hinput, hc] at h
    rw [blit_bind_eq_ok] at h; obtain ⟨b9, h⟩ := h
    rw [peekN_bind_eq_ok] at h; obtain ⟨b10, h⟩ := h
    rw [blit_bind_eq_ok] at h; obtain ⟨b11, h⟩ := h
    simp only [length_splice, List.length_append, List.length_cons, List.length_nil,
      List.length_take, List.length_drop] at b1 b5 b9 b7 b11
    omega
  · simp only [hlong, if_false, Exec.bind_assoc, Exec.pure_bind] at h hL
    rw [blit_blit _ _ _ _ _ _ (by simp)] at h
    rw [blit_bind_eq_ok] at h; obtain ⟨b5, h⟩ := h
    rw [peekN_bind_eq_ok] at h; obtain ⟨b6, h⟩ := h
    rw [blit_bind_eq_ok] at h; obtain ⟨b7, h⟩ := h
    rw [peekN_bind_eq_ok] at h; obtain ⟨b8, h⟩ := h
    rw [hinput, hc] at h
    rw [blit_bind_eq_ok] at h; obtain ⟨b9, h⟩ := h
    rw [peekN_bind_eq_ok] at h; obtain ⟨b10, h⟩ := h
    rw [blit_bind_eq_ok] at h; obtain ⟨b11, h⟩ := h
    simp only [length_splice, List.length_append, List.length_cons, List.length_nil,
      List.length_take, List.length_drop] at b1 b5 b9 b7 b11
    omega

/-- When `construct_data_tlv` returns, the APDU data held at least `lc` bytes. -/
theorem construct_data_tlv_src (c : Crypto) (s : Session) (apdu : sc_apdu)
    (buf dt : List Nat) (kt : Nat) (r : List Nat × List Nat × Nat)
    (h : construct_data_tlv c s apdu buf dt kt = Exec.ok r) : apdu.lc ≤ apdu.data.length := by
  unfold construct_data_tlv poke at h
  simp only [] at h
  rw [blit_bind_eq_ok] at h; obtain ⟨_, h⟩ := h
  rw [peekN_bind_eq_ok] at h; obtain ⟨b2, _⟩ := h
  omega

/-- Exact description of `construct_data_tlv`: when it returns and what. -/
theorem construct_data_tlv_iff (c : Crypto) (hc : c.LengthPreserving) (s : Session)
    (apdu : sc_apdu) (buf dt : List Nat) (kt : Nat) (r : List Nat × List Nat × Nat) :
    construct_data_tlv c s apdu buf dt kt = Exec.ok r ↔
      (apdu.lc ≤ apdu.data.length ∧ apdu.lc ≤ 4095 ∧
        blockSize kt + (dataTlvBytes c s apdu kt).length ≤ buf.length ∧
        (dataTlvBytes c s apdu kt).length ≤ dt.length) ∧
      r = (splice buf (blockSize kt) (dataTlvBytes c s apdu kt),
        splice dt 0 (dataTlvBytes c s apdu kt), (dataTlvBytes c s apdu kt).length) := by
  constructor
  · intro h
    have hcl := encData_length c hc s apdu kt (construct_data_tlv_src c s apdu buf dt kt r h)
    have hb := construct_data_tlv_bounds c s apdu buf dt kt r hcl h
    refine ⟨hb, ?_⟩
    rw [construct_data_tlv_ok c s apdu buf dt kt hcl hb.1 hb.2.1 hb.2.2.1 hb.2.2.2] at h
    exact (Exec.ok.inj h).symm
  · rintro ⟨⟨h1, h2, h3, h4⟩, rfl⟩
    exact construct_data_tlv_ok c s apdu buf dt kt (encData_length c hc s apdu kt h1) h1 h2 h3 h4
theorem leTlvBytes_length (le : Nat) : (leTlvBytes le).length = if le > 0x7F then 4 else 3 := by
  unfold leTlvBytes; split <;> simp

/-- Exact description of `construct_le_tlv`: when it returns and what. -/
theorem construct_le_tlv_iff (apdu : sc_apdu) (buf : List Nat) (d : Nat) (le_tlv : List Nat)
    (kt : Nat) (r : List Nat × List Nat × Nat) :
    construct_le_tlv apdu buf d le_tlv kt = Exec.ok r ↔
      (blockSize kt + d + (leTlvBytes apdu.le).length ≤ buf.length ∧
        (leTlvBytes apdu.le).length ≤ le_tlv.length) ∧
      r = (splice buf (blockSize kt + d) (leTlvBytes apdu.le),
        splice le_tlv 0 (leTlvBytes apdu.le), (leTlvBytes apdu.le).length) := by
  rw [construct_le_tlv_eq, blit_bind_eq_ok, blit_bind_eq_ok]
  have hT : (if apdu.le > 0x7F then [0x97, 2, u8 (apdu.le / 0x100), u8 (apdu.le % 0x100)]
      else [0x97, 1, u8 apdu.le]) = leTlvBytes apdu.le := rfl
  have hn : (if apdu.le > 0x7F then 4 else 3) = (leTlvBytes apdu.le).length := by
    rw [leTlvBytes_length]
  have hb : (if KEY_TYPE_AES = kt then 16 else 8) = blockSize kt := rfl
  simp only [hT, hn, hb, Exec.ok.injEq, Nat.zero_add]
  constructor
  · rintro ⟨h1, h2, h3⟩
    exact ⟨⟨h1, h2⟩, h3.symm⟩
  · rintro ⟨⟨h1, h2⟩, rfl⟩
    exact ⟨h1, h2, rfl⟩

theorem mac_len_eq (bs d l : Nat) (hbs : bs = 16 ∨ bs = 8) (h : ¬ (d = 0 ∧ l = 0)) :
    (if (d + l + 1) % bs ≠ 0 then ((d + l + 1) / bs + 1) * bs + bs else d + l + 1 + bs) =
      macLen bs d l := by
  unfold macLen padLen
  rw [if_neg h]
  rcases hbs with hb | hb <;> subst hb <;> split <;> omega

/-- The padding block of `construct_mac_tlv`. -/
theorem mac_padding_block (buf : List Nat) (bs d l : Nat) (hbs : bs = 16 ∨ bs = 8)
    (r : List Nat × Nat) :
    ((if d = 0 ∧ l = 0 then pure (buf, bs)
      else do
        let b ← poke buf (bs + d + l) 0x80
        let mac_len :=
          if (d + l + 1) % bs ≠ 0 then ((d + l + 1) / bs + 1) * bs + bs
          else d + l + 1 + bs
        let b ← memset b (bs + d + l + 1) 0 (mac_len - (d + l + 1))
        pure (b, mac_len) : Exec (List Nat × Nat)) = Exec.ok r) ↔
    ((¬ (d = 0 ∧ l = 0) → bs + macLen bs d l ≤ buf.length) ∧
      r = (macPadded buf bs d l, macLen bs d l)) := by
  by_cases h : d = 0 ∧ l = 0
  · simp only [h, and_self, if_true, Exec.pure_def, Exec.ok.injEq, macPadded, macLen]
    constructor
    · intro e; exact ⟨fun hn => absurd trivial hn, e.symm⟩
    · rintro ⟨_, rfl⟩; rfl
  · simp only [if_neg h, macPadded]
    rw [mac_len_eq bs d l hbs h]
    unfold poke memset
    rw [blit_blit _ _ _ _ _ _ (by simp), blit_bind_eq_ok]
    have hml : d + l + 1 < macLen bs d l := by
      unfold macLen; rw [if_neg h]
      have := padLen_gt bs (d + l) hbs
      rcases hbs with hb | hb <;> omega
    simp only [Exec.pure_def, Exec.ok.injEq, List.length_append, List.length_singleton,
      List.length_replicate]
    constructor
    · rintro ⟨h1, h2⟩
      refine ⟨fun _ => by omega, ?_⟩
      rw [← h2]; simp [u8, zeros]
    · rintro ⟨h1, rfl⟩
      refine ⟨by have := h1 h; omega, ?_⟩
      simp [u8, zeros]
theorem macLen_pos (bs d l : Nat) : bs ≤ macLen bs d l := by
  unfold macLen; split <;> omega

theorem macPadded_length (buf : List Nat) (bs d l : Nat) (hbs : bs = 16 ∨ bs = 8)
    (h : ¬ (d = 0 ∧ l = 0) → bs + macLen bs d l ≤ buf.length) :
    (macPadded buf bs d l).length = buf.length := by
  unfold macPadded
  by_cases h0 : d = 0 ∧ l = 0
  · rw [if_pos h0]
  · rw [if_neg h0, splice_length]
    have := h h0
    have hml : d + l + 1 < macLen bs d l := by
      unfold macLen; rw [if_neg h0]
      have := padLen_gt bs (d + l) hbs
      rcases hbs with hb | hb <;> omega
    simp; omega

theorem splice_zeros_full (t : List Nat) (n : Nat) (h : t.length = n) :
    splice (zeros n) 0 t = t := by
  subst h
  simp [splice, zeros]

/-- Exact description of `construct_mac_tlv`: when it returns and what. -/
theorem construct_mac_tlv_iff (c : Crypto) (s : Session) (buf : List Nat) (d l : Nat)
    (mac_tlv : List Nat) (kt : Nat) (m : MacOut) :
    construct_mac_tlv c s buf d l mac_tlv kt = Exec.ok m ↔
      ∃ icv mac8,
        (¬ (d = 0 ∧ l = 0) → blockSize kt + macLen (blockSize kt) d l ≤ buf.length) ∧
        increase_icv kt s.g_icv_mac = Exec.ok icv ∧ 16 ≤ icv.length ∧
        macLen (blockSize kt) d l ≤ buf.length ∧
        calculate_mac c s.g_sk_mac (icv.take 16)
          ((macPadded buf (blockSize kt) d l).take (macLen (blockSize kt) d l))
          (macLen (blockSize kt) d l) kt = Exec.ok mac8 ∧
        2 + mac8.length ≤ mac_tlv.length ∧
        m = { apdu_buf := macPadded buf (blockSize kt) d l, mac_tlv := splice mac_tlv 2 mac8,
              mac_tlv_len := 2 + 8, g_icv_mac := icv,
              mac_in := (macPadded buf (blockSize kt) d l).take (macLen (blockSize kt) d l),
              mac_iv := icv.take 16 } := by
  unfold construct_mac_tlv
  simp only []
  have hbs := blockSize_cases kt
  have hbs2 : (if KEY_TYPE_AES = kt then 16 else 8) = blockSize kt := rfl
  simp only [hbs2]
  generalize blockSize kt = bs at *
  constructor
  · intro h
    rw [Exec.bind_eq_ok] at h
    obtain ⟨⟨ab, ml⟩, hblk, h⟩ := h
    rw [mac_padding_block buf bs d l hbs] at hblk
    obtain ⟨hb, hr⟩ := hblk
    obtain ⟨rfl, rfl⟩ := Prod.mk.inj hr
    simp only [] at h
    rw [Exec.bind_eq_ok] at h
    obtain ⟨icv, hicv, h⟩ := h
    rw [peekN_bind_eq_ok] at h; obtain ⟨b1, h⟩ := h
    rw [blit_bind_eq_ok] at h; obtain ⟨b2, h⟩ := h
    rw [peekN_bind_eq_ok] at h; obtain ⟨b3, h⟩ := h
    rw [Exec.bind_eq_ok] at h
    obtain ⟨mac8, hmac, h⟩ := h
    rw [blit_bind_eq_ok] at h; obtain ⟨b4, h⟩ := h
    have hl := macPadded_length buf bs d l hbs hb
    have e1 : splice (zeros 16) 0 ((icv.drop 0).take 16) = icv.take 16 := by
      rw [List.drop_zero]
      exact splice_zeros_full _ _ (by simp; omega)
    rw [e1, List.drop_zero] at hmac
    rw [e1, List.drop_zero] at h
    exact ⟨icv, mac8, hb, hicv, by omega, by omega, hmac, b4, (Exec.ok.inj h).symm⟩
  · rintro ⟨icv, mac8, hb, hicv, hil, hml, hmac, hmt, rfl⟩
    have hl := macPadded_length buf bs d l hbs hb
    have hblk := (mac_padding_block buf bs d l hbs (macPadded buf bs d l, macLen bs d l)).mpr
      ⟨hb, rfl⟩
    rw [hblk, Exec.ok_bind]
    simp only []
    rw [hicv, Exec.ok_bind, peekN_ok _ _ _ (by omega), Exec.ok_bind,
      blit_ok _ _ _ (by simp), Exec.ok_bind, peekN_ok _ _ _ (by omega), Exec.ok_bind]
    have e1 : splice (zeros 16) 0 ((icv.drop 0).take 16) = icv.take 16 := by
      rw [List.drop_zero]
      exact splice_zeros_full _ _ (by simp; omega)
    rw [e1, List.drop_zero, hmac, Exec.ok_bind, blit_ok _ _ _ hmt, Exec.ok_bind]
    rfl
theorem splice_zeros_take (t : List Nat) (n k : Nat) (h : k ≤ t.length) :
    (splice (zeros n) 0 t).take k = t.take k := by
  have := splice_at_end [] (zeros n) t
  simp only [List.length_nil, List.nil_append] at this
  rw [this, List.take_append_of_le_length h]

theorem splice_zeros_drop_take (t : List Nat) (n a k : Nat) (h : a + k ≤ t.length) :
    ((splice (zeros n) 0 t).drop a).take k = (t.drop a).take k := by
  have := splice_at_end [] (zeros n) t
  simp only [List.length_nil, List.nil_append] at this
  rw [this, List.drop_append_of_le_length (by omega),
    List.take_append_of_le_length (by simp; omega)]

theorem macBytes_length (c : Crypto) (hc : c.LengthPreserving) (key icv input : List Nat)
    (kt : Nat) (h16 : KEY_TYPE_AES = kt → 16 ∣ input.length ∧ 16 ≤ input.length)
    (h8 : ¬ KEY_TYPE_AES = kt → 8 ∣ input.length ∧ 8 ≤ input.length) :
    (macBytes c key icv input kt).length = 8 := by
  unfold macBytes
  by_cases hk : KEY_TYPE_AES = kt
  · rw [if_pos hk]
    have := hc.aes_enc (key.take 16) (icv.take 16) input (h16 hk).1
    have := (h16 hk).2
    simp; omega
  · rw [if_neg hk]
    have h8 := h8 hk
    have hl := hc.des_enc (key.take 8) (icv.take 8) input h8.1
    have hd : ((c.des_cbc_enc (key.take 8) (icv.take 8) input).drop (input.length - 8)).length
        = 8 := by
      rw [List.length_drop, hl]; omega
    rw [hc.des_enc _ _ _ (by rw [hc.des_dec _ _ _ (by rw [hd])]; rw [hd]),
      hc.des_dec _ _ _ (by rw [hd]), hd]

/-- Exact description of the block `calculate MAC` on block-aligned input. -/
theorem calculate_mac_iff (c : Crypto) (hc : c.LengthPreserving) (key icv input : List Nat)
    (kt n : Nat) (hn : input.length = n) (hdvd : blockSize kt ∣ n) (hpos : blockSize kt ≤ n)
    (r : List Nat) :
    calculate_mac c key icv input n kt = Exec.ok r ↔
      n ≤ 4096 ∧ r = macBytes c key icv input kt := by
  unfold calculate_mac macBytes blockSize at *
  subst hn
  by_cases hk : KEY_TYPE_AES = kt
  · simp only [hk, if_true] at hdvd hpos ⊢
    have hl := hc.aes_enc (key.take 16) (icv.take 16) input hdvd
    unfold aes128_encrypt_cbc
    rw [blit_bind_eq_ok]
    simp only [zeros_length, Nat.zero_add, hl]
    constructor
    · rintro ⟨h1, h2⟩
      rw [peekN_eq_ok] at h2
      refine ⟨h1, ?_⟩
      rw [h2.2, splice_zeros_drop_take _ _ _ _ (by omega)]
    · rintro ⟨h1, rfl⟩
      refine ⟨h1, ?_⟩
      rw [peekN_ok _ _ _ (by rw [splice_length _ _ _ (by simp; omega)]; simp; omega),
        splice_zeros_drop_take _ _ _ _ (by omega)]
  · simp only [hk, if_false] at hdvd hpos ⊢
    have hl := hc.des_enc (key.take 8) (icv.take 8) input hdvd
    have hz : (zeros 8).take 8 = zeros 8 := by simp [zeros]
    unfold des_encrypt_cbc des_decrypt_cbc
    rw [blit_bind_eq_ok]
    simp only [zeros_length, Nat.zero_add, hl, hz]
    have hd : ((c.des_cbc_enc (key.take 8) (icv.take 8) input).drop (input.length - 8)).length
        = 8 := by
      rw [List.length_drop, hl]; omega
    have e1 : ((splice (zeros 4096) 0 (c.des_cbc_enc (key.take 8) (icv.take 8) input)).drop
        (input.length - 8)).take 8 =
        (c.des_cbc_enc (key.take 8) (icv.take 8) input).drop (input.length - 8) := by
      rw [splice_zeros_drop_take _ _ _ _ (by omega), List.take_of_length_le (by omega)]
    have hdl := hc.des_dec ((key.drop 8).take 8) (zeros 8)
      ((c.des_cbc_enc (key.take 8) (icv.take 8) input).drop (input.length - 8))
      (by rw [hd])
    rw [hd] at hdl
    have e2 : ((splice (zeros 8) 0 (c.des_cbc_dec ((key.drop 8).take 8) (zeros 8)
        ((c.des_cbc_enc (key.take 8) (icv.take 8) input).drop (input.length - 8)))).drop
        0).take 8 = c.des_cbc_dec ((key.drop 8).take 8) (zeros 8)
        ((c.des_cbc_enc (key.take 8) (icv.take 8) input).drop (input.length - 8)) := by
      rw [List.drop_zero, splice_zeros_take _ _ _ (by omega)]
      exact List.take_of_length_le (by omega)
    constructor
    · rintro ⟨h1, h2⟩
      rw [peekN_bind_eq_ok, e1, blit_bind_eq_ok, peekN_bind_eq_ok, e2] at h2
      exact ⟨h1, (Exec.ok.inj h2.2.2.2).symm⟩
    · rintro ⟨h1, rfl⟩
      refine ⟨h1, ?_⟩
      rw [peekN_ok _ _ _ (by rw [splice_length _ _ _ (by simp; omega)]; simp; omega),
        Exec.ok_bind, e1, blit_ok _ _ _ (by simp; omega), Exec.ok_bind,
        peekN_ok _ _ _ (by rw [splice_length _ _ _ (by simp; omega)]; simp),
        Exec.ok_bind, e2]
      rfl
theorem Exec.bind_ok_right {α : Type} (x : Exec α) : (x >>= Exec.ok) = x := by
  cases x <;> rfl

/-- Two final stores at adjacent offsets behave as one store. -/
theorem blit_blit_end (b : List Nat) (o k : Nat) (x y : List Nat) (hk : k = o + x.length) :
    (blit b o x >>= fun b1 => blit b1 k y) = blit b o (x ++ y) := by
  have := blit_blit b o k x y Exec.ok hk
  simp only [Exec.bind_ok_right] at this
  exact this

/-- Exact description of the header statements of `encode_apdu`. -/
theorem encode_header_iff (bs0 : Nat) (plain : sc_apdu) (buf r : List Nat) (h5 : 5 ≤ bs0) :
    encode_header bs0 plain buf = Exec.ok r ↔
      bs0 ≤ buf.length ∧ r = splice buf 0 (headerBlock plain bs0) := by
  unfold encode_header poke memset headerBlock
  rw [blit_blit _ _ _ _ _ _ (by simp), blit_blit _ _ _ _ _ _ (by simp),
    blit_blit _ _ _ _ _ _ (by simp), blit_blit _ _ _ _ _ _ (by simp),
    blit_blit_end _ _ _ _ _ (by simp), blit_eq_ok]
  simp only [List.length_append, List.length_singleton, List.length_replicate, zeros_length,
    List.length_cons, List.length_nil]
  constructor
  · rintro ⟨h1, rfl⟩
    exact ⟨by omega, by simp [u8, zeros]⟩
  · rintro ⟨h1, rfl⟩
    exact ⟨by omega, by simp [u8, zeros]⟩

theorem lcBytes_length (lc : Nat) : (lcBytes lc).length = if lc > 0xFF then 3 else 1 := by
  unfold lcBytes; split <;> simp

/-- The block of `encode_apdu` that stores `Lc'` and picks the case. -/
theorem encode_lcprime_block {β : Type} (lc : Nat) (X Y : sc_apdu) (ab : List Nat)
    (f : sc_apdu × List Nat × Nat → Exec β) (r : β) :
    (((if lc > 0xFF then do
        let b ← poke ab 4 (lc / 0x10000)
        let b ← poke b 5 ((lc / 0x100) % 0x100)
        let b ← poke b 6 (lc % 0x100)
        pure (X, b, 3)
      else do
        let b ← poke ab 4 lc
        pure (Y, b, 1) : Exec (sc_apdu × List Nat × Nat)) >>= f) = Exec.ok r) ↔
    (4 + (lcBytes lc).length ≤ ab.length ∧
      f (if lc > 0xFF then X else Y, splice ab 4 (lcBytes lc), (lcBytes lc).length) =
        Exec.ok r) := by
  unfold poke lcBytes
  by_cases hl : lc > 0xFF
  · simp only [hl, if_true]
    rw [blit_blit _ _ _ _ _ _ (by simp), blit_blit _ _ _ _ _ _ (by simp), Exec.bind_assoc,
      blit_bind_eq_ok]
    simp [Exec.pure_bind]
  · simp only [hl, if_false]
    rw [Exec.bind_assoc, blit_bind_eq_ok]
    simp [Exec.pure_bind]

/-- The block of `encode_apdu` that stores the trailing `Le` byte(s). -/
theorem encode_tail_block {β : Type} (X Y Z : sc_apdu) (le : Nat) (ab : List Nat) (o l : Nat)
    (f : sc_apdu × List Nat × Option Nat → Exec β) (r : β) :
    (((if 4 = l then do
        let b ← poke ab o (le / 0x100)
        let b ← poke b (o + 1) (le % 0x100)
        pure (X, b, some 2)
      else if 3 = l then do
        let b ← poke ab o le
        pure (Y, b, some 1)
      else pure (Z, ab, none) : Exec (sc_apdu × List Nat × Option Nat)) >>= f) = Exec.ok r) ↔
    (((4 = l → o + 2 ≤ ab.length) ∧ (3 = l → o + 1 ≤ ab.length)) ∧
      f (if 4 = l then X else if 3 = l then Y else Z,
        (if 4 = l then splice ab o [u8 (le / 0x100), u8 (le % 0x100)]
         else if 3 = l then splice ab o [u8 le] else ab),
        tmpLe l) = Exec.ok r) := by
  unfold poke tmpLe
  by_cases h4 : 4 = l
  · have h3 : ¬ 3 = l := by omega
    simp only [h4, h3, if_true, true_implies, false_implies, and_true]
    rw [blit_blit _ _ _ _ _ _ (by simp), Exec.bind_assoc, blit_bind_eq_ok]
    simp [Exec.pure_bind]
  · by_cases h3 : 3 = l
    · simp only [h4, h3, if_true, if_false, true_implies, false_implies, true_and]
      rw [Exec.bind_assoc, blit_bind_eq_ok]
      simp [Exec.pure_bind]
    · simp only [h4, h3, if_false, false_implies, and_self, true_and]
      rfl
theorem Exec.pure_eq_ok {α : Type} (a r : α) : (pure a : Exec α) = Exec.ok r ↔ a = r :=
  ⟨fun h => Exec.ok.inj h, fun h => congrArg Exec.ok h⟩

/-- Three stores at adjacent offsets, and reading them back. -/
theorem three_stores (B : List Nat) (o o1 o2 n : Nat) (D L M : List Nat)
    (h1 : o1 = o + D.length) (h2 : o2 = o1 + L.length) (hn : n = D.length + L.length + M.length)
    (h : o + n ≤ B.length) :
    splice (splice (splice B o D) o1 L) o2 M = splice B o (D ++ L ++ M) ∧
    ((splice B o (D ++ L ++ M)).drop o).take n = D ++ L ++ M := by
  subst h1 h2 hn
  constructor
  · rw [splice_splice B o D L (by omega), splice_splice_at _ _ _ _ _
      (by simp only [List.length_append]; omega) (by simp only [List.length_append]; omega)]
  · have := slice_splice B o (D ++ L ++ M) 0 (D.length + L.length + M.length)
      (by simp only [List.length_append]; omega) (by simp only [List.length_append]; omega)
    rw [Nat.add_zero, List.drop_zero] at this
    rw [this, List.take_of_length_le (by simp only [List.length_append]; omega)]

/-- Exact description of the last statements of `encode_apdu` on its 4096-byte
work buffer. -/
theorem encode_finish_iff (plain sm : sc_apdu) (buf dT : List Nat) (d : Nat) (lT : List Nat)
    (l : Nat) (mT : List Nat) (k : Nat) (r : sc_apdu × List Nat × Option Nat)
    (hlen : buf.length = 4096) :
    encode_finish plain sm buf 4096 dT d lT l mT k = Exec.ok r ↔
      (d ≤ dT.length ∧ l ≤ lT.length ∧ k ≤ mT.length ∧
        4 + (lcBytes (d + l + k)).length + (d + l + k) ≤ 4096 ∧
        (4 = l → 4 + (lcBytes (d + l + k)).length + (d + l + k) + 2 ≤ 4096) ∧
        (3 = l → 4 + (lcBytes (d + l + k)).length + (d + l + k) + 1 ≤ 4096) ∧
        d + l + k ≤ sm.data.length) ∧
      r = (smOut sm dT d lT l mT k, finishBuf plain buf 4096 dT d lT l mT k,
        (tmpLe l).map (fun e => 0 + (4 + (lcBytes (d + l + k)).length + d + l + k + e))) := by
  unfold encode_finish memset
  simp only []
  rw [blit_bind_eq_ok, encode_lcprime_block]
  unfold finishBuf smOut
  have hlb := lcBytes_length (d + l + k)
  generalize hLB : lcBytes (d + l + k) = LB at *
  have hlb3 : LB.length ≤ 3 := by rw [hlb]; split <;> omega
  have hB1 : (splice (splice buf 4 (List.replicate (4096 - 4) (u8 0))) 4 LB).length = 4096 := by
    simp only [length_splice, List.length_replicate, hlen]; omega
  have hB0 : (splice buf 4 (List.replicate (4096 - 4) (u8 0))).length = 4096 := by
    simp only [length_splice, List.length_replicate, hlen]; omega
  rw [hB0]
  generalize hB : splice (splice buf 4 (List.replicate (4096 - 4) (u8 0))) 4 LB = B at *
  have key : d ≤ dT.length → l ≤ lT.length → k ≤ mT.length → 4 + LB.length + (d + l + k) ≤ 4096 →
      splice (splice (splice B (4 + LB.length) (List.take d dT)) (4 + LB.length + d)
        (List.take l lT)) (4 + LB.length + d + l) (List.take k mT) =
        splice B (4 + LB.length) (List.take d dT ++ List.take l lT ++ List.take k mT) ∧
      ((splice B (4 + LB.length) (List.take d dT ++ List.take l lT ++ List.take k mT)).drop
        (4 + LB.length)).take (d + l + k) =
        List.take d dT ++ List.take l lT ++ List.take k mT := by
    intro h1 h2 h3 h4
    exact three_stores B _ _ _ _ _ _ _ (by simp [h1]) (by simp [h2])
      (by simp [h1, h2, h3]) (by omega)
  have hlen3 : d ≤ dT.length → l ≤ lT.length → k ≤ mT.length →
      4 + LB.length + (d + l + k) ≤ 4096 → (splice B (4 + LB.length)
        (List.take d dT ++ List.take l lT ++ List.take k mT)).length = 4096 := by
    intro h1 h2 h3 h4
    rw [length_splice]
    simp only [List.length_append, List.length_take]
    omega
  by_cases hbig : d + l + k > 255
  all_goals
    simp only [hbig, if_true, if_false]
    rw [peekN_bind_eq_ok, blit_bind_eq_ok, peekN_bind_eq_ok, blit_bind_eq_ok,
      peekN_bind_eq_ok, blit_bind_eq_ok, peekN_bind_eq_ok, blit_bind_eq_ok, encode_tail_block,
      Exec.pure_eq_ok]
    simp only [List.drop_zero, Nat.zero_add]
    constructor
    · rintro ⟨b1, b2, b3, b4, b5, b6, b7, b8, b9, b10, ⟨b11, b12⟩, hr⟩
      have h4 : 4 + LB.length + (d + l + k) ≤ 4096 := by
        rw [splice_length _ _ _ b8, splice_length _ _ _ b6, splice_length _ _ _ b4, hB1] at b9
        exact b9
      obtain ⟨k1, k2⟩ := key b3 b5 b7 h4
      rw [k1] at hr b11 b12 b10
      rw [k2] at hr b10
      rw [hlen3 b3 b5 b7 h4] at b11 b12
      simp only [List.length_append, List.length_take] at b10
      refine ⟨⟨b3, b5, b7, h4, b11, b12, by omega⟩, ?_⟩
      rw [← hr]
      by_cases hl4 : 4 = l <;> by_cases hl3 : 3 = l <;>
        simp [hbig, hl4, hl3, Nat.add_assoc]
    · rintro ⟨⟨b3, b5, b7, h4, b11, b12, b10⟩, rfl⟩
      obtain ⟨k1, k2⟩ := key b3 b5 b7 h4
      rw [k1, k2, hlen3 b3 b5 b7 h4]
      refine ⟨by simp only [List.length_replicate, hlen]; omega, by omega, b3, ?_, b5, ?_, b7,
        ?_, by omega, ?_, ⟨b11, b12⟩, ?_⟩
      · simp only [length_splice, List.length_take, hB1]; omega
      · simp only [length_splice, List.length_take, hB1]; omega
      · simp only [length_splice, List.length_take, hB1]; omega
      · simp only [List.length_append, List.length_take]; omega
      · by_cases hl4 : 4 = l <;> by_cases hl3 : 3 = l <;>
          simp [hbig, hl4, hl3, Nat.add_assoc]
theorem splice_nil (b : List Nat) (o : Nat) : splice b o [] = b := by
  simp [splice]

theorem bind_eq_ok_of_iff {α β : Type} (x : Exec α) (P : Prop) (a₀ : α)
    (hx : ∀ r, x = Exec.ok r ↔ P ∧ r = a₀) (f : α → Exec β) (r : β) :
    (x >>= f) = Exec.ok r ↔ P ∧ f a₀ = Exec.ok r := by
  rw [Exec.bind_eq_ok]
  constructor
  · rintro ⟨a, ha, hf⟩
    obtain ⟨hp, rfl⟩ := (hx a).mp ha
    exact ⟨hp, hf⟩
  · rintro ⟨hp, hf⟩
    exact ⟨a₀, (hx a₀).mpr ⟨hp, rfl⟩, hf⟩

/-- The data phase of `encode_apdu`. -/
theorem data_phase_iff (c : Crypto) (hc : c.LengthPreserving) (s : Session) (plain : sc_apdu)
    (B : List Nat) (r : List Nat × List Nat × Nat) :
    ((if plain.lc ≠ 0 then construct_data_tlv c s plain B (zeros 4096) s.g_smtype
      else pure (B, zeros 4096, 0) : Exec (List Nat × List Nat × Nat)) = Exec.ok r) ↔
    ((plain.lc ≠ 0 → plain.lc ≤ plain.data.length ∧ plain.lc ≤ 4095 ∧
        blockSize s.g_smtype + (encD c s plain).length ≤ B.length ∧
        (encD c s plain).length ≤ 4096) ∧
      r = (splice B (blockSize s.g_smtype) (encD c s plain),
        splice (zeros 4096) 0 (encD c s plain), (encD c s plain).length)) := by
  unfold encD
  by_cases h : plain.lc ≠ 0
  · simp only [if_pos h]
    rw [construct_data_tlv_iff c hc]
    simp [h]
  · simp only [if_neg h, splice_nil, List.length_nil]
    rw [Exec.pure_eq_ok]
    constructor
    · rintro rfl; exact ⟨fun hn => absurd hn h, rfl⟩
    · rintro ⟨_, rfl⟩; rfl

/-- The Le phase of `encode_apdu`. -/
theorem le_phase_iff (s : Session) (plain : sc_apdu) (B : List Nat) (d : Nat)
    (r : List Nat × List Nat × Nat) :
    ((if plain.le ≠ 0 ∨ (plain.le = 0 ∧ plain.resplen ≠ 0) then
        construct_le_tlv plain B d (zeros 256) s.g_smtype
      else pure (B, zeros 256, 0) : Exec (List Nat × List Nat × Nat)) = Exec.ok r) ↔
    ((plain.le ≠ 0 ∨ (plain.le = 0 ∧ plain.resplen ≠ 0) →
        blockSize s.g_smtype + d + (encL plain).length ≤ B.length) ∧
      r = (splice B (blockSize s.g_smtype + d) (encL plain),
        splice (zeros 256) 0 (encL plain), (encL plain).length)) := by
  unfold encL
  by_cases h : plain.le ≠ 0 ∨ (plain.le = 0 ∧ plain.resplen ≠ 0)
  · simp only [if_pos h]
    rw [construct_le_tlv_iff]
    have := leTlvBytes_length plain.le
    constructor
    · rintro ⟨⟨h1, h2⟩, rfl⟩; exact ⟨fun _ => h1, rfl⟩
    · rintro ⟨h1, rfl⟩
      refine ⟨⟨h1 h, ?_⟩, rfl⟩
      rw [this, zeros_length]; split <;> omega
  · simp only [if_neg h, splice_nil, List.length_nil]
    rw [Exec.pure_eq_ok]
    constructor
    · rintro rfl; exact ⟨fun hn => absurd hn h, rfl⟩
    · rintro ⟨_, rfl⟩; rfl
theorem headerBlock_length (plain : sc_apdu) (bs0 : Nat) (h5 : 5 ≤ bs0) :
    (headerBlock plain bs0).length = bs0 := by
  unfold headerBlock; simp; omega

theorem encL_length_le (plain : sc_apdu) : (encL plain).length ≤ 4 := by
  unfold encL
  split
  · rw [leTlvBytes_length]; split <;> omega
  · simp

theorem encD_length_zero (c : Crypto) (s : Session) (plain : sc_apdu) (h : ¬ plain.lc ≠ 0) :
    (encD c s plain).length = 0 := by
  unfold encD; rw [if_neg h]; rfl

theorem encL_length_zero (plain : sc_apdu)
    (h : ¬ (plain.le ≠ 0 ∨ (plain.le = 0 ∧ plain.resplen ≠ 0))) :
    (encL plain).length = 0 := by
  unfold encL; rw [if_neg h]; rfl

theorem encBuf_length (bs0 : Nat) (h5 : 5 ≤ bs0) (hb0 : bs0 ≤ 4096) (c : Crypto) (s : Session)
    (plain : sc_apdu)
    (h : blockSize s.g_smtype + (encD c s plain).length + (encL plain).length ≤ 4096) :
    (encBuf bs0 c s plain).length = 4096 := by
  unfold encBuf
  have l1 : (splice (zeros 4096) 0 (headerBlock plain bs0)).length = 4096 := by
    rw [splice_length _ _ _ (by rw [headerBlock_length _ _ h5, zeros_length]; omega),
      zeros_length]
  have l2 : (splice (splice (zeros 4096) 0 (headerBlock plain bs0)) (blockSize s.g_smtype)
      (encD c s plain)).length = 4096 := by
    rw [splice_length _ _ _ (by rw [l1]; omega), l1]
  rw [splice_length _ _ _ (by rw [l2]; omega), l2]

/-- Exact description of `encode_apdu` on the zeroed 4096-byte work buffer that
`epass2003_sm_wrap_apdu` supplies. -/
theorem encode_apdu_with_iff (bs0 : Nat) (h5 : 5 ≤ bs0) (hb0 : bs0 ≤ 4096) (c : Crypto)
    (hc : c.LengthPreserving) (s : Session) (plain sm : sc_apdu) (e : EncodeOut) :
    encode_apdu_with bs0 c s plain sm (zeros 4096) 4096 = Exec.ok e ↔
      ∃ icv mac8, EncodeCond bs0 c s plain sm icv mac8 ∧
        e = encodeResult bs0 c s plain sm icv mac8 := by
  have hmt0 : macTlvInit.length = 256 := by
    unfold macTlvInit
    rw [splice_length _ _ _ (by rw [splice_length _ _ _ (by simp)]; simp),
      splice_length _ _ _ (by simp), zeros_length]
  have l1 : (splice (zeros 4096) 0 (headerBlock plain bs0)).length = 4096 := by
    rw [splice_length _ _ _ (by rw [headerBlock_length _ _ h5, zeros_length]; omega),
      zeros_length]
  constructor
  · intro h
    unfold encode_apdu_with poke at h
    simp only [] at h
    rw [blit_bind_eq_ok] at h; obtain ⟨_, h⟩ := h
    rw [blit_bind_eq_ok] at h; obtain ⟨_, h⟩ := h
    rw [bind_eq_ok_of_iff _ _ _ (fun r => encode_header_iff bs0 plain _ r h5)] at h
    obtain ⟨hh, h⟩ := h
    rw [bind_eq_ok_of_iff _ _ _ (fun r => data_phase_iff c hc s plain _ r)] at h
    obtain ⟨hd, h⟩ := h
    simp only [] at h
    rw [bind_eq_ok_of_iff _ _ _ (fun r => le_phase_iff s plain _ _ r)] at h
    obtain ⟨hl, h⟩ := h
    simp only [] at h
    rw [Exec.bind_eq_ok] at h; obtain ⟨m, hm, h⟩ := h
    rw [construct_mac_tlv_iff] at hm
    obtain ⟨icv, mac8, hm1, hicv, hil, hml, hmac, hmt, rfl⟩ := hm
    simp only [] at h
    have hD : blockSize s.g_smtype + (encD c s plain).length ≤ 4096 := by
      by_cases h0 : plain.lc ≠ 0
      · have := (hd h0).2.2.1; rw [l1] at this; exact this
      · rw [encD_length_zero c s plain h0]; have := blockSize_cases s.g_smtype; omega
    have l2 : (splice (splice (zeros 4096) 0 (headerBlock plain bs0)) (blockSize s.g_smtype)
        (encD c s plain)).length = 4096 := by
      rw [splice_length _ _ _ (by rw [l1]; omega), l1]
    have hL : blockSize s.g_smtype + (encD c s plain).length + (encL plain).length ≤ 4096 := by
      by_cases h0 : plain.le ≠ 0 ∨ (plain.le = 0 ∧ plain.resplen ≠ 0)
      · have := hl h0; rw [l2] at this; exact this
      · rw [encL_length_zero plain h0]; omega
    have l3 := encBuf_length bs0 h5 hb0 c s plain hL
    unfold encBuf at l3
    rw [l3] at hm1 hml
    have l4 := macPadded_length _ _ _ _ (blockSize_cases s.g_smtype)
      (by rw [l3]; exact hm1)
    rw [l3] at l4
    rw [Exec.bind_eq_ok] at h; obtain ⟨⟨sm1, ab, len⟩, hf, h⟩ := h
    rw [encode_finish_iff _ _ _ _ _ _ _ _ _ _ l4] at hf
    obtain ⟨⟨f1, f2, f3, f4, f5, f6, f7⟩, hfr⟩ := hf
    cases hfr
    rw [Exec.pure_eq_ok] at h
    simp only [] at h
    refine ⟨icv, mac8, ?_, h.symm⟩
    unfold EncodeCond
    simp only []
    have hmt' : mac8.length ≤ 254 := by
      have : (splice (splice (zeros 256) 0 [u8 142]) 1 [u8 8]).length = 256 := hmt0
      rw [this] at hmt; omega
    exact ⟨fun h0 => ⟨(hd h0).1, (hd h0).2.1⟩, hL, hm1, hicv, hil, hmac, hmt', f4, f5, f6, f7⟩
  · rintro ⟨icv, mac8, hcond, rfl⟩
    unfold EncodeCond at hcond
    simp only [] at hcond
    obtain ⟨hsrc, hL, hm1, hicv, hil, hmac, hmt, f4, f5, f6, f7⟩ := hcond
    have hbs := blockSize_cases s.g_smtype
    have l2 : (splice (splice (zeros 4096) 0 (headerBlock plain bs0)) (blockSize s.g_smtype)
        (encD c s plain)).length = 4096 := by
      rw [splice_length _ _ _ (by rw [l1]; omega), l1]
    have l3 := encBuf_length bs0 h5 hb0 c s plain hL
    have l4 := macPadded_length (encBuf bs0 c s plain) _ _ _ hbs (by rw [l3]; exact hm1)
    rw [l3] at l4
    unfold encBuf at l3 l4 hmac
    unfold encode_apdu_with poke
    simp only []
    rw [blit_ok _ _ _ (by simp), Exec.ok_bind, blit_ok _ _ _ (by simp [length_splice]),
      Exec.ok_bind]
    rw [(encode_header_iff bs0 plain (zeros 4096) _ h5).mpr ⟨by simpa using hb0, rfl⟩,
      Exec.ok_bind]
    rw [(data_phase_iff c hc s plain _ _).mpr ⟨fun h0 => ⟨(hsrc h0).1, (hsrc h0).2,
      by rw [l1]; omega, by omega⟩, rfl⟩, Exec.ok_bind]
    simp only []
    rw [(le_phase_iff s plain _ _ _).mpr ⟨fun _ => by rw [l2]; exact hL, rfl⟩, Exec.ok_bind]
    simp only []
    rw [(construct_mac_tlv_iff c s _ _ _ _ _ _).mpr ⟨icv, mac8, by rw [l3]; exact hm1, hicv,
      hil, ?_, hmac, ?_, rfl⟩, Exec.ok_bind]
    · simp only []
      rw [(encode_finish_iff plain { sm with cse := SC_APDU_CASE_4_SHORT } _ _ _ _ _ _ _ _
        l4).mpr ⟨⟨?_, ?_, ?_, f4, f5, f6, f7⟩, rfl⟩, Exec.ok_bind]
      · rfl
      · rw [splice_length _ _ _ (by simp; omega)]; simp; omega
      · rw [splice_length _ _ _ (by simp; have := encL_length_le plain; omega)]
        simp; have := encL_length_le plain; omega
      · have : (splice (splice (zeros 256) 0 [u8 142]) 1 [u8 8]).length = 256 := hmt0
        rw [splice_length _ _ _ (by rw [this]; omega), this]; omega
    · rw [l3]
      unfold macLen
      split
      · omega
      · rename_i h0; have := hm1 h0; unfold macLen at this; rw [if_neg h0] at this; omega
    · have : (splice (splice (zeros 256) 0 [u8 142]) 1 [u8 8]).length = 256 := hmt0
      rw [this]; omega
/-- After `cla |= 0x0C` the switch of `epass2003_sm_wrap_apdu` takes case `0x0C`. -/
theorem cla_sm_bits (x : Nat) : u8 (x ||| 0x0C) &&& 0x0C = 0x0C := by
  unfold u8
  apply Nat.eq_of_testBit_eq
  intro i
  have h256 : (256 : Nat) = 2 ^ 8 := by norm_num
  rw [h256, Nat.testBit_and, Nat.testBit_mod_two_pow, Nat.testBit_or]
  by_cases hi : i < 8
  · simp only [hi, decide_True, Bool.true_and]
    cases x.testBit i <;> cases Nat.testBit 12 i <;> rfl
  · have : Nat.testBit 12 i = false := by
      apply Nat.testBit_eq_false_of_lt
      calc 12 < 2 ^ 8 := by norm_num
        _ ≤ 2 ^ i := Nat.pow_le_pow_right (by norm_num) (by omega)
    simp [this]

theorem memset_zeros : memset (zeros 4096) 0 0 4096 = Exec.ok (zeros 4096) := by
  unfold memset blit
  have hb : 0 + (List.replicate 4096 (u8 0)).length ≤ (zeros 4096).length := by
    rw [List.length_replicate, zeros_length]
  have e : List.replicate 4096 (u8 0) = zeros 4096 := rfl
  rw [if_pos hb, e, splice_zeros_full _ _ (zeros_length _)]

theorem encodeBs_bounds (s : Session) : 5 ≤ encodeBs s ∧ encodeBs s ≤ 4096 := by
  unfold encodeBs; split <;> omega

/-- Exact description of `epass2003_sm_wrap_apdu` when secure messaging is on. -/
theorem wrap_sm_iff (c : Crypto) (hc : c.LengthPreserving) (s : Session) (plain sm : sc_apdu)
    (hsm : s.g_sm ≠ 0) (w : WrapOut) :
    epass2003_sm_wrap_apdu c s plain sm = Exec.ok w ↔
      ∃ icv mac8,
        EncodeCond (encodeBs s) c s (wrapPlain plain) (wrapSm (wrapPlain plain) sm) icv mac8 ∧
        w = { ret := SC_SUCCESS, plain := wrapPlain plain,
              sm := (encodeResult (encodeBs s) c s (wrapPlain plain)
                (wrapSm (wrapPlain plain) sm) icv mac8).sm,
              session := { s with g_icv_mac := icv },
              enc := some (encodeResult (encodeBs s) c s (wrapPlain plain)
                (wrapSm (wrapPlain plain) sm) icv mac8) } := by
  unfold epass2003_sm_wrap_apdu
  simp only [hsm, ne_eq, not_false_eq_true, if_true]
  have hcla := cla_sm_bits plain.cla
  have h0 : ¬ (u8 (plain.cla ||| 0x0C) &&& 0x0C = 0x00 ∨ u8 (plain.cla ||| 0x0C) &&& 0x0C = 0x04) := by
    rw [hcla]; decide
  rw [if_neg h0, if_pos hcla, memset_zeros, Exec.ok_bind]
  have hbs := encodeBs_bounds s
  constructor
  · intro h
    rw [Exec.bind_eq_ok] at h
    obtain ⟨e, he, h⟩ := h
    have he' := (encode_apdu_with_iff (encodeBs s) hbs.1 hbs.2 c hc s (wrapPlain plain)
      (wrapSm (wrapPlain plain) sm) e).mp he
    obtain ⟨icv, mac8, hcond, rfl⟩ := he'
    refine ⟨icv, mac8, hcond, ?_⟩
    have hret : (encodeResult (encodeBs s) c s (wrapPlain plain)
      (wrapSm (wrapPlain plain) sm) icv mac8).ret = 0 := rfl
    simp only [hret, ne_eq, not_true_eq_false, if_false] at h
    exact (Exec.ok.inj h).symm
  · rintro ⟨icv, mac8, hcond, rfl⟩
    have he := (encode_apdu_with_iff (encodeBs s) hbs.1 hbs.2 c hc s (wrapPlain plain)
      (wrapSm (wrapPlain plain) sm) _).mpr ⟨icv, mac8, hcond, rfl⟩
    have he2 : encode_apdu c s (wrapPlain plain) (wrapSm (wrapPlain plain) sm) (zeros 4096) 4096
      = Exec.ok (encodeResult (encodeBs s) c s (wrapPlain plain)
        (wrapSm (wrapPlain plain) sm) icv mac8) := he
    have : ∀ x, encode_apdu c s (wrapPlain plain) (wrapSm (wrapPlain plain) sm) (zeros 4096)
        4096 = x → encode_apdu c s { plain with cla := u8 (plain.cla ||| 0x0C) }
        { sm with cse := plain.cse, cla := u8 (plain.cla ||| 0x0C), ins := plain.ins,
                  p1 := plain.p1, p2 := plain.p2, lc := plain.lc, le := plain.le,
                  control := plain.control, flags := plain.flags } (zeros 4096) 4096 = x :=
      fun x hx => hx
    rw [this _ he2, Exec.ok_bind]
    rfl
/-! ## The record returned by `encode_apdu`, field by field -/

theorem splice_zeros_eq (n : Nat) (x : List Nat) :
    splice (zeros n) 0 x = x ++ zeros (n - x.length) := by
  have := splice_at_end [] (zeros n) x
  simpa [zeros_drop] using this

theorem macTlvInit_eq : macTlvInit = 0x8E :: 8 :: zeros 254 := by
  unfold macTlvInit
  rw [splice_zeros_eq]
  have := splice_at_end [u8 142] (zeros 255) [u8 8]
  simp only [List.length_singleton] at this
  have e : [u8 142] ++ zeros (256 - [u8 142].length) = [u8 142] ++ zeros 255 := rfl
  rw [e, this, zeros_drop]
  rfl

theorem macTlv_take (mac8 : List Nat) (h : mac8.length = 8) :
    (splice macTlvInit 2 mac8).take (2 + 8) = 0x8E :: 8 :: mac8 := by
  rw [macTlvInit_eq]
  have := splice_at_end [0x8E, 8] (zeros 254) mac8
  have e : (0x8E : Nat) :: 8 :: zeros 254 = [0x8E, 8] ++ zeros 254 := rfl
  have e2 : ([0x8E, 8] : List Nat).length = 2 := rfl
  rw [e2] at this
  rw [e, this, List.take_append_of_le_length (by simp [h])]
  exact List.take_of_length_le (by simp [h])

/-- The header stores of `encode_apdu` leave the same bytes for either value of
its local `block_size`. -/
theorem header_buf_eq (plain : sc_apdu) (bs0 bs : Nat) (h0 : bs0 = 8 ∨ bs0 = 16)
    (h1 : bs = 16 ∨ bs = 8) :
    splice (zeros 4096) 0 (headerBlock plain bs0) = headerBlock plain bs ++ zeros (4096 - bs) := by
  rw [splice_zeros_eq]
  unfold headerBlock
  simp only [List.length_append, List.length_cons, List.length_nil, zeros_length,
    List.append_assoc, zeros_append]
  congr 2
  rcases h0 with h | h <;> rcases h1 with h' | h' <;> subst h <;> subst h' <;> rfl

/-- Contents of the work buffer when `construct_mac_tlv` is called. -/
theorem encBuf_eq (bs0 : Nat) (h0 : bs0 = 8 ∨ bs0 = 16) (c : Crypto) (s : Session)
    (plain : sc_apdu) :
    encBuf bs0 c s plain = headerBlock plain (blockSize s.g_smtype) ++ encD c s plain ++
      encL plain ++ zeros (4096 - blockSize s.g_smtype - (encD c s plain).length -
        (encL plain).length) := by
  unfold encBuf
  have hbs := blockSize_cases s.g_smtype
  have hl := headerBlock_length plain (blockSize s.g_smtype) (by omega)
  rw [header_buf_eq plain bs0 _ h0 hbs]
  have e1 := splice_at_end (headerBlock plain (blockSize s.g_smtype))
    (zeros (4096 - blockSize s.g_smtype)) (encD c s plain)
  rw [hl] at e1
  rw [e1, zeros_drop]
  have e2 := splice_at_end (headerBlock plain (blockSize s.g_smtype) ++ encD c s plain)
    (zeros (4096 - blockSize s.g_smtype - (encD c s plain).length)) (encL plain)
  rw [List.length_append, hl] at e2
  rw [e2, zeros_drop]

theorem macLen_sub (bs d l : Nat) (h : ¬ (d = 0 ∧ l = 0)) :
    macLen bs d l = padLen bs (d + l) + bs := by
  unfold macLen; rw [if_neg h]

/-- The bytes handed to the MAC cipher. -/
theorem mac_in_eq (bs0 : Nat) (h0 : bs0 = 8 ∨ bs0 = 16) (c : Crypto) (s : Session)
    (plain : sc_apdu)
    (hm : ¬ ((encD c s plain).length = 0 ∧ (encL plain).length = 0) →
      blockSize s.g_smtype + macLen (blockSize s.g_smtype) (encD c s plain).length
        (encL plain).length ≤ 4096) :
    (macPadded (encBuf bs0 c s plain) (blockSize s.g_smtype) (encD c s plain).length
      (encL plain).length).take
        (macLen (blockSize s.g_smtype) (encD c s plain).length (encL plain).length) =
      macInput c s plain := by
  have hbs := blockSize_cases s.g_smtype
  have hl := headerBlock_length plain (blockSize s.g_smtype) (by omega)
  rw [encBuf_eq bs0 h0]
  unfold macPadded macInput
  simp only []
  by_cases hz : (encD c s plain).length = 0 ∧ (encL plain).length = 0
  · rw [if_pos hz, if_pos hz]
    have hD : encD c s plain = [] := List.length_eq_zero.mp hz.1
    have hL : encL plain = [] := List.length_eq_zero.mp hz.2
    unfold macLen
    rw [if_pos hz, hD, hL]
    simp only [List.append_nil]
    rw [List.take_append_of_le_length (by rw [hl]), List.take_of_length_le (by rw [hl])]
  · rw [if_neg hz, if_neg hz]
    have hm' := hm hz
    rw [macLen_sub _ _ _ hz] at hm' ⊢
    have hp := padLen_gt (blockSize s.g_smtype) ((encD c s plain).length + (encL plain).length)
      hbs
    generalize padLen (blockSize s.g_smtype) ((encD c s plain).length + (encL plain).length)
      = pl at *
    have e := splice_at_end (headerBlock plain (blockSize s.g_smtype) ++ encD c s plain ++
      encL plain) (zeros (4096 - blockSize s.g_smtype - (encD c s plain).length -
        (encL plain).length))
      (0x80 :: zeros (pl + blockSize s.g_smtype -
        ((encD c s plain).length + (encL plain).length + 1)))
    simp only [List.length_append, hl] at e
    rw [e, List.append_assoc _ (128 :: _) _, List.take_append_eq_append_take,
      List.take_of_length_le (by simp only [List.length_append, hl]; omega)]
    simp only [List.length_append, hl]
    congr 1
    have e3 : pl + blockSize s.g_smtype -
        (blockSize s.g_smtype + (encD c s plain).length + (encL plain).length) =
        (pl - ((encD c s plain).length + (encL plain).length) - 1) + 1 := by omega
    rw [e3, List.cons_append, List.take_succ_cons, List.take_append_of_le_length
      (by rw [zeros_length]; omega), zeros_take _ _ (by omega)]
theorem macLen_dvd (bs d l : Nat) : bs ∣ macLen bs d l := by
  unfold macLen
  split
  · exact Nat.dvd_refl bs
  · exact Nat.dvd_add (padLen_dvd bs (d + l)) (Nat.dvd_refl bs)

theorem macLen_le_4096 (bs d l : Nat) (hbs : bs = 16 ∨ bs = 8)
    (h : ¬ (d = 0 ∧ l = 0) → bs + macLen bs d l ≤ 4096) : macLen bs d l ≤ 4096 := by
  by_cases h0 : d = 0 ∧ l = 0
  · unfold macLen; rw [if_pos h0]; omega
  · have := h h0; omega

theorem encodeBs_cases (s : Session) : encodeBs s = 8 ∨ encodeBs s = 16 := by
  unfold encodeBs; split <;> simp

/-- The MAC bytes that `encode_apdu` obtains are the closed form `macBytes` of the
MAC input, and there are eight of them. -/
theorem encode_mac8 (bs0 : Nat) (h0 : bs0 = 8 ∨ bs0 = 16) (c : Crypto)
    (hc : c.LengthPreserving) (s : Session) (plain sm : sc_apdu) (icv mac8 : List Nat)
    (hcond : EncodeCond bs0 c s plain sm icv mac8) :
    mac8 = macBytes c s.g_sk_mac (icv.take 16) (macInput c s plain) s.g_smtype ∧
      mac8.length = 8 ∧ (macInput c s plain).length =
        macLen (blockSize s.g_smtype) (encD c s plain).length (encL plain).length := by
  unfold EncodeCond at hcond
  simp only [] at hcond
  obtain ⟨_, hL, hm1, _, _, hmac, _⟩ := hcond
  have hbs := blockSize_cases s.g_smtype
  have hin := mac_in_eq bs0 h0 c s plain hm1
  rw [hin] at hmac
  have hml := macLen_le_4096 _ _ _ hbs hm1
  have hlen : (macInput c s plain).length =
      macLen (blockSize s.g_smtype) (encD c s plain).length (encL plain).length := by
    rw [← hin, List.length_take, Nat.min_eq_left]
    rw [macPadded_length _ _ _ _ hbs (by
      rw [encBuf_length bs0 (by omega) (by omega) c s plain hL]; exact hm1),
      encBuf_length bs0 (by omega) (by omega) c s plain hL]
    exact hml
  have hpos := macLen_pos (blockSize s.g_smtype) (encD c s plain).length (encL plain).length
  have hdvd := macLen_dvd (blockSize s.g_smtype) (encD c s plain).length (encL plain).length
  have h := (calculate_mac_iff c hc s.g_sk_mac (icv.take 16) (macInput c s plain) s.g_smtype
    _ hlen hdvd hpos mac8).mp hmac
  refine ⟨h.2, ?_, hlen⟩
  rw [h.2]
  apply macBytes_length c hc
  · intro hk
    have hb : blockSize s.g_smtype = 16 := by unfold blockSize; rw [if_pos hk]
    rw [hlen]
    exact ⟨hb ▸ hdvd, hb ▸ hpos⟩
  · intro hk
    have hb : blockSize s.g_smtype = 8 := by unfold blockSize; rw [if_neg hk]
    rw [hlen]
    exact ⟨hb ▸ hdvd, hb ▸ hpos⟩

/-- What the record returned by `encode_apdu` holds. -/
theorem encodeResult_facts (bs0 : Nat) (h0 : bs0 = 8 ∨ bs0 = 16) (c : Crypto)
    (hc : c.LengthPreserving) (s : Session) (plain sm : sc_apdu) (icv mac8 : List Nat)
    (hcond : EncodeCond bs0 c s plain sm icv mac8) :
    (encodeResult bs0 c s plain sm icv mac8).dataTLV.take
        (encodeResult bs0 c s plain sm icv mac8).data_tlv_len = encD c s plain ∧
    (encodeResult bs0 c s plain sm icv mac8).le_tlv.take
        (encodeResult bs0 c s plain sm icv mac8).le_tlv_len = encL plain ∧
    (encodeResult bs0 c s plain sm icv mac8).mac_tlv.take
        (encodeResult bs0 c s plain sm icv mac8).mac_tlv_len = 0x8E :: 8 :: mac8 ∧
    (encodeResult bs0 c s plain sm icv mac8).mac_in = macInput c s plain ∧
    (encodeResult bs0 c s plain sm icv mac8).sm.data.take
        (encodeResult bs0 c s plain sm icv mac8).sm.datalen =
      encD c s plain ++ encL plain ++ 0x8E :: 8 :: mac8 := by
  obtain ⟨hm8, hm8l, _⟩ := encode_mac8 bs0 h0 c hc s plain sm icv mac8 hcond
  unfold EncodeCond at hcond
  simp only [] at hcond
  obtain ⟨_, hL, hm1, _, _, _, _, _, _, _, hdata⟩ := hcond
  have e1 : (splice (zeros 4096) 0 (encD c s plain)).take (encD c s plain).length =
      encD c s plain := by
    rw [splice_zeros_take _ _ _ (Nat.le_refl _)]; exact List.take_length _
  have e2 : (splice (zeros 256) 0 (encL plain)).take (encL plain).length = encL plain := by
    rw [splice_zeros_take _ _ _ (Nat.le_refl _)]; exact List.take_length _
  have e3 := macTlv_take mac8 hm8l
  refine ⟨e1, e2, e3, mac_in_eq bs0 h0 c s plain hm1, ?_⟩
  show (splice sm.data 0 (_ ++ _ ++ _)).take _ = _
  rw [e1, e2, e3]
  have hlen : (encD c s plain ++ encL plain ++ 0x8E :: 8 :: mac8).length =
      (encD c s plain).length + (encL plain).length + (2 + 8) := by
    simp only [List.length_append, List.length_cons, hm8l]
  have := take_splice sm.data 0 (encD c s plain ++ encL plain ++ 0x8E :: 8 :: mac8)
    (by rw [hlen]; omega)
  rw [Nat.zero_add, hlen, List.take_zero, List.nil_append] at this
  exact this
/-! ## The sample cipher suite -/

theorem mirrorCrypto_lengthPreserving : mirrorCrypto.LengthPreserving :=
  ⟨fun _ _ x _ => List.length_reverse x, fun _ _ x _ => List.length_reverse x,
   fun _ _ x _ => List.length_reverse x, fun _ _ x _ => List.length_reverse x,
   fun _ _ x _ => List.length_reverse x, fun _ _ x _ => List.length_reverse x⟩

theorem mirrorCrypto_cbcInverse : mirrorCrypto.CbcInverse :=
  ⟨fun _ x _ => List.reverse_reverse x, fun _ x _ => List.reverse_reverse x⟩

/-! ## When a wrap returns -/

theorem encD_length (c : Crypto) (hc : c.LengthPreserving) (s : Session) (plain : sc_apdu)
    (h1 : plain.lc ≤ plain.data.length) (h0 : plain.lc ≠ 0) :
    (encD c s plain).length = 2 + (lenField (padLen (blockSize s.g_smtype) plain.lc)).length +
      padLen (blockSize s.g_smtype) plain.lc := by
  unfold encD
  rw [if_pos h0]
  exact dataTlvBytes_length c s plain s.g_smtype (encData_length c hc s plain s.g_smtype h1)

theorem encD_length_le (c : Crypto) (hc : c.LengthPreserving) (s : Session) (plain : sc_apdu)
    (h1 : plain.lc ≤ plain.data.length) : (encD c s plain).length ≤ plain.lc + 21 := by
  by_cases h0 : plain.lc ≠ 0
  · rw [encD_length c hc s plain h1 h0]
    have := padLen_le (blockSize s.g_smtype) plain.lc (blockSize_cases _)
    have := lenField_length_le (padLen (blockSize s.g_smtype) plain.lc)
    have := blockSize_cases s.g_smtype
    omega
  · rw [encD_length_zero c s plain h0]; omega

theorem macInput_length (c : Crypto) (s : Session) (plain : sc_apdu) :
    (macInput c s plain).length =
      macLen (blockSize s.g_smtype) (encD c s plain).length (encL plain).length := by
  have hbs := blockSize_cases s.g_smtype
  have hl := headerBlock_length plain (blockSize s.g_smtype) (by omega)
  unfold macInput macLen
  simp only []
  split
  · exact hl
  · have := padLen_gt (blockSize s.g_smtype) ((encD c s plain).length + (encL plain).length) hbs
    simp only [List.length_append, List.length_cons, zeros_length, hl]
    omega

/-- On inputs that fit the buffers, the conditions under which `encode_apdu`
returns hold, with the MAC bytes in closed form. -/
theorem encodeCond_intro (bs0 : Nat) (h0 : bs0 = 8 ∨ bs0 = 16) (c : Crypto)
    (hc : c.LengthPreserving) (s : Session) (plain sm : sc_apdu)
    (h1 : plain.lc ≤ plain.data.length) (h2 : plain.lc ≤ 4000)
    (h3 : plain.lc + 40 ≤ sm.data.length) (icv : List Nat)
    (hicv : increase_icv s.g_smtype s.g_icv_mac = Exec.ok icv) (hl : 16 ≤ icv.length) :
    EncodeCond bs0 c s plain sm icv
      (macBytes c s.g_sk_mac (icv.take 16) (macInput c s plain) s.g_smtype) := by
  have hbs := blockSize_cases s.g_smtype
  have hd := encD_length_le c hc s plain h1
  have hL := encL_length_le plain
  have hlb := lcBytes_length ((encD c s plain).length + (encL plain).length + (2 + 8))
  have hlb3 : (lcBytes ((encD c s plain).length + (encL plain).length + (2 + 8))).length ≤ 3 := by
    rw [hlb]; split <;> omega
  have hpl := padLen_le (blockSize s.g_smtype) ((encD c s plain).length + (encL plain).length) hbs
  have hm1 : ¬ ((encD c s plain).length = 0 ∧ (encL plain).length = 0) →
      blockSize s.g_smtype + macLen (blockSize s.g_smtype) (encD c s plain).length
        (encL plain).length ≤ 4096 := by
    intro h
    rw [macLen_sub _ _ _ h]
    omega
  have hml := macLen_le_4096 _ _ _ hbs hm1
  have hlen := macInput_length c s plain
  have hpos := macLen_pos (blockSize s.g_smtype) (encD c s plain).length (encL plain).length
  have hdvd := macLen_dvd (blockSize s.g_smtype) (encD c s plain).length (encL plain).length
  have hm8 : (macBytes c s.g_sk_mac (icv.take 16) (macInput c s plain) s.g_smtype).length = 8 := by
    apply macBytes_length c hc
    · intro hk
      have hb : blockSize s.g_smtype = 16 := by unfold blockSize; rw [if_pos hk]
      rw [hlen]
      exact ⟨hb ▸ hdvd, hb ▸ hpos⟩
    · intro hk
      have hb : blockSize s.g_smtype = 8 := by unfold blockSize; rw [if_neg hk]
      rw [hlen]
      exact ⟨hb ▸ hdvd, hb ▸ hpos⟩
  unfold EncodeCond
  simp only []
  refine ⟨fun _ => ⟨h1, by omega⟩, by omega, hm1, hicv, hl, ?_, by omega, by omega,
    fun _ => by omega, fun _ => by omega, by omega⟩
  rw [mac_in_eq bs0 h0 c s plain hm1]
  exact (calculate_mac_iff c hc s.g_sk_mac (icv.take 16) (macInput c s plain) s.g_smtype
    _ hlen hdvd hpos _).mpr ⟨hml, rfl⟩

/-- A wrap in SM mode returns on every input that fits the buffers. -/
theorem wrap_total (c : Crypto) (hc : c.LengthPreserving) (s : Session) (plain sm : sc_apdu)
    (hsm : s.g_sm ≠ 0) (hw : Wrappable s plain sm) :
    ∃ w, epass2003_sm_wrap_apdu c s plain sm = Exec.ok w := by
  obtain ⟨h1, h2, h3, h16, hb, hv⟩ := hw
  obtain ⟨icv, hicv, hl, _⟩ := increase_icv_spec s.g_smtype s.g_icv_mac h16 hb hv
  exact ⟨_, (wrap_sm_iff c hc s plain sm hsm _).mpr
    ⟨icv, _, encodeCond_intro (encodeBs s) (encodeBs_cases s) c hc s (wrapPlain plain)
      (wrapSm (wrapPlain plain) sm) h1 h2 h3 icv hicv (by omega), rfl⟩⟩
/-! ## What a wrap in SM mode leaves behind -/

theorem encD_wrapPlain (c : Crypto) (s : Session) (plain : sc_apdu) :
    encD c s (wrapPlain plain) = encD c s plain := rfl

theorem encL_wrapPlain (plain : sc_apdu) : encL (wrapPlain plain) = encL plain := rfl

/-- Every field of the result of a wrap in SM mode, in closed form. -/
theorem wrap_sm_facts (c : Crypto) (hc : c.LengthPreserving) (s : Session) (plain sm : sc_apdu)
    (hsm : s.g_sm ≠ 0) (w : WrapOut) (h : epass2003_sm_wrap_apdu c s plain sm = Exec.ok w) :
    ∃ e icv mac8,
      w.enc = some e ∧ w.sm = e.sm ∧ w.ret = SC_SUCCESS ∧
      w.session = { s with g_icv_mac := icv } ∧
      increase_icv s.g_smtype s.g_icv_mac = Exec.ok icv ∧ 16 ≤ icv.length ∧
      e.mac_iv = icv.take 16 ∧
      mac8 = macBytes c s.g_sk_mac (icv.take 16) e.mac_in s.g_smtype ∧ mac8.length = 8 ∧
      e.mac_in = macInput c s (wrapPlain plain) ∧
      e.dataTLV.take e.data_tlv_len = encD c s plain ∧
      e.data_tlv_len = (encD c s plain).length ∧
      e.le_tlv.take e.le_tlv_len = encL plain ∧ e.le_tlv_len = (encL plain).length ∧
      e.mac_tlv.take e.mac_tlv_len = 0x8E :: 8 :: mac8 ∧
      w.sm.data.take w.sm.datalen = encD c s plain ++ encL plain ++ 0x8E :: 8 :: mac8 ∧
      w.sm.lc = (encD c s plain).length + (encL plain).length + 10 ∧
      w.sm.datalen = (encD c s plain).length + (encL plain).length + 10 ∧
      w.sm.cse = (if (encD c s plain).length + (encL plain).length + 10 > 0xFF ∨
        4 = (encL plain).length then SC_APDU_CASE_4_EXT else SC_APDU_CASE_4_SHORT) ∧
      w.sm.cla = u8 (plain.cla ||| 0x0C) ∧ w.sm.ins = plain.ins ∧ w.sm.p1 = plain.p1 ∧
      w.sm.p2 = plain.p2 ∧
      (plain.lc ≠ 0 → plain.lc ≤ plain.data.length ∧ plain.lc ≤ 4095) := by
  obtain ⟨icv, mac8, hcond, hw⟩ := (wrap_sm_iff c hc s plain sm hsm w).mp h
  obtain ⟨hm8, hm8l, _⟩ := encode_mac8 (encodeBs s) (encodeBs_cases s) c hc s (wrapPlain plain)
    (wrapSm (wrapPlain plain) sm) icv mac8 hcond
  obtain ⟨f1, f2, f3, f4, f5⟩ := encodeResult_facts (encodeBs s) (encodeBs_cases s) c hc s
    (wrapPlain plain) (wrapSm (wrapPlain plain) sm) icv mac8 hcond
  have hcond2 := hcond
  unfold EncodeCond at hcond2
  simp only [] at hcond2
  obtain ⟨hlc, _, _, hicv, hl16, _⟩ := hcond2
  subst hw
  refine ⟨_, icv, mac8, rfl, rfl, rfl, rfl, hicv, hl16, rfl, ?_, hm8l, f4, f1, rfl, f2, rfl, f3,
    f5, rfl, rfl, rfl, rfl, rfl, rfl, rfl, hlc⟩
  rw [hm8]
  exact congrArg (fun x => macBytes c s.g_sk_mac (icv.take 16) x s.g_smtype) f4.symm
/-! ## Decoding a response (`decrypt_response`) -/

theorem peek_ok (buf : List Nat) (i b : Nat) (h : buf[i]? = some b) : peek buf i = Exec.ok b :=
  (peek_eq_ok buf i b).mpr h

/-- The padding loop started behind `P ++ 0x80 :: zeros k` stops at the `0x80`. -/
theorem unpad_loop_spec : ∀ (k : Nat) (P rest : List Nat) (fuel : Nat), k < fuel →
    P.length + k + 2 < SIZE_MOD →
    unpad_loop fuel (P ++ 0x80 :: (zeros k ++ rest)) (P.length + k + 2) =
      Exec.ok (P.length + 2) := by
  intro k
  induction k with
  | zero =>
    intro P rest fuel hf hs
    obtain ⟨f, rfl⟩ : ∃ f, fuel = f + 1 := ⟨fuel - 1, by omega⟩
    have hi : (P.length + 0 + 2 + (SIZE_MOD - 2)) % SIZE_MOD = P.length := by
      unfold SIZE_MOD at *; omega
    unfold unpad_loop
    have hget : (P ++ 0x80 :: (zeros 0 ++ rest))[P.length]? = some 0x80 := by
      rw [List.getElem?_append_right (Nat.le_refl _), Nat.sub_self]
      exact List.getElem?_cons_zero
    rw [hi, peek_ok _ _ 0x80 hget]
    simp
  | succ k ih =>
    intro P rest fuel hf hs
    obtain ⟨f, rfl⟩ : ∃ f, fuel = f + 1 := ⟨fuel - 1, by omega⟩
    have hi : (P.length + (k + 1) + 2 + (SIZE_MOD - 2)) % SIZE_MOD = P.length + (k + 1) := by
      unfold SIZE_MOD at *; omega
    have hd : (P.length + (k + 1) + 2 + (SIZE_MOD - 1)) % SIZE_MOD = P.length + k + 2 := by
      unfold SIZE_MOD at *; omega
    have hz : zeros (k + 1) ++ rest = zeros k ++ 0 :: rest := by
      unfold zeros
      rw [List.replicate_succ', List.append_assoc]
      rfl
    have hget : (P ++ 0x80 :: (zeros k ++ 0 :: rest))[P.length + (k + 1)]? = some 0 := by
      rw [List.getElem?_append_right (by omega)]
      have e : P.length + (k + 1) - P.length = k + 1 := by omega
      rw [e, List.getElem?_cons_succ, List.getElem?_append_right (by rw [zeros_length])]
      simp [zeros_length]
    unfold unpad_loop
    rw [hz, hi, peek_ok _ _ 0 hget, hd]
    simp only [ne_eq, Nat.reduceEqDiff, not_false_eq_true, true_and]
    rw [if_pos (by omega)]
    exact ih P (0 :: rest) f (by omega) (by omega)

/-- The parser on the short form `tag, n, 01`. -/
theorem parse_short (t n : Nat) (rest : List Nat) (hn : n ≠ 0x82) :
    parse_cipher_length (t :: n :: 0x01 :: rest) = Exec.ok (some (n, 3)) := by
  have hn2 : ¬ (0x82 = n) := fun h => hn h.symm
  have p1 : peek (t :: n :: 0x01 :: rest) 1 = Exec.ok n := by simp [peek]
  have p2 : peek (t :: n :: 0x01 :: rest) 2 = Exec.ok 1 := by simp [peek]
  unfold parse_cipher_length
  rw [p2, p1]
  simp only [Exec.ok_bind, if_true, ne_eq, hn2, not_false_eq_true, decide_True, Exec.pure_bind]
  rfl

/-- The parser on the long form `tag, 82, hi, lo, 01`. -/
theorem parse_long (t hi lo : Nat) (rest : List Nat) :
    parse_cipher_length (t :: 0x82 :: hi :: lo :: 0x01 :: rest) =
      Exec.ok (some (hi * 0x100 + lo, 5)) := by
  have p1 : peek (t :: 0x82 :: hi :: lo :: 0x01 :: rest) 1 = Exec.ok 0x82 := by simp [peek]
  have p2 : peek (t :: 0x82 :: hi :: lo :: 0x01 :: rest) 2 = Exec.ok hi := by simp [peek]
  have p3 : peek (t :: 0x82 :: hi :: lo :: 0x01 :: rest) 3 = Exec.ok lo := by simp [peek]
  have p4 : peek (t :: 0x82 :: hi :: lo :: 0x01 :: rest) 4 = Exec.ok 1 := by simp [peek]
  unfold parse_cipher_length
  rw [p1, p2, p3, p4]
  by_cases h1 : 1 = hi
  · by_cases h2 : 1 = lo
    · simp only [Exec.ok_bind, Exec.pure_bind, if_pos h1, if_pos h2, if_true, if_false, ne_eq,
        not_true_eq_false, decide_False, decide_True, Nat.reduceEqDiff, Bool.false_eq_true]
      rfl
    · simp only [Exec.ok_bind, Exec.pure_bind, if_pos h1, if_neg h2, if_true, if_false, ne_eq,
        not_true_eq_false, decide_False, decide_True, Nat.reduceEqDiff, Bool.false_eq_true]
      rfl
  · by_cases h2 : 1 = lo
    · simp only [Exec.ok_bind, Exec.pure_bind, if_neg h1, if_pos h2, if_true, if_false, ne_eq,
        not_true_eq_false, decide_False, decide_True, Nat.reduceEqDiff, Bool.false_eq_true]
      rfl
    · simp only [Exec.ok_bind, Exec.pure_bind, if_neg h1, if_neg h2, if_true, if_false, ne_eq,
        not_true_eq_false, decide_False, decide_True, Nat.reduceEqDiff, Bool.false_eq_true]
      rfl
/-- The blocks `decrypt` and `unpadding` on a cipher whose plaintext is
`P ++ 0x80 :: zeros k` with `P` non-empty: `P` is copied to `out`. -/
theorem decrypt_unpad_spec (c : Crypto) (s : Session) (inp out : List Nat)
    (out_len in_len i : Nat) (P : List Nat) (k : Nat)
    (hci : i + (in_len - 1) ≤ inp.length)
    (hdec : (if KEY_TYPE_AES = s.g_smtype then
        aes128_decrypt_cbc c s.g_sk_enc (zeros 16) ((inp.drop i).take (in_len - 1))
      else des3_decrypt_cbc c s.g_sk_enc 16 (zeros 16) ((inp.drop i).take (in_len - 1))) =
      P ++ 0x80 :: zeros k)
    (hlen : in_len = P.length + k + 2) (h4096 : in_len - 1 ≤ 4096)
    (hP : 1 ≤ P.length) (hout : P.length ≤ out.length) :
    decrypt_unpad c s inp out out_len in_len i = Exec.ok (0, splice out 0 P, P.length) := by
  subst hlen
  have e1 : (P.length + k + 2 + (SIZE_MOD - 1)) % SIZE_MOD = P.length + k + 2 - 1 :=
    size_dec _ (by omega) (by unfold SIZE_MOD; omega)
  have e2 : (P.length + 2 + (SIZE_MOD - 2)) % SIZE_MOD = P.length := by
    unfold SIZE_MOD; omega
  have el : (P ++ 0x80 :: zeros k).length = P.length + k + 1 := by
    simp only [List.length_append, List.length_cons, zeros_length]; omega
  have ep : P ++ 0x80 :: zeros k ++ zeros (4096 - (P ++ 0x80 :: zeros k).length) =
      P ++ 0x80 :: (zeros k ++ zeros (4096 - (P ++ 0x80 :: zeros k).length)) := by
    rw [List.append_assoc, List.cons_append]
  unfold decrypt_unpad
  simp only []
  rw [e1, peekN_ok _ _ _ hci, Exec.ok_bind, hdec,
    blit_ok _ _ _ (by rw [el, zeros_length]; omega), Exec.ok_bind, splice_zeros_eq, ep,
    unpad_loop_spec k P _ 4097 (by omega) (by unfold SIZE_MOD; omega), Exec.ok_bind,
    if_neg (by omega), e2,
    peekN_ok _ _ _ (by simp only [List.length_append, List.length_cons, zeros_length]; omega),
    Exec.ok_bind, List.drop_zero, List.take_left, blit_ok _ _ _ (by omega), Exec.ok_bind]
  rfl
/-- Decrypting what `construct_data_tlv` encrypted gives the input back. -/
theorem dec_encData (c : Crypto) (hinv : c.CbcInverse) (s : Session) (x : List Nat)
    (hx : blockSize s.g_smtype ∣ x.length) :
    (if KEY_TYPE_AES = s.g_smtype then
        aes128_decrypt_cbc c s.g_sk_enc (zeros 16) (encData c s s.g_smtype x)
      else des3_decrypt_cbc c s.g_sk_enc 16 (zeros 16) (encData c s s.g_smtype x)) = x := by
  have z16 : (zeros 16).take 16 = zeros 16 := rfl
  have z8 : (zeros 16).take 8 = zeros 8 := rfl
  unfold encData blockSize at *
  by_cases hk : KEY_TYPE_AES = s.g_smtype
  · rw [if_pos hk] at hx
    rw [if_pos hk, if_pos hk]
    unfold aes128_decrypt_cbc aes128_encrypt_cbc
    rw [z16]
    exact hinv.aes _ x hx
  · rw [if_neg hk] at hx
    rw [if_neg hk, if_neg hk]
    unfold des3_decrypt_cbc des3_encrypt_cbc
    rw [z8]
    exact hinv.des3 _ x hx

/-- `decrypt_response` on the data TLV that `construct_data_tlv` builds, followed
by any further bytes, returns the command data. -/
theorem decrypt_data_tlv (c : Crypto) (hc : c.LengthPreserving) (hinv : c.CbcInverse)
    (s : Session) (apdu : sc_apdu) (tail out : List Nat) (out_len : Nat)
    (h1 : 1 ≤ apdu.lc) (h2 : apdu.lc ≤ 4095) (hd : apdu.lc ≤ apdu.data.length)
    (hout : apdu.lc ≤ out.length) :
    decrypt_response c s (dataTlvBytes c s apdu s.g_smtype ++ tail) out out_len =
      Exec.ok (0, splice out 0 (apdu.data.take apdu.lc), apdu.lc) := by
  have hbs := blockSize_cases s.g_smtype
  have hcl := encData_length c hc s apdu s.g_smtype hd
  have hgt := padLen_gt (blockSize s.g_smtype) apdu.lc hbs
  have hle := padLen_le_4096 (blockSize s.g_smtype) apdu.lc hbs h2
  have hdv := padLen_dvd (blockSize s.g_smtype) apdu.lc
  have hpl := padded_length (blockSize s.g_smtype) apdu.lc apdu.data hbs hd
  have hdec := dec_encData c hinv s (padded (blockSize s.g_smtype) apdu.lc apdu.data)
    (by rw [hpl]; exact hdv)
  have hpd : padded (blockSize s.g_smtype) apdu.lc apdu.data = apdu.data.take apdu.lc ++
      0x80 :: zeros (padLen (blockSize s.g_smtype) apdu.lc - apdu.lc - 1) := rfl
  rw [hpd] at hdec
  clear hpl
  have hPl : (apdu.data.take apdu.lc).length = apdu.lc := by
    rw [List.length_take]; omega
  have hp0 : ∀ r, peek (0x87 :: r) 0 = Exec.ok 0x87 := fun r => by simp [peek]
  unfold decrypt_response dataTlvBytes lenField
  rw [← hpd] at hdec
  generalize hC : encData c s s.g_smtype (padded (blockSize s.g_smtype) apdu.lc apdu.data) = C
    at hcl hdec ⊢
  rw [hpd] at hdec
  generalize padLen (blockSize s.g_smtype) apdu.lc = pl at *
  by_cases hbig : pl > 0x7E
  · rw [if_pos hbig]
    have e : (0x87 :: ([0x82, u8 ((pl + 1) / 0x100), u8 ((pl + 1) % 0x100)] ++ 0x01 :: C) ++ tail)
        = 0x87 :: 0x82 :: u8 ((pl + 1) / 0x100) :: u8 ((pl + 1) % 0x100) :: 0x01 :: (C ++ tail) :=
      rfl
    have ev : u8 ((pl + 1) / 0x100) * 0x100 + u8 ((pl + 1) % 0x100) = pl + 1 := by
      unfold u8; omega
    rw [e, hp0, Exec.ok_bind, if_neg (by decide), parse_long, Exec.ok_bind, ev]
    have ed : ((0x87 :: 0x82 :: u8 ((pl + 1) / 0x100) :: u8 ((pl + 1) % 0x100) :: 0x01 :: (C ++ tail)).drop 5).take (pl + 1 - 1) = C := by
      show (C ++ tail).take (pl + 1 - 1) = C
      rw [Nat.add_sub_cancel, ← hcl, List.take_left]
    have key := decrypt_unpad_spec c s (0x87 :: 0x82 :: u8 ((pl + 1) / 0x100) :: u8 ((pl + 1) % 0x100) :: 0x01 :: (C ++ tail)) out out_len (pl + 1) 5 (apdu.data.take apdu.lc)
      (pl - apdu.lc - 1) (by simp only [List.length_cons, List.length_append]; omega)
      (by rw [ed]; exact hdec) (by rw [hPl]; omega) (by omega) (by rw [hPl]; exact h1)
      (by rw [hPl]; exact hout)
    rw [hPl] at key
    exact key
  · rw [if_neg hbig]
    have e1 : u8 (u8 pl + 1) = pl + 1 := by unfold u8; omega
    have e : (0x87 :: ([u8 (u8 pl + 1)] ++ 0x01 :: C) ++ tail) =
        0x87 :: (pl + 1) :: 0x01 :: (C ++ tail) := by rw [e1]; rfl
    rw [e, hp0, Exec.ok_bind, if_neg (by decide), parse_short _ _ _ (by omega), Exec.ok_bind]
    have ed : ((0x87 :: (pl + 1) :: 0x01 :: (C ++ tail)).drop 3).take (pl + 1 - 1) = C := by
      show (C ++ tail).take (pl + 1 - 1) = C
      rw [Nat.add_sub_cancel, ← hcl, List.take_left]
    have key := decrypt_unpad_spec c s (0x87 :: (pl + 1) :: 0x01 :: (C ++ tail)) out out_len (pl + 1) 3 (apdu.data.take apdu.lc)
      (pl - apdu.lc - 1) (by simp only [List.length_cons, List.length_append]; omega)
      (by rw [ed]; exact hdec) (by rw [hPl]; omega) (by omega) (by rw [hPl]; exact h1)
      (by rw [hPl]; exact hout)
    rw [hPl] at key
    exact key
/-! ## The counter over a sequence of wraps -/

/-- One wrap in SM mode: the counter it leaves, which is also the IV of its MAC. -/
theorem wrap_step_icv (c : Crypto) (hc : c.LengthPreserving) (s : Session) (plain sm : sc_apdu)
    (hsm : s.g_sm ≠ 0) (h16 : s.g_icv_mac.length = 16) (hb : ∀ x ∈ s.g_icv_mac, x < 256)
    (hv : beVal (s.g_icv_mac.take (icvWidth s.g_smtype)) + 1 < 256 ^ icvWidth s.g_smtype)
    (w : WrapOut) (h : epass2003_sm_wrap_apdu c s plain sm = Exec.ok w) :
    ∃ icv, w.session = { s with g_icv_mac := icv } ∧
      w.mac_iv = icv ∧ icv.length = 16 ∧
      beVal (icv.take (icvWidth s.g_smtype)) =
        beVal (s.g_icv_mac.take (icvWidth s.g_smtype)) + 1 ∧
      icv.drop (icvWidth s.g_smtype) = s.g_icv_mac.drop (icvWidth s.g_smtype) ∧
      ∀ x ∈ icv, x < 256 := by
  obtain ⟨e, icv, mac8, he, _, _, hs, hicv, _, hiv, _⟩ :=
    wrap_sm_facts c hc s plain sm hsm w h
  obtain ⟨r, hr, hl, hval, hdrop, hbytes⟩ := increase_icv_spec s.g_smtype s.g_icv_mac h16 hb hv
  rw [hicv] at hr
  cases hr
  refine ⟨icv, hs, ?_, hl, hval, hdrop, hbytes⟩
  unfold WrapOut.mac_iv
  rw [he]
  show e.mac_iv = icv
  rw [hiv]
  exact List.take_of_length_le (by omega)

/-- The IVs of a sequence of wraps in SM mode count up from the starting counter. -/
theorem wrap_seq_ivs (c : Crypto) (hc : c.LengthPreserving) :
    ∀ (cmds : List (sc_apdu × sc_apdu)) (s s' : Session) (ivs : List (List Nat)),
    s.g_sm ≠ 0 → s.g_icv_mac.length = 16 → (∀ x ∈ s.g_icv_mac, x < 256) →
    beVal (s.g_icv_mac.take (icvWidth s.g_smtype)) + cmds.length < 256 ^ icvWidth s.g_smtype →
    wrap_seq c s cmds = Exec.ok (s', ivs) →
    ivs.length = cmds.length ∧ s'.g_smtype = s.g_smtype ∧
    beVal (s'.g_icv_mac.take (icvWidth s.g_smtype)) =
      beVal (s.g_icv_mac.take (icvWidth s.g_smtype)) + cmds.length ∧
    ∀ k, k < cmds.length → ∃ iv, ivs[k]? = some iv ∧ iv.length = 16 ∧
      beVal (iv.take (icvWidth s.g_smtype)) =
        beVal (s.g_icv_mac.take (icvWidth s.g_smtype)) + (k + 1) ∧
      iv.drop (icvWidth s.g_smtype) = s.g_icv_mac.drop (icvWidth s.g_smtype) := by
  intro cmds
  induction cmds with
  | nil =>
    intro s s' ivs _ _ _ _ h
    unfold wrap_seq at h
    cases h
    exact ⟨rfl, rfl, rfl, fun k hk => absurd hk (Nat.not_lt_zero k)⟩
  | cons p rest ih =>
    intro s s' ivs hsm h16 hb hv h
    obtain ⟨plain, sm⟩ := p
    rw [List.length_cons] at hv
    unfold wrap_seq at h
    cases hw : epass2003_sm_wrap_apdu c s plain sm with
    | fault f => rw [hw] at h; cases h
    | ok w =>
      rw [hw] at h
      simp only [] at h
      obtain ⟨icv, hs, hiv, hl, hval, hdrop, hbytes⟩ :=
        wrap_step_icv c hc s plain sm hsm h16 hb (by omega) w hw
      cases hr : wrap_seq c w.session rest with
      | fault f => rw [hr] at h; cases h
      | ok r =>
        obtain ⟨s2, ivs2⟩ := r
        rw [hr] at h
        simp only [] at h
        cases h
        rw [hs] at hr
        obtain ⟨i1, i2, i3, i4⟩ := ih { s with g_icv_mac := icv } s' ivs2 hsm hl hbytes
          (by show beVal (icv.take (icvWidth s.g_smtype)) + rest.length <
            256 ^ icvWidth s.g_smtype; omega) hr
        refine ⟨by rw [List.length_cons, List.length_cons, i1], i2, ?_, ?_⟩
        · rw [List.length_cons]
          have : beVal (s'.g_icv_mac.take (icvWidth s.g_smtype)) =
              beVal (icv.take (icvWidth s.g_smtype)) + rest.length := i3
          omega
        · intro k hk
          cases k with
          | zero => exact ⟨icv, by rw [List.getElem?_cons_zero, hiv], hl, hval, hdrop⟩
          | succ k =>
            rw [List.length_cons] at hk
            obtain ⟨iv, g1, g2, g3, g4⟩ := i4 k (by omega)
            refine ⟨iv, by rw [List.getElem?_cons_succ]; exact g1, g2, ?_, ?_⟩
            · have : beVal (iv.take (icvWidth s.g_smtype)) =
                  beVal (icv.take (icvWidth s.g_smtype)) + (k + 1) := g3
              omega
            · have : iv.drop (icvWidth s.g_smtype) = icv.drop (icvWidth s.g_smtype) := g4
              rw [this, hdrop]

/-- A sequence of wraps in SM mode returns when every command fits the buffers
and the counter does not reach its largest value. -/
theorem wrap_seq_total (c : Crypto) (hc : c.LengthPreserving) :
    ∀ (cmds : List (sc_apdu × sc_apdu)) (s : Session),
    s.g_sm ≠ 0 → s.g_icv_mac.length = 16 → (∀ x ∈ s.g_icv_mac, x < 256) →
    beVal (s.g_icv_mac.take (icvWidth s.g_smtype)) + cmds.length < 256 ^ icvWidth s.g_smtype →
    (∀ p ∈ cmds, p.1.lc ≤ p.1.data.length ∧ p.1.lc ≤ 4000 ∧ p.1.lc + 40 ≤ p.2.data.length) →
    ∃ r, wrap_seq c s cmds = Exec.ok r := by
  intro cmds
  induction cmds with
  | nil => intro s _ _ _ _ _; exact ⟨_, rfl⟩
  | cons p rest ih =>
    intro s hsm h16 hb hv hfit
    obtain ⟨plain, sm⟩ := p
    rw [List.length_cons] at hv
    obtain ⟨f1, f2, f3⟩ := hfit (plain, sm) (List.mem_cons_self _ _)
    obtain ⟨w, hw⟩ := wrap_total c hc s plain sm hsm ⟨f1, f2, f3, h16, hb, by omega⟩
    obtain ⟨icv, hs, _, hl, hval, _, hbytes⟩ :=
      wrap_step_icv c hc s plain sm hsm h16 hb (by omega) w hw
    obtain ⟨r, hr⟩ := ih { s with g_icv_mac := icv } hsm hl hbytes
      (by show beVal (icv.take (icvWidth s.g_smtype)) + rest.length <
            256 ^ icvWidth s.g_smtype; omega)
      (fun p hp => hfit p (List.mem_cons_of_mem _ hp))
    obtain ⟨s2, ivs2⟩ := r
    unfold wrap_seq
    rw [hw]
    simp only []
    rw [hs, hr]
    exact ⟨_, rfl⟩
/-! ## The data TLV as the caller sees it -/

theorem slice_splice_full (b : List Nat) (o : Nat) (x : List Nat) (ho : o + x.length ≤ b.length) :
    ((splice b o x).drop o).take x.length = x := by
  have := slice_splice b o x 0 x.length ho (by omega)
  rw [Nat.add_zero, List.drop_zero, List.take_length] at this
  exact this

/-- On buffers with room for the TLV, `construct_data_tlv` returns, and both
buffers hold the bytes `dataTlvBytes`. -/
theorem construct_data_tlv_run (c : Crypto) (hc : c.LengthPreserving) (s : Session)
    (apdu : sc_apdu) (buf dt : List Nat) (kt : Nat)
    (h2 : apdu.lc ≤ 4095) (hd : apdu.lc ≤ apdu.data.length)
    (hbuf : apdu.lc + 2 * blockSize kt + 5 ≤ buf.length)
    (hdt : apdu.lc + blockSize kt + 5 ≤ dt.length) :
    ∃ ab dt2, construct_data_tlv c s apdu buf dt kt =
        Exec.ok (ab, dt2, (dataTlvBytes c s apdu kt).length) ∧
      dt2.take (dataTlvBytes c s apdu kt).length = dataTlvBytes c s apdu kt ∧
      (ab.drop (blockSize kt)).take (dataTlvBytes c s apdu kt).length =
        dataTlvBytes c s apdu kt ∧
      (encData c s kt (padded (blockSize kt) apdu.lc apdu.data)).length =
        padLen (blockSize kt) apdu.lc := by
  have hbs := blockSize_cases kt
  have hcl := encData_length c hc s apdu kt hd
  have hlen := dataTlvBytes_length c s apdu kt hcl
  have hpl := padLen_le (blockSize kt) apdu.lc hbs
  have hlf := lenField_length_le (padLen (blockSize kt) apdu.lc)
  have h3 : blockSize kt + (dataTlvBytes c s apdu kt).length ≤ buf.length := by
    rw [hlen]; omega
  have h4 : (dataTlvBytes c s apdu kt).length ≤ dt.length := by
    rw [hlen]; omega
  refine ⟨_, _, construct_data_tlv_ok c s apdu buf dt kt hcl hd h2 h3 h4, ?_, ?_, hcl⟩
  · have := take_splice dt 0 (dataTlvBytes c s apdu kt) (by omega)
    rw [Nat.zero_add, List.take_zero, List.nil_append] at this
    exact this
  · exact slice_splice_full buf (blockSize kt) (dataTlvBytes c s apdu kt) h3
/-! ## The file-identifier hook -/

theorem splice_singleton (l : List Nat) (i x : Nat) (h : i < l.length) :
    splice l i [x] = l.set i x := by
  unfold splice
  rw [List.set_eq_take_append_cons_drop, if_pos h]
  simp

theorem poke_set (l : List Nat) (i v : Nat) (h : i < l.length) :
    poke l i v = Exec.ok (l.set i (u8 v)) := by
  unfold poke
  rw [blit_ok _ _ _ (by simp; omega), splice_singleton _ _ _ h]

theorem size_dec2 (i : Nat) (h0 : 2 ≤ i) (h : i < SIZE_MOD) :
    (i + (SIZE_MOD - 2)) % SIZE_MOD = i - 2 := by
  unfold SIZE_MOD at *
  omega

/-- The six high bytes for which `epass2003_hook_path` changes the path. -/
theorem hook_path_eq (path : sc_path) (inc : Int) (hi lo : Nat) (h2 : 2 ≤ path.len)
    (hs : path.len < SIZE_MOD) (hhi : path.value[path.len - 2]? = some hi)
    (hlo : path.value[path.len - 1]? = some lo) :
    epass2003_hook_path path inc =
      if hi = 0x29 ∨ hi = 0x30 ∨ hi = 0x31 ∨ hi = 0x32 ∨ hi = 0x33 ∨ hi = 0x34 then
        Exec.ok (1, { path with
          value := List.set path.value (path.len - 1)
            (if inc ≠ 0 then u8 (lo * FID_STEP) else u8 (lo / FID_STEP)) })
      else Exec.ok (0, path) := by
  have hlt : path.len - 1 < path.value.length := by
    by_contra hc
    rw [List.getElem?_eq_none (by omega)] at hlo
    cases hlo
  unfold epass2003_hook_path
  rw [size_dec2 _ h2 hs, size_dec _ (by omega) hs, peek_ok _ _ hi hhi, Exec.ok_bind,
    peek_ok _ _ lo hlo, Exec.ok_bind]
  split
  · simp only []
    rw [poke_set _ _ _ hlt]
    have hu : ∀ x, u8 (u8 x) = u8 x := fun x => by unfold u8; omega
    split <;> rw [hu] <;> rfl
  · rfl

theorem set_of_getElem? (l : List Nat) (i x : Nat) (h : l[i]? = some x) : l.set i x = l := by
  apply List.ext_getElem?
  intro j
  by_cases hj : i = j
  · subst hj
    rw [List.getElem?_set_self', h]
    rfl
  · rw [List.getElem?_set_ne hj]
/-! ## The padding loop on arbitrary plaintext -/

/-- When no byte at the indices `1 .. n` is `0x80`, the loop started at index `n`
runs down to index 0 and leaves `in_len = 2`. -/
theorem unpad_loop_none : ∀ (n : Nat) (pt : List Nat) (fuel : Nat), n < fuel →
    n < pt.length → n + 2 < SIZE_MOD →
    (∀ k, 1 ≤ k → k ≤ n → pt[k]? ≠ some 0x80) →
    unpad_loop fuel pt (n + 2) = Exec.ok 2 := by
  intro n
  induction n with
  | zero =>
    intro pt fuel hf hl _ _
    obtain ⟨f, rfl⟩ : ∃ f, fuel = f + 1 := ⟨fuel - 1, by omega⟩
    obtain ⟨b, hb⟩ : ∃ b, pt[0]? = some b := ⟨pt[0], List.getElem?_eq_getElem hl⟩
    have hi : (0 + 2 + (SIZE_MOD - 2)) % SIZE_MOD = 0 := by unfold SIZE_MOD; omega
    unfold unpad_loop
    rw [hi, peek_ok _ _ b hb]
    simp
  | succ n ih =>
    intro pt fuel hf hl hs hno
    obtain ⟨f, rfl⟩ : ∃ f, fuel = f + 1 := ⟨fuel - 1, by omega⟩
    obtain ⟨b, hb⟩ : ∃ b, pt[n + 1]? = some b := ⟨pt[n + 1], List.getElem?_eq_getElem hl⟩
    have hne : 0x80 ≠ b := by
      intro h
      exact hno (n + 1) (by omega) (Nat.le_refl _) (by rw [hb, h])
    have hi : (n + 1 + 2 + (SIZE_MOD - 2)) % SIZE_MOD = n + 1 := by
      unfold SIZE_MOD at *; omega
    have hd : (n + 1 + 2 + (SIZE_MOD - 1)) % SIZE_MOD = n + 2 := by
      unfold SIZE_MOD at *; omega
    unfold unpad_loop
    rw [hi, peek_ok _ _ b hb, hd]
    simp only []
    rw [if_pos ⟨hne, by omega⟩]
    exact ih pt f (by omega) (by omega) (by omega)
      (fun k h1 hk => hno k h1 (by omega))

/-- When index `j ≥ 1` holds the last `0x80` at or below index `n`, the loop
started at index `n` stops there and leaves `in_len = j + 2`. -/
theorem unpad_loop_found : ∀ (m : Nat) (j : Nat) (pt : List Nat) (fuel : Nat), m < fuel →
    j + m < pt.length → j + m + 2 < SIZE_MOD → pt[j]? = some 0x80 →
    (∀ k, j < k → k ≤ j + m → pt[k]? ≠ some 0x80) →
    unpad_loop fuel pt (j + m + 2) = Exec.ok (j + 2) := by
  intro m
  induction m with
  | zero =>
    intro j pt fuel hf hl hs hj _
    obtain ⟨f, rfl⟩ : ∃ f, fuel = f + 1 := ⟨fuel - 1, by omega⟩
    have hi : (j + 0 + 2 + (SIZE_MOD - 2)) % SIZE_MOD = j := by
      unfold SIZE_MOD at *; omega
    unfold unpad_loop
    rw [hi, peek_ok _ _ 0x80 hj]
    simp
  | succ m ih =>
    intro j pt fuel hf hl hs hj hno
    obtain ⟨f, rfl⟩ : ∃ f, fuel = f + 1 := ⟨fuel - 1, by omega⟩
    obtain ⟨b, hb⟩ : ∃ b, pt[j + (m + 1)]? = some b :=
      ⟨pt[j + (m + 1)], List.getElem?_eq_getElem hl⟩
    have hne : 0x80 ≠ b := by
      intro h
      exact hno (j + (m + 1)) (by omega) (Nat.le_refl _) (by rw [hb, h])
    have hi : (j + (m + 1) + 2 + (SIZE_MOD - 2)) % SIZE_MOD = j + (m + 1) := by
      unfold SIZE_MOD at *; omega
    have hd : (j + (m + 1) + 2 + (SIZE_MOD - 1)) % SIZE_MOD = j + m + 2 := by
      unfold SIZE_MOD at *; omega
    unfold unpad_loop
    rw [hi, peek_ok _ _ b hb, hd]
    simp only []
    rw [if_pos ⟨hne, by omega⟩]
    exact ih j pt f (by omega) (by omega) (by omega) hj
      (fun k h1 hk => hno k h1 (by omega))

/-- After the first byte and the length have been read, `decrypt_response` is the
blocks `decrypt` and `unpadding`. -/
theorem decrypt_response_parsed (c : Crypto) (s : Session) (inp out : List Nat)
    (out_len b L i : Nat) (hb : inp[0]? = some b) (h99 : b ≠ 0x99)
    (hparse : parse_cipher_length inp = Exec.ok (some (L, i))) :
    decrypt_response c s inp out out_len = decrypt_unpad c s inp out out_len L i := by
  unfold decrypt_response
  rw [peek_ok _ _ b hb, Exec.ok_bind, if_neg h99, hparse, Exec.ok_bind]

/-- The blocks `decrypt` and `unpadding` on a cipher whose plaintext `D` has
`L - 1` bytes: the result is decided by the last `0x80` of `D` at an index of at
least 1. -/
theorem decrypt_unpad_scan (c : Crypto) (s : Session) (inp out : List Nat)
    (out_len L i : Nat) (D : List Nat) (hL : 2 ≤ L) (hci : i + (L - 1) ≤ inp.length)
    (hdec : (if KEY_TYPE_AES = s.g_smtype then
        aes128_decrypt_cbc c s.g_sk_enc (zeros 16) ((inp.drop i).take (L - 1))
      else des3_decrypt_cbc c s.g_sk_enc 16 (zeros 16) ((inp.drop i).take (L - 1))) = D)
    (hDl : D.length = L - 1) (h4096 : L - 1 ≤ 4096) :
    ((∀ k, 1 ≤ k → D[k]? ≠ some 0x80) →
      decrypt_unpad c s inp out out_len L i = Exec.ok (-1, out, out_len)) ∧
    (∀ j, 1 ≤ j → D[j]? = some 0x80 → (∀ k, j < k → D[k]? ≠ some 0x80) → j ≤ out.length →
      decrypt_unpad c s inp out out_len L i = Exec.ok (0, splice out 0 (D.take j), j)) := by
  have e1 : (L + (SIZE_MOD - 1)) % SIZE_MOD = L - 1 :=
    size_dec _ (by omega) (by unfold SIZE_MOD; omega)
  have hpt : ∀ k, k < D.length → (D ++ zeros (4096 - D.length))[k]? = D[k]? :=
    fun k hk => List.getElem?_append_left hk
  have hptl : (D ++ zeros (4096 - D.length)).length = 4096 := by
    rw [List.length_append, zeros_length]; omega
  obtain ⟨n, rfl⟩ : ∃ n, L = n + 2 := ⟨L - 2, by omega⟩
  have hn : D.length = n + 1 := by omega
  have hstart : decrypt_unpad c s inp out out_len (n + 2) i =
      (unpad_loop 4097 (D ++ zeros (4096 - D.length)) (n + 2) >>= fun in_len =>
        if 2 = in_len then pure (-1, out, out_len)
        else do
          let t ← peekN (D ++ zeros (4096 - D.length)) 0 ((in_len + (SIZE_MOD - 2)) % SIZE_MOD)
          let out ← blit out 0 t
          pure (0, out, (in_len + (SIZE_MOD - 2)) % SIZE_MOD)) := by
    unfold decrypt_unpad
    simp only []
    rw [e1, peekN_ok _ _ _ hci, Exec.ok_bind, hdec,
      blit_ok _ _ _ (by rw [zeros_length]; omega), Exec.ok_bind, splice_zeros_eq]
  constructor
  · intro hno
    rw [hstart, unpad_loop_none n _ 4097 (by omega) (by omega) (by unfold SIZE_MOD; omega)
      (fun k h1 hk => by rw [hpt k (by omega)]; exact hno k h1), Exec.ok_bind]
    rfl
  · intro j hj1 hj hno hout
    have hjl : j < D.length := by
      by_contra hc
      rw [List.getElem?_eq_none (by omega)] at hj
      cases hj
    obtain ⟨m, hm⟩ : ∃ m, n = j + m := ⟨n - j, by omega⟩
    have e2 : (j + 2 + (SIZE_MOD - 2)) % SIZE_MOD = j := by unfold SIZE_MOD; omega
    rw [hstart, hm, unpad_loop_found m j _ 4097 (by omega) (by omega)
      (by unfold SIZE_MOD; omega) (by rw [hpt j hjl]; exact hj)
      (fun k h1 hk => by rw [hpt k (by omega)]; exact hno k h1), Exec.ok_bind,
      if_neg (by omega), e2, peekN_ok _ _ _ (by omega), Exec.ok_bind, List.drop_zero,
      List.take_append_of_le_length (by omega), blit_ok _ _ _ (by
        rw [List.length_take]; omega), Exec.ok_bind]
    rfl

/-- In the sample body `41 80 42 00 .. 00` no `0x80` follows index 1. -/
theorem looseBody_tail (k : Nat) (hk : 1 < k) : looseBody[k]? ≠ some 0x80 := by
  intro h
  have hlt : k < 16 := by
    by_contra hc
    rw [List.getElem?_eq_none (by simp [looseBody]; omega)] at h
    cases h
  interval_cases k <;> simp [looseBody, zeros] at h
/-! ## Transmitting in plain mode -/

theorem mirrorEcb_lengthPreserving : mirrorEcb.LengthPreserving :=
  ⟨fun _ x _ => List.length_reverse x, fun _ x _ => List.length_reverse x⟩

/-- With `g_sm = 0`, an APDU whose class byte has the bits `0x0C` equal to `0x00`
or `0x04` passes through `epass2003_sm_wrap_apdu`. -/
theorem wrap_plain (c : Crypto) (s : Session) (plain sm : sc_apdu) (hs : s.g_sm = 0)
    (hcla : plain.cla &&& 0x0C = 0x00 ∨ plain.cla &&& 0x0C = 0x04) :
    epass2003_sm_wrap_apdu c s plain sm =
      Exec.ok { ret := SC_SUCCESS, plain := plain, sm := passThrough plain sm, session := s,
                enc := none } := by
  unfold epass2003_sm_wrap_apdu
  simp only [hs, ne_eq, not_true_eq_false, if_false]
  rw [if_pos hcla]
  rfl

/-- With `g_sm = 0`, a response passes through `epass2003_sm_unwrap_apdu` when its
status word is accepted, and only the status word does otherwise. -/
theorem unwrap_plain (h : Host) (c : Crypto) (s : Session) (sm plain : sc_apdu)
    (hs : s.g_sm = 0) (hl : sm.resplen ≤ sm.resp.length) (hp : sm.resplen ≤ plain.resp.length) :
    epass2003_sm_unwrap_apdu h c s sm plain =
      Exec.ok { ret := SC_SUCCESS,
                plain := if h.sc_check_sw sm.sw1 sm.sw2 = SC_SUCCESS then
                    { plain with resp := splice plain.resp 0 (sm.resp.take sm.resplen),
                                 resplen := sm.resplen, sw1 := sm.sw1, sw2 := sm.sw2 }
                  else { plain with sw1 := sm.sw1, sw2 := sm.sw2 },
                session := s } := by
  unfold epass2003_sm_unwrap_apdu
  simp only []
  by_cases hsw : h.sc_check_sw sm.sw1 sm.sw2 = SC_SUCCESS
  · rw [if_pos hsw, if_neg (by rw [hs]; decide), if_pos hsw, peekN_ok _ _ _ (by omega),
      Exec.ok_bind, List.drop_zero, blit_ok _ _ _ (by rw [List.length_take]; omega),
      Exec.ok_bind]
    rfl
  · rw [if_neg hsw, if_neg hsw]
    rfl

/-- `sc_transmit_apdu` in plain mode: the APDU goes to the card as it is; on a
transport failure the failure is returned, otherwise `SC_SUCCESS` is, and the
reply is stored in the APDU when its status word is accepted. -/
theorem transmit_plain (h : Host) (c : Crypto) (d : Driver) (apdu : sc_apdu)
    (hs : d.session.g_sm = 0)
    (hcla : apdu.cla &&& 0x0C = 0x00 ∨ apdu.cla &&& 0x0C = 0x04)
    (hroom : apdu.resplen ≤ apdu.resp.length) :
    sc_transmit_apdu h c d apdu =
      Exec.ok (
        if (h.card d.sent (passThrough apdu h.sm_apdu)).r < 0 then
          ((h.card d.sent (passThrough apdu h.sm_apdu)).r, logged h d apdu, apdu)
        else if h.sc_check_sw (h.card d.sent (passThrough apdu h.sm_apdu)).sw1
            (h.card d.sent (passThrough apdu h.sm_apdu)).sw2 = SC_SUCCESS then
          (SC_SUCCESS, logged h d apdu,
            answered apdu (h.card d.sent (passThrough apdu h.sm_apdu)))
        else
          (SC_SUCCESS, logged h d apdu,
            { apdu with sw1 := (h.card d.sent (passThrough apdu h.sm_apdu)).sw1,
                        sw2 := (h.card d.sent (passThrough apdu h.sm_apdu)).sw2 })) := by
  unfold sc_transmit_apdu
  simp only []
  rw [wrap_plain c d.session apdu h.sm_apdu hs hcla, Exec.ok_bind]
  simp only [ne_eq, not_true_eq_false, if_false]
  generalize h.card d.sent (passThrough apdu h.sm_apdu) = rep
  by_cases hr : rep.r < 0
  · rw [if_pos hr, if_pos hr]
    rfl
  · rw [if_neg hr, if_neg hr]
    have hk : (rep.data.take apdu.resplen).length ≤ apdu.resplen := by
      rw [List.length_take]; omega
    have hb : 0 + (rep.data.take (passThrough apdu h.sm_apdu).resplen).length ≤
        (passThrough apdu h.sm_apdu).resp.length := by
      show 0 + (rep.data.take apdu.resplen).length ≤ apdu.resp.length
      omega
    rw [blit_ok _ _ _ hb, Exec.ok_bind]
    have hsl : (splice apdu.resp 0 (rep.data.take apdu.resplen)).length = apdu.resp.length :=
      splice_length _ _ _ (by omega)
    rw [unwrap_plain h c _ _ _ hs (by
        show (rep.data.take apdu.resplen).length ≤
          (splice apdu.resp 0 (rep.data.take apdu.resplen)).length
        rw [hsl]; omega) (by
        show (rep.data.take apdu.resplen).length ≤ apdu.resp.length
        omega), Exec.ok_bind]
    have ht : (splice apdu.resp 0 (rep.data.take apdu.resplen)).take
        (rep.data.take apdu.resplen).length = rep.data.take apdu.resplen := by
      have := take_splice apdu.resp 0 (rep.data.take apdu.resplen) (by omega)
      rw [Nat.zero_add, List.take_zero, List.nil_append] at this
      exact this
    by_cases hsw : h.sc_check_sw rep.sw1 rep.sw2 = SC_SUCCESS
    · have e1 : (passThrough apdu h.sm_apdu).resplen = apdu.resplen := rfl
      have e2 : (passThrough apdu h.sm_apdu).resp = apdu.resp := rfl
      rw [if_pos hsw, if_pos hsw]
      simp only [e1, e2, ht]
      rfl
    · rw [if_neg hsw, if_neg hsw]
      rfl

/-! ## Stores into a partly filled zero buffer -/

theorem peekN_append_left (A B : List Nat) (off n : Nat) (h : off + n ≤ A.length) :
    peekN (A ++ B) off n = Exec.ok ((A.drop off).take n) := by
  rw [peekN_ok _ _ _ (by rw [List.length_append]; omega),
    List.drop_append_of_le_length (by omega),
    List.take_append_of_le_length (by rw [List.length_drop]; omega)]

theorem peekN_prefix (A B : List Nat) (n : Nat) (h : A.length = n) :
    peekN (A ++ B) 0 n = Exec.ok A := by
  rw [peekN_append_left _ _ _ _ (by omega), List.drop_zero, List.take_of_length_le (by omega)]

theorem blit_zeros_start (x : List Nat) (n k : Nat) (h : x.length + k = n) :
    blit (zeros n) 0 x = Exec.ok (x ++ zeros k) := by
  rw [blit_ok _ _ _ (by rw [zeros_length]; omega), splice_zeros_eq]
  have : n - x.length = k := by omega
  rw [this]

theorem blit_end (X y : List Nat) (off k k2 : Nat) (ho : off = X.length)
    (h : y.length + k2 = k) : blit (X ++ zeros k) off y = Exec.ok (X ++ y ++ zeros k2) := by
  subst ho
  rw [blit_ok _ _ _ (by rw [List.length_append, zeros_length]; omega), splice_at_end,
    zeros_drop]
  have : k - y.length = k2 := by omega
  rw [this]

theorem blit_mid (p m z x : List Nat) (off : Nat) (ho : off = p.length)
    (hm : m.length = x.length) : blit (p ++ m ++ z) off x = Exec.ok (p ++ x ++ z) := by
  subst ho
  rw [blit_ok _ _ _ (by simp only [List.length_append]; omega), splice_mid p m z x hm]

theorem blit_prefix (m z x : List Nat) (hm : m.length = x.length) :
    blit (m ++ z) 0 x = Exec.ok (x ++ z) := by
  have := blit_mid [] m z x 0 rfl hm
  simpa using this

theorem blit_full (b x : List Nat) (h : x.length = b.length) : blit b 0 x = Exec.ok x := by
  have := blit_prefix b [] x h.symm
  simpa using this
/-! ## The handshake in closed form -/

theorem ecbKey_length (e : Ecb) (he : e.LengthPreserving) (key x : List Nat) (kt : Nat)
    (hx : x.length = 16) : (ecbKey e key x kt).length = 16 := by
  unfold ecbKey aes128_encrypt_ecb des3_encrypt_ecb
  split
  · rw [he.aes _ _ (by rw [hx])]; exact hx
  · rw [he.des3 _ _ (by rw [hx]; decide)]; exact hx

theorem blockLen_cases (kt : Nat) :
    (KEY_TYPE_AES = kt ∧ blockLen kt = 16) ∨ (¬ KEY_TYPE_AES = kt ∧ blockLen kt = 8) := by
  unfold blockLen
  by_cases h : KEY_TYPE_AES = kt
  · exact Or.inl ⟨h, by rw [if_pos h.symm]⟩
  · exact Or.inr ⟨h, by rw [if_neg (fun h2 => h h2.symm)]⟩

theorem cbcEnc_length (c : Crypto) (hc : c.LengthPreserving) (key x : List Nat) (kt : Nat)
    (hx : blockLen kt ∣ x.length) : (cbcEnc c key x kt).length = x.length := by
  unfold cbcEnc aes128_encrypt_cbc des3_encrypt_cbc
  rcases blockLen_cases kt with ⟨hk, hb⟩ | ⟨hk, hb⟩
  · rw [if_pos hk]; exact hc.aes_enc _ _ _ (hb ▸ hx)
  · rw [if_neg hk]; exact hc.des3_enc _ _ _ (hb ▸ hx)

theorem cryptInput_length (x y : List Nat) (kt : Nat) (hx : x.length = 8) (hy : y.length = 8) :
    (cryptInput x y kt).length = 16 + blockLen kt := by
  unfold cryptInput
  have := blockLen_cases kt
  simp only [List.length_append, List.length_cons, zeros_length, hx, hy]
  omega

theorem blit_head (X Z x : List Nat) (h : x.length ≤ X.length) :
    blit (X ++ Z) 0 x = Exec.ok (x ++ X.drop x.length ++ Z) := by
  have hX : X ++ Z = X.take x.length ++ (X.drop x.length ++ Z) := by
    rw [← List.append_assoc, List.take_append_drop]
  rw [hX, blit_prefix _ _ x (by rw [List.length_take]; omega), List.append_assoc]

/-- `gen_init_key` when the exchange succeeds with a reply of 28 bytes. -/
theorem gen_init_key_run (h : Host) (c : Crypto) (e : Ecb) (d : Driver)
    (key_enc key_mac result : List Nat) (key_type : Nat)
    (hc : c.LengthPreserving) (he : e.LengthPreserving) (hres : 28 ≤ result.length)
    (hk1 : d.session.g_sk_enc.length = 16) (hk2 : d.session.g_sk_mac.length = 16)
    (rep : Reply) (hrep : h.card d.sent (passThrough (initUpdateApdu result) h.sm_apdu) = rep)
    (hr : ¬ rep.r < 0) (hsw : h.sc_check_sw rep.sw1 rep.sw2 = SC_SUCCESS)
    (hR : rep.data.length = 28) :
    gen_init_key h c e d key_enc key_mac result key_type =
      Exec.ok (
        (if cryptogram8 c (ecbKey e key_enc (derivationData rep.data) key_type) g_random
            ((rep.data.drop 12).take 8) key_type ≠ (rep.data.drop 20).take 8
          then SC_ERROR_CARD_CMD_FAILED else SC_SUCCESS),
        { logged h d (initUpdateApdu result) with
          session := { d.session with
            g_sk_enc := ecbKey e key_enc (derivationData rep.data) key_type,
            g_sk_mac := ecbKey e key_mac (derivationData rep.data) key_type } },
        rep.data ++ result.drop 28) := by
  have hplain := transmit_plain h c
    { d with session := { d.session with g_sm := SM_PLAIN } } (initUpdateApdu result) rfl
    (Or.inl (show (0x80 : Nat) &&& 0x0C = 0x00 by decide)) hres
  have hrep2 : h.card ({ d with session := { d.session with g_sm := SM_PLAIN } } : Driver).sent
      (passThrough (initUpdateApdu result) h.sm_apdu) = rep := hrep
  rw [hrep2, if_neg hr, if_pos hsw] at hplain
  have hans : (answered (initUpdateApdu result) rep).resp = rep.data ++ result.drop 28 := by
    show splice result 0 (rep.data.take 28) = _
    rw [List.take_of_length_le (by omega)]
    unfold splice
    rw [List.take_zero, List.nil_append, Nat.zero_add, hR]
  have hsw2 : h.sc_check_sw (answered (initUpdateApdu result) rep).sw1
      (answered (initUpdateApdu result) rep).sw2 = SC_SUCCESS := hsw
  unfold gen_init_key epass2003_transmit_apdu
  simp only []
  have hap : ({ sc_format_apdu d SC_APDU_CASE_4_SHORT 0x50 0x00 0x00 with
      cla := 0x80, lc := 8, datalen := 8, data := g_random, le := 28, resplen := 28,
      resp := result } : sc_apdu) = initUpdateApdu result := rfl
  rw [hap, hplain]
  simp only [Exec.pure_def, ite_self, Exec.ok_bind]
  have ht1 : SC_TEST_RET SC_SUCCESS = false := by decide
  rw [ht1, hsw2, ht1]
  simp only [Bool.false_eq_true, if_false]
  rw [hans]
  have hl1 : (logged h { d with session := { d.session with g_sm := SM_PLAIN } }
      (initUpdateApdu result)).session.g_sk_enc = d.session.g_sk_enc := rfl
  have hl2 : (logged h { d with session := { d.session with g_sm := SM_PLAIN } }
      (initUpdateApdu result)).session.g_sk_mac = d.session.g_sk_mac := rfl
  have hb : (if key_type = KEY_TYPE_AES then 16 else 8) = blockLen key_type := rfl
  simp only [hl1, hl2, hb]
  generalize rep.data = R at hR ⊢
  generalize List.drop 28 result = tail
  have ha : ((R.drop 16).take 4).length = 4 := by simp; omega
  have hcl : ((R.drop 12).take 4).length = 4 := by simp; omega
  have hCR : ((R.drop 12).take 8).length = 8 := by simp; omega
  have hg1 : peekN g_random 0 4 = Exec.ok (g_random.take 4) := by rfl
  have hg2 : peekN g_random 4 4 = Exec.ok ((g_random.drop 4).take 4) := by rfl
  have hg3 : peekN g_random 0 8 = Exec.ok g_random := by rfl
  have hgl1 : (g_random.take 4).length = 4 := by rfl
  have hgl2 : ((g_random.drop 4).take 4).length = 4 := by rfl
  have hgl3 : g_random.length = 8 := by rfl
  have hDD : (derivationData R).length = 16 := by
    unfold derivationData
    simp only [List.length_append, ha, hcl, hgl1, hgl2]
  rw [peekN_append_left _ _ _ _ (by omega), Exec.ok_bind,
    blit_zeros_start _ 256 252 (by rw [ha]), Exec.ok_bind, hg1, Exec.ok_bind,
    blit_end _ _ 4 252 248 (by rw [ha]) (by rw [hgl1]), Exec.ok_bind,
    peekN_append_left _ _ _ _ (by omega), Exec.ok_bind,
    blit_end _ _ 8 248 244 (by simp only [List.length_append, ha, hgl1]) (by rw [hcl]),
    Exec.ok_bind, hg2, Exec.ok_bind,
    blit_end _ _ 12 244 240 (by simp only [List.length_append, ha, hgl1, hcl]) (by rw [hgl2]),
    Exec.ok_bind]
  have hdd : (R.drop 16).take 4 ++ g_random.take 4 ++ (R.drop 12).take 4 ++
      (g_random.drop 4).take 4 = derivationData R := rfl
  rw [hdd, peekN_prefix _ _ 16 hDD, Exec.ok_bind]
  have he1 : (if KEY_TYPE_AES = key_type then aes128_encrypt_ecb e key_enc (derivationData R)
      else des3_encrypt_ecb e key_enc 16 (derivationData R)) =
      ecbKey e key_enc (derivationData R) key_type := rfl
  have he2 : (if KEY_TYPE_AES = key_type then aes128_encrypt_ecb e key_mac (derivationData R)
      else des3_encrypt_ecb e key_mac 16 (derivationData R)) =
      ecbKey e key_mac (derivationData R) key_type := rfl
  rw [he1, he2, blit_full _ _ (by rw [ecbKey_length e he _ _ _ hDD, hk1]), Exec.ok_bind,
    blit_full _ _ (by rw [ecbKey_length e he _ _ _ hDD, hk2]), Exec.ok_bind]
  clear hplain hrep2 hans hsw2 hap hl1 hl2 he1 he2 hdd
  unfold poke memset
  have hu : u8 0x80 = 0x80 := rfl
  have hz : List.replicate (blockLen key_type - 1) (u8 0x00) = zeros (blockLen key_type - 1) :=
    rfl
  have hbl : (blockLen key_type = 16 ∨ blockLen key_type = 8) := by
    rcases blockLen_cases key_type with ⟨_, hb⟩ | ⟨_, hb⟩
    · exact Or.inl hb
    · exact Or.inr hb
  have hci : g_random ++ (R.drop 12).take 8 ++ [0x80] ++ zeros (blockLen key_type - 1) =
      cryptInput g_random ((R.drop 12).take 8) key_type := by
    unfold cryptInput; simp
  have hcil := cryptInput_length g_random ((R.drop 12).take 8) key_type hgl3 hCR
  have hcbc : ∀ k x, (if KEY_TYPE_AES = key_type then aes128_encrypt_cbc c k (zeros 16) x
      else des3_encrypt_cbc c k 16 (zeros 16) x) = cbcEnc c k x key_type := fun _ _ => rfl
  have hel : (cbcEnc c (ecbKey e key_enc (derivationData R) key_type)
      (cryptInput g_random ((R.drop 12).take 8) key_type) key_type).length =
      16 + blockLen key_type := by
    rw [cbcEnc_length c hc _ _ _ (by rw [hcil]; rcases hbl with hb | hb <;> (rw [hb]; decide)),
      hcil]
  rw [hu, hz, hg3, Exec.ok_bind, blit_head _ _ _ (by rw [hDD, hgl3]; decide), Exec.ok_bind,
    peekN_append_left _ _ _ _ (by omega), Exec.ok_bind,
    blit_mid _ _ _ _ 8 (by rw [hgl3]) (by rw [List.length_drop, hDD, hgl3, hCR]), Exec.ok_bind,
    blit_end _ _ 16 240 239 (by rw [List.length_append, hgl3, hCR]) (by rfl), Exec.ok_bind,
    blit_end _ _ 17 239 (240 - blockLen key_type)
      (by simp only [List.length_append, hgl3, hCR, List.length_singleton])
      (by rw [zeros_length]; omega),
    Exec.ok_bind, hci, peekN_prefix _ _ _ hcil, Exec.ok_bind, hcbc,
    blit_zeros_start _ 256 (240 - blockLen key_type) (by rw [hel]; omega), Exec.ok_bind,
    peekN_append_left _ _ _ _ (by rw [hel]; omega), Exec.ok_bind,
    peekN_append_left _ _ _ _ (by omega), Exec.ok_bind]
  unfold cryptogram8
  split <;> rfl
theorem authBlock_length (H : List Nat) (h : H.length = 8) : (authBlock H).length = 16 := by
  unfold authBlock
  simp only [List.length_append, h, List.length_cons, List.length_nil]

theorem cryptogram8_length (c : Crypto) (hc : c.LengthPreserving) (key x y : List Nat) (kt : Nat)
    (hx : x.length = 8) (hy : y.length = 8) : (cryptogram8 c key x y kt).length = 8 := by
  unfold cryptogram8
  have hcil := cryptInput_length x y kt hx hy
  have hbl : (blockLen kt = 16 ∨ blockLen kt = 8) := by
    rcases blockLen_cases kt with ⟨_, hb⟩ | ⟨_, hb⟩
    · exact Or.inl hb
    · exact Or.inr hb
  rw [List.length_take, List.length_drop,
    cbcEnc_length c hc _ _ _ (by rw [hcil]; rcases hbl with hb | hb <;> (rw [hb]; decide)), hcil]
  omega

theorem authCipher_length (c : Crypto) (hc : c.LengthPreserving) (key H : List Nat) (kt : Nat)
    (h : H.length = 8) : (cbcEnc c key (authBlock H) kt).length = 16 := by
  have hbl : (blockLen kt = 16 ∨ blockLen kt = 8) := by
    rcases blockLen_cases kt with ⟨_, hb⟩ | ⟨_, hb⟩
    · exact Or.inl hb
    · exact Or.inr hb
  rw [cbcEnc_length c hc _ _ _
    (by rw [authBlock_length H h]; rcases hbl with hb | hb <;> simp only [hb] <;> decide),
    authBlock_length H h]

theorem icvSeed_length (c : Crypto) (hc : c.LengthPreserving) (key H : List Nat) (kt : Nat)
    (h : H.length = 8) : (icvSeed c key H kt).length = 8 := by
  unfold icvSeed
  rw [List.length_take, List.length_drop, authCipher_length c hc key H kt h]
  split <;> decide

/-- `verify_init_key` in closed form. -/
theorem verify_init_key_run (h : Host) (c : Crypto) (d : Driver) (ran_key : List Nat)
    (key_type : Nat) (hc : c.LengthPreserving) (hran : ran_key.length = 8)
    (hicv : d.session.g_icv_mac.length = 16) :
    verify_init_key h c d ran_key key_type =
      Exec.ok (
        (if (h.card d.sent (passThrough (extAuthApdu
              (cryptogram8 c d.session.g_sk_enc ran_key g_random key_type ++
               icvSeed c d.session.g_sk_mac
                 (cryptogram8 c d.session.g_sk_enc ran_key g_random key_type) key_type ++
               zeros 240)) h.sm_apdu)).r < 0 then
            (h.card d.sent (passThrough (extAuthApdu
              (cryptogram8 c d.session.g_sk_enc ran_key g_random key_type ++
               icvSeed c d.session.g_sk_mac
                 (cryptogram8 c d.session.g_sk_enc ran_key g_random key_type) key_type ++
               zeros 240)) h.sm_apdu)).r
          else h.sc_check_sw
            (h.card d.sent (passThrough (extAuthApdu
              (cryptogram8 c d.session.g_sk_enc ran_key g_random key_type ++
               icvSeed c d.session.g_sk_mac
                 (cryptogram8 c d.session.g_sk_enc ran_key g_random key_type) key_type ++
               zeros 240)) h.sm_apdu)).sw1
            (h.card d.sent (passThrough (extAuthApdu
              (cryptogram8 c d.session.g_sk_enc ran_key g_random key_type ++
               icvSeed c d.session.g_sk_mac
                 (cryptogram8 c d.session.g_sk_enc ran_key g_random key_type) key_type ++
               zeros 240)) h.sm_apdu)).sw2),
        { logged h d (extAuthApdu
              (cryptogram8 c d.session.g_sk_enc ran_key g_random key_type ++
               icvSeed c d.session.g_sk_mac
                 (cryptogram8 c d.session.g_sk_enc ran_key g_random key_type) key_type ++
               zeros 240)) with
          session := { d.session with
            g_icv_mac := icvSeed c d.session.g_sk_mac
                 (cryptogram8 c d.session.g_sk_enc ran_key g_random key_type) key_type ++
               zeros 8 } }) := by
  have hgl3 : g_random.length = 8 := by rfl
  have hH := cryptogram8_length c hc d.session.g_sk_enc ran_key g_random key_type hran hgl3
  have hS := icvSeed_length c hc d.session.g_sk_mac _ key_type hH
  have hM := authCipher_length c hc d.session.g_sk_mac _ key_type hH
  have hA := authBlock_length _ hH
  have hcil := cryptInput_length ran_key g_random key_type hran hgl3
  have hbl : (blockLen key_type = 16 ∨ blockLen key_type = 8) := by
    rcases blockLen_cases key_type with ⟨_, hb⟩ | ⟨_, hb⟩
    · exact Or.inl hb
    · exact Or.inr hb
  have hel : (cbcEnc c d.session.g_sk_enc (cryptInput ran_key g_random key_type)
      key_type).length = 16 + blockLen key_type := by
    rw [cbcEnc_length c hc _ _ _ (by rw [hcil]; rcases hbl with hb | hb <;> (rw [hb]; decide)),
      hcil]
  have hH2 : ((cbcEnc c d.session.g_sk_enc (cryptInput ran_key g_random key_type)
      key_type).drop 16).take 8 = cryptogram8 c d.session.g_sk_enc ran_key g_random key_type :=
    rfl
  generalize hHe : cryptogram8 c d.session.g_sk_enc ran_key g_random key_type = H at *
  have hS2 : ((cbcEnc c d.session.g_sk_mac (authBlock H) key_type).drop
      (if KEY_TYPE_AES = key_type then 0 else 8)).take 8 =
      icvSeed c d.session.g_sk_mac H key_type := rfl
  generalize hSe : icvSeed c d.session.g_sk_mac H key_type = S at *
  unfold verify_init_key poke memset
  simp only []
  have hb : (if key_type = KEY_TYPE_AES then 16 else 8) = blockLen key_type := rfl
  have hu : u8 0x80 = 0x80 := rfl
  have hz : List.replicate (blockLen key_type - 1) (u8 0x00) = zeros (blockLen key_type - 1) :=
    rfl
  have hz16 : List.replicate 16 (u8 0) = zeros 16 := rfl
  have hz256 : List.replicate 256 (u8 0) = zeros 256 := rfl
  have hg3 : peekN g_random 0 8 = Exec.ok g_random := by rfl
  have hci : ran_key ++ g_random ++ [0x80] ++ zeros (blockLen key_type - 1) =
      cryptInput ran_key g_random key_type := by
    unfold cryptInput; simp
  have hcbc : ∀ k x, (if KEY_TYPE_AES = key_type then aes128_encrypt_cbc c k (zeros 16) x
      else des3_encrypt_cbc c k 16 (zeros 16) x) = cbcEnc c k x key_type := fun _ _ => rfl
  have hmac : ∀ k x, ((if KEY_TYPE_AES = key_type then
        (blit (zeros 256) 0 (aes128_encrypt_cbc c k (zeros 16) x) >>= fun m => pure (m, 0))
      else
        (blit (zeros 256) 0 (des3_encrypt_cbc c k 16 (zeros 16) x) >>= fun m => pure (m, 8))) :
        Exec (List Nat × Nat)) =
      (blit (zeros 256) 0 (cbcEnc c k x key_type) >>= fun m =>
        pure (m, if KEY_TYPE_AES = key_type then 0 else 8)) := by
    intro k x
    unfold cbcEnc
    by_cases hk : KEY_TYPE_AES = key_type
    · simp only [if_pos hk]
    · simp only [if_neg hk]
  have hi : (if KEY_TYPE_AES = key_type then 0 else 8) + 8 ≤ 16 := by split <;> decide
  rw [hb, hu, hz, hz16, hz256, peekN_ok _ _ _ (by omega), Exec.ok_bind, List.drop_zero,
    List.take_of_length_le (by omega),
    blit_zeros_start _ 256 248 (by rw [hran]), Exec.ok_bind, hg3, Exec.ok_bind,
    blit_end _ _ 8 248 240 (by rw [hran]) (by rw [hgl3]), Exec.ok_bind,
    blit_end _ _ 16 240 239 (by rw [List.length_append, hgl3, hran]) (by rfl), Exec.ok_bind,
    blit_end _ _ 17 239 (240 - blockLen key_type)
      (by simp only [List.length_append, hgl3, hran, List.length_singleton])
      (by rw [zeros_length]; omega),
    Exec.ok_bind, blit_full _ _ (by rfl), Exec.ok_bind, hci, peekN_prefix _ _ _ hcil,
    Exec.ok_bind, hcbc,
    blit_zeros_start _ 256 (240 - blockLen key_type) (by rw [hel]; omega), Exec.ok_bind,
    blit_full _ _ (by
      simp only [List.length_append, hcil, zeros_length]; omega),
    Exec.ok_bind]
  have hab : [0x84, 0x82, 0x03, 0x00, 0x10] ++ H ++ [0x80, 0x00, 0x00] = authBlock H := rfl
  rw [blit_zeros_start _ 256 251 (by rfl), Exec.ok_bind,
    peekN_append_left _ _ _ _ (by rw [hel]; omega), hH2, Exec.ok_bind,
    blit_end _ _ 5 251 243 (by rfl) (by rw [hH]), Exec.ok_bind,
    blit_end _ _ 13 243 240 (by rw [List.length_append, hH]; rfl) (by rfl), Exec.ok_bind,
    blit_full _ _ (by rfl), Exec.ok_bind, hab, peekN_prefix _ _ 16 hA, Exec.ok_bind, hmac,
    blit_zeros_start _ 256 240 (by rw [hM]), Exec.ok_bind, Exec.pure_bind]
  simp only []
  rw [blit_full _ _ (by rw [zeros_length, hicv]), Exec.ok_bind,
    peekN_append_left _ _ _ _ (by rw [hM]; exact hi), hS2, Exec.ok_bind,
    blit_zeros_start _ 16 8 (by rw [hS]), Exec.ok_bind, Exec.ok_bind,
    blit_head _ _ _ (by rw [hH, hA]; decide), Exec.ok_bind, Exec.ok_bind,
    blit_mid _ _ _ _ 8 (by rw [hH]) (by rw [List.length_drop, hA, hH, hS]), Exec.ok_bind]
  clear hmac hcbc hci hz hz16 hz256 hg3 hb hu hS2 hH2 hel hcil
  have hap : ({ sc_format_apdu { d with session := { d.session with g_icv_mac := S ++ zeros 8 } }
        SC_APDU_CASE_3_SHORT 0x82 0x03 0x00 with
      cla := 0x84, lc := 16, datalen := 16, data := H ++ S ++ zeros 240 } : sc_apdu) =
      extAuthApdu (H ++ S ++ zeros 240) := rfl
  have hplain := transmit_plain h c
    { d with session := { d.session with g_icv_mac := S ++ zeros 8, g_sm := SM_PLAIN } }
    (extAuthApdu (H ++ S ++ zeros 240)) rfl
    (Or.inr (show (0x84 : Nat) &&& 0x0C = 0x04 by decide)) (Nat.le_refl 0)
  unfold epass2003_transmit_apdu
  simp only [] at hap hplain ⊢
  rw [hap, hplain]
  simp only [Exec.pure_def, ite_self, Exec.ok_bind]
  generalize h.card d.sent (passThrough (extAuthApdu (H ++ S ++ zeros 240)) h.sm_apdu) = rep
  by_cases hr : rep.r < 0
  · have ht : SC_TEST_RET rep.r = true := by unfold SC_TEST_RET; simpa using hr
    simp only [if_pos hr, ht, if_true]
    rfl
  · have ht : SC_TEST_RET rep.r = false := by unfold SC_TEST_RET; simpa using hr
    have ht0 : SC_TEST_RET SC_SUCCESS = false := by decide
    simp only [if_neg hr]
    split <;> simp only [ht0, Bool.false_eq_true, if_false, ite_self] <;> rfl
/-- The driver state after the INITIALIZE UPDATE exchange of `gen_init_key` with
reply data `R`. -/
theorem mutural_auth_run (h : Host) (c : Crypto) (e : Ecb) (d : Driver)
    (key_enc key_mac : List Nat)
    (hc : c.LengthPreserving) (he : e.LengthPreserving)
    (hk1 : d.session.g_sk_enc.length = 16) (hk2 : d.session.g_sk_mac.length = 16)
    (rep : Reply) (hrep : h.card d.sent (passThrough (initUpdateApdu (zeros 256)) h.sm_apdu) = rep)
    (hr : ¬ rep.r < 0) (hsw : h.sc_check_sw rep.sw1 rep.sw2 = SC_SUCCESS)
    (hR : rep.data.length = 28)
    (hcheck : cryptogram8 c (ecbKey e key_enc (derivationData rep.data) d.session.g_smtype)
      g_random ((rep.data.drop 12).take 8) d.session.g_smtype = (rep.data.drop 20).take 8) :
    mutural_auth h c e d key_enc key_mac =
      verify_init_key h c
        { logged h d (initUpdateApdu (zeros 256)) with
          session := { d.session with
            g_sk_enc := ecbKey e key_enc (derivationData rep.data) d.session.g_smtype,
            g_sk_mac := ecbKey e key_mac (derivationData rep.data) d.session.g_smtype } }
        ((rep.data.drop 12).take 8) d.session.g_smtype := by
  unfold mutural_auth
  simp only []
  rw [gen_init_key_run h c e d key_enc key_mac (zeros 256) d.session.g_smtype hc he
    (by rw [zeros_length]; decide) hk1 hk2 rep hrep hr hsw hR, Exec.ok_bind]
  have ht0 : SC_TEST_RET SC_SUCCESS = false := by decide
  simp only [hcheck, ne_eq, not_true_eq_false, if_false, ht0, Bool.false_eq_true]
  rw [peekN_append_left _ _ _ _ (by omega), Exec.ok_bind,
    blit_full _ _ (by rw [zeros_length, List.length_take, List.length_drop]; omega),
    Exec.ok_bind]
  simp only [ite_self]
  exact Exec.bind_ok_right _

/-- A cryptogram mismatch ends `mutural_auth` before the second exchange. -/
theorem mutural_auth_mismatch (h : Host) (c : Crypto) (e : Ecb) (d : Driver)
    (key_enc key_mac : List Nat)
    (hc : c.LengthPreserving) (he : e.LengthPreserving)
    (hk1 : d.session.g_sk_enc.length = 16) (hk2 : d.session.g_sk_mac.length = 16)
    (rep : Reply) (hrep : h.card d.sent (passThrough (initUpdateApdu (zeros 256)) h.sm_apdu) = rep)
    (hr : ¬ rep.r < 0) (hsw : h.sc_check_sw rep.sw1 rep.sw2 = SC_SUCCESS)
    (hR : rep.data.length = 28)
    (hcheck : cryptogram8 c (ecbKey e key_enc (derivationData rep.data) d.session.g_smtype)
      g_random ((rep.data.drop 12).take 8) d.session.g_smtype ≠ (rep.data.drop 20).take 8) :
    mutural_auth h c e d key_enc key_mac =
      Exec.ok (SC_ERROR_CARD_CMD_FAILED,
        { logged h d (initUpdateApdu (zeros 256)) with
          session := { d.session with
            g_sk_enc := ecbKey e key_enc (derivationData rep.data) d.session.g_smtype,
            g_sk_mac := ecbKey e key_mac (derivationData rep.data) d.session.g_smtype } }) := by
  unfold mutural_auth
  simp only []
  rw [gen_init_key_run h c e d key_enc key_mac (zeros 256) d.session.g_smtype hc he
    (by rw [zeros_length]; decide) hk1 hk2 rep hrep hr hsw hR, Exec.ok_bind]
  have ht0 : SC_TEST_RET SC_ERROR_CARD_CMD_FAILED = true := by decide
  simp only [ne_eq, hcheck, not_false_eq_true, if_true, ht0]
  rfl
/-! ## What the codec does to the session -/

/-- `encode_apdu` returns the session it was given with a new `g_icv_mac`. -/
theorem encode_session (bs : Nat) (c : Crypto) (s : Session) (plain sm : sc_apdu)
    (buf : List Nat) (n : Nat) (e : EncodeOut)
    (h : encode_apdu_with bs c s plain sm buf n = Exec.ok e) :
    ∃ icv, e.session = { s with g_icv_mac := icv } := by
  unfold encode_apdu_with at h
  simp only [] at h
  rw [Exec.bind_eq_ok] at h; obtain ⟨_, _, h⟩ := h
  rw [Exec.bind_eq_ok] at h; obtain ⟨_, _, h⟩ := h
  rw [Exec.bind_eq_ok] at h; obtain ⟨_, _, h⟩ := h
  rw [Exec.bind_eq_ok] at h; obtain ⟨⟨_, _, _⟩, _, h⟩ := h
  simp only [] at h
  rw [Exec.bind_eq_ok] at h; obtain ⟨⟨_, _, _⟩, _, h⟩ := h
  simp only [] at h
  rw [Exec.bind_eq_ok] at h; obtain ⟨m, _, h⟩ := h
  rw [Exec.bind_eq_ok] at h; obtain ⟨⟨_, _, _⟩, _, h⟩ := h
  simp only [] at h
  have he := Exec.ok.inj h
  exact ⟨m.g_icv_mac, by rw [← he]⟩

/-- `epass2003_sm_wrap_apdu` returns the session it was given, possibly with a
new `g_icv_mac`. -/
theorem wrap_session (c : Crypto) (s : Session) (plain sm : sc_apdu) (w : WrapOut)
    (h : epass2003_sm_wrap_apdu c s plain sm = Exec.ok w) :
    ∃ icv, w.session = { s with g_icv_mac := icv } := by
  unfold epass2003_sm_wrap_apdu encode_apdu at h
  simp only [] at h
  by_cases hsm : s.g_sm ≠ 0
  · simp only [if_pos hsm] at h
    split at h
    · have he := Exec.ok.inj h
      exact ⟨s.g_icv_mac, by rw [← he]⟩
    · split at h
      · rw [Exec.bind_eq_ok] at h; obtain ⟨_, _, h⟩ := h
        rw [Exec.bind_eq_ok] at h; obtain ⟨e, he, h⟩ := h
        obtain ⟨icv, hicv⟩ := encode_session _ c s _ _ _ _ e he
        split at h
        · have hw := Exec.ok.inj h
          exact ⟨icv, by rw [← hw]; exact hicv⟩
        · have hw := Exec.ok.inj h
          exact ⟨icv, by rw [← hw]; exact hicv⟩
      · have he := Exec.ok.inj h
        exact ⟨s.g_icv_mac, by rw [← he]⟩
  · simp only [if_neg hsm] at h
    split at h
    · have he := Exec.ok.inj h
      exact ⟨s.g_icv_mac, by rw [← he]⟩
    · split at h
      · rw [Exec.bind_eq_ok] at h; obtain ⟨_, _, h⟩ := h
        rw [Exec.bind_eq_ok] at h; obtain ⟨e, he, h⟩ := h
        obtain ⟨icv, hicv⟩ := encode_session _ c s _ _ _ _ e he
        split at h
        · have hw := Exec.ok.inj h
          exact ⟨icv, by rw [← hw]; exact hicv⟩
        · have hw := Exec.ok.inj h
          exact ⟨icv, by rw [← hw]; exact hicv⟩
      · have he := Exec.ok.inj h
        exact ⟨s.g_icv_mac, by rw [← he]⟩

/-- `epass2003_sm_unwrap_apdu` returns the session it was given. -/
theorem unwrap_session (h : Host) (c : Crypto) (s : Session) (sm plain : sc_apdu)
    (u : UnwrapOut) (hu : epass2003_sm_unwrap_apdu h c s sm plain = Exec.ok u) :
    u.session = s := by
  unfold epass2003_sm_unwrap_apdu at hu
  simp only [] at hu
  split at hu
  · split at hu
    · rw [Exec.bind_eq_ok] at hu; obtain ⟨⟨_, _, _⟩, _, hu⟩ := hu
      simp only [] at hu
      split at hu
      · rw [← Exec.ok.inj hu]
      · rw [← Exec.ok.inj hu]
    · rw [Exec.bind_eq_ok] at hu; obtain ⟨_, _, hu⟩ := hu
      rw [Exec.bind_eq_ok] at hu; obtain ⟨_, _, hu⟩ := hu
      rw [← Exec.ok.inj hu]
  · rw [← Exec.ok.inj hu]

/-- `sc_transmit_apdu` logs the APDU it was given, and returns the session it
was given, possibly with a new `g_icv_mac`. -/
theorem transmit_frame (h : Host) (c : Crypto) (d : Driver) (apdu : sc_apdu)
    (r : Int) (d1 : Driver) (a1 : sc_apdu)
    (ht : sc_transmit_apdu h c d apdu = Exec.ok (r, d1, a1)) :
    d1.issued = d.issued ++ [apdu] ∧ (∃ icv, d1.session = { d.session with g_icv_mac := icv }) ∧
    d1.name = d.name ∧ d1.cla = d.cla ∧ d1.use_sm = d.use_sm ∧ d1.caps = d.caps ∧
    d1.algorithms = d.algorithms := by
  unfold sc_transmit_apdu at ht
  simp only [] at ht
  rw [Exec.bind_eq_ok] at ht; obtain ⟨w, hw, ht⟩ := ht
  obtain ⟨icv, hicv⟩ := wrap_session c d.session apdu h.sm_apdu w hw
  split at ht
  · have e := Exec.ok.inj ht
    simp only [Prod.mk.injEq] at e
    obtain ⟨_, e, _⟩ := e
    subst e
    exact ⟨rfl, ⟨icv, hicv⟩, rfl, rfl, rfl, rfl, rfl⟩
  · split at ht
    · have e := Exec.ok.inj ht
      simp only [Prod.mk.injEq] at e
      obtain ⟨_, e, _⟩ := e
      subst e
      exact ⟨rfl, ⟨icv, hicv⟩, rfl, rfl, rfl, rfl, rfl⟩
    · rw [Exec.bind_eq_ok] at ht; obtain ⟨_, _, ht⟩ := ht
      rw [Exec.bind_eq_ok] at ht; obtain ⟨u, hu, ht⟩ := ht
      have hs := unwrap_session h c _ _ _ u hu
      have e := Exec.ok.inj ht
      simp only [Prod.mk.injEq] at e
      obtain ⟨_, e, _⟩ := e
      subst e
      exact ⟨rfl, ⟨icv, by rw [hs]; exact hicv⟩, rfl, rfl, rfl, rfl, rfl⟩
theorem epass_transmit_eq (h : Host) (c : Crypto) (d : Driver) (apdu : sc_apdu) :
    epass2003_transmit_apdu h c d apdu = sc_transmit_apdu h c d apdu := by
  unfold epass2003_transmit_apdu
  cases sc_transmit_apdu h c d apdu with
  | ok x =>
    obtain ⟨r, d1, a⟩ := x
    simp only [Exec.ok_bind, ite_self]
    rfl
  | fault e => rfl

/-- Every return of `gen_init_key` comes after `g_sm = tmp_sm`: the APDU has been
logged and `g_sm`, `g_smtype` are those of the call. -/
theorem gen_init_key_frame (h : Host) (c : Crypto) (e : Ecb) (d : Driver)
    (key_enc key_mac result : List Nat) (key_type : Nat) (r : Int) (d1 : Driver)
    (out : List Nat)
    (hg : gen_init_key h c e d key_enc key_mac result key_type = Exec.ok (r, d1, out)) :
    d1.session.g_sm = d.session.g_sm ∧ d1.session.g_smtype = d.session.g_smtype ∧
    d1.issued = d.issued ++ [initUpdateApdu result] := by
  unfold gen_init_key at hg
  simp only [] at hg
  rw [epass_transmit_eq] at hg
  rw [Exec.bind_eq_ok] at hg
  obtain ⟨⟨r0, d0, a0⟩, ht, hg⟩ := hg
  obtain ⟨hi, ⟨icv, hs⟩, _⟩ := transmit_frame h c _ _ r0 d0 a0 ht
  simp only [] at hg
  have hfin : ∀ (rr : Int) (dd : Driver) (oo : List Nat) (k1 k2 : List Nat),
      dd = { d0 with session := { { d0.session with g_sm := d.session.g_sm } with
        g_sk_enc := k1, g_sk_mac := k2 } } →
      (rr, dd, oo) = (r, d1, out) →
      d1.session.g_sm = d.session.g_sm ∧ d1.session.g_smtype = d.session.g_smtype ∧
      d1.issued = d.issued ++ [initUpdateApdu result] := by
    intro rr dd oo k1 k2 hdd heq
    simp only [Prod.mk.injEq] at heq
    obtain ⟨_, h2, _⟩ := heq
    subst h2
    subst hdd
    refine ⟨rfl, ?_, hi⟩
    show d0.session.g_smtype = d.session.g_smtype
    rw [hs]
  split at hg
  · exact hfin _ _ _ d0.session.g_sk_enc d0.session.g_sk_mac rfl (Exec.ok.inj hg)
  · split at hg
    · exact hfin _ _ _ d0.session.g_sk_enc d0.session.g_sk_mac rfl (Exec.ok.inj hg)
    · iterate 21 (rw [Exec.bind_eq_ok] at hg; obtain ⟨_, _, hg⟩ := hg)
      split at hg
      · exact hfin _ _ _ _ _ rfl (Exec.ok.inj hg)
      · exact hfin _ _ _ _ _ rfl (Exec.ok.inj hg)

/-- Every return of `verify_init_key` comes after `g_sm = tmp_sm`: exactly one
APDU has been logged, with class byte `0x84`, and `g_sm`, `g_smtype` and the
session keys are those of the call. -/
theorem verify_init_key_frame (h : Host) (c : Crypto) (d : Driver) (ran_key : List Nat)
    (key_type : Nat) (r : Int) (d1 : Driver)
    (hv : verify_init_key h c d ran_key key_type = Exec.ok (r, d1)) :
    d1.session.g_sm = d.session.g_sm ∧ d1.session.g_smtype = d.session.g_smtype ∧
    d1.session.g_sk_enc = d.session.g_sk_enc ∧ d1.session.g_sk_mac = d.session.g_sk_mac ∧
    ∃ apdu, d1.issued = d.issued ++ [apdu] ∧ apdu.cla = 0x84 ∧ apdu.ins = 0x82 := by
  unfold verify_init_key at hv
  simp only [] at hv
  iterate 16 (rw [Exec.bind_eq_ok] at hv; obtain ⟨_, _, hv⟩ := hv)
  rw [Exec.bind_eq_ok] at hv; obtain ⟨⟨_, _⟩, _, hv⟩ := hv
  simp only [] at hv
  iterate 7 (rw [Exec.bind_eq_ok] at hv; obtain ⟨_, _, hv⟩ := hv)
  rw [epass_transmit_eq] at hv
  rw [Exec.bind_eq_ok] at hv
  obtain ⟨⟨r0, d0, a0⟩, ht, hv⟩ := hv
  obtain ⟨hi, ⟨icv, hs⟩, _⟩ := transmit_frame h c _ _ r0 d0 a0 ht
  simp only [] at hv
  have hfin : ∀ (rr : Int), (rr, ({ d0 with session :=
      { d0.session with g_sm := d.session.g_sm } } : Driver)) = (r, d1) →
      d1.session.g_sm = d.session.g_sm ∧ d1.session.g_smtype = d.session.g_smtype ∧
      d1.session.g_sk_enc = d.session.g_sk_enc ∧ d1.session.g_sk_mac = d.session.g_sk_mac ∧
      ∃ apdu, d1.issued = d.issued ++ [apdu] ∧ apdu.cla = 0x84 ∧ apdu.ins = 0x82 := by
    intro rr heq
    simp only [Prod.mk.injEq] at heq
    obtain ⟨_, h2⟩ := heq
    subst h2
    refine ⟨rfl, ?_, ?_, ?_, _, hi, rfl, rfl⟩
    · show d0.session.g_smtype = d.session.g_smtype
      rw [hs]
    · show d0.session.g_sk_enc = d.session.g_sk_enc
      rw [hs]
    · show d0.session.g_sk_mac = d.session.g_sk_mac
      rw [hs]
  split at hv
  · exact hfin _ (Exec.ok.inj hv)
  · split at hv
    · exact hfin _ (Exec.ok.inj hv)
    · exact hfin _ (Exec.ok.inj hv)
/-- The block `parse cipher length` on a response of at least five bytes. -/
theorem parse_forms_eq (b0 b1 b2 b3 b4 : Nat) (rest : List Nat) :
    parse_cipher_length (b0 :: b1 :: b2 :: b3 :: b4 :: rest) =
      Exec.ok (if b2 = 0x01 ∧ b1 ≠ 0x82 then some (b1, 3)
        else if b3 = 0x01 ∧ b1 = 0x81 then some (b2, 4)
        else if b4 = 0x01 ∧ b1 = 0x82 then some (b2 * 0x100 + b3, 5)
        else none) := by
  have p1 : peek (b0 :: b1 :: b2 :: b3 :: b4 :: rest) 1 = Exec.ok b1 := by simp [peek]
  have p2 : peek (b0 :: b1 :: b2 :: b3 :: b4 :: rest) 2 = Exec.ok b2 := by simp [peek]
  have p3 : peek (b0 :: b1 :: b2 :: b3 :: b4 :: rest) 3 = Exec.ok b3 := by simp [peek]
  have p4 : peek (b0 :: b1 :: b2 :: b3 :: b4 :: rest) 4 = Exec.ok b4 := by simp [peek]
  unfold parse_cipher_length
  rw [p1, p2, p3, p4]
  by_cases h2 : b2 = 1 <;> by_cases h3 : b3 = 1 <;> by_cases h4 : b4 = 1 <;>
    by_cases h81 : b1 = 0x81 <;> by_cases h82 : b1 = 0x82 <;>
    simp [h2, h3, h4, h81, h82, Exec.pure_def, eq_comm]
/-! ## The PIN image -/

theorem reverse_order4_byte (x j : Nat) (hj : j < 4) (hx : x < SIZE_MOD) :
    (REVERSE_ORDER4 x >>> (8 * j)) % 256 = (x >>> (24 - 8 * j)) % 256 := by
  have hlt : (((x &&& 0xFF000000) >>> 24) ||| ((x &&& 0x00FF0000) >>> 8) |||
      ((x &&& 0x0000FF00) <<< 8) ||| ((x &&& 0x000000FF) <<< 24)) < SIZE_MOD := by
    have e : SIZE_MOD = 2 ^ 64 := rfl
    rw [e]
    apply Nat.lt_pow_two_of_testBit
    intro i hi
    simp only [Nat.testBit_or, Nat.testBit_and, Nat.testBit_shiftRight, Nat.testBit_shiftLeft]
    have t1 : Nat.testBit 0xFF000000 (24 + i) = false :=
      Nat.testBit_eq_false_of_lt (lt_of_lt_of_le (by norm_num) (Nat.pow_le_pow_right (by norm_num)
        (show 32 ≤ 24 + i by omega)))
    have t2 : Nat.testBit 0x00FF0000 (8 + i) = false :=
      Nat.testBit_eq_false_of_lt (lt_of_lt_of_le (by norm_num) (Nat.pow_le_pow_right (by norm_num)
        (show 32 ≤ 8 + i by omega)))
    have t3 : Nat.testBit 0x0000FF00 (i - 8) = false :=
      Nat.testBit_eq_false_of_lt (lt_of_lt_of_le (by norm_num) (Nat.pow_le_pow_right (by norm_num)
        (show 32 ≤ i - 8 by omega)))
    have t4 : Nat.testBit 0x000000FF (i - 24) = false :=
      Nat.testBit_eq_false_of_lt (lt_of_lt_of_le (by norm_num) (Nat.pow_le_pow_right (by norm_num)
        (show 8 ≤ i - 24 by omega)))
    simp [t1, t2, t3, t4]
  unfold REVERSE_ORDER4
  rw [Nat.mod_eq_of_lt hx, Nat.mod_eq_of_lt hlt]
  apply Nat.eq_of_testBit_eq
  intro i
  have e : (256 : Nat) = 2 ^ 8 := by norm_num
  rw [e, Nat.testBit_mod_two_pow, Nat.testBit_mod_two_pow]
  by_cases hi : i < 8
  · simp only [hi, decide_True, Bool.true_and, Nat.testBit_or, Nat.testBit_and,
      Nat.testBit_shiftRight, Nat.testBit_shiftLeft]
    interval_cases j <;> interval_cases i <;> norm_num [Nat.testBit_to_div_mod]
  · simp [hi]

/-- The four bytes that `hash_data` stores behind the digest. -/
theorem reverse_order4_bytes (x : Nat) (hx : x < SIZE_MOD) :
    le_bytes (REVERSE_ORDER4 x) 4 =
      [x / 2 ^ 24 % 256, x / 2 ^ 16 % 256, x / 2 ^ 8 % 256, x % 256] := by
  have h0 := reverse_order4_byte x 0 (by decide) hx
  have h1 := reverse_order4_byte x 1 (by decide) hx
  have h2 := reverse_order4_byte x 2 (by decide) hx
  have h3 := reverse_order4_byte x 3 (by decide) hx
  simp only [Nat.shiftRight_eq_div_pow] at h0 h1 h2 h3
  norm_num at h0 h1 h2 h3
  unfold le_bytes
  simp only [List.range, List.range.loop, List.map, Nat.shiftRight_eq_div_pow]
  norm_num
  exact ⟨h0, h1, h2, h3⟩

theorem be32_digits (x : Nat) (hx : x < 2 ^ 32) :
    beVal [x / 2 ^ 24 % 256, x / 2 ^ 16 % 256, x / 2 ^ 8 % 256, x % 256] = x := by
  unfold beVal
  simp only [List.foldl]
  omega

/-- `hash_data` on two buffers: the block stored at `hash`. -/
theorem hash_data_run (g : Digest) (hg : g.Sha1Length) (data : List Nat) (len : Nat)
    (hash : List Nat) (hlen : len ≤ data.length) (hx : len < SIZE_MOD)
    (hh : 24 ≤ hash.length) :
    hash_data g (some data) len (some hash) =
      Exec.ok (SC_SUCCESS, some (g.sha1 (data.take len) ++
        [len / 2 ^ 24 % 256, len / 2 ^ 16 % 256, len / 2 ^ 8 % 256, len % 256] ++
        hash.drop 24)) := by
  have hs : (g.sha1 (data.take len)).length = 20 := hg.len _
  unfold hash_data sha1_digest
  simp only []
  rw [peekN_ok _ _ _ (by omega), Exec.ok_bind, List.drop_zero,
    blit_zeros_start _ 24 4 (by rw [hs]), Exec.ok_bind,
    reverse_order4_bytes len hx,
    blit_end _ _ 20 4 0 (by rw [hs]) (by rfl), Exec.ok_bind,
    peekN_prefix _ _ 24 (by simp only [List.length_append, hs]; rfl), Exec.ok_bind,
    blit_ok _ _ _ (by simp only [List.length_append, hs]; simpa using hh), Exec.ok_bind]
  unfold splice
  simp only [List.take_zero, List.nil_append, Nat.zero_add, List.length_append, hs,
    List.length_cons, List.length_nil]
  rfl
/-! ## Key operations in closed form -/

theorem poke_front (P Z : List Nat) (i v : Nat) (hi : i < P.length) :
    poke (P ++ Z) i v = Exec.ok (P.set i (u8 v) ++ Z) := by
  rw [poke_set _ _ _ (by rw [List.length_append]; omega), List.set_append_left _ _ hi]

theorem and_ff (x : Nat) : x &&& 0xFF = x % 256 := by
  have := Nat.and_pow_two_sub_one_eq_mod x 8
  norm_num at this
  exact this

theorem room_eq (outlen p : Nat) (hp : p ≤ outlen) (ho : outlen < SIZE_MOD) :
    (outlen + (SIZE_MOD - p)) % SIZE_MOD = outlen - p := by
  have e : SIZE_MOD = 2 ^ 64 := rfl
  rw [e] at ho ⊢
  omega

/-- `sc_asn1_put_tag` with room for the object: the object is stored behind the
bytes written so far and the pointer moves behind it. -/
theorem put_tag_run (tag : Nat) (data : List Nat) (n : Nat) (W R : List Nat) (p outlen : Nat)
    (hp : p = W.length) (ht : tag < 256) (hn : n ≤ 127) (hd : n ≤ data.length)
    (hR : 2 + n ≤ R.length) (hol : p + 2 + n ≤ outlen) (ho : outlen < SIZE_MOD) :
    sc_asn1_put_tag tag data n (W ++ R) p ((outlen + (SIZE_MOD - p)) % SIZE_MOD) =
      Exec.ok (SC_SUCCESS, (W ++ (tag :: n :: data.take n)) ++ R.drop (2 + n), p + 2 + n) := by
  subst hp
  rw [room_eq outlen W.length (by omega) ho]
  obtain ⟨a, R1, hR1⟩ : ∃ a R1, R = a :: R1 := by
    cases R with
    | nil => simp at hR
    | cons a R1 => exact ⟨a, R1, rfl⟩
  subst hR1
  obtain ⟨b, R2, hR2⟩ : ∃ b R2, R1 = b :: R2 := by
    cases R1 with
    | nil => simp at hR; omega
    | cons b R2 => exact ⟨b, R2, rfl⟩
  subst hR2
  have hR2 : n ≤ R2.length := by simp at hR; omega
  have hsplit : R2 = R2.take n ++ R2.drop n := (List.take_append_drop n R2).symm
  have hu1 : u8 (tag &&& 0xFF) = tag := by rw [and_ff]; unfold u8; omega
  have hu2 : u8 n = n := by unfold u8; omega
  have h1 : poke (W ++ a :: b :: R2) W.length (tag &&& 0xFF) = Exec.ok (W ++ tag :: b :: R2) := by
    have := blit_mid W [a] (b :: R2) [u8 (tag &&& 0xFF)] W.length rfl rfl
    rw [hu1] at this
    simpa [poke, hu1] using this
  have h2 : poke (W ++ tag :: b :: R2) (W.length + 1) n = Exec.ok (W ++ tag :: n :: R2) := by
    have := blit_mid (W ++ [tag]) [b] R2 [u8 n] (W.length + 1) (by simp) rfl
    rw [hu2] at this
    simpa [poke, hu2] using this
  have h3 : blit (W ++ tag :: n :: R2) (W.length + 2) (data.take n) =
      Exec.ok (W ++ tag :: n :: (data.take n ++ R2.drop n)) := by
    have := blit_mid (W ++ [tag, n]) (R2.take n) (R2.drop n) (data.take n) (W.length + 2)
      (by simp) (by rw [List.length_take, List.length_take, Nat.min_eq_left hR2,
        Nat.min_eq_left hd])
    rw [List.append_assoc, ← hsplit] at this
    simpa using this
  unfold sc_asn1_put_tag
  rw [if_neg (by omega), if_neg (by omega)]
  rw [h1, Exec.ok_bind, h2, Exec.ok_bind, if_neg (by omega),
    peekN_ok _ _ _ (by omega), Exec.ok_bind, List.drop_zero, h3, Exec.ok_bind]
  have hdrop : List.drop (2 + n) (a :: b :: R2) = R2.drop n := by
    rw [Nat.add_comm]
    rfl
  rw [hdrop, Exec.pure_def]
  simp

theorem tlvBytes_append (L M : List (Nat × List Nat)) :
    tlvBytes (L ++ M) = tlvBytes L ++ tlvBytes M := by
  induction L with
  | nil => rfl
  | cons tv L ih => simp [tlvBytes, ih]

theorem tlvBytes_single (t : Nat) (v : List Nat) : tlvBytes [(t, v)] = t :: v.length :: v := by
  simp [tlvBytes]

theorem fciPos_append (L M : List (Nat × List Nat)) :
    fciPos (L ++ M) = fciPos L + (tlvBytes M).length := by
  unfold fciPos
  rw [tlvBytes_append, List.length_append]
  omega

theorem fciOut_length (b1 : Nat) (out : List Nat) (L : List (Nat × List Nat))
    (h : fciPos L ≤ out.length) : (fciOut b1 out L).length = out.length := by
  unfold fciOut
  unfold fciPos at h
  simp only [List.length_append, List.length_cons, List.length_drop]
  omega

/-- `sc_asn1_put_tag` behind the objects stored so far, with room for one more. -/
theorem put_obj (tag : Nat) (data : List Nat) (n b1 : Nat) (out : List Nat) (outlen : Nat)
    (L : List (Nat × List Nat)) (ht : tag < 256) (hn : n ≤ 127) (hd : n ≤ data.length)
    (hroom : fciPos (L ++ [(tag, data.take n)]) ≤ outlen) (hlen : outlen ≤ out.length)
    (ho : outlen < SIZE_MOD) :
    sc_asn1_put_tag tag data n (fciOut b1 out L) (fciPos L)
        ((outlen + (SIZE_MOD - fciPos L)) % SIZE_MOD) =
      Exec.ok (SC_SUCCESS, fciOut b1 out (L ++ [(tag, data.take n)]),
        fciPos (L ++ [(tag, data.take n)])) := by
  have htk : (data.take n).length = n := by rw [List.length_take, Nat.min_eq_left hd]
  have hpos : fciPos (L ++ [(tag, data.take n)]) = fciPos L + 2 + n := by
    rw [fciPos_append, tlvBytes_single, List.length_cons, List.length_cons, htk]
    omega
  rw [hpos] at hroom
  have hW : fciPos L = (0x62 :: b1 :: tlvBytes L).length := by
    unfold fciPos
    simp only [List.length_cons]
    omega
  unfold fciOut
  rw [hpos]
  have hpl : 2 + (tlvBytes L).length = fciPos L := rfl
  rw [hpl, put_tag_run tag data n (0x62 :: b1 :: tlvBytes L) (out.drop (fciPos L)) (fciPos L)
    outlen hW ht hn hd (by rw [List.length_drop]; omega) hroom ho]
  have h2 : 2 + (tlvBytes (L ++ [(tag, data.take n)])).length = fciPos L + 2 + n := by
    rw [← hpos]
    rfl
  rw [h2, List.drop_drop, tlvBytes_append, tlvBytes_single, htk]
  have h3 : fciPos L + (2 + n) = fciPos L + 2 + n := by omega
  have h4 : 2 + n + fciPos L = fciPos L + 2 + n := by omega
  simp only [List.cons_append, List.append_assoc, h3, h4]
theorem take_set1 (buf : List Nat) (a : Nat) (h : 1 ≤ buf.length) :
    (buf.set 0 a).take 1 = [a] := by
  match buf, h with
  | x0 :: rest, _ => simp

theorem take_set2 (buf : List Nat) (a b : Nat) (h : 2 ≤ buf.length) :
    ((buf.set 0 a).set 1 b).take 2 = [a, b] := by
  match buf, h with
  | x0 :: x1 :: rest, _ => simp

theorem take_set5 (buf : List Nat) (a b c d e : Nat) (h : 5 ≤ buf.length) :
    (((((buf.set 0 a).set 1 b).set 2 c).set 3 d).set 4 e).take 5 = [a, b, c, d, e] := by
  match buf, h with
  | x0 :: x1 :: x2 :: x3 :: x4 :: rest, _ => simp

/-- Two stores at the start of `buf` and the object made of them. -/
theorem put_pair (tag a b b1 : Nat) (buf out : List Nat) (outlen : Nat)
    (L : List (Nat × List Nat)) (hb : 2 ≤ buf.length) (ht : tag < 256)
    (hroom : fciPos (L ++ [(tag, [u8 a, u8 b])]) ≤ outlen) (hlen : outlen ≤ out.length)
    (ho : outlen < SIZE_MOD) :
    poke buf 0 a = Exec.ok (buf.set 0 (u8 a)) ∧
    poke (buf.set 0 (u8 a)) 1 b = Exec.ok ((buf.set 0 (u8 a)).set 1 (u8 b)) ∧
    sc_asn1_put_tag tag ((buf.set 0 (u8 a)).set 1 (u8 b)) 2 (fciOut b1 out L) (fciPos L)
        ((outlen + (SIZE_MOD - fciPos L)) % SIZE_MOD) =
      Exec.ok (SC_SUCCESS, fciOut b1 out (L ++ [(tag, [u8 a, u8 b])]),
        fciPos (L ++ [(tag, [u8 a, u8 b])])) ∧
    ((buf.set 0 (u8 a)).set 1 (u8 b)).length = buf.length := by
  have ht2 := take_set2 buf (u8 a) (u8 b) hb
  refine ⟨poke_set _ _ _ (by omega), poke_set _ _ _ (by simp; omega), ?_, by simp⟩
  have := put_obj tag ((buf.set 0 (u8 a)).set 1 (u8 b)) 2 b1 out outlen L ht (by omega)
    (by simp; omega) (by rw [ht2]; exact hroom) hlen ho
  rw [ht2] at this
  exact this

/-- The block `fci_put_size` stores the object `fciSizeObj`. -/
theorem fci_put_size_run (k : Lib) (file : sc_file) (b1 : Nat) (buf out : List Nat)
    (outlen : Nat) (L : List (Nat × List Nat)) (hb : buf.length = 64)
    (hroom : fciPos (L ++ fciSizeObj k file) ≤ outlen) (hlen : outlen ≤ out.length)
    (ho : outlen < SIZE_MOD) :
    ∃ buf1, fci_put_size k file outlen buf (fciOut b1 out L) (fciPos L) =
        Exec.ok (buf1, fciOut b1 out (L ++ fciSizeObj k file), fciPos (L ++ fciSizeObj k file)) ∧
      buf1.length = 64 := by
  unfold fci_put_size
  unfold fciSizeObj at hroom ⊢
  by_cases hc : file.type = k.SC_FILE_TYPE_WORKING_EF ∧
      file.ef_structure = k.SC_FILE_EF_TRANSPARENT
  · rw [if_pos hc] at hroom ⊢
    rw [if_pos hc]
    obtain ⟨h1, h2, h3, h4⟩ := put_pair 0x80 ((file.size >>> 8) &&& 0xFF) (file.size &&& 0xFF) b1
      buf out outlen L (by omega) (by decide) hroom hlen ho
    rw [h1, Exec.ok_bind, h2, Exec.ok_bind, h3, Exec.ok_bind]
    exact ⟨_, rfl, by rw [h4, hb]⟩
  · rw [if_neg hc] at hroom ⊢
    rw [if_neg hc, List.append_nil]
    exact ⟨buf, rfl, hb⟩

/-- The kinds of `SupportedKind`, in the order in which
`epass2003_construct_fci` tests the type. -/
theorem kind_cases (k : Lib) (file : sc_file) (hk : k.FileKinds) (hs : SupportedKind k file) :
    (file.type = k.SC_FILE_TYPE_DF ∧ 1 ≤ file.namelen ∧ file.namelen ≤ 16 ∧
      file.namelen ≤ file.name.length) ∨
    (file.type ≠ k.SC_FILE_TYPE_DF ∧ file.type = k.SC_FILE_TYPE_WORKING_EF ∧
      (file.ef_structure = k.SC_FILE_EF_TRANSPARENT ∨
       file.ef_structure = k.SC_FILE_EF_LINEAR_FIXED ∨
       file.ef_structure = k.SC_FILE_EF_LINEAR_VARIABLE)) ∨
    (file.type ≠ k.SC_FILE_TYPE_DF ∧ file.type ≠ k.SC_FILE_TYPE_WORKING_EF ∧
      file.type ≠ k.SC_FILE_TYPE_INTERNAL_EF ∧ file.type = k.SC_FILE_TYPE_BSO) ∨
    (file.type ≠ k.SC_FILE_TYPE_DF ∧ file.type ≠ k.SC_FILE_TYPE_WORKING_EF ∧
      file.type = k.SC_FILE_TYPE_INTERNAL_EF ∧
      (file.ef_structure = k.SC_CARDCTL_OBERTHUR_KEY_RSA_CRT ∨
       file.ef_structure = k.SC_CARDCTL_OBERTHUR_KEY_RSA_PUBLIC)) := by
  rcases hs with h | h | h | h
  · exact Or.inl h
  · refine Or.inr (Or.inl ⟨?_, h.1, h.2⟩)
    rw [h.1]
    exact fun e => hk.df_ef e.symm
  · refine Or.inr (Or.inr (Or.inl ⟨?_, ?_, ?_, h⟩))
    · rw [h]; exact fun e => hk.df_bso e.symm
    · rw [h]; exact fun e => hk.ef_bso e.symm
    · rw [h]; exact fun e => hk.int_bso e.symm
  · refine Or.inr (Or.inr (Or.inr ⟨?_, ?_, h.1, h.2⟩))
    · rw [h.1]; exact fun e => hk.df_int e.symm
    · rw [h.1]; exact fun e => hk.ef_int e.symm

/-- The block `fci_put_descriptor` stores the object `fciDescriptorObj` and
does not end the function, for a file of a supported kind. -/
theorem fci_put_descriptor_run (k : Lib) (file : sc_file) (hk : k.FileKinds)
    (hs : SupportedKind k file) (b1 : Nat) (buf out : List Nat)
    (outlen : Nat) (L : List (Nat × List Nat)) (hb : buf.length = 64)
    (hroom : fciPos (L ++ fciDescriptorObj k file) ≤ outlen) (hlen : outlen ≤ out.length)
    (ho : outlen < SIZE_MOD) :
    ∃ buf1, fci_put_descriptor k file outlen buf (fciOut b1 out L) (fciPos L) =
        Exec.ok (0, buf1, fciOut b1 out (L ++ fciDescriptorObj k file),
          fciPos (L ++ fciDescriptorObj k file)) ∧
      buf1.length = 64 := by
  unfold fci_put_descriptor
  unfold fciDescriptorObj at hroom ⊢
  rcases kind_cases k file hk hs with h | h | h | h
  · rw [if_pos h.1] at hroom ⊢
    rw [if_pos h.1]
    obtain ⟨h1, h2, h3, h4⟩ := put_pair 0x82 0x38 0x00 b1
      buf out outlen L (by omega) (by decide) hroom hlen ho
    rw [h1, Exec.ok_bind, h2, Exec.ok_bind, h3, Exec.ok_bind]
    exact ⟨_, rfl, by rw [h4, hb]⟩
  · obtain ⟨hn, he, hst⟩ := h
    rw [if_neg hn, if_pos he] at hroom ⊢
    rw [if_neg hn, if_pos he]
    by_cases ht : file.ef_structure = k.SC_FILE_EF_TRANSPARENT
    · rw [if_pos ht] at hroom ⊢
      obtain ⟨h1, h2, h3, h4⟩ := put_pair 0x82 (file.ef_structure &&& 7) 0x00 b1
        buf out outlen L (by omega) (by decide) hroom hlen ho
      rw [h1, Exec.ok_bind, if_pos ht, h2, Exec.ok_bind, h3, Exec.ok_bind]
      exact ⟨_, rfl, by rw [h4, hb]⟩
    · have hl : file.ef_structure = k.SC_FILE_EF_LINEAR_FIXED ∨
          file.ef_structure = k.SC_FILE_EF_LINEAR_VARIABLE := by
        rcases hst with h | h
        · exact absurd h ht
        · exact h
      rw [if_neg ht] at hroom ⊢
      have ht5 := take_set5 buf (u8 (file.ef_structure &&& 7)) (u8 0x00) (u8 0x00) (u8 0x40)
        (u8 0x00) (by omega)
      rw [poke_set _ _ _ (by omega), Exec.ok_bind, if_neg ht, if_pos hl,
        poke_set _ _ _ (by simp; omega), Exec.ok_bind,
        poke_set _ _ _ (by simp; omega), Exec.ok_bind,
        poke_set _ _ _ (by simp; omega), Exec.ok_bind,
        poke_set _ _ _ (by simp; omega), Exec.ok_bind,
        put_obj 0x82 _ 5 b1 out outlen L (by decide) (by decide) (by simp; omega)
          (by rw [ht5]; exact hroom) hlen ho, Exec.ok_bind, ht5]
      exact ⟨_, rfl, by simp [hb]⟩
  · obtain ⟨hn, he, hi, hbso⟩ := h
    rw [if_neg hn, if_neg he, if_neg hi, if_pos hbso] at hroom ⊢
    rw [if_neg hn, if_neg he, if_neg hi, if_pos hbso]
    obtain ⟨h1, h2, h3, h4⟩ := put_pair 0x82 0x10 0x00 b1
      buf out outlen L (by omega) (by decide) hroom hlen ho
    rw [h1, Exec.ok_bind, h2, Exec.ok_bind, h3, Exec.ok_bind]
    exact ⟨_, rfl, by rw [h4, hb]⟩
  · obtain ⟨hn, he, hi, hst⟩ := h
    rw [if_neg hn, if_neg he, if_pos hi] at hroom ⊢
    rw [if_neg hn, if_neg he, if_pos hi]
    by_cases hc : file.ef_structure = k.SC_CARDCTL_OBERTHUR_KEY_RSA_CRT
    · rw [if_pos hc] at hroom ⊢
      rw [if_pos hc]
      obtain ⟨h1, h2, h3, h4⟩ := put_pair 0x82 0x11 0x00 b1
        buf out outlen L (by omega) (by decide) hroom hlen ho
      rw [h1, Exec.ok_bind, h2, Exec.ok_bind, h3, Exec.ok_bind]
      exact ⟨_, rfl, by rw [h4, hb]⟩
    · have hp : file.ef_structure = k.SC_CARDCTL_OBERTHUR_KEY_RSA_PUBLIC := by
        rcases hst with h | h
        · exact absurd h hc
        · exact h
      rw [if_neg hc] at hroom ⊢
      rw [if_neg hc, if_pos hp]
      obtain ⟨h1, h2, h3, h4⟩ := put_pair 0x82 0x12 0x00 b1
        buf out outlen L (by omega) (by decide) hroom hlen ho
      rw [h1, Exec.ok_bind, h2, Exec.ok_bind, h3, Exec.ok_bind]
      exact ⟨_, rfl, by rw [h4, hb]⟩

/-- The block `fci_put_name` stores the object `fciNameObj`. -/
theorem fci_put_name_run (k : Lib) (file : sc_file) (b1 : Nat) (out : List Nat)
    (outlen : Nat) (L : List (Nat × List Nat))
    (hname : file.type = k.SC_FILE_TYPE_DF → file.namelen ≤ 16 ∧ file.namelen ≤ file.name.length)
    (hroom : fciPos (L ++ fciNameObj k file) ≤ outlen) (hlen : outlen ≤ out.length)
    (ho : outlen < SIZE_MOD) :
    fci_put_name k file outlen (fciOut b1 out L) (fciPos L) =
      Exec.ok (fciOut b1 out (L ++ fciNameObj k file), fciPos (L ++ fciNameObj k file)) := by
  unfold fci_put_name
  unfold fciNameObj at hroom ⊢
  by_cases hc : file.type = k.SC_FILE_TYPE_DF
  · rw [if_pos hc] at hroom ⊢
    rw [if_pos hc, put_obj 0x84 file.name file.namelen b1 out outlen L (by decide)
      (by have := (hname hc).1; omega) (hname hc).2 hroom hlen ho, Exec.ok_bind]
    rfl
  · rw [if_neg hc] at hroom ⊢
    rw [if_neg hc, List.append_nil]
    rfl

/-- The block `fci_put_prop` stores the object `fciPropObj`. -/
theorem fci_put_prop_run (k : Lib) (file : sc_file) (b1 : Nat) (buf out : List Nat)
    (outlen : Nat) (L : List (Nat × List Nat)) (hb : buf.length = 64)
    (hroom : fciPos (L ++ fciPropObj k file) ≤ outlen) (hlen : outlen ≤ out.length)
    (ho : outlen < SIZE_MOD) :
    ∃ buf1, fci_put_prop k file outlen buf (fciOut b1 out L) (fciPos L) =
        Exec.ok (buf1, fciOut b1 out (L ++ fciPropObj k file), fciPos (L ++ fciPropObj k file)) ∧
      buf1.length = 64 := by
  unfold fci_put_prop
  unfold fciPropObj at hroom ⊢
  by_cases hd : file.type = k.SC_FILE_TYPE_DF
  · rw [if_pos hd] at hroom ⊢
    rw [if_pos hd, put_obj 0x85 [0x00, 0x7f, 0x00] 2 b1 out outlen L (by decide) (by decide)
      (by decide) hroom hlen ho, Exec.ok_bind]
    exact ⟨buf, rfl, hb⟩
  rw [if_neg hd] at hroom ⊢
  rw [if_neg hd]
  by_cases hbso : file.type = k.SC_FILE_TYPE_BSO
  · rw [if_pos hbso] at hroom ⊢
    have ht1 := take_set1 buf (u8 (file.size &&& 0xff)) (by omega)
    rw [if_pos hbso, poke_set _ _ _ (by omega), Exec.ok_bind,
      put_obj 0x85 _ 1 b1 out outlen L (by decide) (by decide) (by simp; omega)
        (by rw [ht1]; exact hroom) hlen ho, Exec.ok_bind, ht1]
    exact ⟨_, rfl, by simp [hb]⟩
  rw [if_neg hbso] at hroom ⊢
  rw [if_neg hbso]
  by_cases hi : file.type = k.SC_FILE_TYPE_INTERNAL_EF
  · rw [if_pos hi] at hroom ⊢
    rw [if_pos hi]
    by_cases hc : file.ef_structure = k.SC_CARDCTL_OBERTHUR_KEY_RSA_CRT ∨
        file.ef_structure = k.SC_CARDCTL_OBERTHUR_KEY_RSA_PUBLIC
    · rw [if_pos hc] at hroom ⊢
      rw [if_pos hc]
      obtain ⟨h1, h2, h3, h4⟩ := put_pair 0x85 ((file.size >>> 8) &&& 0xFF) (file.size &&& 0xFF)
        b1 buf out outlen L (by omega) (by decide) hroom hlen ho
      rw [h1, Exec.ok_bind, h2, Exec.ok_bind, h3, Exec.ok_bind]
      exact ⟨_, rfl, by rw [h4, hb]⟩
    · rw [if_neg hc] at hroom ⊢
      rw [if_neg hc, List.append_nil]
      exact ⟨buf, rfl, hb⟩
  · rw [if_neg hi] at hroom ⊢
    rw [if_neg hi, List.append_nil]
    exact ⟨buf, rfl, hb⟩

/-- The block `fci_put_public` stores the object `fciPublicObj`. -/
theorem fci_put_public_run (k : Lib) (file : sc_file) (b1 : Nat) (out : List Nat)
    (outlen : Nat) (L : List (Nat × List Nat))
    (hroom : fciPos (L ++ fciPublicObj k file) ≤ outlen) (hlen : outlen ≤ out.length)
    (ho : outlen < SIZE_MOD) :
    fci_put_public k file outlen (fciOut b1 out L) (fciPos L) =
      Exec.ok (fciOut b1 out (L ++ fciPublicObj k file), fciPos (L ++ fciPublicObj k file)) := by
  unfold fci_put_public
  unfold fciPublicObj at hroom ⊢
  by_cases hc : file.ef_structure = k.SC_CARDCTL_OBERTHUR_KEY_RSA_PUBLIC
  · rw [if_pos hc] at hroom ⊢
    rw [if_pos hc, put_obj 0x87 [0x00, 0x66, 0x00] 2 b1 out outlen L (by decide) (by decide)
      (by decide) hroom hlen ho, Exec.ok_bind]
    rfl
  · rw [if_neg hc] at hroom ⊢
    rw [if_neg hc, List.append_nil]
    rfl

/-- The loop over `ops` when every operation looked up has an ACL entry: the
access bytes are stored from index `ii` on. -/
theorem construct_acl_loop_run (k : Lib) (file : sc_file) :
    ∀ (ops : List Nat) (ii : Nat) (P B : List Nat), P.length = ii → ops.length ≤ B.length →
      ops.all (fun op => decide (op = 0xFF) || (sc_file_get_acl_entry file op).isSome) = true →
      construct_acl_loop k file ops ii (P ++ B) =
        Exec.ok (0, P ++ ops.map (acByte k file) ++ B.drop ops.length)
  | [], ii, P, B, _, _, _ => by
    simp [construct_acl_loop, Exec.pure_def]
  | op :: ops, ii, P, B, hP, hB, hall => by
    obtain ⟨b, B1, hB1⟩ : ∃ b B1, B = b :: B1 := by
      cases B with
      | nil => simp at hB
      | cons b B1 => exact ⟨b, B1, rfl⟩
    subst hB1
    have hB1 : ops.length ≤ B1.length := by simp at hB; omega
    rw [List.all_cons, Bool.and_eq_true] at hall
    obtain ⟨hop, hrest⟩ := hall
    have hpk : ∀ v, poke (P ++ b :: B1) ii v = Exec.ok ((P ++ [u8 v]) ++ B1) := by
      intro v
      have := blit_mid P [b] B1 [u8 v] ii hP.symm rfl
      simpa [poke] using this
    have hP1 : ∀ v : Nat, (P ++ [v]).length = ii + 1 := by
      intro v; rw [List.length_append, hP]; rfl
    unfold construct_acl_loop
    rw [hpk, Exec.ok_bind]
    by_cases hff : op = 0xFF
    · rw [if_pos hff, construct_acl_loop_run k file ops (ii + 1) (P ++ [u8 0xFF]) B1 (hP1 _) hB1
        hrest]
      have : acByte k file op = 0xFF := by unfold acByte; rw [if_pos hff]
      simp [this, u8]
    · rw [if_neg hff]
      have hsome : (sc_file_get_acl_entry file op).isSome = true := by
        simpa [hff] using hop
      obtain ⟨m, hm⟩ := Option.isSome_iff_exists.mp hsome
      have hnn : ¬ SC_TEST_RET (acl_to_ac_byte k (sc_file_get_acl_entry file op)) = true := by
        rw [hm]
        unfold SC_TEST_RET acl_to_ac_byte
        simp only [decide_eq_true_eq, not_lt]
        split
        · exact Int.natCast_nonneg _
        · split
          · exact Int.natCast_nonneg _
          · exact Int.natCast_nonneg _
      simp only []
      rw [if_neg hnn]
      have hpk2 : ∀ v, poke ((P ++ [u8 0xFF]) ++ B1) ii v = Exec.ok ((P ++ [u8 v]) ++ B1) := by
        intro v
        have := blit_mid P [u8 0xFF] B1 [u8 v] ii hP.symm rfl
        simpa [poke] using this
      rw [hpk2, Exec.ok_bind, construct_acl_loop_run k file ops (ii + 1) (P ++ [_]) B1 (hP1 _) hB1
        hrest]
      have : acByte k file op = u8 (acl_to_ac_byte k (sc_file_get_acl_entry file op)).toNat := by
        unfold acByte; rw [if_neg hff]
      simp [this]

theorem construct_ops_length (k : Lib) (file : sc_file) (ops : List Nat)
    (h : construct_ops k file = some ops) : ops.length = 8 := by
  unfold construct_ops at h
  simp only [] at h
  (repeat' split at h) <;> cases h <;> simp

theorem construct_ops_some (k : Lib) (file : sc_file) (hk : k.FileKinds)
    (hs : SupportedKind k file) : ∃ ops, construct_ops k file = some ops := by
  unfold construct_ops
  simp only []
  rcases kind_cases k file hk hs with h | h | h | h
  · rw [if_pos h.1]
    exact ⟨_, rfl⟩
  · obtain ⟨hn, he, hst⟩ := h
    rw [if_neg hn, if_pos he]
    by_cases ht : file.ef_structure = k.SC_FILE_EF_TRANSPARENT
    · rw [if_pos ht]
      exact ⟨_, rfl⟩
    · have hl : file.ef_structure = k.SC_FILE_EF_LINEAR_FIXED ∨
          file.ef_structure = k.SC_FILE_EF_LINEAR_VARIABLE := by
        rcases hst with h | h
        · exact absurd h ht
        · exact h
      rw [if_neg ht, if_pos hl]
      exact ⟨_, rfl⟩
  · obtain ⟨hn, he, hi, hbso⟩ := h
    rw [if_neg hn, if_neg he, if_pos hbso]
    exact ⟨_, rfl⟩
  · obtain ⟨hn, he, hi, hst⟩ := h
    have hb : file.type ≠ k.SC_FILE_TYPE_BSO := by
      rw [hi]; exact hk.int_bso
    rw [if_neg hn, if_neg he, if_neg hb, if_pos hi]
    split
    · exact ⟨_, rfl⟩
    · split <;> exact ⟨_, rfl⟩

/-- The block `fci_put_sec` stores the object `fciSecObj` and does not end the
function, when the security attributes fit or the ACL is complete. -/
theorem fci_put_sec_run (k : Lib) (file : sc_file) (hk : k.FileKinds)
    (hs : SupportedKind k file) (hsec : SecurityGiven k file) (b1 : Nat) (buf out : List Nat)
    (outlen : Nat) (L : List (Nat × List Nat)) (hb : buf.length = 64)
    (hroom : fciPos (L ++ fciSecObj k file) ≤ outlen) (hlen : outlen ≤ out.length)
    (ho : outlen < SIZE_MOD) :
    fci_put_sec k file outlen buf (fciOut b1 out L) (fciPos L) =
      Exec.ok (0, fciOut b1 out (L ++ fciSecObj k file), fciPos (L ++ fciSecObj k file)) := by
  unfold fci_put_sec
  unfold fciSecObj at hroom ⊢
  rcases hsec with ⟨h0, h64, hl⟩ | ⟨h0, hacl⟩
  · rw [if_pos h0] at hroom ⊢
    have htl : (file.sec_attr.take file.sec_attr_len).length = file.sec_attr_len := by
      rw [List.length_take, Nat.min_eq_left hl]
    have hbl := blit_head buf [] (file.sec_attr.take file.sec_attr_len) (by rw [htl, hb]; exact h64)
    rw [List.append_nil, List.append_nil] at hbl
    have htk : (file.sec_attr.take file.sec_attr_len ++
        buf.drop (file.sec_attr.take file.sec_attr_len).length).take file.sec_attr_len =
        file.sec_attr.take file.sec_attr_len := List.take_left' htl
    rw [if_pos h0, peekN_ok _ _ _ (by omega), Exec.ok_bind, List.drop_zero, hbl, Exec.ok_bind,
      put_obj 0x86 _ file.sec_attr_len b1 out outlen L (by decide) (by omega)
        (by rw [List.length_append, htl]; omega) (by rw [htk]; exact hroom) hlen ho,
      Exec.ok_bind, htk]
    rfl
  · have hn0 : ¬ file.sec_attr_len ≠ 0 := not_not.mpr h0
    rw [if_neg hn0] at hroom ⊢
    obtain ⟨ops, hops⟩ := construct_ops_some k file hk hs
    have hlen8 := construct_ops_length k file ops hops
    have hac : fciAcBytes k file = ops.map (acByte k file) := by
      unfold fciAcBytes; rw [hops]
    have hall : ops.all (fun op => decide (op = 0xFF) ||
        (sc_file_get_acl_entry file op).isSome) = true := by
      unfold aclComplete at hacl
      rw [hops] at hacl
      exact hacl
    have hloop := construct_acl_loop_run k file ops 0 [] buf rfl (by omega) hall
    rw [List.nil_append, List.nil_append] at hloop
    have htk : (ops.map (acByte k file) ++ buf.drop ops.length).take 8 =
        ops.map (acByte k file) := List.take_left' (by rw [List.length_map, hlen8])
    rw [hac] at hroom ⊢
    rw [if_neg hn0, hops]
    simp only []
    rw [hloop, Exec.ok_bind]
    have hnt : ¬ SC_TEST_RET 0 = true := by decide
    simp only []
    rw [if_neg hnt, put_obj 0x86 _ 8 b1 out outlen L (by decide) (by decide)
        (by rw [List.length_append, List.length_map, hlen8]; omega) (by rw [htk]; exact hroom)
        hlen ho, Exec.ok_bind, htk]
    rfl
theorem fciPos_le_append (L M : List (Nat × List Nat)) : fciPos L ≤ fciPos (L ++ M) := by
  rw [fciPos_append]
  omega

theorem construct_fci_eq_blocks (k : Lib) (file : sc_file) (out : List Nat) (outlen : Nat) :
    epass2003_construct_fci k file out outlen = construct_fci_blocks k file out outlen := rfl

/-- `epass2003_construct_fci` for a file of a supported kind with security
attributes or a complete ACL, and room in the buffer: the header `62 len` and
the objects `fciObjects`, the rest of the buffer being kept. -/
theorem construct_fci_run (k : Lib) (file : sc_file) (hk : k.FileKinds)
    (hs : SupportedKind k file) (hsec : SecurityGiven k file) (out : List Nat) (outlen : Nat)
    (hroom : fciPos (fciObjects k file) ≤ outlen) (hlen : outlen ≤ out.length)
    (ho : outlen < SIZE_MOD) :
    epass2003_construct_fci k file out outlen =
      Exec.ok (0, fciOut (u8 (tlvBytes (fciObjects k file)).length) out (fciObjects k file),
        fciPos (fciObjects k file)) := by
  have hr7 : fciPos (fciSizeObj k file ++ fciDescriptorObj k file ++ fciIdObj file ++
      fciNameObj k file ++ fciPropObj k file ++ fciSecObj k file ++ fciPublicObj k file) ≤
      outlen := hroom
  have hr6 := le_trans (fciPos_le_append _ (fciPublicObj k file)) hr7
  have hr5 := le_trans (fciPos_le_append _ (fciSecObj k file)) hr6
  have hr4 := le_trans (fciPos_le_append _ (fciPropObj k file)) hr5
  have hr3 := le_trans (fciPos_le_append _ (fciNameObj k file)) hr4
  have hr2 := le_trans (fciPos_le_append _ (fciIdObj file)) hr3
  have hr1 := le_trans (fciPos_le_append _ (fciDescriptorObj k file)) hr2
  have hp2 : 2 ≤ outlen := le_trans (by unfold fciPos; omega) hr1
  obtain ⟨a0, b1, rest, hout⟩ : ∃ a0 b1 rest, out = a0 :: b1 :: rest := by
    match out, hlen with
    | a0 :: b1 :: rest, _ => exact ⟨a0, b1, rest, rfl⟩
    | [_], h => simp at h; omega
    | [], h => simp at h; omega
  have hpoke : poke out 0 0x62 = Exec.ok (fciOut b1 out []) := by
    rw [poke_set _ _ _ (by omega), hout]
    rfl
  have hnm : ¬ (file.type = k.SC_FILE_TYPE_DF ∧ ¬ (file.namelen ≠ 0)) := by
    rintro ⟨hd, hz⟩
    rcases kind_cases k file hk hs with h | h | h | h
    · exact hz (by have := h.2.1; omega)
    · exact h.1 hd
    · exact h.1 hd
    · exact h.1 hd
  have hname : file.type = k.SC_FILE_TYPE_DF →
      file.namelen ≤ 16 ∧ file.namelen ≤ file.name.length := by
    intro hd
    rcases kind_cases k file hk hs with h | h | h | h
    · exact ⟨h.2.2.1, h.2.2.2⟩
    · exact absurd hd h.1
    · exact absurd hd h.1
    · exact absurd hd h.1
  obtain ⟨buf1, h1, hb1⟩ := fci_put_size_run k file b1 (zeros 64) out outlen [] (by simp [zeros])
    (by rw [List.nil_append]; exact hr1) hlen ho
  rw [List.nil_append] at h1
  have h1a : fci_put_size k file outlen (zeros 64) (fciOut b1 out []) 2 =
      Exec.ok (buf1, fciOut b1 out (fciSizeObj k file), fciPos (fciSizeObj k file)) := h1
  obtain ⟨buf2, h2, hb2⟩ := fci_put_descriptor_run k file hk hs b1 buf1 out outlen
    (fciSizeObj k file) hb1 hr2 hlen ho
  obtain ⟨h3a, h3b, h3c, h3d⟩ := put_pair 0x83 ((file.id >>> 8) &&& 0xFF) (file.id &&& 0xFF) b1
    buf2 out outlen (fciSizeObj k file ++ fciDescriptorObj k file) (by omega) (by decide)
    hr3 hlen ho
  have h4 := fci_put_name_run k file b1 out outlen
    (fciSizeObj k file ++ fciDescriptorObj k file ++ fciIdObj file) hname hr4 hlen ho
  obtain ⟨buf5, h5, hb5⟩ := fci_put_prop_run k file b1 _ out outlen
    (fciSizeObj k file ++ fciDescriptorObj k file ++ fciIdObj file ++ fciNameObj k file)
    (h3d.trans hb2) hr5 hlen ho
  have h6 := fci_put_sec_run k file hk hs hsec b1 buf5 out outlen
    (fciSizeObj k file ++ fciDescriptorObj k file ++ fciIdObj file ++ fciNameObj k file ++
      fciPropObj k file) hb5 hr6 hlen ho
  have h7 := fci_put_public_run k file b1 out outlen
    (fciSizeObj k file ++ fciDescriptorObj k file ++ fciIdObj file ++ fciNameObj k file ++
      fciPropObj k file ++ fciSecObj k file) hr7 hlen ho
  have hfin : poke (fciOut b1 out (fciObjects k file)) 1
      ((fciPos (fciObjects k file) + (SIZE_MOD - 2)) % SIZE_MOD) =
      Exec.ok (fciOut (u8 (tlvBytes (fciObjects k file)).length) out (fciObjects k file)) := by
    rw [size_dec2 _ (by unfold fciPos; omega) (lt_of_le_of_lt hroom ho)]
    unfold fciOut fciPos
    rw [poke_front _ _ 1 _ (by simp), Nat.add_sub_cancel_left]
    rfl
  rw [construct_fci_eq_blocks]
  unfold construct_fci_blocks
  rw [if_neg (by omega), hpoke, Exec.ok_bind, h1a, Exec.ok_bind]
  simp only []
  rw [h2, Exec.ok_bind]
  simp only [ne_eq, not_true_eq_false, if_false]
  rw [h3a, Exec.ok_bind, h3b, Exec.ok_bind]
  have h3c' : sc_asn1_put_tag 0x83
      ((buf2.set 0 (u8 ((file.id >>> 8) &&& 0xFF))).set 1 (u8 (file.id &&& 0xFF))) 2
      (fciOut b1 out (fciSizeObj k file ++ fciDescriptorObj k file))
      (fciPos (fciSizeObj k file ++ fciDescriptorObj k file))
      ((outlen + (SIZE_MOD - fciPos (fciSizeObj k file ++ fciDescriptorObj k file))) % SIZE_MOD) =
      Exec.ok (SC_SUCCESS, fciOut b1 out
        (fciSizeObj k file ++ fciDescriptorObj k file ++ fciIdObj file),
        fciPos (fciSizeObj k file ++ fciDescriptorObj k file ++ fciIdObj file)) := h3c
  rw [h3c', Exec.ok_bind]
  simp only []
  rw [if_neg hnm, h4, Exec.ok_bind]
  simp only []
  rw [h5, Exec.ok_bind]
  simp only []
  rw [h6, Exec.ok_bind]
  simp only [ne_eq, not_true_eq_false, if_false]
  rw [h7, Exec.ok_bind]
  simp only []
  have hfin' : poke (fciOut b1 out (fciSizeObj k file ++ fciDescriptorObj k file ++ fciIdObj file ++
      fciNameObj k file ++ fciPropObj k file ++ fciSecObj k file ++ fciPublicObj k file)) 1
      ((fciPos (fciSizeObj k file ++ fciDescriptorObj k file ++ fciIdObj file ++
      fciNameObj k file ++ fciPropObj k file ++ fciSecObj k file ++ fciPublicObj k file) +
        (SIZE_MOD - 2)) % SIZE_MOD) =
      Exec.ok (fciOut (u8 (tlvBytes (fciObjects k file)).length) out (fciObjects k file)) := hfin
  rw [hfin', Exec.ok_bind]
  rfl
/-! ## Reading the FCI back -/

theorem tlvBytes_length_ge (L : List (Nat × List Nat)) : 2 * L.length ≤ (tlvBytes L).length := by
  induction L with
  | nil => simp [tlvBytes]
  | cons tv L ih =>
    simp only [tlvBytes, List.length_cons, List.length_append]
    omega

/-- The search loop of `sc_asn1_find_tag` on a sequence of objects with valid
one-byte tags and lengths below `0x80`: the value of the first object with the
tag. -/
theorem asn1_find_loop_tlvs (tag : Nat) (rest : List Nat) :
    ∀ (L : List (Nat × List Nat)) (fuel : Nat) (pre : List Nat),
      (∀ tv ∈ L, tv.1 ≠ 0x00 ∧ tv.1 ≠ 0xFF ∧ tv.1 &&& 0x1F ≠ 0x1F ∧ tv.2.length < 0x80) →
      (L = [] ∨ L.length < fuel) →
      (asn1_find_loop fuel (pre ++ (tlvBytes L ++ rest)) pre.length (tlvBytes L).length tag).map
          (fun r => ((pre ++ (tlvBytes L ++ rest)).drop r.1).take r.2) =
        (L.find? (fun tv => decide (tv.1 = tag))).map (fun tv => tv.2)
  | [], fuel, pre, _, _ => by
    cases fuel with
    | zero => simp [asn1_find_loop]
    | succ f => simp [asn1_find_loop, tlvBytes]
  | tv :: L, fuel, pre, hv, hf => by
    obtain ⟨t, v⟩ := tv
    have hf1 : (t, v) :: L = [] ∨ ((t, v) :: L).length < fuel := hf
    obtain ⟨f, hfuel⟩ : ∃ f, fuel = f + 1 := by
      rcases hf1 with h | h
      · cases h
      · exact ⟨fuel - 1, by simp at h; omega⟩
    subst hfuel
    have hf2 : L = [] ∨ L.length < f := by
      rcases hf1 with h | h
      · cases h
      · cases L with
        | nil => exact Or.inl rfl
        | cons x L2 => right; simp at h ⊢; omega
    obtain ⟨ht0, htf, ht1f, hvl⟩ := hv (t, v) (List.mem_cons_self _ _)
    simp only [] at ht0 htf ht1f hvl
    have hB : pre ++ (tlvBytes ((t, v) :: L) ++ rest) =
        pre ++ (t :: v.length :: (v ++ (tlvBytes L ++ rest))) := by
      simp [tlvBytes]
    have hB2 : pre ++ (tlvBytes ((t, v) :: L) ++ rest) =
        (pre ++ t :: v.length :: v) ++ (tlvBytes L ++ rest) := by
      simp [tlvBytes]
    have hlen : (tlvBytes ((t, v) :: L)).length = 2 + v.length + (tlvBytes L).length := by
      simp only [tlvBytes, List.length_cons, List.length_append]
      omega
    have hg0 : (pre ++ (t :: v.length :: (v ++ (tlvBytes L ++ rest))))[pre.length]? = some t := by
      rw [List.getElem?_append_right (Nat.le_refl _), Nat.sub_self]
      rfl
    have hg1 : (pre ++ (t :: v.length :: (v ++ (tlvBytes L ++ rest))))[pre.length + 1]? =
        some v.length := by
      rw [List.getElem?_append_right (by omega), Nat.add_sub_cancel_left]
      simp
    have hrl : asn1_read_length (pre ++ (t :: v.length :: (v ++ (tlvBytes L ++ rest))))
        (pre.length + 1) = some (v.length, 1) := by
      unfold asn1_read_length
      rw [hg1]
      simp only []
      rw [if_pos hvl]
    rw [hlen]
    unfold asn1_find_loop
    rw [if_neg (by omega), hB, hg0]
    simp only []
    rw [if_neg (by
      intro hcon
      rcases hcon with h | h | h
      · exact ht0 h
      · exact htf h
      · exact ht1f h), hrl]
    simp only []
    rw [if_neg (by omega)]
    by_cases htag : t = tag
    · rw [if_pos htag, if_neg (by omega)]
      have hfind : List.find? (fun tv => decide (tv.1 = tag)) ((t, v) :: L) = some (t, v) := by
        simp [List.find?, htag]
      rw [hfind]
      simp only [Option.map_some']
      congr 1
      have hd : List.drop (pre.length + 1 + 1)
          (pre ++ (t :: v.length :: (v ++ (tlvBytes L ++ rest)))) = v ++ (tlvBytes L ++ rest) := by
        have e : pre.length + 1 + 1 = pre.length + 2 := by omega
        rw [e, List.drop_append]
        rfl
      rw [hd, List.take_left' rfl]
    · rw [if_neg htag, if_neg (by omega)]
      have hfind : List.find? (fun tv => decide (tv.1 = tag)) ((t, v) :: L) =
          List.find? (fun tv => decide (tv.1 = tag)) L := by
        simp [List.find?, htag]
      rw [hfind, ← hB, hB2]
      have hpl : pre.length + 1 + 1 + v.length = (pre ++ t :: v.length :: v).length := by
        simp only [List.length_append, List.length_cons]
        omega
      have hll : 2 + v.length + (tlvBytes L).length - (1 + 1) - v.length = (tlvBytes L).length := by
        omega
      rw [hpl, hll]
      exact asn1_find_loop_tlvs tag rest L f (pre ++ t :: v.length :: v)
        (fun tv htv => hv tv (List.mem_cons_of_mem _ htv)) hf2

/-- `sc_asn1_find_tag` on a sequence of objects with valid one-byte tags and
lengths below `0x80`, whatever follows the sequence in the buffer. -/
theorem find_tag_tlvs (tag : Nat) (rest : List Nat) (L : List (Nat × List Nat))
    (hv : ∀ tv ∈ L, tv.1 ≠ 0x00 ∧ tv.1 ≠ 0xFF ∧ tv.1 &&& 0x1F ≠ 0x1F ∧ tv.2.length < 0x80) :
    sc_asn1_find_tag (tlvBytes L ++ rest) (tlvBytes L).length tag =
      (L.find? (fun tv => decide (tv.1 = tag))).map (fun tv => tv.2) := by
  have hf : L = [] ∨ L.length < (tlvBytes L).length := by
    cases L with
    | nil => exact Or.inl rfl
    | cons x L2 =>
      right
      have := tlvBytes_length_ge (x :: L2)
      simp only [List.length_cons] at this ⊢
      omega
  have h := asn1_find_loop_tlvs tag rest L (tlvBytes L).length [] hv hf
  simp only [List.nil_append, List.length_nil] at h
  unfold sc_asn1_find_tag
  rw [← h]
  cases asn1_find_loop (tlvBytes L).length (tlvBytes L ++ rest) 0 (tlvBytes L).length tag with
  | none => rfl
  | some r => rfl

theorem process_descriptor_type (k : Lib) (x y : sc_file) (byte : Nat) :
    (process_descriptor k x byte).type = (process_descriptor k y byte).type := by
  unfold process_descriptor
  simp only []
  (repeat' split) <;> rfl


theorem process_fci_eq_blocks (k : Lib) (file : sc_file) (buf : List Nat) (buflen : Nat) :
    epass2003_process_fci k file buf buflen = process_fci_blocks k file buf buflen := rfl

theorem fci_read_attrs_keeps (k : Lib) (file : sc_file) (buf : List Nat) (buflen : Nat) :
    (fci_read_attrs k file buf buflen).id = file.id ∧
    (fci_read_attrs k file buf buflen).size = file.size ∧
    (fci_read_attrs k file buf buflen).type = file.type ∧
    (fci_read_attrs k file buf buflen).ef_structure = file.ef_structure := by
  unfold fci_read_attrs sc_file_set_prop_attr sc_file_set_sec_attr
  simp only []
  refine ⟨?_, ?_, ?_, ?_⟩ <;> (repeat' split) <;> rfl

theorem fci_read_name_keeps (k : Lib) (file : sc_file) (buf : List Nat) (buflen : Nat)
    (h84 : ∀ t, sc_asn1_find_tag buf buflen 0x84 = some t → t.length ≤ 16 →
      t.length ≤ file.name.length) :
    ∃ f, fci_read_name k file buf buflen = Exec.ok f ∧ f.id = file.id ∧ f.size = file.size ∧
      f.ef_structure = file.ef_structure ∧
      (sc_asn1_find_tag buf buflen 0x84 = none ∨ file.type = k.SC_FILE_TYPE_DF →
        f.type = file.type) := by
  unfold fci_read_name
  cases h : sc_asn1_find_tag buf buflen 0x84 with
  | none => exact ⟨file, rfl, rfl, rfl, rfl, fun _ => rfl⟩
  | some t =>
    simp only []
    by_cases hc : 0 < t.length ∧ t.length ≤ 16
    · rw [if_pos hc, blit_ok _ _ _ (by have := h84 t h hc.2; omega), Exec.ok_bind]
      by_cases h0 : file.type = 0
      · rw [if_pos h0]
        refine ⟨_, rfl, rfl, rfl, rfl, ?_⟩
        intro hor
        rcases hor with h1 | h1
        · cases h1
        · exact h1.symm
      · rw [if_neg h0]
        exact ⟨_, rfl, rfl, rfl, rfl, fun _ => rfl⟩
    · rw [if_neg hc]
      exact ⟨file, rfl, rfl, rfl, rfl, fun _ => rfl⟩

/-- What `epass2003_process_fci` makes of a buffer in which the identifier and
the descriptor are found: it returns 0, the identifier and a size of two bytes
are read big-endian, and the type is the one of the descriptor, unless a name
is found and that type is 0. -/
theorem process_fci_fields (k : Lib) (g : sc_file) (buf : List Nat) (buflen hi lo byte : Nat)
    (dtail : List Nat)
    (h83 : sc_asn1_find_tag buf buflen 0x83 = some [hi, lo])
    (h82 : sc_asn1_find_tag buf buflen 0x82 = some (byte :: dtail))
    (h84 : ∀ t, sc_asn1_find_tag buf buflen 0x84 = some t → t.length ≤ 16 →
      t.length ≤ g.name.length) :
    ∃ f, epass2003_process_fci k g buf buflen = Exec.ok (0, f) ∧
      f.id = (hi <<< 8) ||| lo ∧
      (∀ s0 s1, sc_asn1_find_tag buf buflen 0x80 = some [s0, s1] → f.size = (s0 <<< 8) + s1) ∧
      (sc_asn1_find_tag buf buflen 0x84 = none ∨
          (process_descriptor k g byte).type = k.SC_FILE_TYPE_DF →
        f.type = (process_descriptor k g byte).type) := by
  have hid : fci_read_id g buf buflen = { g with id := (hi <<< 8) ||| lo } := by
    unfold fci_read_id
    rw [h83]
  have hty : ∀ x, fci_read_type k x buf buflen = process_descriptor k x byte := by
    intro x
    unfold fci_read_type
    rw [h82]
  have hdk : ∀ x, (process_descriptor k x byte).id = x.id ∧
      (process_descriptor k x byte).size = x.size ∧
      (process_descriptor k x byte).name = x.name := by
    intro x
    unfold process_descriptor
    simp only []
    refine ⟨?_, ?_, ?_⟩ <;> (repeat' split) <;> rfl
  have hsz : ∀ x, (fci_read_size x buf buflen).id = x.id ∧
      (fci_read_size x buf buflen).name = x.name ∧
      (∀ s0 s1, sc_asn1_find_tag buf buflen 0x80 = some [s0, s1] →
        (fci_read_size x buf buflen).size = (s0 <<< 8) + s1) := by
    intro x
    unfold fci_read_size
    simp only []
    refine ⟨?_, ?_, ?_⟩
    · (repeat' split) <;> rfl
    · (repeat' split) <;> rfl
    · intro s0 s1 h80
      rw [h80]
  rw [process_fci_eq_blocks]
  unfold process_fci_blocks
  simp only []
  rw [hid, hty]
  obtain ⟨f, hf, hfid, hfsz, _, hfty⟩ := fci_read_name_keeps k
    (process_descriptor k (fci_read_size { g with id := (hi <<< 8) ||| lo } buf buflen) byte)
    buf buflen (by
      intro t ht h16
      rw [(hdk _).2.2, (hsz _).2.1]
      exact h84 t ht h16)
  rw [hf, Exec.ok_bind]
  obtain ⟨ka, kb, kc, _⟩ := fci_read_attrs_keeps k f buf buflen
  refine ⟨_, rfl, ?_, ?_, ?_⟩
  · rw [ka, hfid, (hdk _).1, (hsz _).1]
  · intro s0 s1 h80
    rw [kb, hfsz, (hdk _).2.1, (hsz _).2.2 s0 s1 h80]
  · intro hor
    rw [kc, process_descriptor_type k g
      (fci_read_size { g with id := (hi <<< 8) ||| lo } buf buflen) byte]
    apply hfty
    rcases hor with h | h
    · exact Or.inl h
    · right
      rw [← process_descriptor_type k g]
      exact h
theorem fciObjects_find_id (k : Lib) (file : sc_file) :
    (fciObjects k file).find? (fun tv => decide (tv.1 = 0x83)) =
      some (0x83, [u8 ((file.id >>> 8) &&& 0xFF), u8 (file.id &&& 0xFF)]) := by
  unfold fciObjects fciSizeObj fciDescriptorObj fciIdObj
  simp only [List.find?_append, List.append_assoc]
  split_ifs <;> simp

theorem fciObjects_find_size (k : Lib) (file : sc_file) :
    (fciObjects k file).find? (fun tv => decide (tv.1 = 0x80)) =
      if file.type = k.SC_FILE_TYPE_WORKING_EF ∧
          file.ef_structure = k.SC_FILE_EF_TRANSPARENT then
        some (0x80, [u8 ((file.size >>> 8) &&& 0xFF), u8 (file.size &&& 0xFF)])
      else none := by
  unfold fciObjects fciSizeObj fciDescriptorObj fciIdObj fciNameObj fciPropObj fciSecObj
    fciPublicObj
  simp only [List.find?_append, List.append_assoc]
  split_ifs <;> simp

theorem process_descriptor_ef (k : Lib) (g : sc_file) (byte : Nat) (h1 : 1 ≤ byte)
    (h7 : byte ≤ 7) : (process_descriptor k g byte).type = k.SC_FILE_TYPE_WORKING_EF := by
  unfold process_descriptor
  rw [if_neg (by omega), if_pos ⟨h1, h7⟩]
  simp only []
  (repeat' split) <;> rfl

theorem and_seven_le (x : Nat) : x &&& 7 ≤ 7 := Nat.and_le_right

/-- The descriptor of a file of a supported kind is found in its FCI, and
`process_descriptor` reads the type of the file from its first byte. -/
theorem fciObjects_find_descriptor (k : Lib) (file g : sc_file) (hk : k.FileKinds)
    (hs : SupportedKind k file) :
    ∃ byte tail, (fciObjects k file).find? (fun tv => decide (tv.1 = 0x82)) =
        some (0x82, byte :: tail) ∧
      (process_descriptor k g byte).type = file.type := by
  have hu : u8 (file.ef_structure &&& 7) = file.ef_structure &&& 7 := by
    have := and_seven_le file.ef_structure
    unfold u8
    omega
  have hfind : (fciObjects k file).find? (fun tv => decide (tv.1 = 0x82)) =
      (fciDescriptorObj k file).head? := by
    unfold fciObjects fciSizeObj fciDescriptorObj fciIdObj fciNameObj fciPropObj fciSecObj
      fciPublicObj
    simp only [List.find?_append, List.append_assoc]
    split_ifs <;> simp
  rw [hfind]
  unfold fciDescriptorObj
  rcases kind_cases k file hk hs with h | h | h | h
  · rw [if_pos h.1]
    refine ⟨0x38, [0x00], rfl, ?_⟩
    rw [h.1]
    rfl
  · obtain ⟨hn, he, hst⟩ := h
    have hb1 : 1 ≤ file.ef_structure &&& 7 := by
      rcases hst with h | h | h
      · rw [h]; exact hk.transparent
      · rw [h]; exact hk.linear_fixed
      · rw [h]; exact hk.linear_variable
    rw [if_neg hn, if_pos he]
    by_cases ht : file.ef_structure = k.SC_FILE_EF_TRANSPARENT
    · rw [if_pos ht]
      refine ⟨_, _, rfl, ?_⟩
      rw [hu, he]
      exact process_descriptor_ef k g _ hb1 (and_seven_le _)
    · rw [if_neg ht]
      refine ⟨_, _, rfl, ?_⟩
      rw [hu, he]
      exact process_descriptor_ef k g _ hb1 (and_seven_le _)
  · obtain ⟨hn, he, hi, hbso⟩ := h
    rw [if_neg hn, if_neg he, if_neg hi, if_pos hbso]
    refine ⟨0x10, [0x00], rfl, ?_⟩
    rw [hbso]
    rfl
  · obtain ⟨hn, he, hi, hst⟩ := h
    rw [if_neg hn, if_neg he, if_pos hi]
    by_cases hc : file.ef_structure = k.SC_CARDCTL_OBERTHUR_KEY_RSA_CRT
    · rw [if_pos hc]
      refine ⟨0x11, [0x00], rfl, ?_⟩
      rw [hi]
      rfl
    · rw [if_neg hc]
      refine ⟨0x12, [0x00], rfl, ?_⟩
      rw [hi]
      rfl

theorem fciObjects_find_name (k : Lib) (file : sc_file) :
    (fciObjects k file).find? (fun tv => decide (tv.1 = 0x84)) = (fciNameObj k file).head? := by
  unfold fciObjects fciSizeObj fciDescriptorObj fciIdObj fciNameObj fciPropObj fciSecObj
    fciPublicObj
  simp only [List.find?_append, List.append_assoc]
  split_ifs <;> simp

theorem valid_obj (t : Nat) (v : List Nat)
    (ht : t ≠ 0x00 ∧ t ≠ 0xFF ∧ t &&& 0x1F ≠ 0x1F) (hv : v.length < 0x80) :
    (t, v).1 ≠ 0x00 ∧ (t, v).1 ≠ 0xFF ∧ (t, v).1 &&& 0x1F ≠ 0x1F ∧ (t, v).2.length < 0x80 :=
  ⟨ht.1, ht.2.1, ht.2.2, hv⟩

/-- The objects of the FCI of a supported file have valid one-byte tags and
lengths below `0x80`. -/
theorem fciObjects_valid (k : Lib) (file : sc_file) (hk : k.FileKinds)
    (hs : SupportedKind k file) (hsec : SecurityGiven k file) :
    ∀ tv ∈ fciObjects k file,
      tv.1 ≠ 0x00 ∧ tv.1 ≠ 0xFF ∧ tv.1 &&& 0x1F ≠ 0x1F ∧ tv.2.length < 0x80 := by
  have hname : file.type = k.SC_FILE_TYPE_DF → file.namelen ≤ 16 := by
    intro hd
    rcases kind_cases k file hk hs with h | h | h | h
    · exact h.2.2.1
    · exact absurd hd h.1
    · exact absurd hd h.1
    · exact absurd hd h.1
  have hac : (fciAcBytes k file).length ≤ 8 := by
    unfold fciAcBytes
    cases hops : construct_ops k file with
    | none => simp
    | some ops =>
      simp only [List.length_map]
      rw [construct_ops_length k file ops hops]
  intro tv htv
  unfold fciObjects at htv
  simp only [List.mem_append] at htv
  rcases htv with (((((htv | htv) | htv) | htv) | htv) | htv) | htv
  · unfold fciSizeObj at htv
    split at htv
    · simp only [List.mem_singleton] at htv
      subst htv
      exact valid_obj _ _ (by decide) (by simp)
    · cases htv
  · unfold fciDescriptorObj at htv
    (repeat' split at htv) <;>
      first
      | (cases htv; done)
      | (simp only [List.mem_singleton] at htv
         subst htv
         exact valid_obj _ _ (by decide) (by simp))
  · unfold fciIdObj at htv
    simp only [List.mem_singleton] at htv
    subst htv
    exact valid_obj _ _ (by decide) (by simp)
  · unfold fciNameObj at htv
    split at htv
    · rename_i hd
      simp only [List.mem_singleton] at htv
      subst htv
      refine valid_obj _ _ (by decide) ?_
      have := hname hd
      simp only [List.length_take]
      omega
    · cases htv
  · unfold fciPropObj at htv
    (repeat' split at htv) <;>
      first
      | (cases htv; done)
      | (simp only [List.mem_singleton] at htv
         subst htv
         exact valid_obj _ _ (by decide) (by simp))
  · unfold fciSecObj at htv
    split at htv
    · rename_i h0
      simp only [List.mem_singleton] at htv
      subst htv
      refine valid_obj _ _ (by decide) ?_
      rcases hsec with ⟨_, h64, _⟩ | ⟨hz, _⟩
      · simp only [List.length_take]
        omega
      · exact absurd hz h0
    · simp only [List.mem_singleton] at htv
      subst htv
      refine valid_obj _ _ (by decide) ?_
      omega
  · unfold fciPublicObj at htv
    split at htv
    · simp only [List.mem_singleton] at htv
      subst htv
      exact valid_obj _ _ (by decide) (by simp)
    · cases htv

theorem be16_or (x : Nat) (h : x < 0x10000) :
    (u8 ((x >>> 8) &&& 0xFF) <<< 8) ||| u8 (x &&& 0xFF) = x := by
  rw [and_ff, and_ff, Nat.shiftRight_eq_div_pow]
  have h1 : u8 (x / 2 ^ 8 % 256) = x / 256 := by unfold u8; omega
  have h2 : u8 (x % 256) = x % 256 := by unfold u8; omega
  have h3 : (x / 256) <<< 8 = 2 ^ 8 * (x / 256) := by rw [Nat.shiftLeft_eq, Nat.mul_comm]
  rw [h1, h2, h3, ← Nat.mul_add_lt_is_or (by omega)]
  omega

theorem be16_add (x : Nat) (h : x < 0x10000) :
    (u8 ((x >>> 8) &&& 0xFF) <<< 8) + u8 (x &&& 0xFF) = x := by
  rw [and_ff, and_ff, Nat.shiftRight_eq_div_pow]
  have h1 : u8 (x / 2 ^ 8 % 256) = x / 256 := by unfold u8; omega
  have h2 : u8 (x % 256) = x % 256 := by unfold u8; omega
  rw [h1, h2, Nat.shiftLeft_eq]
  omega

/-- The FCI of a supported file has at most 107 bytes behind its header. -/
theorem fciObjects_length (k : Lib) (file : sc_file) (hk : k.FileKinds)
    (hs : SupportedKind k file) (hsec : SecurityGiven k file) :
    (tlvBytes (fciObjects k file)).length ≤ 107 := by
  have hname : file.type = k.SC_FILE_TYPE_DF → file.namelen ≤ 16 := by
    intro hd
    rcases kind_cases k file hk hs with h | h | h | h
    · exact h.2.2.1
    · exact absurd hd h.1
    · exact absurd hd h.1
    · exact absurd hd h.1
  have hac : (fciAcBytes k file).length ≤ 8 := by
    unfold fciAcBytes
    cases hops : construct_ops k file with
    | none => simp
    | some ops =>
      simp only [List.length_map]
      rw [construct_ops_length k file ops hops]
  have h1 : (tlvBytes (fciSizeObj k file)).length ≤ 4 := by
    unfold fciSizeObj
    split <;> simp [tlvBytes]
  have h2 : (tlvBytes (fciDescriptorObj k file)).length ≤ 7 := by
    unfold fciDescriptorObj
    (repeat' split) <;> simp [tlvBytes]
  have h3 : (tlvBytes (fciIdObj file)).length = 4 := by
    unfold fciIdObj
    simp [tlvBytes]
  have h4 : (tlvBytes (fciNameObj k file)).length ≤ 18 := by
    unfold fciNameObj
    split
    · rename_i hd
      have := hname hd
      simp only [tlvBytes, List.length_cons, List.length_append, List.length_take,
        List.length_nil]
      omega
    · simp [tlvBytes]
  have h5 : (tlvBytes (fciPropObj k file)).length ≤ 4 := by
    unfold fciPropObj
    (repeat' split) <;> simp [tlvBytes]
  have h6 : (tlvBytes (fciSecObj k file)).length ≤ 66 := by
    unfold fciSecObj
    split
    · rename_i h0
      rcases hsec with ⟨_, h64, _⟩ | ⟨hz, _⟩
      · simp only [tlvBytes, List.length_cons, List.length_append, List.length_take,
          List.length_nil]
        omega
      · exact absurd hz h0
    · simp only [tlvBytes, List.length_cons, List.length_append, List.length_nil]
      omega
  have h7 : (tlvBytes (fciPublicObj k file)).length ≤ 4 := by
    unfold fciPublicObj
    split <;> simp [tlvBytes]
  unfold fciObjects
  simp only [tlvBytes_append, List.length_append]
  omega
/-! ## Selecting by path -/

theorem selectSteps_one (k : Lib) (h : Host) (c : Crypto) (d : Driver) (cache : Cache)
    (fo : Bool) (p : Nat × Nat) :
    selectSteps k h c [p] d cache fo = epass2003_select_fid k h c d cache p.1 p.2 fo := rfl

theorem selectSteps_more (k : Lib) (h : Host) (c : Crypto) (d : Driver) (cache : Cache)
    (fo : Bool) (p q : Nat × Nat) (rest : List (Nat × Nat)) :
    selectSteps k h c (p :: q :: rest) d cache fo =
      (epass2003_select_fid k h c d cache p.1 p.2 false >>= fun x =>
        if SC_TEST_RET x.1 = true then pure (x.1, x.2.1, x.2.2.1, none)
        else selectSteps k h c (q :: rest) x.2.1 x.2.2.1 fo) := rfl

theorem size_lit (n m : Nat) (h : m ≤ n) (hn : n < SIZE_MOD) :
    (n + (SIZE_MOD - m)) % SIZE_MOD = n - m := by
  have e : SIZE_MOD = 2 ^ 64 := rfl
  rw [e] at hn ⊢
  omega

theorem walk_two (k : Lib) (h : Host) (c : Crypto) (d : Driver) (cache : Cache)
    (a b : Nat) (rest : List Nat) (fo : Bool) :
    select_path_walk k h c d cache (a :: b :: rest) 2 fo =
      selectSteps k h c [(a, b)] d cache fo := by
  have p0 : peek (a :: b :: rest) (2 - 2) = Exec.ok a := by simp [peek]
  have p1 : peek (a :: b :: rest) (2 - 1) = Exec.ok b := by simp [peek]
  unfold select_path_walk
  rw [select_walk_loop, size_lit 2 2 (by decide) (by decide), size_lit 2 1 (by decide) (by decide),
    if_neg (by decide), Exec.pure_bind]
  simp only []
  rw [if_neg (by decide), p0, Exec.ok_bind, p1, Exec.ok_bind, selectSteps_one]

/-- What follows a step of the walk that is not the last one. -/
theorem walk_step (k : Lib) (h : Host) (c : Crypto) (d : Driver) (cache : Cache)
    (path : List Nat) (pathlen fuel i hi lo : Nat) (hlt : i < pathlen - 2) (h2 : 2 ≤ pathlen)
    (hs : pathlen < SIZE_MOD) (phi : peek path i = Exec.ok hi)
    (plo : peek path (i + 1) = Exec.ok lo) :
    select_walk_loop k h c path pathlen (fuel + 1) d cache i =
      (epass2003_select_fid k h c d cache hi lo false >>= fun x =>
        if SC_TEST_RET x.1 = true then pure (x.1, x.2.1, x.2.2.1)
        else select_walk_loop k h c path pathlen fuel x.2.1 x.2.2.1 (i + 2)) := by
  rw [select_walk_loop, size_lit pathlen 2 h2 hs, if_pos hlt, phi, Exec.ok_bind, plo,
    Exec.ok_bind]

theorem walk_end (k : Lib) (h : Host) (c : Crypto) (d : Driver) (cache : Cache)
    (path : List Nat) (pathlen fuel i : Nat) (hlt : ¬ i < pathlen - 2) (h2 : 2 ≤ pathlen)
    (hs : pathlen < SIZE_MOD) :
    select_walk_loop k h c path pathlen (fuel + 1) d cache i = Exec.ok (0, d, cache) := by
  rw [select_walk_loop, size_lit pathlen 2 h2 hs, if_neg hlt]
  rfl

theorem walk_four (k : Lib) (h : Host) (c : Crypto) (d : Driver) (cache : Cache)
    (a b a2 b2 : Nat) (rest : List Nat) (fo : Bool) :
    select_path_walk k h c d cache (a :: b :: a2 :: b2 :: rest) 4 fo =
      selectSteps k h c [(a, b), (a2, b2)] d cache fo := by
  have p2 : peek (a :: b :: a2 :: b2 :: rest) (4 - 2) = Exec.ok a2 := by simp [peek]
  have p3 : peek (a :: b :: a2 :: b2 :: rest) (4 - 1) = Exec.ok b2 := by simp [peek]
  unfold select_path_walk
  rw [selectSteps_more, walk_step k h c d cache (a :: b :: a2 :: b2 :: rest) 4 4 0 a b (by decide)
    (by decide) (by decide) (by simp [peek]) (by simp [peek]), Exec.bind_assoc, size_lit 4 2 (by decide) (by decide),
    size_lit 4 1 (by decide) (by decide)]
  apply congrArg
  funext x
  obtain ⟨r, d1, c1, f1⟩ := x
  by_cases hr : SC_TEST_RET r = true
  · simp only []
    rw [if_pos hr, if_pos hr, Exec.pure_bind]
    simp only []
    rw [if_pos hr]
  · simp only []
    rw [if_neg hr, if_neg hr, walk_end k h c d1 c1 _ 4 3 2 (by decide) (by decide) (by decide),
      Exec.ok_bind]
    simp only []
    rw [if_neg (by decide), p2, Exec.ok_bind, p3, Exec.ok_bind, selectSteps_one]

theorem walk_six (k : Lib) (h : Host) (c : Crypto) (d : Driver) (cache : Cache)
    (a b a2 b2 a3 b3 : Nat) (rest : List Nat) (fo : Bool) :
    select_path_walk k h c d cache (a :: b :: a2 :: b2 :: a3 :: b3 :: rest) 6 fo =
      selectSteps k h c [(a, b), (a2, b2), (a3, b3)] d cache fo := by
  have p4 : peek (a :: b :: a2 :: b2 :: a3 :: b3 :: rest) (6 - 2) = Exec.ok a3 := by simp [peek]
  have p5 : peek (a :: b :: a2 :: b2 :: a3 :: b3 :: rest) (6 - 1) = Exec.ok b3 := by simp [peek]
  unfold select_path_walk
  rw [selectSteps_more, walk_step k h c d cache (a :: b :: a2 :: b2 :: a3 :: b3 :: rest) 6 6 0 a b
    (by decide) (by decide) (by decide) (by simp [peek]) (by simp [peek]), Exec.bind_assoc, size_lit 6 2 (by decide) (by decide),
    size_lit 6 1 (by decide) (by decide)]
  apply congrArg
  funext x
  obtain ⟨r, d1, c1, f1⟩ := x
  by_cases hr : SC_TEST_RET r = true
  · simp only []
    rw [if_pos hr, if_pos hr, Exec.pure_bind]
    simp only []
    rw [if_pos hr]
  · simp only []
    rw [if_neg hr, if_neg hr, selectSteps_more,
      walk_step k h c d1 c1 (a :: b :: a2 :: b2 :: a3 :: b3 :: rest) 6 5 2 a2 b2 (by decide)
        (by decide) (by decide) (by simp [peek]) (by simp [peek]),
      Exec.bind_assoc]
    apply congrArg
    funext y
    obtain ⟨r2, d2, c2, f2⟩ := y
    by_cases hr2 : SC_TEST_RET r2 = true
    · simp only []
      rw [if_pos hr2, if_pos hr2, Exec.pure_bind]
      simp only []
      rw [if_pos hr2]
    · simp only []
      rw [if_neg hr2, if_neg hr2,
        walk_end k h c d2 c2 _ 6 4 4 (by decide) (by decide) (by decide), Exec.ok_bind]
      simp only []
      rw [if_neg (by decide), p4, Exec.ok_bind, p5, Exec.ok_bind, selectSteps_one]
theorem select_path_two_rooted (k : Lib) (h : Host) (c : Crypto) (fuel : Nat) (d : Driver)
    (cache : Cache) (rest : List Nat) (fo : Bool) (hv : cache.valid = 0) :
    epass2003_select_path k h c (fuel + 1) d cache (0x3f :: 0x00 :: rest) 2 fo =
      selectSteps k h c [(0x3f, 0x00)] d cache fo := by
  have p0 : peek (0x3f :: 0x00 :: rest) 0 = Exec.ok 0x3f := rfl
  have p1 : peek (0x3f :: 0x00 :: rest) 1 = Exec.ok 0x00 := by simp [peek]
  have hc1 : ¬ (cache.valid ≠ 0 ∧ cache.current_path.type = k.SC_PATH_TYPE_PATH ∧
      cache.current_path.len ≥ 2 ∧ cache.current_path.len ≤ 2) := by
    rw [hv]; simp
  rw [epass2003_select_path, if_neg (by decide), p0, Exec.ok_bind, p1, Exec.ok_bind,
    if_neg (by decide), if_neg (by decide), Exec.pure_bind]
  simp only []
  rw [if_neg hc1, Exec.pure_bind, if_neg (by rw [hv]; simp)]
  exact walk_two k h c d cache 0x3f 0x00 rest fo

theorem select_path_two_bare (k : Lib) (h : Host) (c : Crypto) (fuel : Nat) (d : Driver)
    (cache : Cache) (a b : Nat) (rest : List Nat) (fo : Bool) (hv : cache.valid = 0)
    (hab : a ≠ 0x3f ∨ b ≠ 0x00) :
    epass2003_select_path k h c (fuel + 1) d cache (a :: b :: rest) 2 fo =
      selectSteps k h c [(0x3f, 0x00), (a, b)] d cache fo := by
  have p0 : peek (a :: b :: rest) 0 = Exec.ok a := rfl
  have p1 : peek (a :: b :: rest) 1 = Exec.ok b := by simp [peek]
  have hc1 : ¬ (cache.valid ≠ 0 ∧ cache.current_path.type = k.SC_PATH_TYPE_PATH ∧
      cache.current_path.len ≥ 2 ∧ cache.current_path.len ≤ 2 + 2) := by
    rw [hv]; simp
  have hz : zeros SC_MAX_PATH_SIZE = zeros 2 ++ zeros 14 := by rw [zeros_append]; rfl
  rw [epass2003_select_path, if_neg (by decide), p0, Exec.ok_bind, p1, Exec.ok_bind,
    if_neg (by simp), if_pos hab, hz, poke_front _ _ 0 _ (by simp [zeros]), Exec.ok_bind,
    poke_front _ _ 1 _ (by simp [zeros]), Exec.ok_bind, peekN_ok _ _ _ (by simp),
    Exec.ok_bind, List.drop_zero]
  have hn : blit (((zeros 2).set 0 (u8 0x3f)).set 1 (u8 0x00) ++ zeros 14) 2
      ((a :: b :: rest).take 2) = Exec.ok (0x3f :: 0x00 :: a :: b :: zeros 12) := by
    have := blit_end (((zeros 2).set 0 (u8 0x3f)).set 1 (u8 0x00)) [a, b] 2 14 12 rfl rfl
    exact this
  rw [hn, Exec.ok_bind, Exec.pure_bind]
  simp only []
  rw [if_neg hc1, Exec.pure_bind, if_neg (by rw [hv]; simp)]
  exact walk_four k h c d cache 0x3f 0x00 a b (zeros 12) fo

theorem select_path_four_rooted (k : Lib) (h : Host) (c : Crypto) (fuel : Nat) (d : Driver)
    (cache : Cache) (a b : Nat) (rest : List Nat) (fo : Bool) (hv : cache.valid = 0) :
    epass2003_select_path k h c (fuel + 1) d cache (0x3f :: 0x00 :: a :: b :: rest) 4 fo =
      selectSteps k h c [(0x3f, 0x00), (a, b)] d cache fo := by
  have p0 : peek (0x3f :: 0x00 :: a :: b :: rest) 0 = Exec.ok 0x3f := rfl
  have p1 : peek (0x3f :: 0x00 :: a :: b :: rest) 1 = Exec.ok 0x00 := by simp [peek]
  have hc1 : ¬ (cache.valid ≠ 0 ∧ cache.current_path.type = k.SC_PATH_TYPE_PATH ∧
      cache.current_path.len ≥ 2 ∧ cache.current_path.len ≤ 4) := by
    rw [hv]; simp
  rw [epass2003_select_path, if_neg (by decide), p0, Exec.ok_bind, p1, Exec.ok_bind,
    if_neg (by decide), if_neg (by decide), Exec.pure_bind]
  simp only []
  rw [if_neg hc1, Exec.pure_bind, if_neg (by rw [hv]; simp)]
  exact walk_four k h c d cache 0x3f 0x00 a b rest fo

theorem select_path_four_bare (k : Lib) (h : Host) (c : Crypto) (fuel : Nat) (d : Driver)
    (cache : Cache) (a b a2 b2 : Nat) (rest : List Nat) (fo : Bool) (hv : cache.valid = 0)
    (hab : a ≠ 0x3f ∨ b ≠ 0x00) :
    epass2003_select_path k h c (fuel + 1) d cache (a :: b :: a2 :: b2 :: rest) 4 fo =
      selectSteps k h c [(0x3f, 0x00), (a, b), (a2, b2)] d cache fo := by
  have p0 : peek (a :: b :: a2 :: b2 :: rest) 0 = Exec.ok a := rfl
  have p1 : peek (a :: b :: a2 :: b2 :: rest) 1 = Exec.ok b := by simp [peek]
  have hc1 : ¬ (cache.valid ≠ 0 ∧ cache.current_path.type = k.SC_PATH_TYPE_PATH ∧
      cache.current_path.len ≥ 2 ∧ cache.current_path.len ≤ 4 + 2) := by
    rw [hv]; simp
  have hz : zeros SC_MAX_PATH_SIZE = zeros 2 ++ zeros 14 := by rw [zeros_append]; rfl
  rw [epass2003_select_path, if_neg (by decide), p0, Exec.ok_bind, p1, Exec.ok_bind,
    if_neg (by simp), if_pos hab, hz, poke_front _ _ 0 _ (by simp [zeros]), Exec.ok_bind,
    poke_front _ _ 1 _ (by simp [zeros]), Exec.ok_bind, peekN_ok _ _ _ (by simp),
    Exec.ok_bind, List.drop_zero]
  have hn : blit (((zeros 2).set 0 (u8 0x3f)).set 1 (u8 0x00) ++ zeros 14) 2
      ((a :: b :: a2 :: b2 :: rest).take 4) =
      Exec.ok (0x3f :: 0x00 :: a :: b :: a2 :: b2 :: zeros 10) := by
    have := blit_end (((zeros 2).set 0 (u8 0x3f)).set 1 (u8 0x00)) [a, b, a2, b2] 2 14 10 rfl rfl
    exact this
  rw [hn, Exec.ok_bind, Exec.pure_bind]
  simp only []
  rw [if_neg hc1, Exec.pure_bind, if_neg (by rw [hv]; simp)]
  exact walk_six k h c d cache 0x3f 0x00 a b a2 b2 (zeros 10) fo

theorem select_path_six_rooted (k : Lib) (h : Host) (c : Crypto) (fuel : Nat) (d : Driver)
    (cache : Cache) (a b a2 b2 : Nat) (rest : List Nat) (fo : Bool) (hv : cache.valid = 0) :
    epass2003_select_path k h c (fuel + 1) d cache (0x3f :: 0x00 :: a :: b :: a2 :: b2 :: rest) 6
        fo =
      selectSteps k h c [(0x3f, 0x00), (a, b), (a2, b2)] d cache fo := by
  have p0 : peek (0x3f :: 0x00 :: a :: b :: a2 :: b2 :: rest) 0 = Exec.ok 0x3f := rfl
  have p1 : peek (0x3f :: 0x00 :: a :: b :: a2 :: b2 :: rest) 1 = Exec.ok 0x00 := by simp [peek]
  have hc1 : ¬ (cache.valid ≠ 0 ∧ cache.current_path.type = k.SC_PATH_TYPE_PATH ∧
      cache.current_path.len ≥ 2 ∧ cache.current_path.len ≤ 6) := by
    rw [hv]; simp
  rw [epass2003_select_path, if_neg (by decide), p0, Exec.ok_bind, p1, Exec.ok_bind,
    if_neg (by decide), if_neg (by decide), Exec.pure_bind]
  simp only []
  rw [if_neg hc1, Exec.pure_bind, if_neg (by rw [hv]; simp)]
  exact walk_six k h c d cache 0x3f 0x00 a b a2 b2 rest fo

/-- `epass2003_select_path` on a path it accepts, with a cache that is not
valid: the walk over the pairs of the MF-rooted path. -/
theorem select_path_walks (k : Lib) (h : Host) (c : Crypto) (fuel : Nat) (d : Driver)
    (cache : Cache) (pathbuf : List Nat) (len : Nat) (fo : Bool) (hv : cache.valid = 0)
    (hacc : len = 2 ∨ len = 4 ∨ (len = 6 ∧ pathbuf.take 2 = [0x3f, 0x00]))
    (hlen : len ≤ pathbuf.length) :
    epass2003_select_path k h c (fuel + 1) d cache pathbuf len fo =
      selectSteps k h c (fidPairs (mfRooted pathbuf len)) d cache fo := by
  rcases hacc with h2 | h4 | ⟨h6, hroot⟩
  · subst h2
    match pathbuf, hlen with
    | a :: b :: rest, _ =>
      by_cases hab : a = 0x3f ∧ b = 0x00
      · obtain ⟨ha, hb⟩ := hab
        subst ha; subst hb
        have hm : fidPairs (mfRooted (0x3f :: 0x00 :: rest) 2) = [(0x3f, 0x00)] := by
          simp [mfRooted, fidPairs]
        rw [hm]
        exact select_path_two_rooted k h c fuel d cache rest fo hv
      · have hab2 : a ≠ 0x3f ∨ b ≠ 0x00 := by
          by_contra hcon
          apply hab
          constructor
          · by_contra hx; exact hcon (Or.inl hx)
          · by_contra hx; exact hcon (Or.inr hx)
        have hm : fidPairs (mfRooted (a :: b :: rest) 2) = [(0x3f, 0x00), (a, b)] := by
          have hne : ¬ ((a :: b :: rest).take 2 = [0x3f, 0x00]) := by
            intro hcon
            simp only [List.take, List.cons.injEq, and_true] at hcon
            exact hab hcon
          unfold mfRooted
          rw [if_neg hne]
          rfl
        rw [hm]
        exact select_path_two_bare k h c fuel d cache a b rest fo hv hab2
  · subst h4
    match pathbuf, hlen with
    | a :: b :: a2 :: b2 :: rest, _ =>
      by_cases hab : a = 0x3f ∧ b = 0x00
      · obtain ⟨ha, hb⟩ := hab
        subst ha; subst hb
        have hm : fidPairs (mfRooted (0x3f :: 0x00 :: a2 :: b2 :: rest) 4) =
            [(0x3f, 0x00), (a2, b2)] := by
          simp [mfRooted, fidPairs]
        rw [hm]
        exact select_path_four_rooted k h c fuel d cache a2 b2 rest fo hv
      · have hab2 : a ≠ 0x3f ∨ b ≠ 0x00 := by
          by_contra hcon
          apply hab
          constructor
          · by_contra hx; exact hcon (Or.inl hx)
          · by_contra hx; exact hcon (Or.inr hx)
        have hm : fidPairs (mfRooted (a :: b :: a2 :: b2 :: rest) 4) =
            [(0x3f, 0x00), (a, b), (a2, b2)] := by
          have hne : ¬ ((a :: b :: a2 :: b2 :: rest).take 2 = [0x3f, 0x00]) := by
            intro hcon
            simp only [List.take, List.cons.injEq, and_true] at hcon
            exact hab hcon
          unfold mfRooted
          rw [if_neg hne]
          rfl
        rw [hm]
        exact select_path_four_bare k h c fuel d cache a b a2 b2 rest fo hv hab2
  · subst h6
    match pathbuf, hlen, hroot with
    | a :: b :: a2 :: b2 :: a3 :: b3 :: rest, _, hroot =>
      simp only [List.take, List.cons.injEq, and_true] at hroot
      obtain ⟨ha, hb⟩ := hroot
      subst ha; subst hb
      have hm : fidPairs (mfRooted (0x3f :: 0x00 :: a2 :: b2 :: a3 :: b3 :: rest) 6) =
          [(0x3f, 0x00), (a2, b2), (a3, b3)] := by
        simp [mfRooted, fidPairs]
      rw [hm]
      exact select_path_six_rooted k h c fuel d cache a2 b2 a3 b3 rest fo hv
/-! ## The walk returns -/

theorem encode_header_zero (plain : sc_apdu) :
    encode_header 16 plain (zeros 4096) = encode_header 8 plain (zeros 4096) := by
  have h16 := (encode_header_iff 16 plain (zeros 4096)
    (splice (zeros 4096) 0 (headerBlock plain 16)) (by decide)).mpr
      ⟨by rw [zeros_length]; omega, rfl⟩
  have h8 := (encode_header_iff 8 plain (zeros 4096)
    (splice (zeros 4096) 0 (headerBlock plain 8)) (by decide)).mpr
      ⟨by rw [zeros_length]; omega, rfl⟩
  rw [h16, h8, header_buf_eq plain 16 16 (Or.inr rfl) (Or.inl rfl),
    header_buf_eq plain 8 16 (Or.inl rfl) (Or.inl rfl)]

theorem encode_with_zero (c : Crypto) (s : Session) (plain sm : sc_apdu) :
    encode_apdu_with 16 c s plain sm (zeros 4096) 4096 =
      encode_apdu_with 8 c s plain sm (zeros 4096) 4096 := by
  unfold encode_apdu_with
  rw [encode_header_zero]

theorem encode_aes16_eq (c : Crypto) (s : Session) (plain sm : sc_apdu) :
    encode_apdu c s plain sm (zeros 4096) 4096 =
      encode_apdu_aes16 c s plain sm (zeros 4096) 4096 := by
  unfold encode_apdu encode_apdu_aes16
  by_cases hd : KEY_TYPE_DES = s.g_smtype
  · have ha : ¬ KEY_TYPE_AES = s.g_smtype := by
      rw [← hd]; decide
    rw [if_pos hd, if_neg ha, encode_with_zero]
  · by_cases ha : KEY_TYPE_AES = s.g_smtype
    · rw [if_neg hd, if_pos ha, encode_with_zero]
    · rw [if_neg hd, if_neg ha]

theorem wrap_with_eq (c : Crypto) (s : Session) (plain sm : sc_apdu) :
    sm_wrap_apdu_with encode_apdu c s plain sm =
      sm_wrap_apdu_with encode_apdu_aes16 c s plain sm := by
  unfold sm_wrap_apdu_with
  simp only []
  rw [memset_zeros, Exec.ok_bind, Exec.ok_bind, encode_aes16_eq]

theorem calc_le_eq (le : Nat) :
    calc_le le = (1 + (le + 15) % SIZE_MOD / 16 * 16 + 2 + 4 + 10) % SIZE_MOD := by
  unfold calc_le SIZE_MOD
  simp only []
  norm_num
  split_ifs <;> omega

/-! ## The unpadding loop of `decrypt_response` on short and on padded bodies -/

/-- Among the indices from 1 on that hold `0x80` there is a last one. -/
theorem last_marker (D : List Nat) (h : ∃ k, 1 ≤ k ∧ D[k]? = some 0x80) :
    ∃ j, 1 ≤ j ∧ D[j]? = some 0x80 ∧ ∀ k, j < k → D[k]? ≠ some 0x80 := by
  obtain ⟨k0, hk1, hk0⟩ := h
  have hk0l : k0 < D.length := by
    by_contra hc
    rw [List.getElem?_eq_none (by omega)] at hk0
    cases hk0
  have hs := Nat.findGreatest_spec (P := fun k => 1 ≤ k ∧ D[k]? = some 0x80)
    (Nat.le_of_lt hk0l) ⟨hk1, hk0⟩
  refine ⟨Nat.findGreatest (fun k => 1 ≤ k ∧ D[k]? = some 0x80) D.length, hs.1, hs.2, ?_⟩
  intro k hk hkv
  have hkl : k < D.length := by
    by_contra hc
    rw [List.getElem?_eq_none (by omega)] at hkv
    cases hkv
  exact Nat.findGreatest_is_greatest hk (Nat.le_of_lt hkl) ⟨by omega, hkv⟩

/-- With the declared length 1 the index `in_len - 2` of the first test of the
unpadding loop is `SIZE_MAX`: the read is outside `plaintext`, whatever the
cipher suite and the rest of the response are. -/
theorem decrypt_len_one (c : Crypto) (s : Session) (t : Nat) (rest out : List Nat)
    (out_len : Nat) (ht : t ≠ 0x99) :
    decrypt_response c s (t :: 0x01 :: 0x01 :: rest) out out_len =
      Exec.fault Fault.outOfBounds := by
  rw [decrypt_response_parsed c s _ out out_len t 1 3 (by simp) ht
    (parse_short t 1 rest (by decide))]
  unfold decrypt_unpad
  simp only []
  have e1 : (1 + (SIZE_MOD - 1)) % SIZE_MOD = 0 := by unfold SIZE_MOD; omega
  rw [e1, peekN_ok _ _ _ (by simp), Exec.ok_bind]
  generalize (if KEY_TYPE_AES = s.g_smtype then
      aes128_decrypt_cbc c s.g_sk_enc (zeros 16)
        ((List.drop 3 (t :: 0x01 :: 0x01 :: rest)).take 0)
    else des3_decrypt_cbc c s.g_sk_enc 16 (zeros 16)
        ((List.drop 3 (t :: 0x01 :: 0x01 :: rest)).take 0)) = D
  unfold blit
  split
  · rename_i hfit
    rw [Exec.ok_bind]
    have hl : (splice (zeros 4096) 0 D).length = 4096 := by
      rw [splice_length _ _ _ hfit, zeros_length]
    have hnone : (splice (zeros 4096) 0 D)[(1 + (SIZE_MOD - 2)) % SIZE_MOD]? = none := by
      apply List.getElem?_eq_none
      rw [hl]; unfold SIZE_MOD; omega
    have hloop : unpad_loop 4097 (splice (zeros 4096) 0 D) 1 = Exec.fault Fault.outOfBounds := by
      rw [show (4097 : Nat) = 4096 + 1 from rfl, unpad_loop]
      unfold peek
      rw [hnone]
    rw [hloop]
    rfl
  · rfl

/-! ## The hook on a file object -/

theorem and_ff00 (a b : Nat) (ha : a < 256) (hb : b < 256) :
    (a * 0x100 + b) &&& 0xff00 = a * 0x100 := by
  apply Nat.eq_of_testBit_eq
  intro j
  have e1 : a * 0x100 + b = 2 ^ 8 * a + b := by omega
  have e2 : (0xff00 : Nat) = 2 ^ 8 * (2 ^ 8 - 1) := by norm_num
  have e3 : a * 0x100 = 2 ^ 8 * a := by omega
  have hb2 : b < 2 ^ 8 := by omega
  rw [Nat.testBit_and, e1, e2, e3, Nat.testBit_mul_pow_two_add a hb2, Nat.testBit_mul_pow_two,
    Nat.testBit_mul_pow_two, Nat.testBit_two_pow_sub_one]
  by_cases hj : j < 8
  · have hn : ¬ j ≥ 8 := by omega
    simp [hj, hn]
  · have hn : j ≥ 8 := by omega
    simp only [hj, if_false, hn, decide_True, Bool.true_and]
    by_cases hj2 : j - 8 < 8
    · simp [hj2]
    · have : a.testBit (j - 8) = false := by
        apply Nat.testBit_lt_two_pow
        calc a < 256 := ha
          _ = 2 ^ 8 := by norm_num
          _ ≤ 2 ^ (j - 8) := Nat.pow_le_pow_right (by decide) (by omega)
      simp [this]

/-- What `epass2003_hook_file` does to a file whose identifier is made of the
last two bytes `hi`, `lo` of its path, `hi` being one of the six hooked bytes. -/
theorem hook_file_eq (file : sc_file) (inc : Int) (hi lo : Nat) (h2 : 2 ≤ file.path.len)
    (hs : file.path.len < SIZE_MOD) (hhi : file.path.value[file.path.len - 2]? = some hi)
    (hlo : file.path.value[file.path.len - 1]? = some lo) (hlo8 : lo < 256)
    (hid : file.id = hi * 0x100 + lo)
    (hset : hi = 0x29 ∨ hi = 0x30 ∨ hi = 0x31 ∨ hi = 0x32 ∨ hi = 0x33 ∨ hi = 0x34) :
    epass2003_hook_file file inc =
      Exec.ok { file with
        path := { file.path with
          value := List.set file.path.value (file.path.len - 1)
            (if inc ≠ 0 then u8 (lo * FID_STEP) else u8 (lo / FID_STEP)) },
        id := if inc ≠ 0 then hi * 0x100 + lo * FID_STEP else hi * 0x100 + lo / FID_STEP } := by
  have hhi8 : hi < 256 := by rcases hset with h | h | h | h | h | h <;> omega
  have hl : file.id &&& 0xff = lo := by rw [hid, and_ff]; omega
  have hh : file.id &&& 0xff00 = hi * 0x100 := by rw [hid]; exact and_ff00 hi lo hhi8 hlo8
  unfold epass2003_hook_file
  simp only []
  rw [hook_path_eq file.path inc hi lo h2 hs hhi hlo, if_pos hset, Exec.ok_bind]
  simp only []
  rw [if_pos (by decide), hl, hh]
  split <;> rfl

/-! ## Selecting a key file -/

theorem process_descriptor_11 (k : Lib) (x : sc_file) :
    process_descriptor k x 0x11 = { x with type := k.SC_FILE_TYPE_INTERNAL_EF } := rfl

/-- The objects of the synthetic FCI are found by `sc_asn1_find_tag`. -/
theorem fake_find (b tag : Nat) (Z : List Nat) :
    sc_asn1_find_tag (tlvBytes (fakeFciObjects b) ++ Z) 0x16 tag =
      ((fakeFciObjects b).find? (fun tv => decide (tv.1 = tag))).map (fun tv => tv.2) := by
  have hlen : (tlvBytes (fakeFciObjects b)).length = 0x16 := rfl
  have hv : ∀ tv ∈ fakeFciObjects b,
      tv.1 ≠ 0x00 ∧ tv.1 ≠ 0xFF ∧ tv.1 &&& 0x1F ≠ 0x1F ∧ tv.2.length < 0x80 := by
    intro tv htv
    unfold fakeFciObjects at htv
    simp only [List.mem_cons, List.mem_singleton, List.mem_nil_iff, or_false] at htv
    rcases htv with h | h | h | h <;> subst h <;>
      exact valid_obj _ _ (by decide) (by simp)
  have := find_tag_tlvs tag Z (fakeFciObjects b) hv
  rw [hlen] at this
  exact this

/-- What `epass2003_process_fci` reads from the synthetic FCI. -/
theorem process_fake_fci (k : Lib) (g : sc_file) (b : Nat) (Z : List Nat) :
    epass2003_process_fci k g (tlvBytes (fakeFciObjects b) ++ Z) 0x16 =
      Exec.ok (0, { g with
        id := (0x29 <<< 8) ||| b
        type := k.SC_FILE_TYPE_INTERNAL_EF
        prop_attr := [0x08, 0x00]
        prop_attr_len := 2
        sec_attr := [0xff, 0x90, 0x90, 0x90, 0xff, 0xff, 0xff, 0xff]
        sec_attr_len := 8
        magic := k.SC_FILE_MAGIC }) := by
  have h83 : sc_asn1_find_tag (tlvBytes (fakeFciObjects b) ++ Z) 0x16 0x83 = some [0x29, b] := by
    rw [fake_find]; rfl
  have h80 : sc_asn1_find_tag (tlvBytes (fakeFciObjects b) ++ Z) 0x16 0x80 = none := by
    rw [fake_find]; rfl
  have h81 : sc_asn1_find_tag (tlvBytes (fakeFciObjects b) ++ Z) 0x16 0x81 = none := by
    rw [fake_find]; rfl
  have h82 : sc_asn1_find_tag (tlvBytes (fakeFciObjects b) ++ Z) 0x16 0x82 =
      some [0x11, 0x00] := by
    rw [fake_find]; rfl
  have h84 : sc_asn1_find_tag (tlvBytes (fakeFciObjects b) ++ Z) 0x16 0x84 = none := by
    rw [fake_find]; rfl
  have h85 : sc_asn1_find_tag (tlvBytes (fakeFciObjects b) ++ Z) 0x16 0x85 =
      some [0x08, 0x00] := by
    rw [fake_find]; rfl
  have hA5 : sc_asn1_find_tag (tlvBytes (fakeFciObjects b) ++ Z) 0x16 0xA5 = none := by
    rw [fake_find]; rfl
  have h86 : sc_asn1_find_tag (tlvBytes (fakeFciObjects b) ++ Z) 0x16 0x86 =
      some [0xff, 0x90, 0x90, 0x90, 0xff, 0xff, 0xff, 0xff] := by
    rw [fake_find]; rfl
  have h8A : sc_asn1_find_tag (tlvBytes (fakeFciObjects b) ++ Z) 0x16 0x8A = none := by
    rw [fake_find]; rfl
  rw [process_fci_eq_blocks]
  unfold process_fci_blocks fci_read_id fci_read_size fci_read_type fci_read_name fci_read_attrs
  simp only [h83, h80, h81, h82, h84, h85, hA5, h86, h8A, process_descriptor_11]
  rfl


theorem process_fake_file (k : Lib) (b : Nat) (rest Z : List Nat) :
    epass2003_process_fci k
        { sc_file_new k with
          path := { value := 0x29 :: b :: rest, len := 2, type := k.SC_PATH_TYPE_FILE_ID } }
        (tlvBytes (fakeFciObjects b) ++ Z) 0x16 = Exec.ok (0, fakeFciFile k b rest) := by
  rw [process_fake_fci]
  rfl

/-- The file read from the synthetic FCI, unhooked. -/
theorem fake_unhook (k : Lib) (b : Nat) (rest : List Nat) (hb : b < 256) :
    epass2003_hook_file (fakeFciFile k b rest) 0 = Exec.ok (fakeKeyFile k (b / 0x20) rest) := by
  have hid : (fakeFciFile k b rest).id = 0x29 * 0x100 + b := by
    have := Nat.mul_add_lt_is_or (show b < 2 ^ 8 from hb) 0x29
    show (0x29 <<< 8) ||| b = 0x29 * 0x100 + b
    rw [Nat.shiftLeft_eq, ← Nat.mul_comm (2 ^ 8), ← this]
  have hu : u8 (b / FID_STEP) = b / 0x20 := by unfold u8 FID_STEP; omega
  have hq : b / FID_STEP = b / 0x20 := rfl
  have hhi : (fakeFciFile k b rest).path.value[(fakeFciFile k b rest).path.len - 2]? =
      some 0x29 := rfl
  have hlo : (fakeFciFile k b rest).path.value[(fakeFciFile k b rest).path.len - 1]? =
      some b := by
    simp [fakeFciFile]
  rw [hook_file_eq (fakeFciFile k b rest) 0 0x29 b (Nat.le_refl 2)
    (show (2 : Nat) < SIZE_MOD by decide) hhi hlo hb hid (Or.inl rfl),
    if_neg (show ¬ ((0 : Int) ≠ 0) by decide), if_neg (show ¬ ((0 : Int) ≠ 0) by decide),
    hu, hq]
  simp [fakeKeyFile, fakeFciFile, sc_file_new]

/-- The statements of `epass2003_select_fid_` behind the synthetic FCI of a file
identifier `29 b`: the status `90 00` is checked, the FCI is read and the file
is unhooked. -/
theorem fake_finish (k : Lib) (h : Host) (d : Driver) (b : Nat) (rest : List Nat)
    (hb : b < 256) (hsw : h.sc_check_sw 0x90 0x00 = 0) :
    select_fid_finish k h d
        { value := 0x29 :: b :: rest, len := 2, type := k.SC_PATH_TYPE_FILE_ID }
        (fakeSelectApdu h d b) true =
      Exec.ok (0, d,
        { value := 0x29 :: b :: rest, len := 2, type := k.SC_PATH_TYPE_FILE_ID },
        some (fakeKeyFile k (b / 0x20) rest)) := by
  have p0 : peek (fakeSelectApdu h d b).resp 0 = Exec.ok 0x6F := rfl
  have p1 : peek (fakeSelectApdu h d b).resp 1 = Exec.ok 0x16 := rfl
  have hdrop : (fakeSelectApdu h d b).resp.drop 2 =
      tlvBytes (fakeFciObjects b) ++ zeros (h.SC_MAX_APDU_BUFFER_SIZE - 0x18) := rfl
  have hsw2 : h.sc_check_sw (fakeSelectApdu h d b).sw1 (fakeSelectApdu h d b).sw2 = 0 := hsw
  have hlen : (fakeSelectApdu h d b).resplen = 0x18 := rfl
  unfold select_fid_finish
  simp only [not_true_eq_false, if_false]
  rw [hsw2, if_neg (show ¬ ((0 : Int) ≠ 0) by decide), hlen,
    if_neg (show ¬ (0x18 < 2) by decide), p0, Exec.ok_bind,
    if_pos (show (0x6F : Nat) = 0x6F from rfl), p1, Exec.ok_bind,
    if_pos (show 0x16 + 2 ≤ 0x18 by decide), hdrop, process_fake_file, Exec.ok_bind,
    Exec.pure_bind]
  have hk : epass2003_hook_file (0, fakeFciFile k b rest).2 0 =
      Exec.ok (fakeKeyFile k (b / 0x20) rest) := fake_unhook k b rest hb
  rw [hk, Exec.ok_bind]
  rfl

/-- For a file identifier `29 l` the function `epass2003_select_fid_` hands no
APDU to the transport: it hooks the path, stores the synthetic FCI and the
status `90 00` in its APDU and goes on to the statements behind the exchange. -/
theorem select_fid_key (k : Lib) (h : Host) (c : Crypto) (d : Driver) (l : Nat)
    (rest : List Nat) (hbuf : 0x18 ≤ h.SC_MAX_APDU_BUFFER_SIZE) :
    epass2003_select_fid_ k h c d
        { value := 0x29 :: l :: rest, len := 2, type := k.SC_PATH_TYPE_FILE_ID } true =
      select_fid_finish k h d
        { value := 0x29 :: u8 (l * FID_STEP) :: rest, len := 2, type := k.SC_PATH_TYPE_FILE_ID }
        (fakeSelectApdu h d (u8 (l * FID_STEP))) true := by
  have hz : zeros SC_MAX_PATH_SIZE = zeros 2 ++ zeros 14 := by rw [zeros_append]; rfl
  have hhook : epass2003_hook_path
      { value := 0x29 :: l :: rest, len := 2, type := k.SC_PATH_TYPE_FILE_ID } 1 =
      Exec.ok (1, { value := 0x29 :: u8 (l * FID_STEP) :: rest, len := 2,
                    type := k.SC_PATH_TYPE_FILE_ID }) := by
    rw [hook_path_eq
      { value := 0x29 :: l :: rest, len := 2, type := k.SC_PATH_TYPE_FILE_ID } 1
      0x29 l (Nat.le_refl 2) (show (2 : Nat) < SIZE_MOD by decide) (by simp) (by simp),
      if_pos (Or.inl rfl), if_pos (show (1 : Int) ≠ 0 by decide)]
    simp
  have hbb : u8 (u8 (l * FID_STEP)) = u8 (l * FID_STEP) := by unfold u8; omega
  generalize u8 (l * FID_STEP) = b at hhook hbb ⊢
  have htk : (0x29 :: b :: rest).take 2 = [0x29, b] := rfl
  have hb : [0x29, b] ++ (zeros 2).drop [0x29, b].length ++ zeros 14 = [0x29, b] ++ zeros 14 := rfl
  have hpk : peek ([0x29, b] ++ zeros 14) 0 = Exec.ok 0x29 := rfl
  have hpk1 : peek ([0x29, b] ++ zeros 14) 1 = Exec.ok b := by simp [peek]
  have hf : peekN fake_fci 0 0x18 = Exec.ok (fake_fci.take 0x18) := by
    rw [peekN_ok _ _ _ (by decide), List.drop_zero]
  have hzb : zeros h.SC_MAX_APDU_BUFFER_SIZE =
      zeros 0x18 ++ zeros (h.SC_MAX_APDU_BUFFER_SIZE - 0x18) := by
    have e : 0x18 + (h.SC_MAX_APDU_BUFFER_SIZE - 0x18) = h.SC_MAX_APDU_BUFFER_SIZE := by omega
    rw [zeros_append, e]
  have hbl : blit (zeros h.SC_MAX_APDU_BUFFER_SIZE) 0 (fake_fci.take 0x18) =
      Exec.ok (fake_fci.take 0x18 ++ zeros (h.SC_MAX_APDU_BUFFER_SIZE - 0x18)) := by
    rw [hzb, blit_prefix _ _ _ (by decide)]
  have hpo : poke (fake_fci.take 0x18 ++ zeros (h.SC_MAX_APDU_BUFFER_SIZE - 0x18)) 9 b =
      Exec.ok ((fake_fci.take 0x18).set 9 (u8 b) ++ zeros (h.SC_MAX_APDU_BUFFER_SIZE - 0x18)) :=
    poke_front _ _ 9 b (by decide)
  unfold epass2003_select_fid_
  rw [hhook, Exec.ok_bind]
  simp only []
  rw [peekN_ok _ _ _ (by simp), Exec.ok_bind, List.drop_zero, htk, hz,
    blit_head _ _ _ (by simp [zeros]), Exec.ok_bind, hb]
  simp only [if_true, ne_eq, not_true_eq_false, if_false]
  rw [hpk, Exec.ok_bind, if_pos (show (0x29 : Nat) = 0x29 from rfl), hf, Exec.ok_bind, hbl,
    Exec.ok_bind, hpk1, Exec.ok_bind, hpo, Exec.ok_bind, hbb]
  rfl

/-! ## The cache of the current directory in `epass2003_select_path` -/

/-- One round of the loop of line 1207. -/
theorem match_step (cache : Cache) (path : List Nat) (f i : Nat) (bm : Int) (a b a1 b1 : Nat)
    (hlt : i < cache.current_path.len) (ha : peek cache.current_path.value i = Exec.ok a)
    (hb : peek path i = Exec.ok b) (ha1 : peek cache.current_path.value (i + 1) = Exec.ok a1)
    (hb1 : peek path (i + 1) = Exec.ok b1) :
    select_match_loop (f + 1) cache path i bm =
      select_match_loop f cache path (i + 2) (if a = b ∧ a1 = b1 then bm + 2 else bm) := by
  rw [select_match_loop.eq_2, if_pos hlt, ha, Exec.ok_bind, hb, Exec.ok_bind]
  by_cases h0 : a = b
  · rw [if_pos h0, ha1, Exec.ok_bind, hb1, Exec.ok_bind, Exec.pure_bind]
    by_cases h1 : a1 = b1
    · simp [h0, h1]
    · simp [h0, h1]
  · rw [if_neg h0, Exec.pure_bind]
    simp [h0]

theorem match_done (cache : Cache) (path : List Nat) (f i : Nat) (bm : Int)
    (hlt : ¬ i < cache.current_path.len) :
    select_match_loop (f + 1) cache path i bm = Exec.ok bm := by
  rw [select_match_loop.eq_2, if_neg hlt]
  rfl

/-- The loop of line 1207 on a cached path of four bytes: two for each pair of
the cached path that is found at the same place in the path. -/
theorem match_loop_four (cache : Cache) (f c0 c1 c2 c3 p0 p1 p2 p3 : Nat)
    (crest prest : List Nat) (hl : cache.current_path.len = 4)
    (hv : cache.current_path.value = c0 :: c1 :: c2 :: c3 :: crest) :
    select_match_loop (f + 1 + 1 + 1) cache (p0 :: p1 :: p2 :: p3 :: prest) 0 0 =
      Exec.ok ((if c0 = p0 ∧ c1 = p1 then 0 + 2 else 0) +
        (if c2 = p2 ∧ c3 = p3 then 2 else 0)) := by
  rw [match_step cache (p0 :: p1 :: p2 :: p3 :: prest) (f + 1 + 1) 0 0 c0 p0 c1 p1
      (by rw [hl]; decide) (by rw [hv]; rfl) rfl
      (by rw [hv]; simp [peek]) (by simp [peek]),
    match_step cache (p0 :: p1 :: p2 :: p3 :: prest) (f + 1) (0 + 2) _ c2 p2 c3 p3
      (by rw [hl]; decide)
      (by rw [hv]; simp [peek]) (by simp [peek]) (by rw [hv]; simp [peek]) (by simp [peek]),
    match_done cache _ f _ _ (by rw [hl]; decide)]
  congr 1
  by_cases h0 : c0 = p0 ∧ c1 = p1 <;> by_cases h2 : c2 = p2 ∧ c3 = p3 <;> simp [h0, h2]

/-- The loop of line 1207 on a cached path of two bytes. -/
theorem match_loop_two (cache : Cache) (f c0 c1 p0 p1 : Nat)
    (crest prest : List Nat) (hl : cache.current_path.len = 2)
    (hv : cache.current_path.value = c0 :: c1 :: crest) :
    select_match_loop (f + 1 + 1) cache (p0 :: p1 :: prest) 0 0 =
      Exec.ok (if c0 = p0 ∧ c1 = p1 then 0 + 2 else 0) := by
  rw [match_step cache (p0 :: p1 :: prest) (f + 1) 0 0 c0 p0 c1 p1
      (by rw [hl]; decide) (by rw [hv]; rfl) rfl
      (by rw [hv]; simp [peek]) (by simp [peek]),
    match_done cache _ f _ _ (by rw [hl]; decide)]
/-- Below a cached directory whose four bytes start the path of six bytes, one
file identifier is left to select. -/
theorem cached_six (k : Lib) (h : Host) (c : Crypto)
    (sp : Driver → Cache → List Nat → Nat → Bool → Exec (Int × Driver × Cache × Option sc_file))
    (d : Driver) (cache : Cache) (p0 p1 p2 p3 x y : Nat) (rest crest : List Nat) (fo : Bool)
    (hv : cache.valid ≠ 0) (ht : cache.current_path.type = k.SC_PATH_TYPE_PATH)
    (hl : cache.current_path.len = 4)
    (hc : cache.current_path.value = p0 :: p1 :: p2 :: p3 :: crest) :
    select_path_cached k h c sp d cache (p0 :: p1 :: p2 :: p3 :: x :: y :: rest) 6 fo =
      epass2003_select_fid k h c d cache x y fo := by
  have hcond : cache.valid ≠ 0 ∧ cache.current_path.type = k.SC_PATH_TYPE_PATH ∧
      cache.current_path.len ≥ 2 ∧ cache.current_path.len ≤ 6 :=
    ⟨hv, ht, by rw [hl]; decide, by rw [hl]; decide⟩
  have hf : cache.current_path.len + 1 = 2 + 1 + 1 + 1 := by rw [hl]
  have hm := match_loop_four cache 2 p0 p1 p2 p3 p0 p1 p2 p3 crest (x :: y :: rest) hl hc
  rw [if_pos ⟨rfl, rfl⟩, if_pos ⟨rfl, rfl⟩] at hm
  have hbm : cache.valid ≠ 0 ∧ ((0 : Int) + 2 + 2 > 2) := ⟨hv, by decide⟩
  have hsz : (6 + (SIZE_MOD - ((0 : Int) + 2 + 2).toNat)) % SIZE_MOD = 2 := by decide
  have q4 : peek (p0 :: p1 :: p2 :: p3 :: x :: y :: rest) ((0 : Int) + 2 + 2).toNat =
      Exec.ok x := by
    have : ((0 : Int) + 2 + 2).toNat = 4 := by decide
    rw [this]; simp [peek]
  have q5 : peek (p0 :: p1 :: p2 :: p3 :: x :: y :: rest) (((0 : Int) + 2 + 2).toNat + 1) =
      Exec.ok y := by
    have : ((0 : Int) + 2 + 2).toNat = 4 := by decide
    rw [this]; simp [peek]
  unfold select_path_cached
  simp only []
  rw [if_pos hcond, hf, hm, Exec.ok_bind, if_pos hbm, if_pos hsz, q4, Exec.ok_bind, q5,
    Exec.ok_bind]

/-- When the four bytes of the cached directory are the whole path, nothing is
selected: the file object is made up from the cache. -/
theorem cached_four (k : Lib) (h : Host) (c : Crypto)
    (sp : Driver → Cache → List Nat → Nat → Bool → Exec (Int × Driver × Cache × Option sc_file))
    (d : Driver) (cache : Cache) (p0 p1 p2 p3 : Nat) (rest crest : List Nat) (fo : Bool)
    (hv : cache.valid ≠ 0) (ht : cache.current_path.type = k.SC_PATH_TYPE_PATH)
    (hl : cache.current_path.len = 4)
    (hc : cache.current_path.value = p0 :: p1 :: p2 :: p3 :: crest) :
    select_path_cached k h c sp d cache (p0 :: p1 :: p2 :: p3 :: rest) 4 fo =
      Exec.ok (SC_SUCCESS, d, cache, if fo then some (cacheHitFile k cache p2 p3) else none) := by
  have hcond : cache.valid ≠ 0 ∧ cache.current_path.type = k.SC_PATH_TYPE_PATH ∧
      cache.current_path.len ≥ 2 ∧ cache.current_path.len ≤ 4 :=
    ⟨hv, ht, by rw [hl]; decide, by rw [hl]⟩
  have hf : cache.current_path.len + 1 = 2 + 1 + 1 + 1 := by rw [hl]
  have hm := match_loop_four cache 2 p0 p1 p2 p3 p0 p1 p2 p3 crest rest hl hc
  rw [if_pos ⟨rfl, rfl⟩, if_pos ⟨rfl, rfl⟩] at hm
  have hbm : cache.valid ≠ 0 ∧ ((0 : Int) + 2 + 2 > 2) := ⟨hv, by decide⟩
  have hsz : ¬ ((4 + (SIZE_MOD - ((0 : Int) + 2 + 2).toNat)) % SIZE_MOD = 2) := by decide
  have hsz2 : ¬ ((4 + (SIZE_MOD - ((0 : Int) + 2 + 2).toNat)) % SIZE_MOD > 2) := by decide
  have q2 : peek (p0 :: p1 :: p2 :: p3 :: rest) ((4 + (SIZE_MOD - 2)) % SIZE_MOD) =
      Exec.ok p2 := by
    rw [size_lit 4 2 (by decide) (by decide)]; simp [peek]
  have q3 : peek (p0 :: p1 :: p2 :: p3 :: rest) ((4 + (SIZE_MOD - 1)) % SIZE_MOD) =
      Exec.ok p3 := by
    rw [size_lit 4 1 (by decide) (by decide)]; simp [peek]
  unfold select_path_cached
  simp only []
  rw [if_pos hcond, hf, hm, Exec.ok_bind, if_pos hbm, if_neg hsz, if_neg hsz2]
  cases fo with
  | false => rfl
  | true =>
    simp only [if_true]
    rw [q2, Exec.ok_bind, q3, Exec.ok_bind]
    rfl

theorem select_path_six_block (k : Lib) (h : Host) (c : Crypto) (fuel : Nat) (d : Driver)
    (cache : Cache) (a b a2 b2 : Nat) (rest : List Nat) (fo : Bool) :
    epass2003_select_path k h c (fuel + 1) d cache (0x3f :: 0x00 :: a :: b :: a2 :: b2 :: rest) 6
        fo =
      select_path_cached k h c (epass2003_select_path k h c fuel) d cache
        (0x3f :: 0x00 :: a :: b :: a2 :: b2 :: rest) 6 fo := by
  have p0 : peek (0x3f :: 0x00 :: a :: b :: a2 :: b2 :: rest) 0 = Exec.ok 0x3f := rfl
  have p1 : peek (0x3f :: 0x00 :: a :: b :: a2 :: b2 :: rest) 1 = Exec.ok 0x00 := by simp [peek]
  rw [epass2003_select_path, if_neg (by decide), p0, Exec.ok_bind, p1, Exec.ok_bind,
    if_neg (by decide), if_neg (by decide), Exec.pure_bind]
  rfl

theorem select_path_four_block (k : Lib) (h : Host) (c : Crypto) (fuel : Nat) (d : Driver)
    (cache : Cache) (a b : Nat) (rest : List Nat) (fo : Bool) :
    epass2003_select_path k h c (fuel + 1) d cache (0x3f :: 0x00 :: a :: b :: rest) 4 fo =
      select_path_cached k h c (epass2003_select_path k h c fuel) d cache
        (0x3f :: 0x00 :: a :: b :: rest) 4 fo := by
  have p0 : peek (0x3f :: 0x00 :: a :: b :: rest) 0 = Exec.ok 0x3f := rfl
  have p1 : peek (0x3f :: 0x00 :: a :: b :: rest) 1 = Exec.ok 0x00 := by simp [peek]
  rw [epass2003_select_path, if_neg (by decide), p0, Exec.ok_bind, p1, Exec.ok_bind,
    if_neg (by decide), if_neg (by decide), Exec.pure_bind]
  rfl

theorem select_path_bare_two_block (k : Lib) (h : Host) (c : Crypto) (fuel : Nat) (d : Driver)
    (cache : Cache) (a b : Nat) (rest : List Nat) (fo : Bool) (hab : a ≠ 0x3f ∨ b ≠ 0x00) :
    epass2003_select_path k h c (fuel + 1) d cache (a :: b :: rest) 2 fo =
      select_path_cached k h c (epass2003_select_path k h c fuel) d cache
        (0x3f :: 0x00 :: a :: b :: zeros 12) (2 + 2) fo := by
  have p0 : peek (a :: b :: rest) 0 = Exec.ok a := rfl
  have p1 : peek (a :: b :: rest) 1 = Exec.ok b := by simp [peek]
  have hz : zeros SC_MAX_PATH_SIZE = zeros 2 ++ zeros 14 := by rw [zeros_append]; rfl
  rw [epass2003_select_path, if_neg (by decide), p0, Exec.ok_bind, p1, Exec.ok_bind,
    if_neg (by simp), if_pos hab, hz, poke_front _ _ 0 _ (by simp [zeros]), Exec.ok_bind,
    poke_front _ _ 1 _ (by simp [zeros]), Exec.ok_bind, peekN_ok _ _ _ (by simp),
    Exec.ok_bind, List.drop_zero]
  have hn : blit (((zeros 2).set 0 (u8 0x3f)).set 1 (u8 0x00) ++ zeros 14) 2
      ((a :: b :: rest).take 2) = Exec.ok (0x3f :: 0x00 :: a :: b :: zeros 12) := by
    have := blit_end (((zeros 2).set 0 (u8 0x3f)).set 1 (u8 0x00)) [a, b] 2 14 12 rfl rfl
    exact this
  rw [hn, Exec.ok_bind, Exec.pure_bind]
  rfl

theorem select_path_bare_four_block (k : Lib) (h : Host) (c : Crypto) (fuel : Nat)
    (d : Driver) (cache : Cache) (a b a2 b2 : Nat) (rest : List Nat) (fo : Bool)
    (hab : a ≠ 0x3f ∨ b ≠ 0x00) :
    epass2003_select_path k h c (fuel + 1) d cache (a :: b :: a2 :: b2 :: rest) 4 fo =
      select_path_cached k h c (epass2003_select_path k h c fuel) d cache
        (0x3f :: 0x00 :: a :: b :: a2 :: b2 :: zeros 10) (4 + 2) fo := by
  have p0 : peek (a :: b :: a2 :: b2 :: rest) 0 = Exec.ok a := rfl
  have p1 : peek (a :: b :: a2 :: b2 :: rest) 1 = Exec.ok b := by simp [peek]
  have hz : zeros SC_MAX_PATH_SIZE = zeros 2 ++ zeros 14 := by rw [zeros_append]; rfl
  rw [epass2003_select_path, if_neg (by decide), p0, Exec.ok_bind, p1, Exec.ok_bind,
    if_neg (by simp), if_pos hab, hz, poke_front _ _ 0 _ (by simp [zeros]), Exec.ok_bind,
    poke_front _ _ 1 _ (by simp [zeros]), Exec.ok_bind, peekN_ok _ _ _ (by simp),
    Exec.ok_bind, List.drop_zero]
  have hn : blit (((zeros 2).set 0 (u8 0x3f)).set 1 (u8 0x00) ++ zeros 14) 2
      ((a :: b :: a2 :: b2 :: rest).take 4) =
      Exec.ok (0x3f :: 0x00 :: a :: b :: a2 :: b2 :: zeros 10) := by
    have := blit_end (((zeros 2).set 0 (u8 0x3f)).set 1 (u8 0x00)) [a, b, a2, b2] 2 14 10 rfl rfl
    exact this
  rw [hn, Exec.ok_bind, Exec.pure_bind]
  rfl

theorem take_four_eq (l : List Nat) (a b c d : Nat) (h : l.take 4 = [a, b, c, d]) :
    l = a :: b :: c :: d :: l.drop 4 := by
  have := List.take_append_drop 4 l
  rw [h] at this
  exact this.symm

/-- With a valid cache whose four bytes start the unified path,
`epass2003_select_path` selects what is left of the path below the cached
directory and nothing else. -/
theorem select_path_below (k : Lib) (h : Host) (c : Crypto) (fuel : Nat) (d : Driver)
    (cache : Cache) (pathbuf : List Nat) (len : Nat) (fo : Bool)
    (hv : cache.valid ≠ 0) (ht : cache.current_path.type = k.SC_PATH_TYPE_PATH)
    (hl : cache.current_path.len = 4)
    (hacc : len = 2 ∨ len = 4 ∨ (len = 6 ∧ pathbuf.take 2 = [0x3f, 0x00]))
    (hlen : len ≤ pathbuf.length) (h4 : 4 ≤ (mfRooted pathbuf len).length)
    (hpre : cache.current_path.value.take 4 = (mfRooted pathbuf len).take 4) :
    epass2003_select_path k h c (fuel + 1) d cache pathbuf len fo =
      belowCached k h c d cache (mfRooted pathbuf len) fo := by
  rcases hacc with h2 | h4' | ⟨h6, hroot⟩
  · subst h2
    match pathbuf, hlen with
    | a :: b :: rest, _ =>
      by_cases hab : a = 0x3f ∧ b = 0x00
      · obtain ⟨ha, hb⟩ := hab
        subst ha; subst hb
        have hm : mfRooted (0x3f :: 0x00 :: rest) 2 = [0x3f, 0x00] := by
          simp [mfRooted]
        rw [hm] at h4
        simp at h4
      · have hab2 : a ≠ 0x3f ∨ b ≠ 0x00 := by
          by_contra hcon
          apply hab
          constructor
          · by_contra hx; exact hcon (Or.inl hx)
          · by_contra hx; exact hcon (Or.inr hx)
        have hm : mfRooted (a :: b :: rest) 2 = [0x3f, 0x00, a, b] := by
          have hne : ¬ ((a :: b :: rest).take 2 = [0x3f, 0x00]) := by
            intro hcon
            simp only [List.take, List.cons.injEq, and_true] at hcon
            exact hab hcon
          unfold mfRooted
          rw [if_neg hne]
          rfl
        rw [hm] at hpre ⊢
        have hc := take_four_eq _ _ _ _ _ hpre
        rw [select_path_bare_two_block k h c fuel d cache a b rest fo hab2,
          cached_four k h c _ d cache 0x3f 0x00 a b (zeros 12) _ fo hv ht hl hc]
        rfl
  · subst h4'
    match pathbuf, hlen with
    | a :: b :: a2 :: b2 :: rest, _ =>
      by_cases hab : a = 0x3f ∧ b = 0x00
      · obtain ⟨ha, hb⟩ := hab
        subst ha; subst hb
        have hm : mfRooted (0x3f :: 0x00 :: a2 :: b2 :: rest) 4 = [0x3f, 0x00, a2, b2] := by
          simp [mfRooted]
        rw [hm] at hpre ⊢
        have hc := take_four_eq _ _ _ _ _ hpre
        rw [select_path_four_block k h c fuel d cache a2 b2 rest fo,
          cached_four k h c _ d cache 0x3f 0x00 a2 b2 rest _ fo hv ht hl hc]
        rfl
      · have hab2 : a ≠ 0x3f ∨ b ≠ 0x00 := by
          by_contra hcon
          apply hab
          constructor
          · by_contra hx; exact hcon (Or.inl hx)
          · by_contra hx; exact hcon (Or.inr hx)
        have hm : mfRooted (a :: b :: a2 :: b2 :: rest) 4 = [0x3f, 0x00, a, b, a2, b2] := by
          have hne : ¬ ((a :: b :: a2 :: b2 :: rest).take 2 = [0x3f, 0x00]) := by
            intro hcon
            simp only [List.take, List.cons.injEq, and_true] at hcon
            exact hab hcon
          unfold mfRooted
          rw [if_neg hne]
          rfl
        rw [hm] at hpre ⊢
        have hc := take_four_eq _ _ _ _ _ hpre
        rw [select_path_bare_four_block k h c fuel d cache a b a2 b2 rest fo hab2,
          cached_six k h c _ d cache 0x3f 0x00 a b a2 b2 (zeros 10) _ fo hv ht hl hc]
        rfl
  · subst h6
    match pathbuf, hlen, hroot with
    | a :: b :: a2 :: b2 :: a3 :: b3 :: rest, _, hroot =>
      simp only [List.take, List.cons.injEq, and_true] at hroot
      obtain ⟨ha, hb⟩ := hroot
      subst ha; subst hb
      have hm : mfRooted (0x3f :: 0x00 :: a2 :: b2 :: a3 :: b3 :: rest) 6 =
          [0x3f, 0x00, a2, b2, a3, b3] := by
        simp [mfRooted]
      rw [hm] at hpre ⊢
      have hc := take_four_eq _ _ _ _ _ hpre
      rw [select_path_six_block k h c fuel d cache a2 b2 a3 b3 rest fo,
        cached_six k h c _ d cache 0x3f 0x00 a2 b2 a3 b3 rest _ fo hv ht hl hc]
      rfl

/-- The value `bMatch` of `epass2003_select_path` for a cached path of two or
four bytes: it exceeds 2 only when the cached path has four bytes and these
start the unified path `P`; `path` is any buffer that starts with `P`. -/
theorem bmatch_front (cache : Cache) (P path : List Nat)
    (hcl : cache.current_path.len = 2 ∨ cache.current_path.len = 4)
    (hcv : cache.current_path.len ≤ cache.current_path.value.length)
    (hP : cache.current_path.len ≤ P.length) (hpath : path.take P.length = P) :
    ∃ m : Int, select_match_loop (cache.current_path.len + 1) cache path 0 0 = Exec.ok m ∧
      (m > 2 → cache.current_path.len = 4 ∧ m = 4 ∧
        cache.current_path.value.take 4 = P.take 4) := by
  have hPl : P.length ≤ path.length := by
    have := congrArg List.length hpath
    rw [List.length_take] at this
    omega
  have hPt : ∀ n, n ≤ P.length → P.take n = path.take n := by
    intro n hn
    rw [← hpath, List.take_take, Nat.min_eq_left hn]
  rcases hcl with h2 | h4
  · rw [h2] at hcv hP ⊢
    have hpl : 2 ≤ path.length := le_trans hP hPl
    match hp : path, hc : cache.current_path.value, hpl, hcv with
    | p0 :: p1 :: prest, c0 :: c1 :: crest, _, _ =>
      have := match_loop_two cache 1 c0 c1 p0 p1 crest prest h2 hc
      refine ⟨_, this, ?_⟩
      intro hm
      split at hm <;> exact absurd hm (by decide)
    | [], _, hx, _ => simp at hx
    | [_], _, hx, _ => simp at hx
    | _ :: _ :: _, [], _, hx => simp at hx
    | _ :: _ :: _, [_], _, hx => simp at hx
  · rw [h4] at hcv hP ⊢
    have hpl : 4 ≤ path.length := le_trans hP hPl
    match hp : path, hc : cache.current_path.value, hpl, hcv with
    | p0 :: p1 :: p2 :: p3 :: prest, c0 :: c1 :: c2 :: c3 :: crest, _, _ =>
      have := match_loop_four cache 2 c0 c1 c2 c3 p0 p1 p2 p3 crest prest h4 hc
      refine ⟨_, this, ?_⟩
      intro hm
      by_cases hA : c0 = p0 ∧ c1 = p1
      · by_cases hB : c2 = p2 ∧ c3 = p3
        · refine ⟨rfl, ?_, ?_⟩
          · rw [if_pos hA, if_pos hB]; rfl
          · rw [hPt 4 hP]
            obtain ⟨h0, h1⟩ := hA
            obtain ⟨h2, h3⟩ := hB
            subst h0; subst h1; subst h2; subst h3
            rfl
        · rw [if_pos hA, if_neg hB] at hm
          exact absurd hm (by decide)
      · by_cases hB : c2 = p2 ∧ c3 = p3
        · rw [if_neg hA, if_pos hB] at hm
          exact absurd hm (by decide)
        · rw [if_neg hA, if_neg hB] at hm
          exact absurd hm (by decide)
    | [], _, hx, _ => simp at hx
    | [_], _, hx, _ => simp at hx
    | [_, _], _, hx, _ => simp at hx
    | [_, _, _], _, hx, _ => simp at hx
    | _ :: _ :: _ :: _ :: _, [], _, hx => simp at hx
    | _ :: _ :: _ :: _ :: _, [_], _, hx => simp at hx
    | _ :: _ :: _ :: _ :: _, [_, _], _, hx => simp at hx
    | _ :: _ :: _ :: _ :: _, [_, _, _], _, hx => simp at hx

/-! ## The PIN commands in closed form -/

theorem test_ret_neg (r : Int) (hr : r < 0) : SC_TEST_RET r = true := by
  unfold SC_TEST_RET; simpa using hr

theorem test_ret_nonneg (r : Int) (hr : ¬ r < 0) : ¬ SC_TEST_RET r = true := by
  unfold SC_TEST_RET; simpa using hr

theorem blit_challenge (rnd : List Nat) :
    blit (zeros 16) 0 (rnd.take 8) =
      Exec.ok (rnd.take 8 ++ zeros (16 - (rnd.take 8).length)) :=
  blit_zeros_start _ 16 _ (by
    have : (rnd.take 8).length ≤ 8 := by rw [List.length_take]; omega
    omega)

/-- When the challenge is refused, `external_key_auth` returns the error of
`sc_get_challenge` and sends nothing. -/
theorem external_key_auth_refused (q : PinLib) (g : Digest) (h : Host) (c : Crypto)
    (d : Driver) (kid : Nat) (pin : Option (List Nat)) (len : Nat) (r0 : Int) (d1 : Driver)
    (rnd : List Nat) (hch : q.sc_get_challenge d 8 = (r0, d1, rnd)) (hr0 : r0 < 0) :
    external_key_auth q g h c d kid pin len = Exec.ok (r0, d1) := by
  unfold external_key_auth
  rw [hch]
  simp only []
  rw [blit_challenge, Exec.ok_bind, if_pos (test_ret_neg r0 hr0)]
  rfl

/-- Without a PIN, `external_key_auth` returns `SC_ERROR_INVALID_ARGUMENTS`
behind the challenge and sends nothing. -/
theorem external_key_auth_null (q : PinLib) (g : Digest) (h : Host) (c : Crypto)
    (d : Driver) (kid : Nat) (len : Nat) (r0 : Int) (d1 : Driver)
    (rnd : List Nat) (hch : q.sc_get_challenge d 8 = (r0, d1, rnd)) (hr0 : ¬ r0 < 0) :
    external_key_auth q g h c d kid none len = Exec.ok (SC_ERROR_INVALID_ARGUMENTS, d1) := by
  unfold external_key_auth
  rw [hch]
  simp only []
  rw [blit_challenge, Exec.ok_bind, if_neg (test_ret_nonneg r0 hr0)]
  rfl

/-- Without a PIN, `update_secret_key` returns `SC_ERROR_INVALID_ARGUMENTS` and
sends nothing. -/
theorem update_secret_key_null (g : Digest) (h : Host) (c : Crypto) (d : Driver)
    (ktype kid len : Nat) :
    update_secret_key g h c d ktype kid none len = Exec.ok (SC_ERROR_INVALID_ARGUMENTS, d) :=
  rfl

/-- With secure messaging off and a card that answers, behind the challenge
`get_external_key_retries` hands `retriesApdu` to the transport and returns
`SC_SUCCESS` whatever the status: with the low nibble of `sw2` for `63 Cx`, and
with `*retries` as it was for every other status. -/
theorem get_external_key_retries_plain (q : PinLib) (h : Host) (c : Crypto) (d : Driver)
    (kid n : Nat) (r0 : Int) (d1 : Driver) (rnd : List Nat)
    (hch : q.sc_get_challenge d 8 = (r0, d1, rnd)) (hr0 : ¬ r0 < 0)
    (hsm : d1.session.g_sm = 0) (hcla : d1.cla &&& 0x0C = 0x00 ∨ d1.cla &&& 0x0C = 0x04)
    (hrep : ¬ (h.card d1.sent (passThrough (retriesApdu h d1 (u8 kid)) h.sm_apdu)).r < 0) :
    get_external_key_retries q h c d kid (some n) =
      Exec.ok (SC_SUCCESS, logged h d1 (retriesApdu h d1 (u8 kid)),
        if 0x63 = (h.card d1.sent (passThrough (retriesApdu h d1 (u8 kid)) h.sm_apdu)).sw1
              &&& 0xff ∧
            0xC0 = (h.card d1.sent (passThrough (retriesApdu h d1 (u8 kid)) h.sm_apdu)).sw2
              &&& 0xf0 then
          some (u8 ((h.card d1.sent (passThrough (retriesApdu h d1 (u8 kid)) h.sm_apdu)).sw2
            &&& 0x0f))
        else some n) := by
  unfold get_external_key_retries
  rw [hch]
  simp only []
  rw [blit_challenge, Exec.ok_bind, if_neg (test_ret_nonneg r0 hr0)]
  show (sc_transmit_apdu h c d1 (retriesApdu h d1 (u8 kid)) >>= _) = _
  rw [transmit_plain h c d1 (retriesApdu h d1 (u8 kid)) hsm hcla
    (by show h.SC_MAX_APDU_BUFFER_SIZE ≤ (zeros h.SC_MAX_APDU_BUFFER_SIZE).length
        rw [zeros_length]), if_neg hrep]
  have h0 : ¬ SC_TEST_RET SC_SUCCESS = true := by decide
  generalize h.card d1.sent (passThrough (retriesApdu h d1 (u8 kid)) h.sm_apdu) = rep
  have tail : ∀ a : sc_apdu, a.sw1 = rep.sw1 → a.sw2 = rep.sw2 →
      (if (some n).isSome = true ∧ (0x63 = a.sw1 &&& 0xff ∧ 0xC0 = a.sw2 &&& 0xf0) then
          (pure (SC_SUCCESS, logged h d1 (retriesApdu h d1 (u8 kid)),
            some (u8 (a.sw2 &&& 0x0f))) : Exec (Int × Driver × Option Nat))
        else if SC_TEST_RET SC_SUCCESS = true then
          pure (SC_SUCCESS, logged h d1 (retriesApdu h d1 (u8 kid)), some n)
        else pure (SC_SUCCESS, logged h d1 (retriesApdu h d1 (u8 kid)), some n)) =
      Exec.ok (SC_SUCCESS, logged h d1 (retriesApdu h d1 (u8 kid)),
        if 0x63 = rep.sw1 &&& 0xff ∧ 0xC0 = rep.sw2 &&& 0xf0 then some (u8 (rep.sw2 &&& 0x0f))
        else some n) := by
    intro a h1 h2
    rw [h1, h2, if_neg h0]
    by_cases hc : 0x63 = rep.sw1 &&& 0xff ∧ 0xC0 = rep.sw2 &&& 0xf0
    · rw [if_pos ⟨rfl, hc⟩, if_pos hc]; rfl
    · rw [if_neg (fun x => hc x.2), if_neg hc]; rfl
  split
  · rw [Exec.ok_bind]
    simp only []
    rw [if_neg h0]
    exact tail (answered (retriesApdu h d1 (u8 kid)) rep) rfl rfl
  · rw [Exec.ok_bind]
    simp only []
    rw [if_neg h0]
    exact tail { retriesApdu h d1 (u8 kid) with sw1 := rep.sw1, sw2 := rep.sw2 } rfl rfl

/-! ## The branch without a usable cache -/

/-- C1: when the counted bytes of `g_icv_mac` are all `0xff`, the increment in
`construct_mac_tlv` clears them and then, instead of stopping, reads
`g_icv_mac[SIZE_MAX]`: the index is a `size_t`, so `i >= 0` always holds and
`i--` at 0 wraps around.  This happens in 3DES mode (8 counted bytes, the value
`ff .. ff 00 .. 00` that `verify_init_key` can leave) and in AES mode (16
counted bytes), and it makes `construct_mac_tlv` and the whole wrap leave the
array. -/
theorem icv_increment_overflow :
    increase_icv KEY_TYPE_DES (List.replicate 8 0xff ++ List.replicate 8 0x00) =
      Exec.fault Fault.outOfBounds ∧
    increase_icv KEY_TYPE_AES (List.replicate 16 0xff) = Exec.fault Fault.outOfBounds ∧
    construct_mac_tlv mirrorCrypto sessionDesFull (zeros 4096) 0 0 macTlvInit KEY_TYPE_DES =
      Exec.fault Fault.outOfBounds ∧
    epass2003_sm_wrap_apdu mirrorCrypto sessionDesFull selectMF smBlank =
      Exec.fault Fault.outOfBounds ∧
    epass2003_sm_wrap_apdu mirrorCrypto sessionFull bareCmd smBlank =
      Exec.fault Fault.outOfBounds := by
  refine ⟨by decide, by decide, by decide!, by decide!, by decide!⟩
/-! ## C2: the counter over a sequence of wraps -/

/-- C2: for every sequence of wraps performed in SM mode from a 16-byte counter
`icv_0` such that `icv_0 + n` does not overflow the counted bytes (`n` the
number of wraps): the sequence returns whenever every command fits the buffers,
and when it returns the IV handed to the MAC cipher in the `k`-th wrap is
`icv_0 + k` for `k = 1 .. n` (the bytes behind the counted ones unchanged), no two
wraps use the same IV, and the counter left in the session is `icv_0 + n`. -/
theorem icv_monotonic (c : Crypto) (hc : c.LengthPreserving) (s : Session)
    (cmds : List (sc_apdu × sc_apdu)) (hsm : s.g_sm ≠ 0) (h16 : s.g_icv_mac.length = 16)
    (hb : ∀ x ∈ s.g_icv_mac, x < 256)
    (hv : beVal (s.g_icv_mac.take (icvWidth s.g_smtype)) + cmds.length <
      256 ^ icvWidth s.g_smtype) :
    ((∀ p ∈ cmds, p.1.lc ≤ p.1.data.length ∧ p.1.lc ≤ 4000 ∧ p.1.lc + 40 ≤ p.2.data.length) →
      ∃ r, wrap_seq c s cmds = Exec.ok r) ∧
    ∀ s' ivs, wrap_seq c s cmds = Exec.ok (s', ivs) →
      ivs.length = cmds.length ∧
      (∀ k, k < cmds.length → ∃ iv, ivs[k]? = some iv ∧ iv.length = 16 ∧
        beVal (iv.take (icvWidth s.g_smtype)) =
          beVal (s.g_icv_mac.take (icvWidth s.g_smtype)) + (k + 1) ∧
        iv.drop (icvWidth s.g_smtype) = s.g_icv_mac.drop (icvWidth s.g_smtype)) ∧
      (∀ j k, j < k → k < cmds.length → ivs[j]? ≠ ivs[k]?) ∧
      beVal (s'.g_icv_mac.take (icvWidth s.g_smtype)) =
        beVal (s.g_icv_mac.take (icvWidth s.g_smtype)) + cmds.length := by
  refine ⟨wrap_seq_total c hc cmds s hsm h16 hb hv, ?_⟩
  intro s' ivs h
  obtain ⟨i1, _, i3, i4⟩ := wrap_seq_ivs c hc cmds s s' ivs hsm h16 hb hv h
  refine ⟨i1, i4, ?_, i3⟩
  intro j k hjk hk heq
  obtain ⟨ivj, gj, _, vj, _⟩ := i4 j (by omega)
  obtain ⟨ivk, gk, _, vk, _⟩ := i4 k hk
  rw [gj, gk] at heq
  cases heq
  omega

/-- Three wraps in AES mode starting from the counter `00 .. 00 01`: the
sequence returns, and the IVs used are 2, 3 and 4. -/
theorem icv_monotonic_witness :
    ∃ s' ivs, wrap_seq mirrorCrypto sessionAes
        [(selectMF, smBlank), (bareCmd, smBlank), (helloCmd, smBlank)] = Exec.ok (s', ivs) ∧
      ivs.length = 3 ∧
      (∀ k, k < 3 → ∃ iv, ivs[k]? = some iv ∧ iv.length = 16 ∧
        beVal (iv.take 16) = beVal (sessionAes.g_icv_mac.take 16) + (k + 1) ∧
        iv.drop 16 = sessionAes.g_icv_mac.drop 16) ∧
      (∀ j k, j < k → k < 3 → ivs[j]? ≠ ivs[k]?) ∧
      beVal (s'.g_icv_mac.take 16) = beVal (sessionAes.g_icv_mac.take 16) + 3 :=
  match (icv_monotonic mirrorCrypto mirrorCrypto_lengthPreserving sessionAes
      [(selectMF, smBlank), (bareCmd, smBlank), (helloCmd, smBlank)]
      (by decide) (by decide) (by decide) (by decide)).1 (by decide) with
  | ⟨(s', ivs), h⟩ =>
    ⟨s', ivs, h, (icv_monotonic mirrorCrypto mirrorCrypto_lengthPreserving sessionAes
      [(selectMF, smBlank), (bareCmd, smBlank), (helloCmd, smBlank)]
      (by decide) (by decide) (by decide) (by decide)).2 s' ivs h⟩
/-! ## C3: wrapping and unwrapping command data -/

/-- C3: assuming CBC decryption inverts CBC encryption under the same key with a
zero IV, for every command data `P` of 1 to 4000 bytes and either algorithm:
`construct_data_tlv`, called with 4096-byte buffers, returns a data TLV, and
`decrypt_response` applied to that TLV followed by `99 02 90 00` and a MAC TLV
returns 0, stores `P` in the first `|P|` bytes of `out` and sets `*out_len` to
`|P|`. -/
theorem decrypt_response_roundtrip (c : Crypto) (hc : c.LengthPreserving) (hinv : c.CbcInverse)
    (s : Session) (apdu : sc_apdu) (apdu_buf data_tlv out : List Nat) (out_len : Nat)
    (mac : List Nat)
    (hP1 : 1 ≤ apdu.data.length) (hP2 : apdu.data.length ≤ 4000)
    (hlc : apdu.lc = apdu.data.length)
    (hbuf : apdu_buf.length = 4096) (hdt : data_tlv.length = 4096)
    (hout : apdu.data.length ≤ out.length) :
    ∃ ab dt n out2,
      construct_data_tlv c s apdu apdu_buf data_tlv s.g_smtype = Exec.ok (ab, dt, n) ∧
      decrypt_response c s (dt.take n ++ [0x99, 0x02, 0x90, 0x00] ++ 0x8E :: 0x08 :: mac)
        out out_len = Exec.ok (0, out2, apdu.data.length) ∧
      out2.take apdu.data.length = apdu.data := by
  have hbs := blockSize_cases s.g_smtype
  obtain ⟨ab, dt, hrun, hdtv, _, _⟩ :=
    construct_data_tlv_run c hc s apdu apdu_buf data_tlv s.g_smtype (by omega) (by omega)
      (by omega) (by omega)
  have hdec := decrypt_data_tlv c hc hinv s apdu ([0x99, 0x02, 0x90, 0x00] ++ 0x8E :: 0x08 :: mac)
    out out_len (by omega) (by omega) (by omega) (by omega)
  have htake : apdu.data.take apdu.lc = apdu.data := by
    rw [hlc]; exact List.take_length _
  rw [htake, hlc] at hdec
  refine ⟨ab, dt, _, splice out 0 apdu.data, hrun, ?_, ?_⟩
  · rw [hdtv, List.append_assoc]
    exact hdec
  · have := take_splice out 0 apdu.data (by omega)
    rw [Nat.zero_add, List.take_zero, List.nil_append] at this
    exact this

/-- The data `"HELLO"` in AES mode: the response `87 11 01 <cipher16> 99 02 90 00
8E 08 <mac>` decodes to `"HELLO"`. -/
theorem decrypt_response_roundtrip_witness :
    ∃ ab dt n out2,
      construct_data_tlv mirrorCrypto sessionAes helloCmd (zeros 4096) (zeros 4096)
        sessionAes.g_smtype = Exec.ok (ab, dt, n) ∧
      decrypt_response mirrorCrypto sessionAes
        (dt.take n ++ [0x99, 0x02, 0x90, 0x00] ++ 0x8E :: 0x08 :: [1, 2, 3, 4, 5, 6, 7, 8])
        (zeros 256) 0 = Exec.ok (0, out2, helloCmd.data.length) ∧
      out2.take helloCmd.data.length = helloCmd.data :=
  decrypt_response_roundtrip mirrorCrypto mirrorCrypto_lengthPreserving mirrorCrypto_cbcInverse
    sessionAes helloCmd (zeros 4096) (zeros 4096) (zeros 256) 0 [1, 2, 3, 4, 5, 6, 7, 8]
    (by decide) (by decide) (by decide) (zeros_length 4096) (zeros_length 4096)
    (by rw [zeros_length]; decide)
/-! ## C4, C5: the data TLV -/

/-- C6 (amended): in a wrap in SM mode, when the plain APDU has `le ≠ 0` or
`resplen ≠ 0`, the Le TLV is `97 01 le` if `le ≤ 0x7F` and
`97 02 (le div 256) mod 256, le mod 256` otherwise (the high byte is cut to
eight bits by the cast to `unsigned char`); when `le = 0` and `resplen = 0` no Le
TLV is built.  The Le TLV stands in the SM data between the data TLV and the MAC
TLV.  The wrap returns on every input that fits the buffers. -/
theorem le_tlv_bytes (c : Crypto) (hc : c.LengthPreserving) (s : Session) (plain sm : sc_apdu)
    (hsm : s.g_sm ≠ 0) :
    (Wrappable s plain sm → ∃ w, epass2003_sm_wrap_apdu c s plain sm = Exec.ok w) ∧
    ∀ w, epass2003_sm_wrap_apdu c s plain sm = Exec.ok w →
      ∃ e mac8, w.enc = some e ∧
        (plain.le ≠ 0 ∨ plain.resplen ≠ 0 →
          e.le_tlv.take e.le_tlv_len =
            if plain.le ≤ 0x7F then [0x97, 0x01, plain.le]
            else [0x97, 0x02, (plain.le / 256) % 256, plain.le % 256]) ∧
        (plain.le = 0 ∧ plain.resplen = 0 → e.le_tlv_len = 0) ∧
        w.sm.data.take w.sm.datalen =
          e.dataTLV.take e.data_tlv_len ++ e.le_tlv.take e.le_tlv_len ++ 0x8E :: 0x08 :: mac8 := by
  refine ⟨wrap_total c hc s plain sm hsm, ?_⟩
  intro w h
  obtain ⟨e, icv, mac8, he, _, _, _, _, _, _, _, _, _, hD, _, hL, hll, _, hbody, _⟩ :=
    wrap_sm_facts c hc s plain sm hsm w h
  refine ⟨e, mac8, he, ?_, ?_, ?_⟩
  · intro hle
    rw [hL]
    unfold encL leTlvBytes
    rw [if_pos (by omega)]
    by_cases h7 : plain.le ≤ 0x7F
    · rw [if_neg (by omega), if_pos h7]
      have : u8 plain.le = plain.le := u8_small _ (by omega)
      rw [this]
    · rw [if_pos (by omega), if_neg h7]
      unfold u8
      rw [Nat.mod_mod]
  · intro h0
    rw [hll]
    unfold encL
    rw [if_neg (by omega)]
    rfl
  · rw [hD, hL]
    exact hbody

/-- The SELECT MF command (`le = 0`, `resplen > 0`) in AES mode: the wrap
returns and the Le TLV is `97 01 00`. -/
theorem le_tlv_bytes_witness :
    ∃ w e mac8, epass2003_sm_wrap_apdu mirrorCrypto sessionAes selectMF smBlank = Exec.ok w ∧
      w.enc = some e ∧
      (selectMF.le ≠ 0 ∨ selectMF.resplen ≠ 0 →
        e.le_tlv.take e.le_tlv_len =
          if selectMF.le ≤ 0x7F then [0x97, 0x01, selectMF.le]
          else [0x97, 0x02, (selectMF.le / 256) % 256, selectMF.le % 256]) ∧
      (selectMF.le = 0 ∧ selectMF.resplen = 0 → e.le_tlv_len = 0) ∧
      w.sm.data.take w.sm.datalen =
        e.dataTLV.take e.data_tlv_len ++ e.le_tlv.take e.le_tlv_len ++ 0x8E :: 0x08 :: mac8 :=
  match (le_tlv_bytes mirrorCrypto mirrorCrypto_lengthPreserving sessionAes selectMF smBlank
      (by decide)).1 (by unfold Wrappable; decide) with
  | ⟨w, h⟩ =>
    match (le_tlv_bytes mirrorCrypto mirrorCrypto_lengthPreserving sessionAes selectMF smBlank
      (by decide)).2 w h with
    | ⟨e, mac8, p⟩ => ⟨w, e, mac8, h, p⟩

/-- C6 as stated fails for `le = 65536`, the largest `le` of an extended APDU:
`construct_le_tlv` stores `97 02 00 00`, and so does a whole wrap, while
`le div 256 = 256` is not a byte. -/
theorem le_tlv_bytes_counterexample :
    readMax.le ≠ 0 ∧ ¬ readMax.le ≤ 0x7F ∧
    (construct_le_tlv readMax (zeros 4096) 0 (zeros 256) KEY_TYPE_AES).toOption.map
      (fun r => r.2.1.take r.2.2) = some [0x97, 0x02, 0x00, 0x00] ∧
    ((epass2003_sm_wrap_apdu mirrorCrypto sessionAes readMax smBlank).toOption.bind
      (fun w => w.enc)).map (fun e => e.le_tlv.take e.le_tlv_len) =
        some [0x97, 0x02, 0x00, 0x00] ∧
    ([0x97, 0x02, 0x00, 0x00] : List Nat) ≠ [0x97, 0x02, readMax.le / 256, readMax.le % 256] := by
  refine ⟨by decide, by decide, by decide!, by decide!, by decide⟩
/-! ## C7, C8: the MAC input and the MAC -/

/-- C7: in a wrap in SM mode the MAC input `M` that `construct_mac_tlv` hands to
the cipher starts with the header block `CLA|0x0C, INS, P1, P2, 0x80, 0x00…` of
exactly `block_size` bytes (16 for AES, 8 for 3DES).  When the data TLV and the
Le TLV are both absent, `M` is the header block alone; otherwise `M` is the
header block, the data TLV, the Le TLV, `0x80` and fewer than `block_size`
zeros, its length a multiple of `block_size`.  The wrap returns on every input
that fits the buffers. -/
theorem mac_input_layout (c : Crypto) (hc : c.LengthPreserving) (s : Session)
    (plain sm : sc_apdu) (hsm : s.g_sm ≠ 0) :
    (Wrappable s plain sm → ∃ w, epass2003_sm_wrap_apdu c s plain sm = Exec.ok w) ∧
    ∀ w, epass2003_sm_wrap_apdu c s plain sm = Exec.ok w →
      ∃ e hdr, w.enc = some e ∧
        hdr = [u8 (plain.cla ||| 0x0C), u8 plain.ins, u8 plain.p1, u8 plain.p2, 0x80] ++
          zeros (blockSize s.g_smtype - 5) ∧
        hdr.length = blockSize s.g_smtype ∧
        (e.data_tlv_len = 0 ∧ e.le_tlv_len = 0 → e.mac_in = hdr) ∧
        (¬ (e.data_tlv_len = 0 ∧ e.le_tlv_len = 0) → ∃ k, k < blockSize s.g_smtype ∧
          e.mac_in = hdr ++ e.dataTLV.take e.data_tlv_len ++ e.le_tlv.take e.le_tlv_len ++
            0x80 :: zeros k ∧
          blockSize s.g_smtype ∣ e.mac_in.length) := by
  refine ⟨wrap_total c hc s plain sm hsm, ?_⟩
  intro w h
  obtain ⟨e, icv, mac8, he, _, _, _, _, _, _, _, _, hmin, hD, hdl, hL, hll, _⟩ :=
    wrap_sm_facts c hc s plain sm hsm w h
  have hbs := blockSize_cases s.g_smtype
  have hhdr : headerBlock (wrapPlain plain) (blockSize s.g_smtype) =
      [u8 (plain.cla ||| 0x0C), u8 plain.ins, u8 plain.p1, u8 plain.p2, 0x80] ++
        zeros (blockSize s.g_smtype - 5) := by
    unfold headerBlock wrapPlain u8
    simp only [Nat.mod_mod]
  have hlen := macInput_length c s (wrapPlain plain)
  rw [encD_wrapPlain, encL_wrapPlain] at hlen
  refine ⟨e, _, he, rfl, ?_, ?_, ?_⟩
  · rw [← hhdr]; exact headerBlock_length _ _ (by omega)
  · intro h0
    rw [hmin]
    unfold macInput
    simp only [encD_wrapPlain, encL_wrapPlain]
    rw [← hdl, ← hll, if_pos h0, hhdr]
  · intro h0
    have hpl := padLen_le (blockSize s.g_smtype)
      ((encD c s plain).length + (encL plain).length) hbs
    have hpg := padLen_gt (blockSize s.g_smtype)
      ((encD c s plain).length + (encL plain).length) hbs
    refine ⟨padLen (blockSize s.g_smtype) ((encD c s plain).length + (encL plain).length) -
      ((encD c s plain).length + (encL plain).length) - 1, by omega, ?_, ?_⟩
    · rw [hmin, hD, hL]
      unfold macInput
      simp only [encD_wrapPlain, encL_wrapPlain]
      rw [← hdl, ← hll, if_neg h0, hhdr]
    · rw [hmin, hlen]
      exact macLen_dvd _ _ _

/-- The SELECT MF command in AES mode: the wrap returns and the MAC input is laid
out as stated. -/
theorem mac_input_layout_witness :
    ∃ w e hdr, epass2003_sm_wrap_apdu mirrorCrypto sessionAes selectMF smBlank = Exec.ok w ∧
      w.enc = some e ∧
      hdr = [u8 (selectMF.cla ||| 0x0C), u8 selectMF.ins, u8 selectMF.p1, u8 selectMF.p2, 0x80] ++
        zeros (blockSize sessionAes.g_smtype - 5) ∧
      hdr.length = blockSize sessionAes.g_smtype ∧
      (e.data_tlv_len = 0 ∧ e.le_tlv_len = 0 → e.mac_in = hdr) ∧
      (¬ (e.data_tlv_len = 0 ∧ e.le_tlv_len = 0) → ∃ k, k < blockSize sessionAes.g_smtype ∧
        e.mac_in = hdr ++ e.dataTLV.take e.data_tlv_len ++ e.le_tlv.take e.le_tlv_len ++
          0x80 :: zeros k ∧
        blockSize sessionAes.g_smtype ∣ e.mac_in.length) :=
  match (mac_input_layout mirrorCrypto mirrorCrypto_lengthPreserving sessionAes selectMF smBlank
      (by decide)).1 (by unfold Wrappable; decide) with
  | ⟨w, h⟩ =>
    match (mac_input_layout mirrorCrypto mirrorCrypto_lengthPreserving sessionAes selectMF
      smBlank (by decide)).2 w h with
    | ⟨e, hdr, p⟩ => ⟨w, e, hdr, h, p⟩

/-- C8: in a wrap in SM mode the counter is incremented first, and the eight MAC
bytes stored behind `8E 08` in the MAC TLV are computed from the MAC input `M`
with the incremented counter as IV.  In AES mode they are the first eight bytes
of the last 16-byte block of AES-CBC under `g_sk_mac`.  In 3DES mode they are
`DES_E(g_sk_mac[0..8], DES_D(g_sk_mac[8..16], last))`, where `last` is the last
8-byte block of single-DES-CBC of `M` under `g_sk_mac[0..8]` with the first eight
counter bytes as IV, and the two final operations use a zero IV.  The wrap
returns on every input that fits the buffers. -/
theorem mac_value (c : Crypto) (hc : c.LengthPreserving) (s : Session) (plain sm : sc_apdu)
    (hsm : s.g_sm ≠ 0) :
    (Wrappable s plain sm → ∃ w, epass2003_sm_wrap_apdu c s plain sm = Exec.ok w) ∧
    ∀ w, epass2003_sm_wrap_apdu c s plain sm = Exec.ok w →
      ∃ e, w.enc = some e ∧
        increase_icv s.g_smtype s.g_icv_mac = Exec.ok w.session.g_icv_mac ∧
        e.mac_iv = w.session.g_icv_mac.take 16 ∧
        e.mac_tlv_len = 10 ∧
        e.mac_tlv.take e.mac_tlv_len = 0x8E :: 0x08 ::
          (if KEY_TYPE_AES = s.g_smtype then
            ((c.aes_128_cbc_enc (s.g_sk_mac.take 16) (w.session.g_icv_mac.take 16)
              e.mac_in).drop (e.mac_in.length - 16)).take 8
          else
            c.des_cbc_enc (s.g_sk_mac.take 8) (zeros 8)
              (c.des_cbc_dec ((s.g_sk_mac.drop 8).take 8) (zeros 8)
                ((c.des_cbc_enc (s.g_sk_mac.take 8) (w.session.g_icv_mac.take 8)
                  e.mac_in).drop (e.mac_in.length - 8)))) := by
  refine ⟨wrap_total c hc s plain sm hsm, ?_⟩
  intro w h
  obtain ⟨e, icv, mac8, he, hsmeq, _, hs, hicv, hl16, hiv, hm8, _, _, _, _, _, _, hM, _⟩ :=
    wrap_sm_facts c hc s plain sm hsm w h
  have hg : w.session.g_icv_mac = icv := by rw [hs]
  have hlen : e.mac_tlv_len = 10 := by
    obtain ⟨icv2, mac82, _, hw⟩ := (wrap_sm_iff c hc s plain sm hsm w).mp h
    subst hw
    cases he
    rfl
  refine ⟨e, he, by rw [hg]; exact hicv, by rw [hg]; exact hiv, hlen, ?_⟩
  rw [hM, hm8, hg]
  unfold macBytes
  rw [List.take_take, List.take_take]
  rfl

/-- The SELECT MF command in 3DES mode: the wrap returns and the MAC TLV holds
the retail MAC. -/
theorem mac_value_witness :
    ∃ w e, epass2003_sm_wrap_apdu mirrorCrypto sessionDes selectMF smBlank = Exec.ok w ∧
      w.enc = some e ∧
      increase_icv sessionDes.g_smtype sessionDes.g_icv_mac = Exec.ok w.session.g_icv_mac ∧
      e.mac_iv = w.session.g_icv_mac.take 16 ∧
      e.mac_tlv_len = 10 ∧
      e.mac_tlv.take e.mac_tlv_len = 0x8E :: 0x08 ::
        (if KEY_TYPE_AES = sessionDes.g_smtype then
          ((mirrorCrypto.aes_128_cbc_enc (sessionDes.g_sk_mac.take 16)
            (w.session.g_icv_mac.take 16) e.mac_in).drop (e.mac_in.length - 16)).take 8
        else
          mirrorCrypto.des_cbc_enc (sessionDes.g_sk_mac.take 8) (zeros 8)
            (mirrorCrypto.des_cbc_dec ((sessionDes.g_sk_mac.drop 8).take 8) (zeros 8)
              ((mirrorCrypto.des_cbc_enc (sessionDes.g_sk_mac.take 8)
                (w.session.g_icv_mac.take 8) e.mac_in).drop (e.mac_in.length - 8)))) :=
  match (mac_value mirrorCrypto mirrorCrypto_lengthPreserving sessionDes selectMF smBlank
      (by decide)).1 (by unfold Wrappable; decide) with
  | ⟨w, h⟩ =>
    match (mac_value mirrorCrypto mirrorCrypto_lengthPreserving sessionDes selectMF smBlank
      (by decide)).2 w h with
    | ⟨e, p⟩ => ⟨w, e, h, p⟩
/-! ## C9, C10: the SM APDU -/

/-- C10 (amended): for every plain APDU wrapped in SM mode, the SM data is the
data TLV, the Le TLV and the MAC TLV in this order; the data TLV is present,
and then starts with `0x87`, iff the plain APDU has `lc ≠ 0`; the Le TLV is
present, and then starts with `0x97`, iff the plain APDU has `le ≠ 0` or
`resplen ≠ 0`.  So the SM data starts with `0x87` iff `lc ≠ 0`, and the byte
behind the data TLV is `0x97` iff `le ≠ 0` or `resplen ≠ 0`.  The wrap returns
on every input that fits the buffers. -/
theorem tlv_presence (c : Crypto) (hc : c.LengthPreserving) (s : Session) (plain sm : sc_apdu)
    (hsm : s.g_sm ≠ 0) :
    (Wrappable s plain sm → ∃ w, epass2003_sm_wrap_apdu c s plain sm = Exec.ok w) ∧
    ∀ w, epass2003_sm_wrap_apdu c s plain sm = Exec.ok w →
      ∃ e mac8, w.enc = some e ∧
        w.sm.data.take w.sm.datalen =
          e.dataTLV.take e.data_tlv_len ++ e.le_tlv.take e.le_tlv_len ++ 0x8E :: 0x08 :: mac8 ∧
        (e.dataTLV.take e.data_tlv_len).length = e.data_tlv_len ∧
        (e.le_tlv.take e.le_tlv_len).length = e.le_tlv_len ∧
        (e.data_tlv_len ≠ 0 ↔ plain.lc ≠ 0) ∧
        (e.le_tlv_len ≠ 0 ↔ (plain.le ≠ 0 ∨ plain.resplen ≠ 0)) ∧
        ((w.sm.data.take w.sm.datalen).head? = some 0x87 ↔ plain.lc ≠ 0) ∧
        (((w.sm.data.take w.sm.datalen).drop e.data_tlv_len).head? = some 0x97 ↔
          (plain.le ≠ 0 ∨ plain.resplen ≠ 0)) := by
  refine ⟨wrap_total c hc s plain sm hsm, ?_⟩
  intro w h
  obtain ⟨e, icv, mac8, he, _, _, _, _, _, _, _, _, _, hD, hdl, hL, hll, _, hbody, _⟩ :=
    wrap_sm_facts c hc s plain sm hsm w h
  have hDcases : (plain.lc ≠ 0 ∧ ∃ t, encD c s plain = 0x87 :: t) ∨
      (¬ plain.lc ≠ 0 ∧ encD c s plain = []) := by
    unfold encD dataTlvBytes
    by_cases h0 : plain.lc ≠ 0
    · rw [if_pos h0]; exact Or.inl ⟨h0, _, rfl⟩
    · rw [if_neg h0]; exact Or.inr ⟨h0, rfl⟩
  have hLcases : ((plain.le ≠ 0 ∨ plain.resplen ≠ 0) ∧ ∃ t, encL plain = 0x97 :: t) ∨
      (¬ (plain.le ≠ 0 ∨ plain.resplen ≠ 0) ∧ encL plain = []) := by
    unfold encL leTlvBytes
    by_cases h0 : plain.le ≠ 0 ∨ plain.resplen ≠ 0
    · rw [if_pos (by omega)]
      refine Or.inl ⟨h0, ?_⟩
      split
      · exact ⟨_, rfl⟩
      · exact ⟨_, rfl⟩
    · rw [if_neg (by omega)]; exact Or.inr ⟨h0, rfl⟩
  refine ⟨e, mac8, he, by rw [hD, hL]; exact hbody, by rw [hD, hdl], by rw [hL, hll],
    ?_, ?_, ?_, ?_⟩
  · rw [hdl]
    rcases hDcases with ⟨h0, t, ht⟩ | ⟨h0, ht⟩
    · rw [ht]; exact ⟨fun _ => h0, fun _ => by simp⟩
    · rw [ht]; exact ⟨fun hx => absurd rfl hx, fun hx => absurd hx h0⟩
  · rw [hll]
    rcases hLcases with ⟨h0, t, ht⟩ | ⟨h0, ht⟩
    · rw [ht]; exact ⟨fun _ => h0, fun _ => by simp⟩
    · rw [ht]; exact ⟨fun hx => absurd rfl hx, fun hx => absurd hx h0⟩
  · rw [hbody]
    rcases hDcases with ⟨h0, t, ht⟩ | ⟨h0, ht⟩
    · rw [ht]; exact ⟨fun _ => h0, fun _ => rfl⟩
    · rw [ht]
      refine ⟨fun hx => ?_, fun hx => absurd hx h0⟩
      rcases hLcases with ⟨_, t, ht2⟩ | ⟨_, ht2⟩
      · rw [ht2] at hx; exact absurd hx (by simp)
      · rw [ht2] at hx; exact absurd hx (by simp)
  · rw [hbody, hdl, List.append_assoc, List.drop_left]
    rcases hLcases with ⟨h0, t, ht⟩ | ⟨h0, ht⟩
    · rw [ht]; exact ⟨fun _ => h0, fun _ => rfl⟩
    · rw [ht]
      exact ⟨fun hx => absurd hx (by simp), fun hx => absurd hx h0⟩

/-- The SELECT MF command in AES mode: the wrap returns and both TLVs are
present. -/
theorem tlv_presence_witness :
    ∃ w e mac8, epass2003_sm_wrap_apdu mirrorCrypto sessionAes selectMF smBlank = Exec.ok w ∧
      w.enc = some e ∧
      w.sm.data.take w.sm.datalen =
        e.dataTLV.take e.data_tlv_len ++ e.le_tlv.take e.le_tlv_len ++ 0x8E :: 0x08 :: mac8 ∧
      (e.dataTLV.take e.data_tlv_len).length = e.data_tlv_len ∧
      (e.le_tlv.take e.le_tlv_len).length = e.le_tlv_len ∧
      (e.data_tlv_len ≠ 0 ↔ selectMF.lc ≠ 0) ∧
      (e.le_tlv_len ≠ 0 ↔ (selectMF.le ≠ 0 ∨ selectMF.resplen ≠ 0)) ∧
      ((w.sm.data.take w.sm.datalen).head? = some 0x87 ↔ selectMF.lc ≠ 0) ∧
      (((w.sm.data.take w.sm.datalen).drop e.data_tlv_len).head? = some 0x97 ↔
        (selectMF.le ≠ 0 ∨ selectMF.resplen ≠ 0)) :=
  match (tlv_presence mirrorCrypto mirrorCrypto_lengthPreserving sessionAes selectMF smBlank
      (by decide)).1 (by unfold Wrappable; decide) with
  | ⟨w, h⟩ =>
    match (tlv_presence mirrorCrypto mirrorCrypto_lengthPreserving sessionAes selectMF smBlank
      (by decide)).2 w h with
    | ⟨e, mac8, p⟩ => ⟨w, e, mac8, h, p⟩

/-- C10 as stated fails for the SELECT MF command, which has `le = 0` and a
response buffer: its SM data is `87 11 01 <cipher16> 97 01 00 8E 08 <mac8>`, with
an Le TLV although `le > 0` does not hold. -/
theorem tlv_presence_counterexample :
    ¬ selectMF.le > 0 ∧
    ((epass2003_sm_wrap_apdu mirrorCrypto sessionAes selectMF smBlank).toOption.bind
      (fun w => w.enc)).map (fun e => (e.data_tlv_len, e.le_tlv.take e.le_tlv_len)) =
        some (19, [0x97, 0x01, 0x00]) ∧
    (epass2003_sm_wrap_apdu mirrorCrypto sessionAes selectMF smBlank).toOption.map
      (fun w => ((w.sm.data.take w.sm.datalen).drop 19).take 3) = some [0x97, 0x01, 0x00] := by
  refine ⟨by decide, by decide!, by decide!⟩
/-! ## C11 - C15: the handshake -/

/-- C11: given a successful INITIALIZE UPDATE exchange (the transport returns no
error, the status check accepts the status word, and the reply `R` has 28
bytes), `gen_init_key` returns, and it returns `SC_SUCCESS` exactly when
`R[20..28]` equals bytes 0..8 of the last block of the CBC encryption, under the
new session key `g_sk_enc` with a zero IV, of `g_random ‖ R[12..20] ‖ 0x80 ‖ zeros`;
that input has 32 bytes for AES and 24 bytes otherwise, the cipher text has the
same length, and on a mismatch the return value is `SC_ERROR_CARD_CMD_FAILED`. -/
theorem gen_init_key_verdict (h : Host) (c : Crypto) (e : Ecb) (d : Driver)
    (key_enc key_mac result : List Nat) (key_type : Nat)
    (hc : c.LengthPreserving) (he : e.LengthPreserving) (hres : 28 ≤ result.length)
    (hk1 : d.session.g_sk_enc.length = 16) (hk2 : d.session.g_sk_mac.length = 16)
    (rep : Reply) (hrep : h.card d.sent (passThrough (initUpdateApdu result) h.sm_apdu) = rep)
    (hr : ¬ rep.r < 0) (hsw : h.sc_check_sw rep.sw1 rep.sw2 = SC_SUCCESS)
    (hR : rep.data.length = 28) :
    ∃ r d1 out, gen_init_key h c e d key_enc key_mac result key_type = Exec.ok (r, d1, out) ∧
      out.take 28 = rep.data ∧
      (g_random ++ (rep.data.drop 12).take 8 ++ 0x80 :: zeros (blockLen key_type - 1)).length
        = 16 + blockLen key_type ∧
      (key_type = KEY_TYPE_AES → 16 + blockLen key_type = 32) ∧
      (key_type ≠ KEY_TYPE_AES → 16 + blockLen key_type = 24) ∧
      (cbcEnc c d1.session.g_sk_enc
        (g_random ++ (rep.data.drop 12).take 8 ++ 0x80 :: zeros (blockLen key_type - 1))
        key_type).length = 16 + blockLen key_type ∧
      (r = SC_SUCCESS ↔
        (rep.data.drop 20).take 8 =
          ((cbcEnc c d1.session.g_sk_enc
            (g_random ++ (rep.data.drop 12).take 8 ++ 0x80 :: zeros (blockLen key_type - 1))
            key_type).drop (16 + blockLen key_type - blockLen key_type)).take 8) ∧
      ((rep.data.drop 20).take 8 ≠
          ((cbcEnc c d1.session.g_sk_enc
            (g_random ++ (rep.data.drop 12).take 8 ++ 0x80 :: zeros (blockLen key_type - 1))
            key_type).drop (16 + blockLen key_type - blockLen key_type)).take 8 →
        r = SC_ERROR_CARD_CMD_FAILED) := by
  have hrun := gen_init_key_run h c e d key_enc key_mac result key_type hc he hres hk1 hk2 rep
    hrep hr hsw hR
  have hCR : ((rep.data.drop 12).take 8).length = 8 := by
    rw [List.length_take, List.length_drop]; omega
  have hcil := cryptInput_length g_random ((rep.data.drop 12).take 8) key_type (by rfl) hCR
  have hbl := blockLen_cases key_type
  have hsub : 16 + blockLen key_type - blockLen key_type = 16 := by omega
  refine ⟨_, _, _, hrun, ?_, hcil, ?_, ?_, ?_, ?_, ?_⟩
  · rw [← hR, List.take_left]
  · intro hk
    unfold blockLen
    rw [if_pos hk]
  · intro hk
    unfold blockLen
    rw [if_neg hk]
  · exact (cbcEnc_length c hc _ _ _ (by
      show blockLen key_type ∣ (cryptInput g_random ((rep.data.drop 12).take 8) key_type).length
      rw [hcil]
      rcases hbl with ⟨_, hb⟩ | ⟨_, hb⟩ <;> rw [hb] <;> decide)).trans hcil
  · rw [hsub]
    show _ ↔ (rep.data.drop 20).take 8 =
      cryptogram8 c (ecbKey e key_enc (derivationData rep.data) key_type) g_random
        ((rep.data.drop 12).take 8) key_type
    constructor
    · intro hs
      by_contra hne
      rw [if_pos (fun h2 => hne h2.symm)] at hs
      exact absurd hs (by decide)
    · intro heq
      rw [if_neg (fun hne => hne heq.symm)]
  · rw [hsub]
    intro hne
    show (if cryptogram8 c (ecbKey e key_enc (derivationData rep.data) key_type) g_random
        ((rep.data.drop 12).take 8) key_type ≠ (rep.data.drop 20).take 8
      then SC_ERROR_CARD_CMD_FAILED else SC_SUCCESS) = SC_ERROR_CARD_CMD_FAILED
    rw [if_pos (fun h2 => hne h2.symm)]

/-- Scenario S1 with the stand-in ciphers: host random `BF C3 29 11 C7 18 C3 40`,
card random `11 22 33 44 55 66 77 88` and the matching card cryptogram; the call
returns `SC_SUCCESS`. -/
theorem gen_init_key_verdict_witness :
    ∃ d1 out, gen_init_key sampleHost mirrorCrypto mirrorEcb driver0 g_init_key_enc
      g_init_key_mac (zeros 256) KEY_TYPE_AES = Exec.ok (SC_SUCCESS, d1, out) ∧
      (out.drop 12).take 8 = cardRandom :=
  match gen_init_key_verdict sampleHost mirrorCrypto mirrorEcb driver0 g_init_key_enc
      g_init_key_mac (zeros 256) KEY_TYPE_AES mirrorCrypto_lengthPreserving
      mirrorEcb_lengthPreserving (by rw [zeros_length]; decide) (by rfl) (by rfl) _ rfl
      (by decide) (by decide) (by rfl) with
  | ⟨_, d1, out, hrun, hout, _, _, _, _, hiff, _⟩ =>
    ⟨d1, out, by rw [hrun, hiff.mpr (by rfl)], by
      have h1 : (out.take 28).drop 12 = (out.drop 12).take 16 := by
        rw [List.drop_take]
      have h2 : ((out.take 28).drop 12).take 8 = (out.drop 12).take 8 := by
        rw [h1, List.take_take]; rfl
      rw [← h2, hout]; rfl⟩

/-- C12: after a successful INITIALIZE UPDATE exchange with reply `R` of 28 bytes,
`gen_init_key` returns with the session keys `g_sk_enc = ECB_E(key_enc, DD)` and
`g_sk_mac = ECB_E(key_mac, DD)` over the derivation data
`DD = R[16..20] ‖ g_random[0..4] ‖ R[12..16] ‖ g_random[4..8]` (16 bytes); the
cipher is AES-128 with the first 16 key bytes when the key type is AES and
otherwise 3DES with the 24-byte key `key[0..16] ‖ key[0..8]`. -/
theorem session_key_derivation (h : Host) (c : Crypto) (e : Ecb) (d : Driver)
    (key_enc key_mac result : List Nat) (key_type : Nat)
    (hc : c.LengthPreserving) (he : e.LengthPreserving) (hres : 28 ≤ result.length)
    (hk1 : d.session.g_sk_enc.length = 16) (hk2 : d.session.g_sk_mac.length = 16)
    (rep : Reply) (hrep : h.card d.sent (passThrough (initUpdateApdu result) h.sm_apdu) = rep)
    (hr : ¬ rep.r < 0) (hsw : h.sc_check_sw rep.sw1 rep.sw2 = SC_SUCCESS)
    (hR : rep.data.length = 28) :
    ∃ r d1 out, gen_init_key h c e d key_enc key_mac result key_type = Exec.ok (r, d1, out) ∧
      ((rep.data.drop 16).take 4 ++ g_random.take 4 ++ (rep.data.drop 12).take 4 ++
        (g_random.drop 4).take 4).length = 16 ∧
      (key_type = KEY_TYPE_AES →
        d1.session.g_sk_enc = e.aes_128_ecb_enc (key_enc.take 16)
          ((rep.data.drop 16).take 4 ++ g_random.take 4 ++ (rep.data.drop 12).take 4 ++
            (g_random.drop 4).take 4) ∧
        d1.session.g_sk_mac = e.aes_128_ecb_enc (key_mac.take 16)
          ((rep.data.drop 16).take 4 ++ g_random.take 4 ++ (rep.data.drop 12).take 4 ++
            (g_random.drop 4).take 4)) ∧
      (key_type ≠ KEY_TYPE_AES →
        d1.session.g_sk_enc = e.des_ede3_ecb_enc (key_enc.take 16 ++ key_enc.take 8)
          ((rep.data.drop 16).take 4 ++ g_random.take 4 ++ (rep.data.drop 12).take 4 ++
            (g_random.drop 4).take 4) ∧
        d1.session.g_sk_mac = e.des_ede3_ecb_enc (key_mac.take 16 ++ key_mac.take 8)
          ((rep.data.drop 16).take 4 ++ g_random.take 4 ++ (rep.data.drop 12).take 4 ++
            (g_random.drop 4).take 4)) := by
  have hrun := gen_init_key_run h c e d key_enc key_mac result key_type hc he hres hk1 hk2 rep
    hrep hr hsw hR
  refine ⟨_, _, _, hrun, ?_, ?_, ?_⟩
  · simp only [List.length_append, List.length_take, List.length_drop, hR]
    rfl
  · intro hk
    have hk2 : KEY_TYPE_AES = key_type := hk.symm
    refine ⟨?_, ?_⟩
    · show ecbKey e key_enc (derivationData rep.data) key_type = _
      unfold ecbKey
      rw [if_pos hk2]
      rfl
    · show ecbKey e key_mac (derivationData rep.data) key_type = _
      unfold ecbKey
      rw [if_pos hk2]
      rfl
  · intro hk
    have hk2 : ¬ KEY_TYPE_AES = key_type := fun h2 => hk h2.symm
    refine ⟨?_, ?_⟩
    · show ecbKey e key_enc (derivationData rep.data) key_type = _
      unfold ecbKey
      rw [if_neg hk2]
      rfl
    · show ecbKey e key_mac (derivationData rep.data) key_type = _
      unfold ecbKey
      rw [if_neg hk2]
      rfl

/-- Scenario S1: with card random `11 22 33 44 55 66 77 88` the derivation data is
`55 66 77 88 BF C3 29 11 11 22 33 44 C7 18 C3 40`; under the stand-in cipher,
which reverses its input, both session keys are these bytes in reverse. -/
theorem session_key_derivation_witness :
    (sampleHost.card driver0.sent (passThrough (initUpdateApdu (zeros 256))
        sampleHost.sm_apdu)).data.drop 12 = cardRandom ++ cardRandom.reverse ∧
    ∃ r d1 out, gen_init_key sampleHost mirrorCrypto mirrorEcb driver0 g_init_key_enc
      g_init_key_mac (zeros 256) KEY_TYPE_AES = Exec.ok (r, d1, out) ∧
      d1.session.g_sk_enc =
        [0x55, 0x66, 0x77, 0x88, 0xBF, 0xC3, 0x29, 0x11,
         0x11, 0x22, 0x33, 0x44, 0xC7, 0x18, 0xC3, 0x40].reverse ∧
      d1.session.g_sk_mac =
        [0x55, 0x66, 0x77, 0x88, 0xBF, 0xC3, 0x29, 0x11,
         0x11, 0x22, 0x33, 0x44, 0xC7, 0x18, 0xC3, 0x40].reverse :=
  ⟨by rfl,
   match session_key_derivation sampleHost mirrorCrypto mirrorEcb driver0 g_init_key_enc
      g_init_key_mac (zeros 256) KEY_TYPE_AES mirrorCrypto_lengthPreserving
      mirrorEcb_lengthPreserving (by rw [zeros_length]; decide) (by rfl) (by rfl) _ rfl
      (by decide) (by decide) (by rfl) with
   | ⟨r, d1, out, hrun, _, haes, _⟩ =>
     ⟨r, d1, out, hrun, (haes rfl).1.trans (by rfl), (haes rfl).2.trans (by rfl)⟩⟩

/-- C13 (amended): on a handshake whose INITIALIZE UPDATE exchange succeeds with a
reply `R` of 28 bytes and whose cryptogram check passes, `mutural_auth` returns
and issues, after INITIALIZE UPDATE, exactly one more APDU: EXTERNAL AUTHENTICATE
with `CLA = 0x84`, `INS = 0x82`, `P1 = 0x03`, `P2 = 0`, `Lc = 16`, whose 16 data
bytes are `HostCrypt ‖ IcvSeed[0..8]`, where `HostCrypt` is bytes 16..24 of the
CBC encryption under `g_sk_enc`, zero IV, of `R[12..20] ‖ g_random ‖ 0x80 ‖ zeros`:
the card random comes first, so it is a second cryptogram and not the one that
was compared with `R[20..28]`. -/
theorem ext_auth_data (h : Host) (c : Crypto) (e : Ecb) (d : Driver)
    (key_enc key_mac : List Nat)
    (hc : c.LengthPreserving) (he : e.LengthPreserving)
    (hk1 : d.session.g_sk_enc.length = 16) (hk2 : d.session.g_sk_mac.length = 16)
    (hicv : d.session.g_icv_mac.length = 16)
    (rep : Reply) (hrep : h.card d.sent (passThrough (initUpdateApdu (zeros 256)) h.sm_apdu) = rep)
    (hr : ¬ rep.r < 0) (hsw : h.sc_check_sw rep.sw1 rep.sw2 = SC_SUCCESS)
    (hR : rep.data.length = 28)
    (hcheck : ((cbcEnc c (ecbKey e key_enc (derivationData rep.data) d.session.g_smtype)
        (g_random ++ (rep.data.drop 12).take 8 ++
          0x80 :: zeros (blockLen d.session.g_smtype - 1)) d.session.g_smtype).drop 16).take 8 =
      (rep.data.drop 20).take 8) :
    ∃ r d2 apdu, mutural_auth h c e d key_enc key_mac = Exec.ok (r, d2) ∧
      d2.issued = d.issued ++ [initUpdateApdu (zeros 256), apdu] ∧
      apdu.cla = 0x84 ∧ apdu.ins = 0x82 ∧ apdu.p1 = 0x03 ∧ apdu.p2 = 0x00 ∧ apdu.lc = 16 ∧
      apdu.datalen = 16 ∧
      apdu.data.take 8 =
        ((cbcEnc c d2.session.g_sk_enc
          ((rep.data.drop 12).take 8 ++ g_random ++
            0x80 :: zeros (blockLen d.session.g_smtype - 1)) d.session.g_smtype).drop 16).take 8 ∧
      (apdu.data.drop 8).take 8 =
        icvSeed c d2.session.g_sk_mac (apdu.data.take 8) d.session.g_smtype ∧
      d2.session.g_sk_enc = ecbKey e key_enc (derivationData rep.data) d.session.g_smtype ∧
      d2.session.g_sk_mac = ecbKey e key_mac (derivationData rep.data) d.session.g_smtype := by
  have hCR : ((rep.data.drop 12).take 8).length = 8 := by
    rw [List.length_take, List.length_drop]; omega
  have hrun := mutural_auth_run h c e d key_enc key_mac hc he hk1 hk2 rep hrep hr hsw hR hcheck
  have hv := verify_init_key_run h c
    { logged h d (initUpdateApdu (zeros 256)) with
      session := { d.session with
        g_sk_enc := ecbKey e key_enc (derivationData rep.data) d.session.g_smtype,
        g_sk_mac := ecbKey e key_mac (derivationData rep.data) d.session.g_smtype } }
    ((rep.data.drop 12).take 8) d.session.g_smtype hc hCR hicv
  rw [← hrun] at hv
  have hH := cryptogram8_length c hc
    (ecbKey e key_enc (derivationData rep.data) d.session.g_smtype)
    ((rep.data.drop 12).take 8) g_random d.session.g_smtype hCR (by rfl)
  have hS := icvSeed_length c hc
    (ecbKey e key_mac (derivationData rep.data) d.session.g_smtype)
    (cryptogram8 c (ecbKey e key_enc (derivationData rep.data) d.session.g_smtype)
      ((rep.data.drop 12).take 8) g_random d.session.g_smtype) d.session.g_smtype hH
  have ht8 : ∀ (H S Z : List Nat), H.length = 8 → (H ++ S ++ Z).take 8 = H := by
    intro H S Z hl
    rw [List.append_assoc, List.take_append_of_le_length (by omega),
      List.take_of_length_le (by omega)]
  have hd8 : ∀ (H S Z : List Nat), H.length = 8 → S.length = 8 →
      ((H ++ S ++ Z).drop 8).take 8 = S := by
    intro H S Z hl hs
    rw [List.append_assoc, List.drop_append_of_le_length (by omega),
      List.drop_of_length_le (by omega), List.nil_append,
      List.take_append_of_le_length (by omega), List.take_of_length_le (by omega)]
  refine ⟨_, _, extAuthApdu (cryptogram8 c
      (ecbKey e key_enc (derivationData rep.data) d.session.g_smtype)
      ((rep.data.drop 12).take 8) g_random d.session.g_smtype ++
    icvSeed c (ecbKey e key_mac (derivationData rep.data) d.session.g_smtype)
      (cryptogram8 c (ecbKey e key_enc (derivationData rep.data) d.session.g_smtype)
        ((rep.data.drop 12).take 8) g_random d.session.g_smtype) d.session.g_smtype ++
    zeros 240), hv, ?_, rfl, rfl, rfl, rfl, rfl, rfl, ?_, ?_, rfl, rfl⟩
  · show d.issued ++ [initUpdateApdu (zeros 256)] ++ [_] = _
    rw [List.append_assoc]
    rfl
  · exact ht8 _ _ _ hH
  · show ((_ ++ _ ++ zeros 240).drop 8).take 8 = icvSeed c _ ((_ ++ _ ++ zeros 240).take 8) _
    rw [hd8 _ _ _ hH hS, ht8 _ _ _ hH]

/-- Scenario S1 with the stand-in ciphers in AES mode: the handshake passes the
cryptogram check and EXTERNAL AUTHENTICATE is the second APDU issued. -/
theorem ext_auth_data_witness :
    ∃ r d2 apdu, mutural_auth sampleHost mirrorCrypto mirrorEcb driverAes g_init_key_enc
        g_init_key_mac = Exec.ok (r, d2) ∧
      d2.issued = [initUpdateApdu (zeros 256), apdu] ∧
      apdu.cla = 0x84 ∧ apdu.ins = 0x82 ∧ apdu.p1 = 0x03 ∧ apdu.p2 = 0x00 ∧ apdu.lc = 16 ∧
      apdu.data.take 8 = g_random.reverse :=
  match ext_auth_data sampleHost mirrorCrypto mirrorEcb driverAes g_init_key_enc
      g_init_key_mac mirrorCrypto_lengthPreserving mirrorEcb_lengthPreserving (by rfl) (by rfl)
      (by rfl) _ rfl (by decide) (by decide) (by rfl) (by rfl) with
  | ⟨r, d2, apdu, hrun, hiss, h1, h2, h3, h4, h5, _, hdata, _, _, _⟩ =>
    ⟨r, d2, apdu, hrun, hiss, h1, h2, h3, h4, h5, hdata.trans (by rfl)⟩

/-- C13 as stated fails: in scenario S1 with the stand-in ciphers the handshake
passes the cryptogram check and both exchanges succeed, the card cryptogram
`R[20..28]` is `88 77 66 55 44 33 22 11`, and the first 8 data bytes of EXTERNAL
AUTHENTICATE are `40 C3 18 C7 11 29 C3 BF`. -/
theorem ext_auth_data_counterexample :
    (mutural_auth sampleHost mirrorCrypto mirrorEcb driverAes g_init_key_enc
        g_init_key_mac).toOption.map
      (fun p => (p.1, p.2.issued.map (fun a => (a.ins, a.data.take 8)),
        p.2.sent.length)) =
      some (SC_SUCCESS,
        [(0x50, g_random), (0x82, [0x40, 0xC3, 0x18, 0xC7, 0x11, 0x29, 0xC3, 0xBF])], 2) ∧
    ((sampleHost.card [] (passThrough (initUpdateApdu (zeros 256))
        sampleHost.sm_apdu)).data.drop 20).take 8 =
      [0x88, 0x77, 0x66, 0x55, 0x44, 0x33, 0x22, 0x11] ∧
    (gen_init_key sampleHost mirrorCrypto mirrorEcb driverAes g_init_key_enc g_init_key_mac
        (zeros 256) KEY_TYPE_AES).toOption.map (fun p => p.1) = some SC_SUCCESS := by
  refine ⟨by decide!, by decide, by decide!⟩

/-- C14: `verify_init_key` returns, and afterwards `g_icv_mac[0..8]` is the ICV
seed and `g_icv_mac[8..16]` is zero.  With `X = 84 82 03 00 10 ‖ HostCrypt ‖ 80 00
00` (16 bytes, `HostCrypt` being the first 8 data bytes of the EXTERNAL
AUTHENTICATE APDU), the seed is bytes 0..8 of the AES-CBC encryption of `X` under
`g_sk_mac` with a zero IV in AES mode, and bytes 8..16 of the 3DES-CBC encryption
otherwise; the same 8 bytes are data bytes 8..16 of the EXTERNAL AUTHENTICATE
APDU. -/
theorem icv_seed (h : Host) (c : Crypto) (d : Driver) (ran_key : List Nat) (key_type : Nat)
    (hc : c.LengthPreserving) (hran : ran_key.length = 8)
    (hicv : d.session.g_icv_mac.length = 16) :
    ∃ r d2 apdu, verify_init_key h c d ran_key key_type = Exec.ok (r, d2) ∧
      d2.issued = d.issued ++ [apdu] ∧ apdu.ins = 0x82 ∧
      d2.session.g_sk_mac = d.session.g_sk_mac ∧
      apdu.data.take 8 =
        ((cbcEnc c d.session.g_sk_enc
          (ran_key ++ g_random ++ 0x80 :: zeros (blockLen key_type - 1)) key_type).drop 16).take 8 ∧
      ([0x84, 0x82, 0x03, 0x00, 0x10] ++ apdu.data.take 8 ++ [0x80, 0x00, 0x00]).length = 16 ∧
      d2.session.g_icv_mac.length = 16 ∧
      d2.session.g_icv_mac.drop 8 = zeros 8 ∧
      (apdu.data.drop 8).take 8 = d2.session.g_icv_mac.take 8 ∧
      (key_type = KEY_TYPE_AES →
        d2.session.g_icv_mac.take 8 =
          (aes128_encrypt_cbc c d.session.g_sk_mac (zeros 16)
            ([0x84, 0x82, 0x03, 0x00, 0x10] ++ apdu.data.take 8 ++ [0x80, 0x00, 0x00])).take 8) ∧
      (key_type ≠ KEY_TYPE_AES →
        d2.session.g_icv_mac.take 8 =
          ((des3_encrypt_cbc c d.session.g_sk_mac 16 (zeros 16)
            ([0x84, 0x82, 0x03, 0x00, 0x10] ++ apdu.data.take 8 ++
              [0x80, 0x00, 0x00])).drop 8).take 8) := by
  have hv := verify_init_key_run h c d ran_key key_type hc hran hicv
  have hH := cryptogram8_length c hc d.session.g_sk_enc ran_key g_random key_type hran
    (by rfl)
  have hS := icvSeed_length c hc d.session.g_sk_mac
    (cryptogram8 c d.session.g_sk_enc ran_key g_random key_type) key_type hH
  generalize hHe : cryptogram8 c d.session.g_sk_enc ran_key g_random key_type = H
    at hv hH hS
  have ht8 : (H ++ icvSeed c d.session.g_sk_mac H key_type ++ zeros 240).take 8 = H := by
    rw [List.append_assoc, List.take_append_of_le_length (by omega),
      List.take_of_length_le (by omega)]
  have hd8 : ((H ++ icvSeed c d.session.g_sk_mac H key_type ++ zeros 240).drop 8).take 8 =
      icvSeed c d.session.g_sk_mac H key_type := by
    rw [List.append_assoc, List.drop_append_of_le_length (by omega),
      List.drop_of_length_le (by omega), List.nil_append,
      List.take_append_of_le_length (by omega), List.take_of_length_le (by omega)]
  have hi8 : (icvSeed c d.session.g_sk_mac H key_type ++ zeros 8).take 8 =
      icvSeed c d.session.g_sk_mac H key_type := by
    rw [List.take_append_of_le_length (by omega), List.take_of_length_le (by omega)]
  refine ⟨_, _, extAuthApdu (H ++ icvSeed c d.session.g_sk_mac H key_type ++ zeros 240), hv,
    rfl, rfl, rfl, ht8.trans hHe.symm, ?_, ?_, ?_, ?_, ?_, ?_⟩
  · show ([0x84, 0x82, 0x03, 0x00, 0x10] ++ (H ++ icvSeed c d.session.g_sk_mac H key_type ++
      zeros 240).take 8 ++ [0x80, 0x00, 0x00]).length = 16
    rw [ht8]
    exact authBlock_length H hH
  · show (icvSeed c d.session.g_sk_mac H key_type ++ zeros 8).length = 16
    rw [List.length_append, hS, zeros_length]
  · show (icvSeed c d.session.g_sk_mac H key_type ++ zeros 8).drop 8 = zeros 8
    rw [List.drop_append_of_le_length (by omega), List.drop_of_length_le (by omega),
      List.nil_append]
  · show ((H ++ icvSeed c d.session.g_sk_mac H key_type ++ zeros 240).drop 8).take 8 =
      (icvSeed c d.session.g_sk_mac H key_type ++ zeros 8).take 8
    rw [hd8, hi8]
  · intro hk
    show (icvSeed c d.session.g_sk_mac H key_type ++ zeros 8).take 8 =
      (aes128_encrypt_cbc c d.session.g_sk_mac (zeros 16)
        ([0x84, 0x82, 0x03, 0x00, 0x10] ++ (H ++ icvSeed c d.session.g_sk_mac H key_type ++
          zeros 240).take 8 ++ [0x80, 0x00, 0x00])).take 8
    rw [hi8, ht8]
    unfold icvSeed cbcEnc
    rw [if_pos hk.symm, if_pos hk.symm]
    rfl
  · intro hk
    have hk2 : ¬ KEY_TYPE_AES = key_type := fun h2 => hk h2.symm
    show (icvSeed c d.session.g_sk_mac H key_type ++ zeros 8).take 8 =
      ((des3_encrypt_cbc c d.session.g_sk_mac 16 (zeros 16)
        ([0x84, 0x82, 0x03, 0x00, 0x10] ++ (H ++ icvSeed c d.session.g_sk_mac H key_type ++
          zeros 240).take 8 ++ [0x80, 0x00, 0x00])).drop 8).take 8
    rw [hi8, ht8]
    unfold icvSeed cbcEnc
    rw [if_neg hk2, if_neg hk2]
    rfl

/-- Scenario S1 with the stand-in ciphers in AES mode: `X` is `84 82 03 00 10 40 C3
18 C7 11 29 C3 BF 80 00 00`, its cipher is `X` reversed, and `g_icv_mac` becomes
`00 00 80 BF C3 29 11 C7` followed by eight zeros. -/
theorem icv_seed_witness :
    ∃ r d2, verify_init_key sampleHost mirrorCrypto driverAes cardRandom KEY_TYPE_AES =
        Exec.ok (r, d2) ∧
      d2.session.g_icv_mac.take 8 = [0x00, 0x00, 0x80, 0xBF, 0xC3, 0x29, 0x11, 0xC7] ∧
      d2.session.g_icv_mac.drop 8 = zeros 8 :=
  match icv_seed sampleHost mirrorCrypto driverAes cardRandom KEY_TYPE_AES
      mirrorCrypto_lengthPreserving (by rfl) (by rfl) with
  | ⟨r, d2, _, hrun, _, _, _, hdata, _, _, hz, _, haes, _⟩ =>
    ⟨r, d2, hrun, by rw [haes rfl, hdata]; rfl, hz⟩

/-- C15 fails in the code: `epass2003_init` sets `g_sm` to `SM_SCP01` before the
handshake and does not look at the return value of `epass2003_refresh`.  When the
card rejects INITIALIZE UPDATE with the status `69 85`, and when it sends a card
cryptogram that does not match, the handshake returns
`SC_ERROR_CARD_CMD_FAILED` and never issues EXTERNAL AUTHENTICATE (two APDUs are
sent: GET DATA and INITIALIZE UPDATE), yet `epass2003_init` returns `SC_SUCCESS`
with `g_sm = SM_SCP01`. -/
theorem init_ignores_handshake_failure :
    (epass2003_refresh rejectingHost mirrorCrypto mirrorEcb driverAes).toOption.map
      (fun p => p.1) = some SC_ERROR_CARD_CMD_FAILED ∧
    (epass2003_init rejectingHost mirrorCrypto mirrorEcb driver0).toOption.map
      (fun p => (p.1, p.2.session.g_sm, p.2.session.g_smtype, p.2.sent.map (fun a => a.ins))) =
      some (SC_SUCCESS, SM_SCP01, KEY_TYPE_AES, [0xca, 0x50]) ∧
    (epass2003_refresh wrongCryptogramHost mirrorCrypto mirrorEcb driverAes).toOption.map
      (fun p => p.1) = some SC_ERROR_CARD_CMD_FAILED ∧
    (epass2003_init wrongCryptogramHost mirrorCrypto mirrorEcb driver0).toOption.map
      (fun p => (p.1, p.2.session.g_sm, p.2.session.g_smtype, p.2.sent.map (fun a => a.ins))) =
      some (SC_SUCCESS, SM_SCP01, KEY_TYPE_AES, [0xca, 0x50]) := by
  refine ⟨by decide!, by decide!, by decide!, by decide!⟩
/-! ## C16 - C19: unwrapping a response -/

/-- C16: for every SM response whose status word the status check rejects,
`epass2003_sm_unwrap_apdu` returns `SC_SUCCESS` and changes nothing in the plain
APDU except `sw1` and `sw2`, which it copies from the SM response: the response
buffer and `resplen` stay as they were, and no cipher is involved (the result is
the same for every cipher suite and every response body). -/
theorem unwrap_rejected_status (h : Host) (c : Crypto) (s : Session) (sm plain : sc_apdu)
    (hsw : h.sc_check_sw sm.sw1 sm.sw2 ≠ SC_SUCCESS) :
    epass2003_sm_unwrap_apdu h c s sm plain =
      Exec.ok { ret := SC_SUCCESS, plain := { plain with sw1 := sm.sw1, sw2 := sm.sw2 },
                session := s } := by
  unfold epass2003_sm_unwrap_apdu
  simp only []
  rw [if_neg hsw]
  rfl

/-- An SM response with status `6A 82` in SM mode: the plain APDU keeps its
response buffer and length and gets the status. -/
theorem unwrap_rejected_status_witness :
    epass2003_sm_unwrap_apdu sampleHost mirrorCrypto sessionAes smNotFound selectMF =
      Exec.ok { ret := SC_SUCCESS,
                plain := { selectMF with sw1 := smNotFound.sw1, sw2 := smNotFound.sw2 },
                session := sessionAes } :=
  unwrap_rejected_status sampleHost mirrorCrypto sessionAes smNotFound selectMF (by decide)

/-- C17 (amended): for an SM response with status word `6A 82`, which the status
check rejects, `epass2003_sm_unwrap_apdu` returns `SC_SUCCESS` with plain status
`6A 82` and leaves the plain response buffer and the plain response length as
they were before the call; the length is 0 afterwards only if it was 0 before. -/
theorem unwrap_not_found (h : Host) (c : Crypto) (s : Session) (sm plain : sc_apdu)
    (hsw : h.sc_check_sw 0x6A 0x82 ≠ SC_SUCCESS) (h1 : sm.sw1 = 0x6A) (h2 : sm.sw2 = 0x82) :
    ∃ u, epass2003_sm_unwrap_apdu h c s sm plain = Exec.ok u ∧ u.ret = SC_SUCCESS ∧
      u.plain.sw1 = 0x6A ∧ u.plain.sw2 = 0x82 ∧ u.plain.resp = plain.resp ∧
      u.plain.resplen = plain.resplen ∧ (u.plain.resplen = 0 ↔ plain.resplen = 0) := by
  refine ⟨{ ret := SC_SUCCESS, plain := { plain with sw1 := sm.sw1, sw2 := sm.sw2 },
            session := s }, ?_, rfl, h1, h2, rfl, rfl, Iff.rfl⟩
  unfold epass2003_sm_unwrap_apdu
  simp only []
  rw [if_neg (by rw [h1, h2]; exact hsw)]
  rfl

/-- The response `99 02 6A 82 8E 08 <mac8>` with status `6A 82`. -/
theorem unwrap_not_found_witness :
    ∃ u, epass2003_sm_unwrap_apdu sampleHost mirrorCrypto sessionAes smNotFound selectMF =
        Exec.ok u ∧ u.ret = SC_SUCCESS ∧
      u.plain.sw1 = 0x6A ∧ u.plain.sw2 = 0x82 ∧ u.plain.resp = selectMF.resp ∧
      u.plain.resplen = selectMF.resplen ∧ (u.plain.resplen = 0 ↔ selectMF.resplen = 0) :=
  unwrap_not_found sampleHost mirrorCrypto sessionAes smNotFound selectMF (by decide) rfl rfl

/-- C17 as stated fails when the plain APDU held a response length before the
call: for the response `99 02 6A 82 8E 08 <mac8>` with status `6A 82` and a plain
APDU with `resplen = 256`, the plain response length is 256 afterwards, not 0. -/
theorem unwrap_not_found_counterexample :
    smNotFound.resp.take 6 = [0x99, 0x02, 0x6A, 0x82, 0x8E, 0x08] ∧
    (epass2003_sm_unwrap_apdu sampleHost mirrorCrypto sessionAes smNotFound
      selectMF).toOption.map (fun u => (u.ret, u.plain.sw1, u.plain.sw2, u.plain.resplen)) =
      some (SC_SUCCESS, 0x6A, 0x82, 256) := by
  refine ⟨by decide, by decide⟩

/-- C18: in SM mode with a status word the status check accepts, if the first
response byte is `0x99` then `epass2003_sm_unwrap_apdu` returns `SC_SUCCESS` with
plain response length 0; the plain response buffer is left as it was, the status
bytes are copied, and no cipher is involved. -/
theorem unwrap_no_data (h : Host) (c : Crypto) (s : Session) (sm plain : sc_apdu)
    (rest : List Nat) (hsm : s.g_sm ≠ 0) (hsw : h.sc_check_sw sm.sw1 sm.sw2 = SC_SUCCESS)
    (h99 : sm.resp = 0x99 :: rest) :
    epass2003_sm_unwrap_apdu h c s sm plain =
      Exec.ok { ret := SC_SUCCESS,
                plain := { plain with resplen := 0, sw1 := sm.sw1, sw2 := sm.sw2 },
                session := s } := by
  have hp : peek (0x99 :: rest) 0 = Exec.ok 0x99 := peek_ok _ _ _ (by simp)
  unfold epass2003_sm_unwrap_apdu decrypt_response
  simp only []
  rw [if_pos hsw, if_pos hsm, h99, hp]
  rfl

/-- The response `99 02 90 00 8E 08 <mac8>` with status `90 00` in SM mode. -/
theorem unwrap_no_data_witness :
    epass2003_sm_unwrap_apdu sampleHost mirrorCrypto sessionAes smNoData selectMF =
      Exec.ok { ret := SC_SUCCESS,
                plain := { selectMF with resplen := 0, sw1 := smNoData.sw1,
                                         sw2 := smNoData.sw2 },
                session := sessionAes } :=
  unwrap_no_data sampleHost mirrorCrypto sessionAes smNoData selectMF
    ([0x02, 0x90, 0x00, 0x8E, 0x08, 1, 2, 3, 4, 5, 6, 7, 8] ++ zeros 242)
    (by decide) (by decide) (by rfl)

/-- C19 (amended): in SM mode with an accepted status word, for every response
that starts with a `0x87` TLV accepted by the length parser, with declared body
length `L ≥ 2` and decrypted body `D` of `L - 1 ≤ 4096` bytes: when `D` has no
`0x80` at an index of at least 1 (in particular when `D` is all zero),
`epass2003_sm_unwrap_apdu` returns `SC_ERROR_CARD_CMD_FAILED` and leaves the
plain APDU as it was; otherwise, with `j` the index of the last `0x80` in `D`,
it returns `SC_SUCCESS` with `D[0..j)` as plaintext and `j` as its length: the
`0x80` and all bytes behind it are stripped, whether or not these bytes are
zero. -/
theorem unwrap_unpadding (h : Host) (c : Crypto) (s : Session) (sm plain : sc_apdu)
    (L i : Nat) (D : List Nat) (hsm : s.g_sm ≠ 0)
    (hsw : h.sc_check_sw sm.sw1 sm.sw2 = SC_SUCCESS) (h87 : sm.resp[0]? = some 0x87)
    (hparse : parse_cipher_length sm.resp = Exec.ok (some (L, i)))
    (hL : 2 ≤ L) (hci : i + (L - 1) ≤ sm.resp.length)
    (hdec : (if KEY_TYPE_AES = s.g_smtype then
        aes128_decrypt_cbc c s.g_sk_enc (zeros 16) ((sm.resp.drop i).take (L - 1))
      else des3_decrypt_cbc c s.g_sk_enc 16 (zeros 16) ((sm.resp.drop i).take (L - 1))) = D)
    (hDl : D.length = L - 1) (h4096 : L - 1 ≤ 4096) :
    ((∀ k, 1 ≤ k → D[k]? ≠ some 0x80) →
      epass2003_sm_unwrap_apdu h c s sm plain =
        Exec.ok { ret := SC_ERROR_CARD_CMD_FAILED, plain := plain, session := s }) ∧
    (∀ j, 1 ≤ j → D[j]? = some 0x80 → (∀ k, j < k → D[k]? ≠ some 0x80) →
      j ≤ plain.resp.length →
      epass2003_sm_unwrap_apdu h c s sm plain =
        Exec.ok { ret := SC_SUCCESS,
                  plain := { plain with resp := splice plain.resp 0 (D.take j), resplen := j,
                                        sw1 := sm.sw1, sw2 := sm.sw2 },
                  session := s }) := by
  have hscan := decrypt_unpad_scan c s sm.resp plain.resp 0 L i D hL hci hdec hDl h4096
  have hresp := decrypt_response_parsed c s sm.resp plain.resp 0 0x87 L i h87 (by decide) hparse
  constructor
  · intro hno
    unfold epass2003_sm_unwrap_apdu
    simp only []
    rw [if_pos hsw, if_pos hsm, hresp, hscan.1 hno]
    rfl
  · intro j hj1 hj hno hout
    unfold epass2003_sm_unwrap_apdu
    simp only []
    rw [if_pos hsw, if_pos hsm, hresp, hscan.2 j hj1 hj hno hout]
    rfl

/-- The response `87 11 01 <cipher16> 99 02 90 00 8E 08 <mac8>` whose decrypted
body is `41 80 42 00 .. 00`: the plaintext returned is `41`. -/
theorem unwrap_unpadding_witness :
    epass2003_sm_unwrap_apdu sampleHost mirrorCrypto sessionAes smLoosePad selectMF =
      Exec.ok { ret := SC_SUCCESS,
                plain := { selectMF with resp := splice selectMF.resp 0 (looseBody.take 1),
                                         resplen := 1, sw1 := smLoosePad.sw1,
                                         sw2 := smLoosePad.sw2 },
                session := sessionAes } :=
  (unwrap_unpadding sampleHost mirrorCrypto sessionAes smLoosePad selectMF 0x11 3 looseBody
    (by decide) (by decide) (by simp [smLoosePad])
    (parse_short 0x87 0x11 _ (by decide)) (by decide)
    (by simp [smLoosePad, looseBody]) (by rfl) (by rfl)
    (by decide)).2 1 (by decide) (by rfl) looseBody_tail (by simp [selectMF])

/-- C19 as stated fails for the decrypted body `41 80 42 00 .. 00`: after the
trailing zeros are removed its last byte is `42`, not `80`, yet the unwrap
returns `SC_SUCCESS` with the one-byte plaintext `41`. -/
theorem unwrap_unpadding_counterexample :
    mirrorCrypto.aes_128_cbc_dec (sessionAes.g_sk_enc.take 16) (zeros 16)
      ((smLoosePad.resp.drop 3).take 16) = [0x41, 0x80, 0x42] ++ List.replicate 13 0x00 ∧
    (epass2003_sm_unwrap_apdu sampleHost mirrorCrypto sessionAes smLoosePad
      selectMF).toOption.map
        (fun u => (u.ret, u.plain.resplen, u.plain.resp.take u.plain.resplen)) =
      some (SC_SUCCESS, 1, [0x41]) := by
  refine ⟨by decide, by decide!⟩
/-! ## C20: the file-identifier hook -/

/-- C20 (amended): for every path of at least two bytes whose last two bytes are
`hi`, `lo`: when `hi` is one of `29 30 31 32 33 34`, `epass2003_hook_path` with
`inc = 1` returns 1 and stores `(lo * 0x20) mod 256` as the last byte, and
`epass2003_hook_path` with `inc = 0` applied to the result returns 1 and leaves
`lo mod 8` there, so the original path is restored when `lo < 8`; for every other
`hi` both directions return 0 and leave the path unchanged. -/
theorem hook_path_symmetry (path : sc_path) (hi lo : Nat) (h2 : 2 ≤ path.len)
    (hs : path.len < SIZE_MOD) (hhi : path.value[path.len - 2]? = some hi)
    (hlo : path.value[path.len - 1]? = some lo) :
    (hi ∈ [0x29, 0x30, 0x31, 0x32, 0x33, 0x34] →
      ∃ p1 p2, epass2003_hook_path path 1 = Exec.ok (1, p1) ∧
        epass2003_hook_path p1 0 = Exec.ok (1, p2) ∧
        p1 = { path with value := List.set path.value (path.len - 1) ((lo * 0x20) % 256) } ∧
        p2 = { path with value := List.set path.value (path.len - 1) (lo % 8) } ∧
        (lo < 8 → p2 = path)) ∧
    (hi ∉ [0x29, 0x30, 0x31, 0x32, 0x33, 0x34] →
      epass2003_hook_path path 1 = Exec.ok (0, path) ∧
      epass2003_hook_path path 0 = Exec.ok (0, path)) := by
  have hlt : path.len - 1 < path.value.length := by
    by_contra hc
    rw [List.getElem?_eq_none (by omega)] at hlo
    cases hlo
  constructor
  · intro hmem
    have hset : hi = 0x29 ∨ hi = 0x30 ∨ hi = 0x31 ∨ hi = 0x32 ∨ hi = 0x33 ∨ hi = 0x34 := by
      simpa using hmem
    have e1 := hook_path_eq path 1 hi lo h2 hs hhi hlo
    rw [if_pos hset, if_pos (by decide)] at e1
    have hhi1 : (List.set path.value (path.len - 1) (u8 (lo * FID_STEP)))[path.len - 2]? =
        some hi := by
      rw [List.getElem?_set_ne (by omega)]; exact hhi
    have hlo1 : (List.set path.value (path.len - 1) (u8 (lo * FID_STEP)))[path.len - 1]? =
        some (u8 (lo * FID_STEP)) := List.getElem?_set_self hlt
    have e2 := hook_path_eq
      { path with value := List.set path.value (path.len - 1) (u8 (lo * FID_STEP)) }
      0 hi (u8 (lo * FID_STEP)) h2 hs hhi1 hlo1
    rw [if_pos hset, if_neg (by decide)] at e2
    have hv : u8 (u8 (lo * FID_STEP) / FID_STEP) = lo % 8 := by
      unfold u8 FID_STEP; omega
    simp only [List.set_set, hv] at e2
    refine ⟨_, _, e1, e2, rfl, rfl, ?_⟩
    intro h8
    have : lo % 8 = lo := Nat.mod_eq_of_lt h8
    rw [this, set_of_getElem? _ _ _ hlo]
  · intro hmem
    have hset : ¬ (hi = 0x29 ∨ hi = 0x30 ∨ hi = 0x31 ∨ hi = 0x32 ∨ hi = 0x33 ∨ hi = 0x34) := by
      simpa using hmem
    have e1 := hook_path_eq path 1 hi lo h2 hs hhi hlo
    have e0 := hook_path_eq path 0 hi lo h2 hs hhi hlo
    rw [if_neg hset] at e1 e0
    exact ⟨e1, e0⟩

/-- The path `3F 00 50 00 29 03`: hooked it is `3F 00 50 00 29 60`, and unhooked
again it is the path itself. -/
theorem hook_path_symmetry_witness :
    ∃ p1 p2, epass2003_hook_path pathS6 1 = Exec.ok (1, p1) ∧
      epass2003_hook_path p1 0 = Exec.ok (1, p2) ∧
      p1 = { pathS6 with value := List.set pathS6.value (pathS6.len - 1) ((0x03 * 0x20) % 256) } ∧
      p2 = { pathS6 with value := List.set pathS6.value (pathS6.len - 1) (0x03 % 8) } ∧
      (0x03 < 8 → p2 = pathS6) :=
  (hook_path_symmetry pathS6 0x29 0x03 (by decide) (by decide) (by decide) (by decide)).1
    (by decide)

/-- C20 as stated fails for the low byte `08`: the path `3F 00 29 08` is hooked
to `3F 00 29 00`, because `8 * 0x20` does not fit in a byte, and unhooked to
`3F 00 29 00`, which is not the original path. -/
theorem hook_path_symmetry_counterexample :
    (epass2003_hook_path pathLow8 1).toOption.map (fun r => r.2.value.take 4) =
      some [0x3F, 0x00, 0x29, 0x00] ∧
    ((epass2003_hook_path pathLow8 1).toOption.bind
      (fun r => (epass2003_hook_path r.2 0).toOption)).map (fun r => r.2.value.take 4) =
      some [0x3F, 0x00, 0x29, 0x00] ∧
    (epass2003_hook_path pathLow8 1).toOption.bind
      (fun r => (epass2003_hook_path r.2 0).toOption) ≠ some (1, pathLow8) := by
  refine ⟨by decide, by decide, by decide⟩
/-- C21 (amended): for a file of a supported kind with `id < 0x10000` whose
security attributes fit the 64 bytes of `buf`, or which has none and has an ACL
entry for every operation looked up, and an output buffer of at least 109
bytes, `epass2003_construct_fci` returns 0 with `out[0] = 0x62` and
`out[1] = total length - 2`, and `epass2003_process_fci` on the bytes behind
that header returns 0 and a file with the type and the identifier of the file
and, for a transparent working EF with `size < 0x10000`, its size.  The header
constants are such that the four file types differ and the structures of a
working EF have a bit among their low three bits; the file object handed to
`epass2003_process_fci` has room for a name of 16 bytes. -/
theorem fci_round_trip (k : Lib) (hk : k.FileKinds) (file g : sc_file) (out : List Nat)
    (outlen : Nat) (hs : SupportedKind k file) (hsec : SecurityGiven k file)
    (hid : file.id < 0x10000) (hroom : 109 ≤ outlen) (hlen : outlen ≤ out.length)
    (ho : outlen < SIZE_MOD) (hg : 16 ≤ g.name.length) :
    ∃ out1 total, epass2003_construct_fci k file out outlen = Exec.ok (0, out1, total) ∧
      out1[0]? = some 0x62 ∧ out1[1]? = some (total - 2) ∧ 2 ≤ total ∧ total ≤ outlen ∧
      out1.length = out.length ∧
      ∃ f, epass2003_process_fci k g (out1.drop 2) (total - 2) = Exec.ok (0, f) ∧
        f.type = file.type ∧ f.id = file.id ∧
        (file.type = k.SC_FILE_TYPE_WORKING_EF →
          file.ef_structure = k.SC_FILE_EF_TRANSPARENT → file.size < 0x10000 →
          f.size = file.size) := by
  have hl107 := fciObjects_length k file hk hs hsec
  have hpos : fciPos (fciObjects k file) ≤ outlen := by unfold fciPos; omega
  have hu : u8 (tlvBytes (fciObjects k file)).length = (tlvBytes (fciObjects k file)).length := by
    unfold u8; omega
  have hv := fciObjects_valid k file hk hs hsec
  have hdrop : (fciOut (tlvBytes (fciObjects k file)).length out (fciObjects k file)).drop 2 =
      tlvBytes (fciObjects k file) ++ out.drop (2 + (tlvBytes (fciObjects k file)).length) := rfl
  have htot : fciPos (fciObjects k file) - 2 = (tlvBytes (fciObjects k file)).length := by
    unfold fciPos; omega
  refine ⟨_, _, construct_fci_run k file hk hs hsec out outlen hpos hlen ho, rfl, ?_, ?_, hpos,
    ?_, ?_⟩
  · rw [hu, htot]
    unfold fciOut
    simp
  · unfold fciPos; omega
  · rw [fciOut_length _ _ _ (le_trans hpos hlen)]
  rw [hu, hdrop, htot]
  obtain ⟨byte, tail, h82, hty⟩ := fciObjects_find_descriptor k file g hk hs
  have f83 := find_tag_tlvs 0x83 (out.drop (2 + (tlvBytes (fciObjects k file)).length))
    (fciObjects k file) hv
  rw [fciObjects_find_id] at f83
  have f82 := find_tag_tlvs 0x82 (out.drop (2 + (tlvBytes (fciObjects k file)).length))
    (fciObjects k file) hv
  rw [h82] at f82
  have f84 := find_tag_tlvs 0x84 (out.drop (2 + (tlvBytes (fciObjects k file)).length))
    (fciObjects k file) hv
  rw [fciObjects_find_name] at f84
  have f80 := find_tag_tlvs 0x80 (out.drop (2 + (tlvBytes (fciObjects k file)).length))
    (fciObjects k file) hv
  rw [fciObjects_find_size] at f80
  obtain ⟨f, hf, hfid, hfsz, hfty⟩ := process_fci_fields k g _ _ _ _ byte tail f83 f82 (by
    intro t ht h16
    exact le_trans h16 hg)
  refine ⟨f, hf, ?_, ?_, ?_⟩
  · rw [hfty, hty]
    rw [f84, hty]
    unfold fciNameObj
    by_cases hd : file.type = k.SC_FILE_TYPE_DF
    · exact Or.inr hd
    · left
      rw [if_neg hd]
      rfl
  · rw [hfid, be16_or file.id hid]
  · intro he ht hsz
    rw [if_pos ⟨he, ht⟩] at f80
    rw [hfsz _ _ f80, be16_add file.size hsz]

theorem fci_round_trip_witness :
    ∃ out1 total f,
      epass2003_construct_fci sampleLib fileTransparent (zeros 128) 128 =
        Exec.ok (0, out1, total) ∧
      epass2003_process_fci sampleLib (sc_file_new sampleLib) (out1.drop 2) (total - 2) =
        Exec.ok (0, f) ∧
      f.type = 0x01 ∧ f.id = 0x2002 ∧ f.size = 0x0123 := by
  obtain ⟨out1, total, h1, _, _, _, _, _, f, h2, h3, h4, h5⟩ :=
    fci_round_trip sampleLib
      ⟨by decide, by decide, by decide, by decide, by decide, by decide, by decide, by decide,
        by decide⟩
      fileTransparent (sc_file_new sampleLib) (zeros 128) 128 (by decide) (by decide)
      (by decide) (by decide) (by simp [zeros]) (by decide) (by simp [sc_file_new, zeros])
  exact ⟨out1, total, f, h1, h2, h3, h4, h5 rfl rfl (by decide)⟩

/-- C21 as stated fails for a DF with a name that has no ACL entries and no
security attributes, as `sc_file_new` and the assignments of type, identifier
and name leave it: `epass2003_construct_fci` returns
`SC_ERROR_OBJECT_NOT_FOUND`; and for a transparent EF with security attributes
of 65 bytes the copy into `buf[64]` leaves the array. -/
theorem fci_round_trip_counterexample :
    SupportedKind sampleLib fileBareDF ∧ fileBareDF.id < 0x10000 ∧
    (epass2003_construct_fci sampleLib fileBareDF (zeros 128) 128).toOption.map
      (fun p => p.1) = some SC_ERROR_OBJECT_NOT_FOUND ∧
    SupportedKind sampleLib fileLongSec ∧ fileLongSec.id < 0x10000 ∧
    epass2003_construct_fci sampleLib fileLongSec (zeros 128) 128 =
      Exec.fault Fault.outOfBounds := by
  refine ⟨by decide, by decide, by decide!, by decide, by decide, by decide!⟩
/-- C22 fails in the code: `epass2003_process_fci` reads the descriptor `0x04`
as `SC_FILE_EF_LINEAR_FIXED`, the structure it also gives for `0x02`, and
leaves `ef_structure` alone for the descriptors `0x03`, `0x05`, `0x06` and
`0x07`; for `0x01` and `0x02` it sets the transparent and the linear-fixed
structure.  So the linear-variable file `fileLinearVar` (structure 4), for
which `epass2003_construct_fci` emits the descriptor `82 05 04 00 00 40 00`,
comes back from `epass2003_process_fci` with structure 2, while the transparent
file and the linear-fixed file come back with their own structure. -/
theorem descriptor_four_reads_linear_fixed :
    (∀ (k : Lib) (f : sc_file),
      (process_descriptor k f 0x01).ef_structure = k.SC_FILE_EF_TRANSPARENT ∧
      (process_descriptor k f 0x02).ef_structure = k.SC_FILE_EF_LINEAR_FIXED ∧
      (process_descriptor k f 0x04).ef_structure = k.SC_FILE_EF_LINEAR_FIXED ∧
      (process_descriptor k f 0x03).ef_structure = f.ef_structure ∧
      (process_descriptor k f 0x05).ef_structure = f.ef_structure ∧
      (process_descriptor k f 0x06).ef_structure = f.ef_structure ∧
      (process_descriptor k f 0x07).ef_structure = f.ef_structure) ∧
    sampleLib.SC_FILE_EF_LINEAR_FIXED = 2 ∧ sampleLib.SC_FILE_EF_LINEAR_VARIABLE = 4 ∧
    fileLinearVar.ef_structure = sampleLib.SC_FILE_EF_LINEAR_VARIABLE ∧
    (epass2003_construct_fci sampleLib fileLinearVar (zeros 64) 64).toOption.map
      (fun p => (p.1, p.2.1.take p.2.2)) =
      some (0, [0x62, 0x15, 0x82, 0x05, 0x04, 0x00, 0x00, 0x40, 0x00, 0x83, 0x02, 0x20, 0x01,
        0x86, 0x08, 0x80, 0x80, 0x80, 0x80, 0xFF, 0xFF, 0xFF, 0xFF]) ∧
    (fciRoundTrip sampleLib fileLinearVar).map
      (fun p => (p.1, p.2.1, p.2.2.type, p.2.2.ef_structure)) =
      some (0, 0, sampleLib.SC_FILE_TYPE_WORKING_EF, sampleLib.SC_FILE_EF_LINEAR_FIXED) ∧
    (fciRoundTrip sampleLib { fileLinearVar with ef_structure := 2 }).map
      (fun p => (p.1, p.2.1, p.2.2.type, p.2.2.ef_structure)) =
      some (0, 0, sampleLib.SC_FILE_TYPE_WORKING_EF, sampleLib.SC_FILE_EF_LINEAR_FIXED) ∧
    (fciRoundTrip sampleLib fileTransparent).map
      (fun p => (p.1, p.2.1, p.2.2.type, p.2.2.ef_structure)) =
      some (0, 0, sampleLib.SC_FILE_TYPE_WORKING_EF, sampleLib.SC_FILE_EF_TRANSPARENT) := by
  refine ⟨fun k f => ⟨rfl, rfl, rfl, rfl, rfl, rfl, rfl⟩, rfl, rfl, rfl, by decide!, by decide!,
    by decide!, by decide!⟩
/-- C24: whenever `epass2003_sm_wrap_apdu` returns, the session it leaves has the
`g_sm`, `g_smtype`, `g_sk_enc` and `g_sk_mac` it found, so `g_icv_mac` is the only
session variable it can change; whenever `epass2003_sm_unwrap_apdu` returns, the
session is the one it found, `g_icv_mac` included. -/
theorem sm_session_frame (h : Host) (c : Crypto) (s : Session) (plain sm : sc_apdu) :
    (∀ w, epass2003_sm_wrap_apdu c s plain sm = Exec.ok w →
      w.session.g_sm = s.g_sm ∧ w.session.g_smtype = s.g_smtype ∧
      w.session.g_sk_enc = s.g_sk_enc ∧ w.session.g_sk_mac = s.g_sk_mac) ∧
    (∀ u, epass2003_sm_unwrap_apdu h c s sm plain = Exec.ok u →
      u.session = s ∧ u.session.g_icv_mac = s.g_icv_mac) := by
  constructor
  · intro w hw
    obtain ⟨icv, hicv⟩ := wrap_session c s plain sm w hw
    rw [hicv]
    exact ⟨rfl, rfl, rfl, rfl⟩
  · intro u hu
    have hs := unwrap_session h c s sm plain u hu
    exact ⟨hs, by rw [hs]⟩

/-- The wrap of SELECT MF in the sample AES session and the unwrap of the
response `99 02 90 00 8E 08 <mac8>`. -/
theorem sm_session_frame_witness :
    (∃ w, epass2003_sm_wrap_apdu mirrorCrypto sessionAes selectMF smBlank = Exec.ok w ∧
      w.session.g_sm = sessionAes.g_sm ∧ w.session.g_smtype = sessionAes.g_smtype ∧
      w.session.g_sk_enc = sessionAes.g_sk_enc ∧ w.session.g_sk_mac = sessionAes.g_sk_mac) ∧
    (∃ u, epass2003_sm_unwrap_apdu sampleHost mirrorCrypto sessionAes smNoData selectMF =
        Exec.ok u ∧ u.session = sessionAes ∧ u.session.g_icv_mac = sessionAes.g_icv_mac) :=
  ⟨match wrap_total mirrorCrypto mirrorCrypto_lengthPreserving sessionAes selectMF smBlank
      (by decide) (by unfold Wrappable; decide) with
    | ⟨w, hw⟩ =>
      ⟨w, hw, (sm_session_frame sampleHost mirrorCrypto sessionAes selectMF smBlank).1 w hw⟩,
   ⟨{ ret := SC_SUCCESS,
      plain := { selectMF with resplen := 0, sw1 := smNoData.sw1, sw2 := smNoData.sw2 },
      session := sessionAes }, by decide!,
    (sm_session_frame sampleHost mirrorCrypto sessionAes selectMF smNoData).2 _
      (by decide!)⟩⟩

/-- C25: with `g_sm = SM_PLAIN`, `epass2003_sm_wrap_apdu` returns `SC_SUCCESS` on
every APDU whose class byte has the bits `0x0C` equal to `0x00` or `0x04`, leaves
the plain APDU and the session (with `g_icv_mac`) as they were, and hands on an
SM APDU with the same CLA, INS, P1, P2, Lc, Le, data buffer and response
buffer; the class bytes `0x80` and `0x84` of the two handshake APDUs are of this
kind.  Every return of `gen_init_key` and of `verify_init_key` happens with
`g_sm` back at the value it had at the call, after the one APDU (class byte
`0x80`, resp. `0x84`) has been handed to the transport. -/
theorem plain_mode_passthrough (h : Host) (c : Crypto) (e : Ecb) (d : Driver)
    (key_enc key_mac result ran_key : List Nat) (key_type : Nat) (s : Session)
    (plain sm : sc_apdu) :
    (s.g_sm = SM_PLAIN → (plain.cla &&& 0x0C = 0x00 ∨ plain.cla &&& 0x0C = 0x04) →
      ∃ w, epass2003_sm_wrap_apdu c s plain sm = Exec.ok w ∧ w.ret = SC_SUCCESS ∧
        w.plain = plain ∧ w.session = s ∧
        w.sm.cla = plain.cla ∧ w.sm.ins = plain.ins ∧ w.sm.p1 = plain.p1 ∧
        w.sm.p2 = plain.p2 ∧ w.sm.lc = plain.lc ∧ w.sm.le = plain.le ∧
        w.sm.data = plain.data ∧ w.sm.datalen = plain.datalen ∧
        w.sm.resp = plain.resp ∧ w.sm.resplen = plain.resplen) ∧
    ((initUpdateApdu result).cla = 0x80 ∧ (0x80 : Nat) &&& 0x0C = 0x00) ∧
    ((extAuthApdu ran_key).cla = 0x84 ∧ (0x84 : Nat) &&& 0x0C = 0x04) ∧
    (∀ r d1 out, gen_init_key h c e d key_enc key_mac result key_type = Exec.ok (r, d1, out) →
      d1.session.g_sm = d.session.g_sm ∧ d1.issued = d.issued ++ [initUpdateApdu result]) ∧
    (∀ r d1, verify_init_key h c d ran_key key_type = Exec.ok (r, d1) →
      d1.session.g_sm = d.session.g_sm ∧
      ∃ apdu, d1.issued = d.issued ++ [apdu] ∧ apdu.cla = 0x84) := by
  refine ⟨?_, ⟨rfl, by decide⟩, ⟨rfl, by decide⟩, ?_, ?_⟩
  · intro hs hcla
    exact ⟨_, wrap_plain c s plain sm hs hcla, rfl, rfl, rfl, rfl, rfl, rfl, rfl, rfl, rfl, rfl,
      rfl, rfl, rfl⟩
  · intro r d1 out hg
    have hf := gen_init_key_frame h c e d key_enc key_mac result key_type r d1 out hg
    exact ⟨hf.1, hf.2.2⟩
  · intro r d1 hv
    obtain ⟨h1, _, _, _, apdu, hi, hc, _⟩ := verify_init_key_frame h c d ran_key key_type r d1 hv
    exact ⟨h1, apdu, hi, hc⟩

/-- The handshake of scenario S1 started in SM mode: `gen_init_key` returns with
`g_sm = SM_SCP01` again, and so does `verify_init_key`. -/
theorem plain_mode_passthrough_witness :
    (∃ r d1 out, gen_init_key sampleHost mirrorCrypto mirrorEcb driverAes g_init_key_enc
        g_init_key_mac (zeros 256) KEY_TYPE_AES = Exec.ok (r, d1, out) ∧
      d1.session.g_sm = SM_SCP01) ∧
    (∃ r d1, verify_init_key sampleHost mirrorCrypto driverAes cardRandom KEY_TYPE_AES =
        Exec.ok (r, d1) ∧ d1.session.g_sm = SM_SCP01) :=
  ⟨⟨_, _, _, gen_init_key_run sampleHost mirrorCrypto mirrorEcb driverAes g_init_key_enc
      g_init_key_mac (zeros 256) KEY_TYPE_AES mirrorCrypto_lengthPreserving
      mirrorEcb_lengthPreserving (by rw [zeros_length]; decide) (by rfl) (by rfl) _ rfl
      (by decide) (by decide) (by rfl),
    ((plain_mode_passthrough sampleHost mirrorCrypto mirrorEcb driverAes g_init_key_enc
      g_init_key_mac (zeros 256) cardRandom KEY_TYPE_AES sessionAes selectMF smBlank).2.2.2.1
      _ _ _ (gen_init_key_run sampleHost mirrorCrypto mirrorEcb driverAes g_init_key_enc
      g_init_key_mac (zeros 256) KEY_TYPE_AES mirrorCrypto_lengthPreserving
      mirrorEcb_lengthPreserving (by rw [zeros_length]; decide) (by rfl) (by rfl) _ rfl
      (by decide) (by decide) (by rfl))).1⟩,
   ⟨_, _, verify_init_key_run sampleHost mirrorCrypto driverAes cardRandom KEY_TYPE_AES
      mirrorCrypto_lengthPreserving (by rfl) (by rfl),
    ((plain_mode_passthrough sampleHost mirrorCrypto mirrorEcb driverAes g_init_key_enc
      g_init_key_mac (zeros 256) cardRandom KEY_TYPE_AES sessionAes selectMF smBlank).2.2.2.2
      _ _ (verify_init_key_run sampleHost mirrorCrypto driverAes cardRandom KEY_TYPE_AES
      mirrorCrypto_lengthPreserving (by rfl) (by rfl))).1⟩⟩
/-- C26 fails in the code: `epass2003_delete_file` applies
`epass2003_hook_path` to the caller's path through the cast
`(struct sc_path *)path` and does not undo it.  For the path `3F 00 29 03` the
call returns `SC_SUCCESS` after the DELETE APDU with data `29 60`, and the
caller's path then reads `3F 00 29 60`; when the selection before it fails, the
call returns `SC_ERROR_INVALID_ARGUMENTS`, sends nothing, and the path reads
`3F 00 29 60` as well. -/
theorem delete_file_rewrites_path :
    pathKey3.value.take 4 = [0x3F, 0x00, 0x29, 0x03] ∧
    (epass2003_delete_file sampleLib sampleHost mirrorCrypto driver0 pathKey3).toOption.map
      (fun p => (p.1, p.2.1.issued.map (fun a => (a.ins, a.data)), p.2.2.value.take 4,
        p.2.2.len)) =
      some (SC_SUCCESS, [(0xE4, [0x29, 0x60])], [0x3F, 0x00, 0x29, 0x60], 4) ∧
    (epass2003_delete_file { sampleLib with sc_select_file := fun d _ => (SC_ERROR_NOT_SUPPORTED, d) }
      sampleHost mirrorCrypto driver0 pathKey3).toOption.map
      (fun p => (p.1, p.2.1.issued.map (fun a => (a.ins, a.data)), p.2.2.value.take 4,
        p.2.2.len)) =
      some (SC_ERROR_INVALID_ARGUMENTS, [], [0x3F, 0x00, 0x29, 0x60], 4) := by
  refine ⟨by decide, by decide!, by decide!⟩
/-- C29: for a digest of 20 bytes, a length `len < 2^32` within the data and an
output buffer of at least 24 bytes, `hash_data` on two non-null pointers
returns `SC_SUCCESS` and stores a block whose bytes 0..20 are the SHA-1 digest
of the first `len` bytes of the data and whose bytes 20..24 are the
little-endian memory image of `REVERSE_ORDER4(len)`, which is `len` as a 32-bit
integer with the most significant byte first; the rest of the buffer is kept.
`hash_data` always returns, and it returns `SC_ERROR_INVALID_ARGUMENTS` exactly
when the data pointer or the output pointer is null. -/
theorem hash_block (g : Digest) (hg : g.Sha1Length) (data : Option (List Nat)) (len : Nat)
    (hash : Option (List Nat)) (hlen : ∀ b, data = some b → len ≤ b.length)
    (hx : len < 2 ^ 32) (hh : ∀ o, hash = some o → 24 ≤ o.length) :
    (∀ b o, data = some b → hash = some o →
      ∃ out, hash_data g data len hash = Exec.ok (SC_SUCCESS, some out) ∧
        out.take 20 = g.sha1 (b.take len) ∧
        (out.drop 20).take 4 = le_bytes (REVERSE_ORDER4 len) 4 ∧
        (out.drop 20).take 4 =
          [len / 2 ^ 24 % 256, len / 2 ^ 16 % 256, len / 2 ^ 8 % 256, len % 256] ∧
        beVal ((out.drop 20).take 4) = len ∧
        out.drop 24 = o.drop 24) ∧
    (∃ r out, hash_data g data len hash = Exec.ok (r, out) ∧
      (r = SC_ERROR_INVALID_ARGUMENTS ↔ data = none ∨ hash = none)) := by
  have hx64 : len < SIZE_MOD := lt_trans hx (by decide)
  have key : ∀ b o, data = some b → hash = some o →
      ∃ out, hash_data g data len hash = Exec.ok (SC_SUCCESS, some out) ∧
        out.take 20 = g.sha1 (b.take len) ∧
        (out.drop 20).take 4 = le_bytes (REVERSE_ORDER4 len) 4 ∧
        (out.drop 20).take 4 =
          [len / 2 ^ 24 % 256, len / 2 ^ 16 % 256, len / 2 ^ 8 % 256, len % 256] ∧
        beVal ((out.drop 20).take 4) = len ∧
        out.drop 24 = o.drop 24 := by
    intro b o hb ho
    subst hb; subst ho
    have hs : (g.sha1 (b.take len)).length = 20 := hg.len _
    have hd : ((g.sha1 (b.take len) ++
        [len / 2 ^ 24 % 256, len / 2 ^ 16 % 256, len / 2 ^ 8 % 256, len % 256] ++
        o.drop 24).drop 20).take 4 =
        [len / 2 ^ 24 % 256, len / 2 ^ 16 % 256, len / 2 ^ 8 % 256, len % 256] := by
      rw [List.append_assoc, List.drop_left' hs]
      rfl
    refine ⟨_, hash_data_run g hg b len o (hlen b rfl) hx64 (hh o rfl), ?_, ?_, hd, ?_, ?_⟩
    · rw [List.append_assoc, List.take_left' hs]
    · rw [hd, reverse_order4_bytes len hx64]
    · rw [hd, be32_digits len hx]
    · have hl : (g.sha1 (b.take len) ++
          [len / 2 ^ 24 % 256, len / 2 ^ 16 % 256, len / 2 ^ 8 % 256, len % 256]).length = 24 := by
        rw [List.length_append, hs]
        rfl
      rw [List.drop_left' hl]
  refine ⟨key, ?_⟩
  cases hdat : data with
  | none =>
    refine ⟨SC_ERROR_INVALID_ARGUMENTS, hash, ?_, ?_⟩
    · cases hash <;> rfl
    · exact ⟨fun _ => Or.inl rfl, fun _ => rfl⟩
  | some b =>
    cases hhash : hash with
    | none =>
      exact ⟨SC_ERROR_INVALID_ARGUMENTS, none, rfl, fun _ => Or.inr rfl, fun _ => rfl⟩
    | some o =>
      obtain ⟨out, hrun, _⟩ := key b o hdat hhash
      rw [hdat, hhash] at hrun
      refine ⟨SC_SUCCESS, some out, hrun, ?_, ?_⟩
      · intro hcon
        exact absurd hcon (by decide)
      · intro hcon
        rcases hcon with hcon | hcon <;> cases hcon

theorem hash_block_witness :
    ∃ out, hash_data sampleDigest (some [0x31, 0x32, 0x33, 0x34]) 4 (some (zeros 24)) =
        Exec.ok (SC_SUCCESS, some out) ∧
      out.take 20 = [0x31, 0x32, 0x33, 0x34] ++ zeros 16 ∧
      (out.drop 20).take 4 = [0x00, 0x00, 0x00, 0x04] := by
  obtain ⟨out, hrun, h20, _, h4, _, _⟩ :=
    (hash_block sampleDigest ⟨fun x => by simp [sampleDigest, zeros]⟩
      (some [0x31, 0x32, 0x33, 0x34]) 4 (some (zeros 24))
      (fun b hb => by cases hb; decide) (by decide)
      (fun o ho => by cases ho; decide)).1 _ _ rfl rfl
  exact ⟨out, hrun, h20, h4⟩
/-! ## C30: the three length forms of the Data TLV -/

/-- C30 (amended): on every response of at least five bytes `b0 b1 b2 b3 b4 ..`
the block `parse cipher length` of `decrypt_response` tries three tests in
order, and the first byte takes no part in them: `b2 = 01` and `b1 ≠ 82` give
body length `b1` with the cipher at offset 3; else `b3 = 01` and `b1 = 81` give
body length `b2` with the cipher at offset 4; else `b4 = 01` and `b1 = 82` give
body length `256 * b2 + b3` with the cipher at offset 5; else nothing is parsed.
So `87 L 01` is read as length `L` at offset 3 for every `L` except `0x82`,
`87 81 L 01` as length `L` at offset 4 for every `L` except `0x01`, for which the
first test gives length `0x81` at offset 3, and `87 82 Lhi Llo 01` always as
`256 * Lhi + Llo` at offset 5.  When nothing is parsed and the response does not
start with `0x99`, `decrypt_response` returns -1 and, in SM mode with an
accepted status word, `epass2003_sm_unwrap_apdu` returns
`SC_ERROR_CARD_CMD_FAILED`. -/
theorem parse_length_forms (h : Host) (c : Crypto) (s : Session) (sm plain : sc_apdu)
    (b0 b1 b2 b3 b4 L Lhi Llo : Nat) (rest : List Nat) :
    parse_cipher_length (b0 :: b1 :: b2 :: b3 :: b4 :: rest) =
      Exec.ok (if b2 = 0x01 ∧ b1 ≠ 0x82 then some (b1, 3)
        else if b3 = 0x01 ∧ b1 = 0x81 then some (b2, 4)
        else if b4 = 0x01 ∧ b1 = 0x82 then some (b2 * 0x100 + b3, 5)
        else none) ∧
    (L ≠ 0x82 →
      parse_cipher_length (0x87 :: L :: 0x01 :: b3 :: b4 :: rest) = Exec.ok (some (L, 3))) ∧
    (L ≠ 0x01 →
      parse_cipher_length (0x87 :: 0x81 :: L :: 0x01 :: b4 :: rest) = Exec.ok (some (L, 4))) ∧
    parse_cipher_length (0x87 :: 0x81 :: 0x01 :: 0x01 :: b4 :: rest) =
      Exec.ok (some (0x81, 3)) ∧
    parse_cipher_length (0x87 :: 0x82 :: Lhi :: Llo :: 0x01 :: rest) =
      Exec.ok (some (256 * Lhi + Llo, 5)) ∧
    (b0 ≠ 0x99 → parse_cipher_length (b0 :: b1 :: b2 :: b3 :: b4 :: rest) = Exec.ok none →
      decrypt_response c s (b0 :: b1 :: b2 :: b3 :: b4 :: rest) plain.resp 0 =
        Exec.ok (-1, plain.resp, 0) ∧
      (s.g_sm ≠ 0 → h.sc_check_sw sm.sw1 sm.sw2 = SC_SUCCESS →
        sm.resp = b0 :: b1 :: b2 :: b3 :: b4 :: rest →
        epass2003_sm_unwrap_apdu h c s sm plain =
          Exec.ok { ret := SC_ERROR_CARD_CMD_FAILED, plain := plain, session := s })) := by
  refine ⟨parse_forms_eq b0 b1 b2 b3 b4 rest, ?_, ?_, ?_, ?_, ?_⟩
  · intro hL
    rw [parse_forms_eq]
    simp [hL]
  · intro hL
    rw [parse_forms_eq]
    simp [hL]
  · rw [parse_forms_eq]
    simp
  · rw [parse_forms_eq]
    simp [Nat.mul_comm]
  · intro h99 hnone
    have hp0 : peek (b0 :: b1 :: b2 :: b3 :: b4 :: rest) 0 = Exec.ok b0 := by simp [peek]
    have hd : decrypt_response c s (b0 :: b1 :: b2 :: b3 :: b4 :: rest) plain.resp 0 =
        Exec.ok (-1, plain.resp, 0) := by
      unfold decrypt_response
      rw [hp0, Exec.ok_bind, if_neg h99, hnone, Exec.ok_bind]
      rfl
    refine ⟨hd, ?_⟩
    intro hsm hsw hresp
    unfold epass2003_sm_unwrap_apdu
    simp only []
    rw [if_pos hsw, if_pos hsm, hresp, hd]
    rfl

/-- The response `87 7F 01 ..` is parsed as length `0x7F` at offset 3, and the
response `87 81 80 01 ..` as length `0x80` at offset 4. -/
theorem parse_length_forms_witness :
    parse_cipher_length (0x87 :: 0x7F :: 0x01 :: 0 :: 0 :: zeros 128) =
      Exec.ok (some (0x7F, 3)) ∧
    parse_cipher_length (0x87 :: 0x81 :: 0x80 :: 0x01 :: 0 :: zeros 128) =
      Exec.ok (some (0x80, 4)) :=
  ⟨(parse_length_forms sampleHost mirrorCrypto sessionAes smBlank selectMF 0 0 0 0 0 0x7F 0 0
      (zeros 128)).2.1 (by decide),
   (parse_length_forms sampleHost mirrorCrypto sessionAes smBlank selectMF 0 0 0 0 0 0x80 0 0
      (zeros 128)).2.2.1 (by decide)⟩

/-- C30 as stated fails for `L = 1` in the form `87 81 L 01` and for `L = 0x82`
in the form `87 L 01`: `87 81 01 01 ..` is parsed as body length `0x81` with the
cipher at offset 3, not as length 1 at offset 4, and `87 82 01 00 00 ..` is
not parsed at all, although it begins `87 L 01`; and the response
`55 10 01 ..`, which has none of the three forms, is parsed as length `0x10` at
offset 3. -/
theorem parse_length_forms_counterexample :
    parse_cipher_length (0x87 :: 0x81 :: 0x01 :: 0x01 :: zeros 252) =
      Exec.ok (some (0x81, 3)) ∧
    parse_cipher_length (0x87 :: 0x82 :: 0x01 :: 0x00 :: 0x00 :: zeros 251) = Exec.ok none ∧
    parse_cipher_length (0x55 :: 0x10 :: 0x01 :: zeros 253) = Exec.ok (some (0x10, 3)) := by
  refine ⟨by decide!, by decide!, by decide!⟩

/-! ## C31: the index of the unpadding loop -/

/-- C31 fails in the code: `decrypt_response` does not guard `in_len - 2`.  The
length parser accepts `87 01 01 ..` with the declared length 1 and `87 00 01 ..`
with the declared length 0.  With length 1 the `size_t` expression `in_len - 2`
of the first loop test is `SIZE_MAX`, far outside the 4096 bytes of `plaintext`:
for every cipher suite, session and rest of the response the read is out of
bounds, and so is the unwrap of such a response.  With length 0 already the
cipher length `in_len - 1` is `SIZE_MAX` and the cipher is read outside the
response. -/
theorem unpad_index_underflows :
    parse_cipher_length smLenOne.resp = Exec.ok (some (1, 3)) ∧
    ((1 + (SIZE_MOD - 2)) % SIZE_MOD = SIZE_MOD - 1 ∧ 4096 ≤ SIZE_MOD - 1) ∧
    (∀ (c : Crypto) (s : Session) (rest out : List Nat) (out_len : Nat),
      decrypt_response c s (0x87 :: 0x01 :: 0x01 :: rest) out out_len =
        Exec.fault Fault.outOfBounds) ∧
    epass2003_sm_unwrap_apdu sampleHost mirrorCrypto sessionAes smLenOne selectMF =
      Exec.fault Fault.outOfBounds ∧
    parse_cipher_length smLenZero.resp = Exec.ok (some (0, 3)) ∧
    (0 + (SIZE_MOD - 1)) % SIZE_MOD = SIZE_MOD - 1 ∧
    decrypt_response mirrorCrypto sessionAes smLenZero.resp selectMF.resp 0 =
      Exec.fault Fault.outOfBounds ∧
    epass2003_sm_unwrap_apdu sampleHost mirrorCrypto sessionAes smLenZero selectMF =
      Exec.fault Fault.outOfBounds := by
  refine ⟨by decide!, ⟨by decide, by decide⟩, ?_, by decide!, by decide!, by decide, by decide!,
    by decide!⟩
  intro c s rest out out_len
  exact decrypt_len_one c s 0x87 rest out out_len (by decide)

/-! ## C32: the search for the last `0x80` -/

/-- C32: for a response that does not start with `0x99` (a Data TLV starts with
`0x87`) and that the length parser accepts with declared length `L ≥ 2` and
cipher offset `i`, the cipher lying inside the response, whose decrypted body
`D` has `L - 1` bytes, at most the 4096 of `plaintext` and of the output buffer:
`decrypt_response` returns, and it fails iff `D` has no `0x80` at an index of at
least 1.  Without such a byte it returns -1 and leaves the output alone; with
`j` the index of the last `0x80` in `D` it returns 0 and puts out the `j` bytes
`D[0..j)`, whatever the bytes behind index `j` are.  A body that is padding only
(`80 00 .. 00`) is rejected. -/
theorem decrypt_response_scan (c : Crypto) (s : Session) (inp out : List Nat)
    (out_len b L i : Nat) (D : List Nat) (hb : inp[0]? = some b) (h99 : b ≠ 0x99)
    (hparse : parse_cipher_length inp = Exec.ok (some (L, i)))
    (hL : 2 ≤ L) (hci : i + (L - 1) ≤ inp.length)
    (hdec : (if KEY_TYPE_AES = s.g_smtype then
        aes128_decrypt_cbc c s.g_sk_enc (zeros 16) ((inp.drop i).take (L - 1))
      else des3_decrypt_cbc c s.g_sk_enc 16 (zeros 16) ((inp.drop i).take (L - 1))) = D)
    (hDl : D.length = L - 1) (h4096 : L - 1 ≤ 4096) (hout : D.length ≤ out.length) :
    (∃ r o n, decrypt_response c s inp out out_len = Exec.ok (r, o, n) ∧
      (r ≠ 0 ↔ ∀ k, 1 ≤ k → D[k]? ≠ some 0x80)) ∧
    ((∀ k, 1 ≤ k → D[k]? ≠ some 0x80) →
      decrypt_response c s inp out out_len = Exec.ok (-1, out, out_len)) ∧
    (∀ j, 1 ≤ j → D[j]? = some 0x80 → (∀ k, j < k → D[k]? ≠ some 0x80) →
      decrypt_response c s inp out out_len = Exec.ok (0, splice out 0 (D.take j), j)) ∧
    (D = 0x80 :: zeros (L - 2) →
      decrypt_response c s inp out out_len = Exec.ok (-1, out, out_len)) := by
  have hscan := decrypt_unpad_scan c s inp out out_len L i D hL hci hdec hDl h4096
  have hresp := decrypt_response_parsed c s inp out out_len b L i hb h99 hparse
  rw [hresp]
  have hjl : ∀ j, D[j]? = some 0x80 → j ≤ out.length := by
    intro j hj
    by_contra hc
    rw [List.getElem?_eq_none (by omega)] at hj
    cases hj
  refine ⟨?_, hscan.1, fun j hj1 hj hno => hscan.2 j hj1 hj hno (hjl j hj), ?_⟩
  · by_cases hex : ∃ k, 1 ≤ k ∧ D[k]? = some 0x80
    · obtain ⟨j, hj1, hj, hno⟩ := last_marker D hex
      refine ⟨0, _, _, hscan.2 j hj1 hj hno (hjl j hj), ?_⟩
      constructor
      · intro h0; exact absurd rfl h0
      · intro hall; exact absurd hj (hall j hj1)
    · have hall : ∀ k, 1 ≤ k → D[k]? ≠ some 0x80 := fun k hk hv => hex ⟨k, hk, hv⟩
      exact ⟨-1, _, _, hscan.1 hall, fun _ => hall, fun _ => by decide⟩
  · intro hD
    apply hscan.1
    intro k hk hv
    rw [hD] at hv
    obtain ⟨m, rfl⟩ : ∃ m, k = m + 1 := ⟨k - 1, by omega⟩
    rw [List.getElem?_cons_succ] at hv
    unfold zeros at hv
    rw [List.getElem?_replicate] at hv
    split at hv <;> cases hv

/-- The response `87 11 01 <cipher16> ..` whose decrypted body is
`41 80 42 00 .. 00`: the last `0x80` is at index 1 and the output is `41`; and
the response whose decrypted body is `80 00 .. 00`, which is rejected. -/
theorem decrypt_response_scan_witness :
    decrypt_response mirrorCrypto sessionAes smLoosePad.resp selectMF.resp 0 =
      Exec.ok (0, splice selectMF.resp 0 (looseBody.take 1), 1) ∧
    decrypt_response mirrorCrypto sessionAes smOnlyPad.resp selectMF.resp 0 =
      Exec.ok (-1, selectMF.resp, 0) :=
  ⟨(decrypt_response_scan mirrorCrypto sessionAes smLoosePad.resp selectMF.resp 0 0x87 0x11 3
    looseBody (by simp [smLoosePad]) (by decide) (parse_short 0x87 0x11 _ (by decide))
    (by decide) (by simp [smLoosePad, looseBody]) (by rfl) (by rfl) (by decide)
    (by decide!)).2.2.1 1 (by decide) (by rfl) looseBody_tail,
   (decrypt_response_scan mirrorCrypto sessionAes smOnlyPad.resp selectMF.resp 0 0x87 0x11 3
    paddingBody (by simp [smOnlyPad]) (by decide) (parse_short 0x87 0x11 _ (by decide))
    (by decide) (by simp [smOnlyPad, paddingBody]) (by rfl) (by rfl) (by decide)
    (by decide!)).2.2.2 (by rfl)⟩

/-! ## C33: the block size local to `encode_apdu` -/

/-- C33: the local `block_size` of `encode_apdu` changes no output.  The buffer
that `epass2003_sm_wrap_apdu` hands over is 4096 zero bytes; on it `encode_apdu`
with `KEY_TYPE_DES == g_smtype ? 16 : 8`, as written, and the same function with
`KEY_TYPE_AES == g_smtype ? 16 : 8` give the same result for every session
(either algorithm) and every plain APDU: the same return value, SM APDU (class,
`Lc'`, case, data), work buffer, `g_icv_mac`, TLVs and MAC input.  So the whole
of `epass2003_sm_wrap_apdu` is the same with either choice. -/
theorem block_size_choice (c : Crypto) (s : Session) (plain sm : sc_apdu) :
    memset (zeros 4096) 0 0 4096 = Exec.ok (zeros 4096) ∧
    encode_apdu c s plain sm (zeros 4096) 4096 =
      encode_apdu_aes16 c s plain sm (zeros 4096) 4096 ∧
    epass2003_sm_wrap_apdu c s plain sm = sm_wrap_apdu_with encode_apdu c s plain sm ∧
    epass2003_sm_wrap_apdu c s plain sm =
      sm_wrap_apdu_with encode_apdu_aes16 c s plain sm := by
  refine ⟨memset_zeros, encode_aes16_eq c s plain sm, rfl, ?_⟩
  have e : epass2003_sm_wrap_apdu c s plain sm = sm_wrap_apdu_with encode_apdu c s plain sm :=
    rfl
  rw [e]
  exact wrap_with_eq c s plain sm

/-! ## C34: selecting a key file by its identifier -/

/-- C34 (amended): for every low byte `l`, `epass2003_select_fid_` called with
the file identifier `29 l` and a place for the file hands no APDU to the
transport (the driver state comes back as it was).  With `b = (l * 0x20) mod 256`
the low byte behind the outbound hook, it answers from the synthetic FCI
`6f 16 82 02 11 00 83 02 29 b 85 02 08 00 86 08 ff 90 90 90 ff ff ff ff` with the
status `90 00`, leaves the path hooked (`29 b`), and returns 0 with a file of
type internal EF, security attributes `ff 90 90 90 ff ff ff ff`, proprietary
attributes `08 00` and the identifier `0x2900 + l mod 8`, which is the logical
value `0x2900 + l` when `l < 8`.  The status check is assumed to accept `90 00`
and the APDU buffer to have room for the 24 bytes. -/
theorem select_key_fid_synthetic (k : Lib) (h : Host) (c : Crypto) (d : Driver) (l : Nat)
    (rest : List Nat) (hsw : h.sc_check_sw 0x90 0x00 = 0)
    (hbuf : 0x18 ≤ h.SC_MAX_APDU_BUFFER_SIZE) :
    epass2003_select_fid_ k h c d
        { value := 0x29 :: l :: rest, len := 2, type := k.SC_PATH_TYPE_FILE_ID } true =
      select_fid_finish k h d
        { value := 0x29 :: (l * 0x20) % 256 :: rest, len := 2, type := k.SC_PATH_TYPE_FILE_ID }
        (fakeSelectApdu h d ((l * 0x20) % 256)) true ∧
    ((fakeSelectApdu h d ((l * 0x20) % 256)).resp.take 0x18 =
        [0x6f, 0x16, 0x82, 0x02, 0x11, 0x00, 0x83, 0x02, 0x29, (l * 0x20) % 256, 0x85, 0x02,
         0x08, 0x00, 0x86, 0x08, 0xff, 0x90, 0x90, 0x90, 0xff, 0xff, 0xff, 0xff] ∧
      (fakeSelectApdu h d ((l * 0x20) % 256)).resplen = 0x18 ∧
      (fakeSelectApdu h d ((l * 0x20) % 256)).sw1 = 0x90 ∧
      (fakeSelectApdu h d ((l * 0x20) % 256)).sw2 = 0x00) ∧
    epass2003_select_fid_ k h c d
        { value := 0x29 :: l :: rest, len := 2, type := k.SC_PATH_TYPE_FILE_ID } true =
      Exec.ok (0, d,
        { value := 0x29 :: (l * 0x20) % 256 :: rest, len := 2, type := k.SC_PATH_TYPE_FILE_ID },
        some (fakeKeyFile k (l % 8) rest)) ∧
    ((fakeKeyFile k (l % 8) rest).type = k.SC_FILE_TYPE_INTERNAL_EF ∧
      (fakeKeyFile k (l % 8) rest).sec_attr = [0xff, 0x90, 0x90, 0x90, 0xff, 0xff, 0xff, 0xff] ∧
      (fakeKeyFile k (l % 8) rest).id = 0x2900 + l % 8 ∧
      (l < 8 → (fakeKeyFile k (l % 8) rest).id = 0x2900 + l)) := by
  have hb : (l * 0x20) % 256 < 256 := Nat.mod_lt _ (by decide)
  have hq : (l * 0x20) % 256 / 0x20 = l % 8 := by omega
  have h1 := select_fid_key k h c d l rest hbuf
  have h2 := fake_finish k h d ((l * 0x20) % 256) rest hb hsw
  rw [hq] at h2
  have hu : u8 (l * FID_STEP) = (l * 0x20) % 256 := rfl
  rw [hu] at h1
  refine ⟨h1, ⟨rfl, rfl, rfl, rfl⟩, h1.trans h2, rfl, rfl, rfl, ?_⟩
  intro h8
  show 0x2900 + l % 8 = 0x2900 + l
  rw [Nat.mod_eq_of_lt h8]

/-- Scenario S6: for the file identifier `29 03` the low byte behind the hook is
`60` and the file comes back with the identifier `2903`. -/
theorem select_key_fid_synthetic_witness :
    epass2003_select_fid_ sampleLib sampleHost mirrorCrypto driver0
        { value := 0x29 :: 0x03 :: zeros 14, len := 2,
          type := sampleLib.SC_PATH_TYPE_FILE_ID } true =
      Exec.ok (0, driver0,
        { value := 0x29 :: 0x60 :: zeros 14, len := 2, type := sampleLib.SC_PATH_TYPE_FILE_ID },
        some (fakeKeyFile sampleLib 0x03 (zeros 14))) ∧
    (fakeKeyFile sampleLib 0x03 (zeros 14)).id = 0x2903 :=
  ⟨(select_key_fid_synthetic sampleLib sampleHost mirrorCrypto driver0 0x03 (zeros 14)
      (by decide) (by decide)).2.2.1, by decide⟩

/-- C34 as stated fails for the low byte `08`: the byte behind the hook is `00`
and the file comes back with the identifier `2900`, not `2908`. -/
theorem select_key_fid_synthetic_counterexample :
    (epass2003_select_fid_ sampleLib sampleHost mirrorCrypto driver0
        { value := 0x29 :: 0x08 :: zeros 14, len := 2,
          type := sampleLib.SC_PATH_TYPE_FILE_ID } true).toOption.map
        (fun r => (r.1, r.2.2.1.value.take 2, r.2.2.2.map (fun f => f.id))) =
      some (0, [0x29, 0x00], some 0x2900) ∧
    (0x2900 : Nat) ≠ 0x2900 + 0x08 := by
  refine ⟨by decide!, by decide⟩

/-! ## C35: the hook on a file object -/

/-- C35 (amended): for every file whose identifier is made of the last two bytes
`hi`, `lo` of its path, `hi` being one of `29 30 31 32 33 34`:
`epass2003_hook_file(file, 0)` leaves a file whose identifier bytes are the last
two bytes of its path, with the high byte `hi` and the low byte `lo / 0x20`;
`epass2003_hook_file(file, 1)` stores `hi * 0x100 + lo * 0x20` as identifier and
`(lo * 0x20) mod 256` as last byte of the path, so that for `lo < 8` the
identifier bytes are again the last two bytes of the path and the high byte is
`hi`. -/
theorem hook_file_id_path (file : sc_file) (hi lo : Nat) (h2 : 2 ≤ file.path.len)
    (hs : file.path.len < SIZE_MOD) (hhi : file.path.value[file.path.len - 2]? = some hi)
    (hlo : file.path.value[file.path.len - 1]? = some lo) (hlo8 : lo < 256)
    (hid : file.id = hi * 0x100 + lo)
    (hset : hi ∈ [0x29, 0x30, 0x31, 0x32, 0x33, 0x34]) :
    (∃ f, epass2003_hook_file file 0 = Exec.ok f ∧ f.path.len = file.path.len ∧
      f.path.value[f.path.len - 2]? = some (f.id / 0x100) ∧
      f.path.value[f.path.len - 1]? = some (f.id % 0x100) ∧
      f.id / 0x100 = hi ∧ f.id % 0x100 = lo / 0x20) ∧
    (∃ f, epass2003_hook_file file 1 = Exec.ok f ∧ f.path.len = file.path.len ∧
      f.id = hi * 0x100 + lo * 0x20 ∧
      f.path.value[f.path.len - 2]? = some hi ∧
      f.path.value[f.path.len - 1]? = some ((lo * 0x20) % 256) ∧
      (lo < 8 → f.path.value[f.path.len - 2]? = some (f.id / 0x100) ∧
        f.path.value[f.path.len - 1]? = some (f.id % 0x100) ∧ f.id / 0x100 = hi)) := by
  have hset2 : hi = 0x29 ∨ hi = 0x30 ∨ hi = 0x31 ∨ hi = 0x32 ∨ hi = 0x33 ∨ hi = 0x34 := by
    simpa using hset
  have hlt : file.path.len - 1 < file.path.value.length := by
    by_contra hc
    rw [List.getElem?_eq_none (by omega)] at hlo
    cases hlo
  have e0 := hook_file_eq file 0 hi lo h2 hs hhi hlo hlo8 hid hset2
  have e1 := hook_file_eq file 1 hi lo h2 hs hhi hlo hlo8 hid hset2
  rw [if_neg (by decide), if_neg (by decide)] at e0
  rw [if_pos (by decide), if_pos (by decide)] at e1
  have hne : file.path.len - 1 ≠ file.path.len - 2 := by omega
  have hu0 : u8 (lo / FID_STEP) = lo / 0x20 := by unfold u8 FID_STEP; omega
  have hu1 : u8 (lo * FID_STEP) = (lo * 0x20) % 256 := by unfold u8 FID_STEP; rfl
  constructor
  · refine ⟨_, e0, rfl, ?_, ?_, ?_, ?_⟩
    · show (List.set file.path.value (file.path.len - 1) _)[file.path.len - 2]? =
        some ((hi * 0x100 + lo / FID_STEP) / 0x100)
      rw [List.getElem?_set_ne hne, hhi]
      unfold FID_STEP; congr 1; omega
    · show (List.set file.path.value (file.path.len - 1) _)[file.path.len - 1]? =
        some ((hi * 0x100 + lo / FID_STEP) % 0x100)
      rw [List.getElem?_set_self hlt, hu0]
      unfold FID_STEP; congr 1; omega
    · show (hi * 0x100 + lo / FID_STEP) / 0x100 = hi
      unfold FID_STEP; omega
    · show (hi * 0x100 + lo / FID_STEP) % 0x100 = lo / 0x20
      unfold FID_STEP; omega
  · refine ⟨_, e1, rfl, rfl, ?_, ?_, ?_⟩
    · show (List.set file.path.value (file.path.len - 1) _)[file.path.len - 2]? = _
      rw [List.getElem?_set_ne hne, hhi]
    · show (List.set file.path.value (file.path.len - 1) _)[file.path.len - 1]? = _
      rw [List.getElem?_set_self hlt, hu1]
    · intro h8
      refine ⟨?_, ?_, ?_⟩
      · show (List.set file.path.value (file.path.len - 1) _)[file.path.len - 2]? =
          some ((hi * 0x100 + lo * FID_STEP) / 0x100)
        rw [List.getElem?_set_ne hne, hhi]
        unfold FID_STEP; congr 1; omega
      · show (List.set file.path.value (file.path.len - 1) _)[file.path.len - 1]? =
          some ((hi * 0x100 + lo * FID_STEP) % 0x100)
        rw [List.getElem?_set_self hlt, hu1]
        unfold FID_STEP; congr 1; omega
      · show (hi * 0x100 + lo * FID_STEP) / 0x100 = hi
        unfold FID_STEP; omega

/-- The file `29 03`: hooked it has the identifier `2960` and the path `29 60`. -/
theorem hook_file_id_path_witness :
    ∃ f, epass2003_hook_file fileKey3 1 = Exec.ok f ∧ f.path.len = fileKey3.path.len ∧
      f.id = 0x29 * 0x100 + 0x03 * 0x20 ∧
      f.path.value[f.path.len - 2]? = some 0x29 ∧
      f.path.value[f.path.len - 1]? = some ((0x03 * 0x20) % 256) ∧
      (0x03 < 8 → f.path.value[f.path.len - 2]? = some (f.id / 0x100) ∧
        f.path.value[f.path.len - 1]? = some (f.id % 0x100) ∧ f.id / 0x100 = 0x29) :=
  (hook_file_id_path fileKey3 0x29 0x03 (by decide) (by decide) (by rfl) (by rfl) (by decide)
    (by rfl) (by decide)).2

/-- C35 as stated fails for the file `29 08`: after `epass2003_hook_file(file, 1)`
the identifier is `2A00`, the last two bytes of the path are `29 00`, and the
high byte of the identifier has changed. -/
theorem hook_file_id_path_counterexample :
    fileKey8.id = 0x29 * 0x100 + 0x08 ∧ fileKey8.path.value.take fileKey8.path.len = [0x29, 0x08] ∧
    (epass2003_hook_file fileKey8 1).toOption.map
        (fun f => (f.id / 0x100, f.id % 0x100, f.path.value.take f.path.len)) =
      some (0x2A, 0x00, [0x29, 0x00]) := by
  refine ⟨by decide, by decide, by decide⟩

/-! ## C36: the cache of the current directory -/

/-- C36 (amended): let the cache be valid and hold a path of type path of two or
four bytes (`3F 00` or `3F 00 hi lo`, the paths that `epass2003_select_fid`
stores), not longer than the unified path `P` of the request, and let `path` be
a buffer that starts with `P`.  The loop of line 1207 returns a value `bMatch`,
and whenever `bMatch > 2`, `bMatch` is the length of the cached path, the cached
path is byte for byte the start of `P`, and `epass2003_select_path` selects
exactly what is left of `P` below the cached directory: nothing when `P` ends
there, and otherwise the remaining file identifier. -/
theorem cache_skip_matched (k : Lib) (h : Host) (c : Crypto) (fuel : Nat) (d : Driver)
    (cache : Cache) (pathbuf : List Nat) (len : Nat) (fo : Bool) (path : List Nat)
    (hv : cache.valid ≠ 0) (ht : cache.current_path.type = k.SC_PATH_TYPE_PATH)
    (hcl : cache.current_path.len = 2 ∨ cache.current_path.len = 4)
    (hcv : cache.current_path.len ≤ cache.current_path.value.length)
    (hacc : len = 2 ∨ len = 4 ∨ (len = 6 ∧ pathbuf.take 2 = [0x3f, 0x00]))
    (hlen : len ≤ pathbuf.length)
    (hle : cache.current_path.len ≤ (mfRooted pathbuf len).length)
    (hpath : path.take (mfRooted pathbuf len).length = mfRooted pathbuf len) :
    ∃ m : Int, select_match_loop (cache.current_path.len + 1) cache path 0 0 = Exec.ok m ∧
      (m > 2 → m = (cache.current_path.len : Int) ∧
        cache.current_path.value.take cache.current_path.len =
          (mfRooted pathbuf len).take cache.current_path.len ∧
        epass2003_select_path k h c (fuel + 1) d cache pathbuf len fo =
          belowCached k h c d cache (mfRooted pathbuf len) fo) := by
  obtain ⟨m, hm, hgt⟩ := bmatch_front cache (mfRooted pathbuf len) path hcl hcv hle hpath
  refine ⟨m, hm, ?_⟩
  intro h2
  obtain ⟨h4, hm4, hpre⟩ := hgt h2
  rw [h4] at hle ⊢
  refine ⟨hm4, hpre, ?_⟩
  exact select_path_below k h c fuel d cache pathbuf len fo hv ht h4 hacc hlen hle hpre

/-- The cache holds `3F 00 50 00` and the path `50 00 30 03` is asked for: the
unified path is `3F 00 50 00 30 03`, `bMatch` is 4 and the file identifier
`30 03` is what is left to select. -/
theorem cache_skip_matched_witness :
    ∃ m : Int, select_match_loop (cacheDF5000.current_path.len + 1) cacheDF5000
        ([0x3F, 0x00, 0x50, 0x00, 0x30, 0x03] ++ zeros 10) 0 0 = Exec.ok m ∧
      (m > 2 → m = (cacheDF5000.current_path.len : Int) ∧
        cacheDF5000.current_path.value.take cacheDF5000.current_path.len =
          (mfRooted pathRelative 4).take cacheDF5000.current_path.len ∧
        epass2003_select_path sampleLib dfHost mirrorCrypto (1 + 1) driver0 cacheDF5000
            pathRelative 4 true =
          belowCached sampleLib dfHost mirrorCrypto driver0 cacheDF5000
            (mfRooted pathRelative 4) true) :=
  cache_skip_matched sampleLib dfHost mirrorCrypto 1 driver0 cacheDF5000 pathRelative 4 true
    ([0x3F, 0x00, 0x50, 0x00, 0x30, 0x03] ++ zeros 10) (by decide) (by decide)
    (Or.inr (by decide)) (by decide) (Or.inr (Or.inl rfl)) (by decide) (by decide) (by decide)

/-- C36 as stated fails for a cached path of six bytes: with the cache
`3F 00 50 00 60 00` and the request `3F 00 50 01 60 00` the first and the third
pair match, `bMatch` is 4 and exceeds 2, yet the cached path is not the start of
the requested path and `bMatch` is not its length; the function then sends the one
command SELECT `60 00`. -/
theorem cache_skip_matched_counterexample :
    cacheDeep.valid ≠ 0 ∧ cacheDeep.current_path.type = sampleLib.SC_PATH_TYPE_PATH ∧
    cacheDeep.current_path.len = 6 ∧ mfRooted pathSibling 6 = pathSibling.take 6 ∧
    select_match_loop (cacheDeep.current_path.len + 1) cacheDeep pathSibling 0 0 = Exec.ok 4 ∧
    cacheDeep.current_path.value.take 6 ≠ pathSibling.take 6 ∧
    (epass2003_select_path sampleLib dfHost mirrorCrypto 2 driver0 cacheDeep pathSibling 6
        true).toOption.map (fun r => (r.1, r.2.1.issued.map (fun a => a.data.take 2))) =
      some (0, [[0x60, 0x00]]) := by
  refine ⟨by decide, by decide, by decide, by decide, by decide, by decide, by decide!⟩
/-! ## C37: changing, unblocking and verifying a PIN -/

/-- C38 fails: against a card that answers, `get_external_key_retries` returns
`SC_SUCCESS` for every status.  On the sample host whose card answers every
command with the status `sw1 sw2`, with secure messaging off, it hands the case-2
command `00 82 01 (0x80 | kid)` to the transport and returns `SC_SUCCESS`: with
the low nibble of `sw2` when the status is `63 Cx`, and with `*retries` as the
caller left it for every other status.  So for `63 C2` the tries left are 2; for
`6A 88`, which the status check rejects, and for `90 00` the function still
returns `SC_SUCCESS`, and `epass2003_pin_cmd` with `SC_PIN_CMD_GET_INFO` then
returns `SC_SUCCESS` and reports `max_tries = 3` and `tries_left = 0`, the value
its local variable started with. -/
theorem retries_success_for_every_status :
    (∀ sw1 sw2 kid n : Nat,
      get_external_key_retries samplePinLib (statusHost sw1 sw2) mirrorCrypto driver0 kid
          (some n) =
        Exec.ok (SC_SUCCESS,
          logged (statusHost sw1 sw2) driver0 (retriesApdu (statusHost sw1 sw2) driver0 (u8 kid)),
          if 0x63 = sw1 &&& 0xff ∧ 0xC0 = sw2 &&& 0xf0 then some (u8 (sw2 &&& 0x0f))
          else some n)) ∧
    ((retriesApdu (statusHost 0x6A 0x88) driver0 0x81).cse = SC_APDU_CASE_2_SHORT ∧
      (retriesApdu (statusHost 0x6A 0x88) driver0 0x81).cla = 0x00 ∧
      (retriesApdu (statusHost 0x6A 0x88) driver0 0x81).ins = 0x82 ∧
      (retriesApdu (statusHost 0x6A 0x88) driver0 0x81).p1 = 0x01 ∧
      (retriesApdu (statusHost 0x6A 0x88) driver0 0x81).p2 = 0x81) ∧
    (get_external_key_retries samplePinLib (statusHost 0x63 0xC2) mirrorCrypto driver0 0x81
        (some 0)).toOption.map (fun x => (x.1, x.2.2)) = some (SC_SUCCESS, some 2) ∧
    (checkSw9000 0x6A 0x88 = SC_ERROR_CARD_CMD_FAILED ∧
      (get_external_key_retries samplePinLib (statusHost 0x6A 0x88) mirrorCrypto driver0 0x81
          (some 0)).toOption.map (fun x => (x.1, x.2.2)) = some (SC_SUCCESS, some 0)) ∧
    (get_external_key_retries samplePinLib (statusHost 0x90 0x00) mirrorCrypto driver0 0x81
        (some 0)).toOption.map (fun x => (x.1, x.2.2)) = some (SC_SUCCESS, some 0) ∧
    (epass2003_pin_cmd samplePinLib sampleDigest (statusHost 0x6A 0x88) mirrorCrypto driver0
        (pinRequest samplePinLib.SC_PIN_CMD_GET_INFO)).toOption.map
        (fun x => (x.1, x.2.2.pin1.max_tries, x.2.2.pin1.tries_left)) =
      some (SC_SUCCESS, 3, 0) ∧
    (epass2003_pin_cmd samplePinLib sampleDigest (statusHost 0x63 0xC2) mirrorCrypto driver0
        (pinRequest samplePinLib.SC_PIN_CMD_GET_INFO)).toOption.map
        (fun x => (x.1, x.2.2.pin1.max_tries, x.2.2.pin1.tries_left)) =
      some (SC_SUCCESS, 3, 2) := by
  refine ⟨?_, ⟨rfl, rfl, rfl, rfl, rfl⟩, by decide!, ⟨by decide, by decide!⟩, by decide!,
    by decide!, by decide!⟩
  intro sw1 sw2 kid n
  exact get_external_key_retries_plain samplePinLib (statusHost sw1 sw2) mirrorCrypto driver0
    kid n 0 driver0 cardRandom rfl (by decide) rfl (Or.inl rfl)
    (show ¬ ((0 : Int) < 0) by decide)

/-! ## C39: the expected response length -/

/-- C39 fails in the code: `calc_le` never adds the extra length bytes of the
`0x87` TLV.  For every `le` it returns `r + 0 + 2 + 4 + 10` with
`r = 1 + ((le + 15) / 16) * 16` (in `size_t` arithmetic), because the first
comparison `0x7f < resp_len` takes every `r` above `0x7F` into the branch that
adds 0 and the branches that add 1 and 2 are never reached.  For `le = 128`
(`r = 129`, long form) it returns 145 where the claim gives 146, and for
`le = 256` (`r = 257`, extended form) 273 where the claim gives 275; up to
`le = 112` (`r ≤ 0x7F`) the two agree. -/
theorem calc_le_adds_no_length_bytes :
    (∀ le, calc_le le = (1 + (le + 15) % SIZE_MOD / 16 * 16 + 0 + 2 + 4 + 10) % SIZE_MOD) ∧
    calc_le 112 = 113 + 0 + 2 + 4 + 10 ∧
    (calc_le 128 = 129 + 0 + 2 + 4 + 10 ∧ calc_le 128 ≠ 129 + 1 + 2 + 4 + 10) ∧
    (calc_le 256 = 257 + 0 + 2 + 4 + 10 ∧ calc_le 256 ≠ 257 + 2 + 2 + 4 + 10) := by
  refine ⟨fun le => calc_le_eq le, by decide, by decide, by decide⟩

end Epass2003
